import Mathlib

/-!
# Disruption manager of the HC2L dynamic routing engine

A shallow embedding of `hc2l_dynamic::Dynamic` (src/core/hc2l_dynamic/src/Dynamic.cpp,
include/Dynamic.h) and of the dirty-pair tracker (src/lazy_update_tracker.cpp).

Conventions of the embedding.

* `double` values are exact rationals (`ℚ`); NaN and the infinities have no counterpart,
  except in the nearest-node scan, which is also given with a distance that may be NaN.
* `NodeID` and `distance_t` are natural numbers.
* `std::unordered_set<EdgeID>` is a duplicate-free list in insertion order,
  `std::unordered_map<EdgeID, T>` an association list with one entry per key; the loops of
  the source that walk these containers walk the lists front to back.
* `stale_nodes` and the global `dirty_pairs` are only ever inserted into, tested for
  membership and cleared, so they are finite sets.
* `road_network::Graph` lives in a header that is not part of the sources. The four member
  functions the manager calls and the two constants it reads are taken as a record of
  operations `GraphOps G` over an arbitrary graph type `G`.
* The process-wide `road_network::DISRUPTION_THRESHOLD_TAU` and `road_network::dirty_pairs`
  are fields of the state record.
* Console output and the `last_update_time` stamp are dropped.
* The DHL routing service (src/DHL/dhl_routing_service.cpp, dhl_coordinate_mapper.cpp) is
  embedded the same way; its `while` loops carry a fuel argument, and the theorems on them
  show that the fuel given suffices.
* Definitions whose doc comment starts with "Modelled from the spec" stand for code that is
  not part of the sources (the graph store, the degree-1 folding and the contraction index);
  they follow sections 3 and 4 of the spec.
-/

namespace hc2l_dynamic

abbrev NodeID := Nat

abbrev distance_t := Nat

/-- An edge id is the pair of its endpoints (`using EdgeID = std::pair<NodeID, NodeID>`). -/
abbrev EdgeID := NodeID × NodeID

/-- The enumeration `enum class Mode` of Dynamic.h. -/
inductive Mode
  | BASE
  | DISRUPTED
  | IMMEDIATE_UPDATE
  | LAZY_UPDATE
  deriving DecidableEq, Repr

/-- Operations of `road_network::Graph` used by the manager, with
`std::numeric_limits<distance_t>::max()` and `road_network::infinity`. -/
structure GraphOps (G : Type) where
  super_node_count : G → Nat
  edge_count : G → Nat
  get_distance : G → NodeID → NodeID → Bool → distance_t
  applyDisruption : G → NodeID → NodeID → ℚ → Bool → G
  distance_max : distance_t
  infinity : distance_t

/-- The struct `Dynamic::ImpactScore`. -/
structure ImpactScore where
  score : ℚ
  f_delta_w : ℚ
  f_jam : ℚ
  f_closure : ℚ
  network_percentage_affected : ℚ
  exceeds_threshold : Bool
  deriving DecidableEq

/-- The data members of `Dynamic`, with the two globals it reads and writes. -/
structure Dynamic (G : Type) where
  graph : G
  currentMode : Mode
  disruptedClosedEdges : List EdgeID
  disruptedSlowdownFactorByEdge : List (EdgeID × ℚ)
  disruptionSeverityByEdge : List (EdgeID × String)
  disruptionTypeByEdge : List (EdgeID × String)
  stale_nodes : Finset NodeID
  precomputed_labels : List ((NodeID × NodeID) × Bool)
  background_update_active : Bool
  dirty_pairs : Finset (NodeID × NodeID)
  DISRUPTION_THRESHOLD_TAU : ℚ

/-! ## Containers -/

/-- The call `unordered_set::insert`: nothing happens when the element is present. -/
def setInsert {α : Type} [DecidableEq α] (l : List α) (x : α) : List α :=
  if x ∈ l then l else l ++ [x]

/-- The assignment `m[k] = v` of `unordered_map`: overwrite the entry of `k` or add one. -/
def mapAssign {K V : Type} [DecidableEq K] : List (K × V) → K → V → List (K × V)
  | [], k, v => [(k, v)]
  | (k0, v0) :: rest, k, v =>
    if k0 = k then (k, v) :: rest else (k0, v0) :: mapAssign rest k v

/-- Lookup `m.find(k)` of `unordered_map`. -/
def mapFind {K V : Type} [DecidableEq K] : List (K × V) → K → Option V
  | [], _ => none
  | (k0, v0) :: rest, k => if k0 = k then some v0 else mapFind rest k

/-! ## Dynamic.cpp -/

/-- The helper `clampSlowdown` (Dynamic.cpp:21-26). -/
def clampSlowdown (x : ℚ) : ℚ :=
  if x < 0 then 0
  else if x < 1 / 1000000000 then 1 / 1000000000
  else if x > 1000000000 then 1000000000
  else x

/-- The constructor `Dynamic::Dynamic(Graph&)`. -/
def Dynamic.init {G : Type} (baseGraph : G) (tau : ℚ) : Dynamic G where
  graph := baseGraph
  currentMode := Mode.BASE
  disruptedClosedEdges := []
  disruptedSlowdownFactorByEdge := []
  disruptionSeverityByEdge := []
  disruptionTypeByEdge := []
  stale_nodes := ∅
  precomputed_labels := []
  background_update_active := false
  dirty_pairs := ∅
  DISRUPTION_THRESHOLD_TAU := tau

def setMode {G : Type} (s : Dynamic G) (mode : Mode) : Dynamic G :=
  { s with currentMode := mode }

def getMode {G : Type} (s : Dynamic G) : Mode :=
  s.currentMode

/-- The function `Dynamic::makeEdgeId`, that is `std::minmax(a, b)`. -/
def makeEdgeId (a b : NodeID) : EdgeID :=
  if b < a then (b, a) else (a, b)

/-- The function `road_network::mark_dirty` on the global set. -/
def mark_dirty (dirty : Finset (NodeID × NodeID)) (u v : NodeID) : Finset (NodeID × NodeID) :=
  insert (makeEdgeId u v) dirty

/-- The function `road_network::is_dirty` on the global set. -/
def is_dirty (dirty : Finset (NodeID × NodeID)) (u v : NodeID) : Bool :=
  decide (makeEdgeId u v ∈ dirty)

/-- The function `road_network::clear_dirty`. -/
def clear_dirty (_dirty : Finset (NodeID × NodeID)) : Finset (NodeID × NodeID) :=
  ∅

/-- The function `Dynamic::calculateNetworkImpactPercentage` (Dynamic.cpp:326-353). -/
def calculateNetworkImpactPercentage {G : Type} (ops : GraphOps G) (s : Dynamic G) : ℚ :=
  let total_disrupted_edges : Nat :=
    s.disruptedClosedEdges.length + s.disruptedSlowdownFactorByEdge.length
  let total_edges : Nat := ops.edge_count s.graph
  if total_edges = 0 then 0
  else
    let base_percentage : ℚ := (total_disrupted_edges : ℚ) / (total_edges : ℚ)
    let weighted_closed : ℚ := s.disruptedClosedEdges.foldl (fun acc _ => acc + 2) 0
    let weighted_impact : ℚ :=
      s.disruptedSlowdownFactorByEdge.foldl
        (fun acc entry => if entry.2 < 1 / 2 then acc + 3 / 2 else acc + 1) weighted_closed
    let weighted_percentage : ℚ := weighted_impact / (total_edges : ℚ)
    min 1 (max base_percentage weighted_percentage)

/-- The function `Dynamic::calculateImpactScore` (Dynamic.cpp:274-306). -/
def calculateImpactScore {G : Type} (ops : GraphOps G) (s : Dynamic G)
    (slowdown_ratio jamFactor : ℚ) (isClosed : Bool) (_segment_length : ℚ) : ImpactScore :=
  let f_delta_w : ℚ := if isClosed then 1 else max 0 (min 1 (1 - slowdown_ratio))
  let f_jam : ℚ := min (jamFactor / 10) 1
  let f_closure : ℚ := if isClosed then 3 / 2 else 1
  let network_percentage_affected := calculateNetworkImpactPercentage ops s
  { score := f_delta_w * f_jam * f_closure
    f_delta_w := f_delta_w
    f_jam := f_jam
    f_closure := f_closure
    network_percentage_affected := network_percentage_affected
    exceeds_threshold := decide (network_percentage_affected ≥ s.DISRUPTION_THRESHOLD_TAU) }

/-- The function `Dynamic::determineUpdateMode` (Dynamic.cpp:308-324). -/
def determineUpdateMode (impact : ImpactScore) : Mode :=
  if impact.exceeds_threshold then Mode.IMMEDIATE_UPDATE else Mode.LAZY_UPDATE

/-- The function `Dynamic::markLabelsStale` (Dynamic.cpp:357-365). -/
def markLabelsStale {G : Type} (s : Dynamic G) (affected_nodes : List NodeID) : Dynamic G :=
  affected_nodes.foldl
    (fun st node =>
      { st with
        stale_nodes := insert node st.stale_nodes
        dirty_pairs := mark_dirty st.dirty_pairs node 0 })
    s

/-- The function `Dynamic::areLabelsStale` (Dynamic.cpp:367-369). -/
def areLabelsStale {G : Type} (s : Dynamic G) (u v : NodeID) : Bool :=
  decide (u ∈ s.stale_nodes) || decide (v ∈ s.stale_nodes) || is_dirty s.dirty_pairs u v

/-- The two loops that hand every recorded disruption to `Graph::applyDisruption`: the closed
edges with factor 1.0 and `closed = true`, then the slowed edges with their factor and
`closed = false` (Dynamic.cpp:379-384, 408-413, 494-499). -/
def applyAllDisruptions {G : Type} (ops : GraphOps G) (closed : List EdgeID)
    (slowed : List (EdgeID × ℚ)) (g : G) : G :=
  slowed.foldl (fun gr entry => ops.applyDisruption gr entry.1.1 entry.1.2 entry.2 false)
    (closed.foldl (fun gr edge => ops.applyDisruption gr edge.1 edge.2 1 true) g)

/-- The function `Dynamic::repairStaleLabels` (Dynamic.cpp:371-393). -/
def repairStaleLabels {G : Type} (ops : GraphOps G) (s : Dynamic G) (u v : NodeID) :
    Dynamic G :=
  if !areLabelsStale s u v then s
  else
    { s with
      graph := applyAllDisruptions ops s.disruptedClosedEdges s.disruptedSlowdownFactorByEdge
        s.graph
      precomputed_labels := mapAssign s.precomputed_labels (u, v) true
      dirty_pairs := mark_dirty s.dirty_pairs u v }

/-- The function `Dynamic::precomputeAffectedLabels` (Dynamic.cpp:395-427). -/
def precomputeAffectedLabels {G : Type} (ops : GraphOps G) (s : Dynamic G) : Dynamic G :=
  if s.background_update_active then s
  else
    { s with
      graph := applyAllDisruptions ops s.disruptedClosedEdges s.disruptedSlowdownFactorByEdge
        s.graph
      stale_nodes := ∅
      dirty_pairs := clear_dirty s.dirty_pairs
      background_update_active := false }

/-- The function `Dynamic::triggerBackgroundLabelUpdate` (Dynamic.cpp:429-433). -/
def triggerBackgroundLabelUpdate {G : Type} (ops : GraphOps G) (s : Dynamic G) : Dynamic G :=
  if s.currentMode = Mode.IMMEDIATE_UPDATE then precomputeAffectedLabels ops s else s

/-- The node-id guard shared by `addUserDisruption` and `get_distance`
(Dynamic.cpp:49, 437): true when the pair is rejected. -/
def invalidNodeIds {G : Type} (ops : GraphOps G) (s : Dynamic G) (u v : NodeID) : Bool :=
  decide (u = 0) || decide (v = 0) || decide (u ≥ ops.super_node_count s.graph + 1)
    || decide (v ≥ ops.super_node_count s.graph + 1)

/-- The function `Dynamic::addUserDisruption` (Dynamic.cpp:45-102). -/
def addUserDisruption {G : Type} (ops : GraphOps G) (s : Dynamic G) (u v : NodeID)
    (incidentType severity : String) : Dynamic G :=
  if invalidNodeIds ops s u v then s
  else
    let eid := makeEdgeId u v
    let s1 : Dynamic G :=
      { s with
        disruptionTypeByEdge := mapAssign s.disruptionTypeByEdge eid incidentType
        disruptionSeverityByEdge := mapAssign s.disruptionSeverityByEdge eid severity }
    let recorded : ℚ × Bool × Dynamic G :=
      if severity = "Heavy" then
        (3 / 10, false,
          { s1 with
            disruptedSlowdownFactorByEdge :=
              mapAssign s1.disruptedSlowdownFactorByEdge eid (3 / 10) })
      else if severity = "Medium" then
        (6 / 10, false,
          { s1 with
            disruptedSlowdownFactorByEdge :=
              mapAssign s1.disruptedSlowdownFactorByEdge eid (6 / 10) })
      else if severity = "Light" then
        (85 / 100, false,
          { s1 with
            disruptedSlowdownFactorByEdge :=
              mapAssign s1.disruptedSlowdownFactorByEdge eid (85 / 100) })
      else if severity = "Closed" then
        (1, true, { s1 with disruptedClosedEdges := setInsert s1.disruptedClosedEdges eid })
      else (1, false, s1)
    let slowdown_factor := recorded.1
    let is_closed := recorded.2.1
    let s2 := recorded.2.2
    let jam_factor : ℚ := if is_closed then 10 else 10 - slowdown_factor * 10
    let impact := calculateImpactScore ops s2 slowdown_factor jam_factor is_closed 100
    let recommended_mode := determineUpdateMode impact
    let s3 := setMode s2 recommended_mode
    if recommended_mode = Mode.IMMEDIATE_UPDATE then triggerBackgroundLabelUpdate ops s3
    else if recommended_mode = Mode.LAZY_UPDATE then markLabelsStale s3 [u, v]
    else s3

/-- One data line of the scenario CSV after `parseCSVLine`, `std::stoull` and `std::stod`
(Dynamic.cpp:160-167). All eight conversions run before the loop body writes anything. -/
structure ScenarioRow where
  u : NodeID
  v : NodeID
  road_name : String
  speed_kph : ℚ
  freeFlow_kph : ℚ
  jamFactor : ℚ
  isClosed : Bool
  segment_length : ℚ

/-- What `loadDisruptions` sees of the file it is given: it cannot be opened; it has no
first line; or it has a header followed by lines, where a line is `none` when the loop
skips it before writing anything (empty, starting with `#`, fewer than 12 fields, or a
conversion that throws) and `some row` otherwise. -/
inductive ScenarioFile
  | unreadable
  | noHeader
  | lines (header : String) (rows : List (Option ScenarioRow))

/-- The body of the `while` loop of `Dynamic::loadDisruptions` for a line that converts
(Dynamic.cpp:169-218). The impact score computed at line 218 is discarded by the source. -/
def loadDisruptionsRow {G : Type} (s : Dynamic G) (row : ScenarioRow) : Dynamic G :=
  let jamTendency : Nat := 1
  let hour_of_day : Nat := 12
  let location_tag : String := "road"
  let duration_min : Nat := 30
  let slowdown_ratio : ℚ :=
    clampSlowdown (row.speed_kph / (if row.freeFlow_kph > 0 then row.freeFlow_kph else 1))
  let eid := makeEdgeId row.u row.v
  let s1 : Dynamic G :=
    if row.isClosed then
      { s with disruptedClosedEdges := setInsert s.disruptedClosedEdges eid }
    else if slowdown_ratio < 1 then
      { s with
        disruptedSlowdownFactorByEdge :=
          mapAssign s.disruptedSlowdownFactorByEdge eid slowdown_ratio }
    else s
  let incident : String :=
    if row.isClosed || decide (row.jamFactor = 10) then "Road Closure"
    else if decide (row.speed_kph < 2) && decide (row.jamFactor > 7) && !row.isClosed then
      "Accident"
    else if decide (slowdown_ratio ≤ 1 / 2) && decide (duration_min ≥ 30)
        && decide (row.jamFactor < 7) then "Construction"
    else if decide (row.jamFactor > 7) && decide (row.speed_kph < 5) then "Congestion"
    else if decide (row.speed_kph ≤ 1) && decide (row.jamFactor < 4)
        && decide (row.segment_length < 100) then "Disabled Vehicle"
    else if decide (location_tag = "terminal") && decide (hour_of_day ≥ 6)
        && decide (hour_of_day ≤ 9) then "Mass Transit Event"
    else if decide (location_tag = "event_venue")
        && (decide (hour_of_day ≥ 18) || decide (hour_of_day ≤ 23)) then "Planned Event"
    else if decide (slowdown_ratio < 4 / 10) && decide (jamTendency = 1) && !row.isClosed then
      "Road Hazard"
    else if decide (row.speed_kph ≥ 10) && decide (row.speed_kph ≤ 15)
        && decide (jamTendency = 1) && !row.isClosed then "Lane Restriction"
    else if decide (row.speed_kph < 10) && decide (duration_min > 20) then "Weather"
    else "Other"
  let severity : String :=
    if slowdown_ratio ≥ 8 / 10 then "Light"
    else if slowdown_ratio ≥ 1 / 2 then "Medium"
    else "Heavy"
  { s1 with
    disruptionTypeByEdge := mapAssign s1.disruptionTypeByEdge eid incident
    disruptionSeverityByEdge := mapAssign s1.disruptionSeverityByEdge eid severity }

/-- The `while` loop of `Dynamic::loadDisruptions` (Dynamic.cpp:146-233). -/
def loadDisruptionsRows {G : Type} (s : Dynamic G) (rows : List (Option ScenarioRow)) :
    Dynamic G :=
  rows.foldl
    (fun st line =>
      match line with
      | none => st
      | some row => loadDisruptionsRow st row)
    s

/-- The endpoints pushed into `affected_nodes` by the lazy branch of `loadDisruptions`
(Dynamic.cpp:258-266). -/
def affectedNodes (closed : List EdgeID) (slowed : List (EdgeID × ℚ)) : List NodeID :=
  slowed.foldl (fun acc entry => acc ++ [entry.1.1, entry.1.2])
    (closed.foldl (fun acc edge => acc ++ [edge.1, edge.2]) [])

/-- The tail of `Dynamic::loadDisruptions` once the file is read (Dynamic.cpp:237-270). The
fields of `overall_impact` that the source leaves unset are never read; they are 0 here. -/
def loadDisruptionsFinish {G : Type} (ops : GraphOps G) (s : Dynamic G) : Dynamic G :=
  if !s.disruptedClosedEdges.isEmpty || !s.disruptedSlowdownFactorByEdge.isEmpty then
    let network_percentage_affected := calculateNetworkImpactPercentage ops s
    let overall_impact : ImpactScore :=
      { score := 0
        f_delta_w := 0
        f_jam := 0
        f_closure := 0
        network_percentage_affected := network_percentage_affected
        exceeds_threshold :=
          decide (network_percentage_affected ≥ s.DISRUPTION_THRESHOLD_TAU) }
    let recommended_mode := determineUpdateMode overall_impact
    let s1 := setMode s recommended_mode
    if recommended_mode = Mode.IMMEDIATE_UPDATE then triggerBackgroundLabelUpdate ops s1
    else if recommended_mode = Mode.LAZY_UPDATE then
      markLabelsStale s1
        (affectedNodes s1.disruptedClosedEdges s1.disruptedSlowdownFactorByEdge)
    else s1
  else s

/-- The function `Dynamic::loadDisruptions` (Dynamic.cpp:125-271). -/
def loadDisruptions {G : Type} (ops : GraphOps G) (s : Dynamic G) (file : ScenarioFile) :
    Dynamic G :=
  let s0 : Dynamic G :=
    { s with
      disruptedClosedEdges := []
      disruptedSlowdownFactorByEdge := []
      disruptionSeverityByEdge := []
      disruptionTypeByEdge := [] }
  match file with
  | ScenarioFile.unreadable => s0
  | ScenarioFile.noHeader => s0
  | ScenarioFile.lines _ rows => loadDisruptionsFinish ops (loadDisruptionsRows s0 rows)

/-- The function `Dynamic::get_distance` (Dynamic.cpp:435-508): the distance returned and
the state the call leaves behind. -/
def get_distance {G : Type} (ops : GraphOps G) (s : Dynamic G) (v w : NodeID)
    (weighted : Bool) : distance_t × Dynamic G :=
  if invalidNodeIds ops s v w then (ops.distance_max, s)
  else if s.currentMode = Mode.BASE then (ops.get_distance s.graph v w weighted, s)
  else if s.currentMode = Mode.LAZY_UPDATE then
    let s1 := if areLabelsStale s v w then repairStaleLabels ops s v w else s
    (ops.get_distance s1.graph v w weighted, s1)
  else if s.currentMode = Mode.IMMEDIATE_UPDATE then
    (ops.get_distance s.graph v w weighted, s)
  else if s.currentMode = Mode.DISRUPTED then
    let s1 : Dynamic G :=
      { s with
        graph := applyAllDisruptions ops s.disruptedClosedEdges
          s.disruptedSlowdownFactorByEdge s.graph }
    (ops.get_distance s1.graph v w weighted, s1)
  else (ops.get_distance s.graph v w weighted, s)

/-! ## Path and GPS queries of Dynamic.cpp -/

/-- The further members of `road_network::Graph` that the path queries call, and the value
`get_path` passes for the `weighted` parameter of `get_distance` when it calls it with two
arguments (the header in the sources declares the parameter without a default). -/
structure GraphPathOps (G : Type) extends GraphOps G where
  node_count : G → Nat
  degree : G → NodeID → Nat
  get_path_dijkstra : G → NodeID → NodeID → Bool → distance_t × List NodeID
  get_distance_weighted : Bool

/-- The function `Dynamic::reconstructPathFromLabels` (Dynamic.cpp:671-683). -/
def reconstructPathFromLabels {G : Type} (ops : GraphPathOps G) (s : Dynamic G)
    (source target : NodeID) : List NodeID :=
  (ops.get_path_dijkstra s.graph source target true).2

/-- The function `Dynamic::isPathAffectedByDisruptions` (Dynamic.cpp:686-702). -/
def isPathAffectedByDisruptions {G : Type} (s : Dynamic G) (source target : NodeID) : Bool :=
  s.disruptedClosedEdges.any (fun edge =>
    decide (edge.1 = source) || decide (edge.1 = target)
      || decide (edge.2 = source) || decide (edge.2 = target))

/-- The function `Dynamic::markAffectedLabelsAsStale` (Dynamic.cpp:705-711): a placeholder
that only prints. -/
def markAffectedLabelsAsStale {G : Type} (s : Dynamic G) : Dynamic G :=
  s

/-- The function `Dynamic::rebuildLabelsWithDisruptions` (Dynamic.cpp:714-723): a
placeholder that only prints. -/
def rebuildLabelsWithDisruptions {G : Type} (s : Dynamic G) : Dynamic G :=
  s

/-- The copy `temp_graph` of the lazy branch of `get_path` after its two loops
(Dynamic.cpp:588-597): every closed edge is applied, a slowed edge only when its factor is
below 0.5. -/
def lazyTempGraph {G : Type} (ops : GraphOps G) (closed : List EdgeID)
    (slowed : List (EdgeID × ℚ)) (g : G) : G :=
  slowed.foldl
    (fun gr entry =>
      if entry.2 < 1 / 2 then ops.applyDisruption gr entry.1.1 entry.1.2 entry.2 false else gr)
    (closed.foldl (fun gr edge => ops.applyDisruption gr edge.1 edge.2 1 true) g)

/-- The function `Dynamic::get_path` (Dynamic.cpp:511-664): the pair it returns and the
state the call leaves behind. -/
def get_path {G : Type} (ops : GraphPathOps G) (s : Dynamic G) (source target : NodeID)
    (weighted : Bool) : (distance_t × List NodeID) × Dynamic G :=
  if source = 0 ∨ target = 0 then ((ops.distance_max, []), s)
  else if source = target then ((0, [source]), s)
  else
    let should_apply_disruptions : Bool :=
      decide (s.currentMode = Mode.DISRUPTED) || decide (s.currentMode = Mode.IMMEDIATE_UPDATE)
        || decide (s.currentMode = Mode.LAZY_UPDATE)
    if should_apply_disruptions then
      if s.currentMode = Mode.IMMEDIATE_UPDATE then
        let s1 : Dynamic G :=
          { s with
            graph := applyAllDisruptions ops.toGraphOps s.disruptedClosedEdges
              s.disruptedSlowdownFactorByEdge s.graph }
        let s2 := rebuildLabelsWithDisruptions s1
        let r := get_distance ops.toGraphOps s2 source target ops.get_distance_weighted
        let path : List NodeID :=
          if r.1 < ops.infinity then reconstructPathFromLabels ops r.2 source target else []
        ((r.1, path), r.2)
      else if s.currentMode = Mode.LAZY_UPDATE then
        let s1 := markAffectedLabelsAsStale s
        let r := get_distance ops.toGraphOps s1 source target ops.get_distance_weighted
        let path_affected := isPathAffectedByDisruptions r.2 source target
        if path_affected then
          let temp_graph := lazyTempGraph ops.toGraphOps r.2.disruptedClosedEdges
            r.2.disruptedSlowdownFactorByEdge r.2.graph
          (ops.get_path_dijkstra temp_graph source target weighted, r.2)
        else
          let path : List NodeID :=
            if r.1 < ops.infinity then reconstructPathFromLabels ops r.2 source target else []
          ((r.1, path), r.2)
      else
        let s1 : Dynamic G :=
          { s with
            graph := applyAllDisruptions ops.toGraphOps s.disruptedClosedEdges
              s.disruptedSlowdownFactorByEdge s.graph }
        let r := get_distance ops.toGraphOps s1 source target ops.get_distance_weighted
        let path : List NodeID :=
          if r.1 < ops.infinity then reconstructPathFromLabels ops r.2 source target else []
        ((r.1, path), r.2)
    else
      let r := get_distance ops.toGraphOps s source target ops.get_distance_weighted
      let path : List NodeID :=
        if r.1 < ops.infinity then reconstructPathFromLabels ops r.2 source target else []
      ((r.1, path), r.2)

/-- The function `Dynamic::get_visited_nodes_count` (Dynamic.cpp:726-750): the estimate it
returns and the state, which it does not write. -/
def get_visited_nodes_count {G : Type} (ops : GraphPathOps G) (s : Dynamic G)
    (_v _w : NodeID) (_weighted : Bool) : Nat × Dynamic G :=
  let total_nodes := ops.node_count s.graph
  if s.currentMode = Mode.BASE then (min 100 (total_nodes / 10), s)
  else if s.currentMode = Mode.LAZY_UPDATE then
    let disruption_overhead :=
      s.disruptedClosedEdges.length + s.disruptedSlowdownFactorByEdge.length / 2
    let base_visited := min 150 (total_nodes / 8)
    (min (base_visited + disruption_overhead) total_nodes, s)
  else if s.currentMode = Mode.IMMEDIATE_UPDATE then
    let disruption_overhead :=
      s.disruptedClosedEdges.length + s.disruptedSlowdownFactorByEdge.length
    let base_visited := min 250 (total_nodes / 4)
    (min (base_visited + disruption_overhead) total_nodes, s)
  else
    let disruption_overhead :=
      s.disruptedClosedEdges.length + s.disruptedSlowdownFactorByEdge.length
    let base_visited := min 200 (total_nodes / 5)
    (min (base_visited + disruption_overhead) total_nodes, s)

/-- The test of the loop body of `route_uses_disruptions` (Dynamic.cpp:755-761). -/
def edgeIsRecorded {G : Type} (s : Dynamic G) (a b : NodeID) : Bool :=
  decide (makeEdgeId a b ∈ s.disruptedClosedEdges)
    || (mapFind s.disruptedSlowdownFactorByEdge (makeEdgeId a b)).isSome

/-- The loop of `Dynamic::route_uses_disruptions` from index `i` on, with `bound` the value
of `path.size() - 1` as a `size_t`. The result is `none` when the loop reads `path[i]` or
`path[i + 1]` past the end of the vector. The counter `steps` is one more than the length
of the path, which such a read is reached within. -/
def route_uses_disruptions_loop {G : Type} (s : Dynamic G) (path : List NodeID)
    (bound : Nat) : Nat → Nat → Option Bool
  | 0, _ => none
  | steps + 1, i =>
    if i < bound then
      match path.get? i, path.get? (i + 1) with
      | some a, some b =>
        if edgeIsRecorded s a b then some true
        else route_uses_disruptions_loop s path bound steps (i + 1)
      | _, _ => none
    else some false

/-- The function `Dynamic::route_uses_disruptions` (Dynamic.cpp:753-764), a `const` member.
The loop bound `path.size() - 1` is computed in 64-bit unsigned arithmetic. -/
def route_uses_disruptions {G : Type} (s : Dynamic G) (path : List NodeID) : Option Bool :=
  route_uses_disruptions_loop s path ((path.length + 2 ^ 64 - 1) % 2 ^ 64)
    (path.length + 1) 0

/-- An entry of `CoordinateMapper::getAllNodes()`. -/
structure NodeCoordinate where
  node_id : NodeID
  latitude : ℚ
  longitude : ℚ

/-- The members of `hc2l_dynamic::CoordinateMapper` that `Dynamic` calls; the class lives
in a header that is not part of the sources. `findNearestNode` returns the node and the
distance it writes to its reference parameter. -/
structure CoordinateMapperOps where
  findNearestNode : ℚ → ℚ → NodeID × ℚ
  getAllNodes : List NodeCoordinate
  calculateDistance : ℚ → ℚ → ℚ → ℚ → ℚ
  getNodeCoordinates : NodeID → Option (ℚ × ℚ)
  getRoadName : NodeID → NodeID → String

/-- The struct `RouteInfo` of Dynamic.h. -/
structure RouteInfo where
  total_distance : distance_t
  path : List NodeID
  road_names : List String
  coordinates : List (ℚ × ℚ)
  uses_disruptions : Bool
  estimated_time_minutes : ℚ

/-- The function `Dynamic::isRouteHeavilyDisrupted` (Dynamic.cpp:995-1018). -/
def isRouteHeavilyDisrupted {G : Type} (s : Dynamic G) (start stop : NodeID) : Bool :=
  if s.currentMode = Mode.BASE then false
  else
    let direct_edge := makeEdgeId start stop
    if direct_edge ∈ s.disruptedClosedEdges then true
    else
      match mapFind s.disruptedSlowdownFactorByEdge direct_edge with
      | some slowdown => decide (slowdown < 3 / 10)
      | none => false

/-- The function `Dynamic::isNodeAccessible` (Dynamic.cpp:1021-1040). -/
def isNodeAccessible {G : Type} (ops : GraphPathOps G) (s : Dynamic G) (node : NodeID) :
    Bool :=
  if s.currentMode ≠ Mode.DISRUPTED then true
  else if ops.degree s.graph node = 0 then false
  else decide (ops.degree s.graph node > 0)

/-- The function `Dynamic::findNearestAvailableNode` (Dynamic.cpp:1042-1106): the node it
returns and the value left in its `distance` reference parameter. `std::sort` is taken to
keep candidates at equal distance in their order. -/
def findNearestAvailableNode {G : Type} (ops : GraphPathOps G) (mapper : CoordinateMapperOps)
    (s : Dynamic G) (lat lng : ℚ) : NodeID × ℚ :=
  let found := mapper.findNearestNode lat lng
  let nearest := found.1
  let distance := found.2
  if nearest = 0 then (0, distance)
  else if s.currentMode = Mode.BASE then (nearest, distance)
  else if isNodeAccessible ops s nearest then (nearest, distance)
  else
    let candidates : List (NodeID × ℚ) :=
      (mapper.getAllNodes.filter (fun node_coord => decide (node_coord.node_id ≠ nearest))).filterMap
        (fun node_coord =>
          let candidate_distance :=
            mapper.calculateDistance lat lng node_coord.latitude node_coord.longitude
          if candidate_distance ≤ 1000 then some (node_coord.node_id, candidate_distance)
          else none)
    let sorted := candidates.insertionSort (fun a b => a.2 ≤ b.2)
    match (sorted.take 50).find? (fun candidate => isNodeAccessible ops s candidate.1) with
    | some candidate => (candidate.1, candidate.2)
    | none => (nearest, distance)

/-- The search for an alternative node in `findRouteByGPS` (Dynamic.cpp:817-835 and
841-858): the first other node close enough to the GPS point from which the route to
`other` is not heavily disrupted, with its distance; `keep` when there is none. -/
def alternativeNode (mapper : CoordinateMapperOps) (lat lng : ℚ)
    (node : NodeID) (node_distance : ℚ) (heavily : NodeID → Bool) : NodeID × ℚ :=
  match mapper.getAllNodes.find? (fun node_coord =>
      decide (node_coord.node_id ≠ node)
        && decide (mapper.calculateDistance lat lng node_coord.latitude node_coord.longitude
            ≤ node_distance * (3 / 2))
        && decide (mapper.calculateDistance lat lng node_coord.latitude node_coord.longitude
            ≤ 100)
        && !heavily node_coord.node_id) with
  | some node_coord =>
    (node_coord.node_id,
      mapper.calculateDistance lat lng node_coord.latitude node_coord.longitude)
  | none => (node, node_distance)

/-- The function `Dynamic::findRouteByGPS` (Dynamic.cpp:786-918): the route information and
the state the call leaves behind. The coordinate mapper and the flag
`coordinate_mapping_initialized`, which only `initializeCoordinateMapping` writes, are
arguments. -/
def findRouteByGPS {G : Type} (ops : GraphPathOps G) (mapper : CoordinateMapperOps)
    (coordinate_mapping_initialized : Bool) (s : Dynamic G)
    (start_lat start_lng end_lat end_lng : ℚ) (weighted : Bool) : RouteInfo × Dynamic G :=
  let route_info : RouteInfo :=
    { total_distance := ops.distance_max
      path := []
      road_names := []
      coordinates := []
      uses_disruptions := false
      estimated_time_minutes := 0 }
  if !coordinate_mapping_initialized then (route_info, s)
  else
    let start_found := findNearestAvailableNode ops mapper s start_lat start_lng
    let end_found := findNearestAvailableNode ops mapper s end_lat end_lng
    if start_found.1 = 0 ∨ end_found.1 = 0 then (route_info, s)
    else
      let chosen : NodeID × NodeID :=
        if s.currentMode = Mode.DISRUPTED ∧ start_found.1 ≠ end_found.1 then
          if isRouteHeavilyDisrupted s start_found.1 end_found.1 then
            let alt_start := alternativeNode mapper start_lat start_lng start_found.1
              start_found.2 (fun candidate => isRouteHeavilyDisrupted s candidate end_found.1)
            let alt_end := alternativeNode mapper end_lat end_lng end_found.1
              end_found.2 (fun candidate => isRouteHeavilyDisrupted s alt_start.1 candidate)
            if alt_start.1 ≠ start_found.1 ∨ alt_end.1 ≠ end_found.1 then
              (alt_start.1, alt_end.1)
            else (start_found.1, end_found.1)
          else (start_found.1, end_found.1)
        else (start_found.1, end_found.1)
      let path_result := get_path ops s chosen.1 chosen.2 weighted
      let s1 := path_result.2
      let total_distance := path_result.1.1
      let path := path_result.1.2
      if path.isEmpty then
        ({ route_info with total_distance := total_distance, path := path }, s1)
      else
        let uses_disruptions := (route_uses_disruptions s1 path).getD false
        let coordinates : List (ℚ × ℚ) :=
          path.map (fun node => (mapper.getNodeCoordinates node).getD (0, 0))
        let road_names : List String :=
          (path.zip path.tail).map (fun step => mapper.getRoadName step.1 step.2)
        let average_speed_kph : ℚ := if uses_disruptions then 30 * (7 / 10) else 30
        ({ total_distance := total_distance
           path := path
           road_names := road_names
           coordinates := coordinates
           uses_disruptions := uses_disruptions
           estimated_time_minutes :=
             ((total_distance : ℚ) / 1000) / average_speed_kph * 60 }, s1)

/-! ## A graph store for concrete runs -/

/-- Modelled from the spec: the graph store of section 4.A, standing in for
`road_network::Graph`, whose header and implementation are not part of the sources. Nodes
are `1 .. node_count`; an edge is `(u, v, weight, closed)`. -/
structure Graph where
  node_count : Nat
  edges : List (NodeID × NodeID × Nat × Bool)
  deriving DecidableEq, Repr

/-- Modelled from the spec: the value `INF` of section 3 for the absent
`road_network::infinity`; weights beyond 2^31 - 2 count as unreachable (section 4.D). -/
def Graph.infinity : distance_t := 2147483647

/-- Modelled from the spec: `set_weight` and `mark_closed` of section 4.A behind the absent
`Graph::applyDisruption`, with the weight convention of section 9: a slowdown `r` turns
the weight `w` into `w / r` (rounded down), a closure sets the `closed` flag. -/
def Graph.applyDisruption (g : Graph) (u v : NodeID) (factor : ℚ) (closed : Bool) : Graph :=
  { g with
    edges := g.edges.map (fun e =>
      if makeEdgeId e.1 e.2.1 = makeEdgeId u v then
        if closed then (e.1, e.2.1, e.2.2.1, true)
        else if factor ≤ 0 then (e.1, e.2.1, e.2.2.1, true)
        else (e.1, e.2.1, (((e.2.2.1 : ℚ) / factor).floor).toNat, e.2.2.2)
      else e) }

/-- Modelled from the spec: one round of edge relaxation over the open edges, in both
directions, for the distance of section 3. -/
def Graph.relaxRound (g : Graph) (weighted : Bool) (dist : List Nat) : List Nat :=
  g.edges.foldl
    (fun d e =>
      if e.2.2.2 then d
      else
        let w : Nat := if weighted then e.2.2.1 else 1
        let du := d.getD e.1 Graph.infinity
        let dv := d.getD e.2.1 Graph.infinity
        let d1 := if du + w < dv then d.set e.2.1 (du + w) else d
        let dv1 := d1.getD e.2.1 Graph.infinity
        let du1 := d1.getD e.1 Graph.infinity
        if dv1 + w < du1 then d1.set e.1 (dv1 + w) else d1)
    dist

/-- Modelled from the spec: the distance of section 3 (shortest-path length over open
edges, `INF` when unreachable, 0 from a node to itself) behind the absent
`Graph::get_distance`, computed by `node_count` rounds of relaxation. -/
def Graph.get_distance (g : Graph) (u v : NodeID) (weighted : Bool) : distance_t :=
  let start : List Nat := (List.replicate (g.node_count + 1) Graph.infinity).set u 0
  let final := (List.range g.node_count).foldl (fun d _ => g.relaxRound weighted d) start
  min (final.getD v Graph.infinity) Graph.infinity

/-- Modelled from the spec: the record of graph operations over `Graph`; `edge_count` and
`super_node_count` are the sizes of section 4.A, the invalid-node value is the largest
32-bit unsigned integer. -/
def Graph.ops : GraphOps Graph where
  super_node_count := fun g => g.node_count
  edge_count := fun g => g.edges.length
  get_distance := Graph.get_distance
  applyDisruption := Graph.applyDisruption
  distance_max := 4294967295
  infinity := Graph.infinity

/-- Modelled from the spec: a neighbour of `cur` over an open edge that lies on a shortest
path from `s` to `cur`, for the path reconstruction of section 4.F. -/
def Graph.previousNode (g : Graph) (s cur : NodeID) (weighted : Bool) : Option NodeID :=
  (g.edges.filterMap (fun e =>
    if e.2.2.2 then none
    else
      let w : Nat := if weighted then e.2.2.1 else 1
      if e.2.1 = cur ∧ g.get_distance s e.1 weighted + w = g.get_distance s cur weighted then
        some e.1
      else if e.1 = cur
          ∧ g.get_distance s e.2.1 weighted + w = g.get_distance s cur weighted then
        some e.2.1
      else none)).head?

/-- Modelled from the spec: the walk from the target back to the source along shortest-path
neighbours (section 4.F), at most `node_count` steps. -/
def Graph.walkBack (g : Graph) (s : NodeID) (weighted : Bool) :
    Nat → NodeID → List NodeID → List NodeID
  | 0, _, _ => []
  | fuel + 1, cur, acc =>
    if cur = s then s :: acc
    else
      match g.previousNode s cur weighted with
      | none => []
      | some x => Graph.walkBack g s weighted fuel x (cur :: acc)

/-- Modelled from the spec: the Dijkstra search with parent map of section 4.H behind the
absent `Graph::get_path_dijkstra`: the shortest distance and a shortest path, `INF` and the
empty path when the target is unreachable. -/
def Graph.get_path_dijkstra (g : Graph) (s t : NodeID) (weighted : Bool) :
    distance_t × List NodeID :=
  let d := g.get_distance s t weighted
  if d ≥ Graph.infinity then (Graph.infinity, [])
  else (d, Graph.walkBack g s weighted (g.node_count + 1) t [])

/-- Modelled from the spec: the record of path operations over `Graph`; the degree of a
node counts its open and closed edges (section 4.A), and `get_distance` is called
weighted. -/
def Graph.pathOps : GraphPathOps Graph where
  toGraphOps := Graph.ops
  node_count := fun g => g.node_count
  degree := fun g v => (g.edges.filter (fun e => decide (e.1 = v) || decide (e.2.1 = v))).length
  get_path_dijkstra := Graph.get_path_dijkstra
  get_distance_weighted := true

/-- One call of `Graph::applyDisruption`: its arguments `(u, v, factor, closed)`. -/
abbrev DisruptionCall := NodeID × NodeID × ℚ × Bool

/-- A graph that is nothing but the log of the `applyDisruption` calls made on it; it has
no nodes and no edges and answers every distance query with 0. -/
def callLog : GraphOps (List DisruptionCall) where
  super_node_count := fun _ => 0
  edge_count := fun _ => 0
  get_distance := fun _ _ _ _ => 0
  applyDisruption := fun log u v factor closed => log ++ [(u, v, factor, closed)]
  distance_max := 4294967295
  infinity := 2147483647

/-- The chain 1 - 2 - 3 - 4 - 5 with unit weights (scenario S2 of the spec). -/
def chainGraph : Graph where
  node_count := 5
  edges := [(1, 2, 1, false), (2, 3, 1, false), (3, 4, 1, false), (4, 5, 1, false)]

/-- The ring 1 - 2 - 3 - 4 - 5 - 1 with unit weights: five edges. -/
def ringGraph : Graph where
  node_count := 5
  edges :=
    [(1, 2, 1, false), (2, 3, 1, false), (3, 4, 1, false), (4, 5, 1, false), (5, 1, 1, false)]

/-- A scenario line that reports the road between `u` and `v` as closed. -/
def closedRow (u v : NodeID) : ScenarioRow where
  u := u
  v := v
  road_name := "road"
  speed_kph := 0
  freeFlow_kph := 40
  jamFactor := 10
  isClosed := true
  segment_length := 100

/-- A scenario line that reports the road between `u` and `v` at the given speed, free flow
40 km/h. -/
def slowRow (u v : NodeID) (speed : ℚ) : ScenarioRow where
  u := u
  v := v
  road_name := "road"
  speed_kph := speed
  freeFlow_kph := 40
  jamFactor := 5
  isClosed := false
  segment_length := 100

/-- A scenario that closes three roads. -/
def scenarioThreeClosed : ScenarioFile :=
  ScenarioFile.lines "header" [some (closedRow 1 2), some (closedRow 2 3), some (closedRow 3 4)]

/-- The manager on the chain with tau = 1/2 after a heavy accident has been reported on the
road between 3 and 4. -/
def lazyChainState : Dynamic Graph :=
  addUserDisruption Graph.ops (Dynamic.init chainGraph (1 / 2)) 3 4 "Accident" "Heavy"

/-- A scenario that slows the road between 1 and 2 to half of the free-flow speed. -/
def scenarioOneSlow : ScenarioFile :=
  ScenarioFile.lines "header" [some (slowRow 1 2 20)]

end hc2l_dynamic


namespace hc2l_dynamic

/-! ## The spec's formulas -/

/-- The weighted impact `W = 2·E_cl + Σ_slow (1.5 if r < 0.5 else 1.0)` of section 4.G. -/
def specWeightedImpact (closed : List EdgeID) (slowed : List (EdgeID × ℚ)) : ℚ :=
  2 * (closed.length : ℚ) + (slowed.map (fun e => if e.2 < 1 / 2 then (3 / 2 : ℚ) else 1)).sum

/-- The mode selection rule of section 4.G: `pct ≥ τ` gives IMMEDIATE_UPDATE, else
LAZY_UPDATE. -/
def specModeByThreshold (pct tau : ℚ) : Mode :=
  if pct ≥ tau then Mode.IMMEDIATE_UPDATE else Mode.LAZY_UPDATE

/-- The vertices incident to the recorded disrupted edges. -/
def disruptedEndpoints (closed : List EdgeID) (slowed : List (EdgeID × ℚ)) : Finset NodeID :=
  (closed.map Prod.fst ++ closed.map Prod.snd ++ slowed.map (fun e => e.1.1)
    ++ slowed.map (fun e => e.1.2)).toFinset

/-! ## The two entry points in normal form -/

/-- What `addUserDisruption` has written when it reaches the impact score
(Dynamic.cpp:54-74). -/
def userRecorded {G : Type} (s : Dynamic G) (u v : NodeID) (incidentType severity : String) :
    Dynamic G :=
  let eid := makeEdgeId u v
  let s1 : Dynamic G :=
    { s with
      disruptionTypeByEdge := mapAssign s.disruptionTypeByEdge eid incidentType
      disruptionSeverityByEdge := mapAssign s.disruptionSeverityByEdge eid severity }
  if severity = "Heavy" then
    { s1 with
      disruptedSlowdownFactorByEdge := mapAssign s1.disruptedSlowdownFactorByEdge eid (3 / 10) }
  else if severity = "Medium" then
    { s1 with
      disruptedSlowdownFactorByEdge := mapAssign s1.disruptedSlowdownFactorByEdge eid (6 / 10) }
  else if severity = "Light" then
    { s1 with
      disruptedSlowdownFactorByEdge :=
        mapAssign s1.disruptedSlowdownFactorByEdge eid (85 / 100) }
  else if severity = "Closed" then
    { s1 with disruptedClosedEdges := setInsert s1.disruptedClosedEdges eid }
  else s1

/-- The step both entry points end with: pick the mode from the percentage, store it, then
precompute (immediate) or mark the given nodes stale (lazy). -/
def selectMode {G : Type} (ops : GraphOps G) (s : Dynamic G) (nodes : List NodeID) :
    Dynamic G :=
  if calculateNetworkImpactPercentage ops s ≥ s.DISRUPTION_THRESHOLD_TAU then
    precomputeAffectedLabels ops (setMode s Mode.IMMEDIATE_UPDATE)
  else markLabelsStale (setMode s Mode.LAZY_UPDATE) nodes

/-- The state `loadDisruptions` has built when the file is read (Dynamic.cpp:126-235). -/
def loadRead {G : Type} (s : Dynamic G) (file : ScenarioFile) : Dynamic G :=
  let s0 : Dynamic G :=
    { s with
      disruptedClosedEdges := []
      disruptedSlowdownFactorByEdge := []
      disruptionSeverityByEdge := []
      disruptionTypeByEdge := [] }
  match file with
  | ScenarioFile.unreadable => s0
  | ScenarioFile.noHeader => s0
  | ScenarioFile.lines _ rows => loadDisruptionsRows s0 rows

/-- The members a scenario row never touches. -/
def sameControl {G : Type} (a b : Dynamic G) : Prop :=
  a.graph = b.graph ∧ a.currentMode = b.currentMode ∧ a.stale_nodes = b.stale_nodes
    ∧ a.precomputed_labels = b.precomputed_labels
    ∧ a.background_update_active = b.background_update_active
    ∧ a.dirty_pairs = b.dirty_pairs
    ∧ a.DISRUPTION_THRESHOLD_TAU = b.DISRUPTION_THRESHOLD_TAU

/-! ## Sequences of calls -/

/-- A call of `mark_dirty` or `clear_dirty` on the global dirty set. -/
inductive DirtyCall
  | mark (u v : NodeID)
  | clear

/-- The dirty set after a sequence of `mark_dirty` and `clear_dirty` calls. -/
def runDirtyCalls (dirty : Finset (NodeID × NodeID)) (calls : List DirtyCall) :
    Finset (NodeID × NodeID) :=
  calls.foldl
    (fun d call =>
      match call with
      | DirtyCall.mark u v => mark_dirty d u v
      | DirtyCall.clear => clear_dirty d)
    dirty

/-- A call on the public interface of `Dynamic` (Dynamic.h:44-68). -/
inductive ManagerCall
  | get_distance (v w : NodeID) (weighted : Bool)
  | get_path (source target : NodeID) (weighted : Bool)
  | findRouteByGPS (start_lat start_lng end_lat end_lng : ℚ) (weighted : Bool)
  | get_visited_nodes_count (v w : NodeID) (weighted : Bool)
  | setMode (mode : Mode)
  | addUserDisruption (u v : NodeID) (incidentType severity : String)
  | loadDisruptions (file : ScenarioFile)

/-- The state after one call. -/
def runCall {G : Type} (ops : GraphPathOps G) (mapper : CoordinateMapperOps)
    (coordinate_mapping_initialized : Bool) (s : Dynamic G) : ManagerCall → Dynamic G
  | ManagerCall.get_distance v w weighted => (get_distance ops.toGraphOps s v w weighted).2
  | ManagerCall.get_path source target weighted => (get_path ops s source target weighted).2
  | ManagerCall.findRouteByGPS start_lat start_lng end_lat end_lng weighted =>
    (findRouteByGPS ops mapper coordinate_mapping_initialized s start_lat start_lng end_lat
      end_lng weighted).2
  | ManagerCall.get_visited_nodes_count v w weighted =>
    (get_visited_nodes_count ops s v w weighted).2
  | ManagerCall.setMode mode => setMode s mode
  | ManagerCall.addUserDisruption u v incidentType severity =>
    addUserDisruption ops.toGraphOps s u v incidentType severity
  | ManagerCall.loadDisruptions file => loadDisruptions ops.toGraphOps s file

/-- The state after a sequence of calls. -/
def runCalls {G : Type} (ops : GraphPathOps G) (mapper : CoordinateMapperOps)
    (coordinate_mapping_initialized : Bool) (s : Dynamic G) (calls : List ManagerCall) :
    Dynamic G :=
  calls.foldl (runCall ops mapper coordinate_mapping_initialized) s

/-- A later call that the record of the edge `eid` is claimed to survive: a query, a
`setMode`, or a user report on another edge. -/
def keepsEdge (eid : EdgeID) : ManagerCall → Bool
  | ManagerCall.addUserDisruption u v _ _ => decide (makeEdgeId u v ≠ eid)
  | ManagerCall.loadDisruptions _ => false
  | _ => true

/-- What the manager has recorded for an edge: whether it is closed, its slowdown factor,
its incident type and its severity. -/
def recordOf {G : Type} (s : Dynamic G) (eid : EdgeID) :
    Bool × Option ℚ × Option String × Option String :=
  (decide (eid ∈ s.disruptedClosedEdges), mapFind s.disruptedSlowdownFactorByEdge eid,
    mapFind s.disruptionTypeByEdge eid, mapFind s.disruptionSeverityByEdge eid)

/-- The members a query never writes: the mode, the four disruption containers, the
threshold, the stale set and the precomputation flag. -/
def sameManager {G : Type} (a b : Dynamic G) : Prop :=
  a.currentMode = b.currentMode ∧ a.disruptedClosedEdges = b.disruptedClosedEdges
    ∧ a.disruptedSlowdownFactorByEdge = b.disruptedSlowdownFactorByEdge
    ∧ a.disruptionSeverityByEdge = b.disruptionSeverityByEdge
    ∧ a.disruptionTypeByEdge = b.disruptionTypeByEdge
    ∧ a.DISRUPTION_THRESHOLD_TAU = b.DISRUPTION_THRESHOLD_TAU
    ∧ a.stale_nodes = b.stale_nodes
    ∧ a.background_update_active = b.background_update_active

/-- A scenario whose only line reports a negative speed on the road between 1 and 2. -/
def scenarioNegativeSpeed : ScenarioFile :=
  ScenarioFile.lines "header" [some (slowRow 1 2 (-5))]

/-- A coordinate mapper with no node loaded, for concrete runs. -/
def emptyMapper : CoordinateMapperOps where
  findNearestNode := fun _ _ => (0, 0)
  getAllNodes := []
  calculateDistance := fun _ _ _ _ => 0
  getNodeCoordinates := fun _ => none
  getRoadName := fun _ _ => "Unknown Road"

/-! ## DHL routing service (src/DHL/dhl_routing_service.cpp, dhl_coordinate_mapper.cpp)

`double` values are rationals; `calculateDistance`, which is built from `sin`, `cos`,
`atan2` and `sqrt`, and the text conversions of `double` values are parameters. The time
stamps of `findRoute` are dropped. `road_network::Graph`, `ContractionIndex` and
`distance_t` come from a header that is not part of the sources. -/

/-- The struct `road_network::Neighbor` as `dijkstra_with_path_reconstruction` reads it. -/
structure Neighbor where
  node : NodeID
  distance : distance_t
  deriving DecidableEq, Repr

/-- Modelled from the spec: the graph store of section 4.A behind the absent
`road_network::Graph` that `DHLRoutingService` owns: `adjacency[v]` is the list
`neighbours(v)` of pairs (neighbour, weight). -/
structure RoadGraph where
  adjacency : List (List Neighbor)
  deriving DecidableEq, Repr

/-- Modelled from the spec: `neighbours(v)` of section 4.A behind the absent
`Graph::get_neighbors`; `none` stands for the exception that the caller catches when `v`
has no adjacency list. -/
def RoadGraph.get_neighbors (g : RoadGraph) (v : NodeID) : Option (List Neighbor) :=
  g.adjacency.get? v

/-- Modelled from the spec: `Distance` of section 3 is an unsigned integer; the absent
typedef `distance_t` is taken as 32 bits wide, so sums wrap at 2^32. -/
def distance_modulus : Nat := 4294967296

/-- The value `std::numeric_limits<double>::max()`. -/
def DBL_MAX : ℚ := (2 ^ 53 - 1) * 2 ^ 971

/-- The struct `dhl::DHLCoordinate`. -/
structure DHLCoordinate where
  node_id : NodeID
  latitude : ℚ
  longitude : ℚ

/-- The data members of `dhl::DHLCoordinateMapper` that the routing service reads. -/
structure DHLCoordinateMapper where
  node_coordinates : List DHLCoordinate
  node_index_map : List (NodeID × Nat)

/-- The function `DHLCoordinateMapper::findNearestNode` (dhl_coordinate_mapper.cpp:155-174):
the node it returns and the value it writes to `distance_m`. -/
def DHLCoordinateMapper.findNearestNode (calculateDistance : ℚ → ℚ → ℚ → ℚ → ℚ)
    (mapper : DHLCoordinateMapper) (latitude longitude : ℚ) : NodeID × ℚ :=
  if mapper.node_coordinates.isEmpty then (0, DBL_MAX)
  else
    mapper.node_coordinates.foldl
      (fun best coord =>
        let dist := calculateDistance latitude longitude coord.latitude coord.longitude
        if dist < best.2 then (coord.node_id, dist) else best)
      (0, DBL_MAX)

/-- The function `DHLCoordinateMapper::getNodeCoordinates`
(dhl_coordinate_mapper.cpp:176-186). -/
def DHLCoordinateMapper.getNodeCoordinates (mapper : DHLCoordinateMapper) (node_id : NodeID) :
    Option (ℚ × ℚ) :=
  match mapFind mapper.node_index_map node_id with
  | none => none
  | some index =>
    match mapper.node_coordinates.get? index with
    | some coord => some (coord.latitude, coord.longitude)
    | none => none

/-- The members of the absent `road_network::ContractionIndex` that `findRoute` calls, with
`road_network::infinity`. -/
structure ContractionIndexOps (I : Type) where
  get_distance : I → NodeID → NodeID → distance_t
  get_hoplinks : I → NodeID → NodeID → Nat
  height : I → Nat
  avg_cut_size : I → ℚ
  label_count : I → Nat
  infinity : distance_t

/-- The conversions of numbers to text that `findRoute` uses: `std::to_string(double)`,
`operator<<` on a `double`, and `operator<<` with `fixed << setprecision(6)`. -/
structure TextOps where
  to_string_double : ℚ → String
  stream_double : ℚ → String
  stream_fixed6 : ℚ → String
  calculateDistance : ℚ → ℚ → ℚ → ℚ → ℚ

/-- The data members of `DHLRoutingService` (dhl_routing_service.h:60-93); the contraction
hierarchy pointer `ch`, which no query reads, is left out. -/
structure DHLRoutingService (I : Type) where
  graph : Option RoadGraph
  con_index : Option I
  coordinate_mapper : DHLCoordinateMapper
  coordinate_mapping_initialized : Bool
  disrupted_edges : List (String × Bool)
  blocked_nodes : List NodeID
  last_labeling_time_ms : ℚ
  last_labeling_size_bytes : Nat
  current_graph_file : String
  current_coord_file : String
  current_disruption_file : String

/-- The struct `DHLRoutingResult` (dhl_routing_service.h:12-57) without
`query_time_microseconds`. -/
structure DHLRoutingResult where
  success : Bool
  error_message : String
  labeling_time_ms : ℚ
  labeling_size_bytes : Nat
  path : List NodeID
  total_distance : distance_t
  path_length : Nat
  hoplinks_examined : Nat
  start_node : NodeID
  dest_node : NodeID
  gps_to_node_info : String
  complete_route_trace : String
  routing_mode : String
  uses_disruptions : Bool
  blocked_edges : List String
  blocked_nodes : List NodeID
  index_height : Nat
  avg_cut_size : ℚ
  total_labels : Nat
  start_lat : ℚ
  start_lng : ℚ
  dest_lat : ℚ
  dest_lng : ℚ
  coordinate_threshold_meters : ℚ
  graph_file : String
  coordinates_file : String
  disruptions_file : String

/-- The default member initialisers of `DHLRoutingResult`. -/
def DHLRoutingResult.default : DHLRoutingResult where
  success := false
  error_message := ""
  labeling_time_ms := 0
  labeling_size_bytes := 0
  path := []
  total_distance := 0
  path_length := 0
  hoplinks_examined := 0
  start_node := 0
  dest_node := 0
  gps_to_node_info := ""
  complete_route_trace := ""
  routing_mode := "DHL"
  uses_disruptions := false
  blocked_edges := []
  blocked_nodes := []
  index_height := 0
  avg_cut_size := 0
  total_labels := 0
  start_lat := 0
  start_lng := 0
  dest_lat := 0
  dest_lng := 0
  coordinate_threshold_meters := 1000
  graph_file := ""
  coordinates_file := ""
  disruptions_file := ""

/-- The function `DHLRoutingService::isInitialized`. -/
def DHLRoutingService.isInitialized {I : Type} (svc : DHLRoutingService I) : Bool :=
  svc.graph.isSome && svc.con_index.isSome

/-- The function `DHLRoutingService::isNodeBlocked`. -/
def DHLRoutingService.isNodeBlocked {I : Type} (svc : DHLRoutingService I) (node : NodeID) :
    Bool :=
  decide (node ∈ svc.blocked_nodes)

/-- The function `DHLRoutingService::find_nearest_node` (dhl_routing_service.cpp:132-146). -/
def DHLRoutingService.find_nearest_node {I : Type} (text : TextOps)
    (svc : DHLRoutingService I) (lat lng threshold_meters : ℚ) : NodeID :=
  if !svc.coordinate_mapping_initialized then 0
  else
    let found := svc.coordinate_mapper.findNearestNode text.calculateDistance lat lng
    if found.2 > threshold_meters then 0 else found.1

/-- The working variables of `dijkstra_with_path_reconstruction`
(dhl_routing_service.cpp:193-196); the priority queue is the multiset of its entries. -/
structure DijkstraState where
  distances : List (NodeID × distance_t)
  parents : List (NodeID × NodeID)
  visited : List NodeID
  pq : List (distance_t × NodeID)

/-- The order `std::greater` puts on the queue entries: by distance, then by node. -/
def pqLess (a b : distance_t × NodeID) : Bool :=
  decide (a.1 < b.1) || (decide (a.1 = b.1) && decide (a.2 < b.2))

/-- The call `pq.top()`: a least entry of the queue, `none` when it is empty. -/
def pqTop : List (distance_t × NodeID) → Option (distance_t × NodeID)
  | [] => none
  | x :: rest =>
    match pqTop rest with
    | none => some x
    | some y => if pqLess y x then some y else some x

/-- The key `to_string(min(a, b)) + "_" + to_string(max(a, b))` of an edge in
`disrupted_edges` (dhl_routing_service.cpp:237). -/
def edgeKey (a b : NodeID) : String :=
  toString (min a b) ++ "_" ++ toString (max a b)

/-- The body of the loop over the neighbours of the node being settled
(dhl_routing_service.cpp:229-255). -/
def relaxNeighbor (disrupted_edges : List (String × Bool)) (blocked_nodes : List NodeID)
    (current_dist : distance_t) (current_node : NodeID) (st : DijkstraState)
    (neighbor : Neighbor) : DijkstraState :=
  if neighbor.node ∈ st.visited then st
  else if !disrupted_edges.isEmpty
      && (mapFind disrupted_edges (edgeKey current_node neighbor.node)).isSome then st
  else if neighbor.node ∈ blocked_nodes then st
  else
    let new_dist := (current_dist + neighbor.distance) % distance_modulus
    let improved : DijkstraState :=
      { st with
        distances := mapAssign st.distances neighbor.node new_dist
        parents := mapAssign st.parents neighbor.node current_node
        pq := (new_dist, neighbor.node) :: st.pq }
    match mapFind st.distances neighbor.node with
    | none => improved
    | some old => if new_dist < old then improved else st

/-- The loop that walks the parent map back from the destination
(dhl_routing_service.cpp:211-223). `acc` holds the nodes pushed so far, last pushed first;
`some []` is the failure return, and `none` means the loop is still running after `fuel`
steps. -/
def rebuildPath (parents : List (NodeID × NodeID)) (start : NodeID) :
    Nat → NodeID → List NodeID → Option (List NodeID)
  | 0, _, _ => none
  | fuel + 1, node, acc =>
    if node = start then some (start :: acc)
    else
      match mapFind parents node with
      | none => some []
      | some parent => rebuildPath parents start fuel parent (node :: acc)

/-- The `while (!pq.empty())` loop of `dijkstra_with_path_reconstruction`
(dhl_routing_service.cpp:202-263); `none` means the loop is still running after `fuel`
iterations. -/
def dijkstraLoop (g : RoadGraph) (disrupted_edges : List (String × Bool))
    (blocked_nodes : List NodeID) (start dest : NodeID) :
    Nat → DijkstraState → Option (List NodeID)
  | 0, _ => none
  | fuel + 1, st =>
    match pqTop st.pq with
    | none => some []
    | some top =>
      let popped : DijkstraState := { st with pq := st.pq.erase top }
      if top.2 ∈ popped.visited then
        dijkstraLoop g disrupted_edges blocked_nodes start dest fuel popped
      else
        let settled : DijkstraState := { popped with visited := top.2 :: popped.visited }
        if top.2 = dest then
          rebuildPath settled.parents start (settled.visited.length + 1) dest []
        else
          match g.get_neighbors top.2 with
          | none => some []
          | some neighbors =>
            dijkstraLoop g disrupted_edges blocked_nodes start dest fuel
              (neighbors.foldl (relaxNeighbor disrupted_edges blocked_nodes top.1 top.2)
                settled)

/-- The number of loop iterations that always suffices: every iteration pops one queue
entry, and entries are pushed once at the start and at most once per adjacency entry of a
node being settled. -/
def dijkstraFuel (g : RoadGraph) : Nat :=
  (g.adjacency.map List.length).sum + 2

/-- The function `DHLRoutingService::dijkstra_with_path_reconstruction`
(dhl_routing_service.cpp:185-264). -/
def DHLRoutingService.dijkstra_with_path_reconstruction {I : Type} (svc : DHLRoutingService I)
    (start dest : NodeID) : List NodeID :=
  match svc.graph with
  | none => if start ≠ 0 then [start] else []
  | some g =>
    if start = dest then (if start ≠ 0 then [start] else [])
    else
      (dijkstraLoop g svc.disrupted_edges svc.blocked_nodes start dest (dijkstraFuel g)
        { distances := [(start, 0)], parents := [], visited := [], pq := [(0, start)] }).getD []

/-- The function `DHLRoutingService::reconstruct_path` (dhl_routing_service.cpp:148-183). -/
def DHLRoutingService.reconstruct_path {I : Type} (svc : DHLRoutingService I)
    (start dest : NodeID) : List NodeID :=
  if svc.graph.isNone ∨ start = 0 ∨ dest = 0 then
    (if start ≠ 0 then [start] else []) ++ (if dest ≠ 0 ∧ start ≠ dest then [dest] else [])
  else if start = dest then [start]
  else
    let path := svc.dijkstra_with_path_reconstruction start dest
    if path.isEmpty then [start, dest] else path

/-- The function `DHLRoutingService::create_route_trace` (dhl_routing_service.cpp:266-284). -/
def DHLRoutingService.create_route_trace {I : Type} (text : TextOps)
    (svc : DHLRoutingService I) (path : List NodeID) : String :=
  if path.isEmpty then "No path found"
  else
    "DHL Route (" ++ String.intercalate " -> "
      (path.map (fun node =>
        toString node ++
          (match svc.coordinate_mapper.getNodeCoordinates node with
          | some coord =>
            " (" ++ text.stream_fixed6 coord.1 ++ ", " ++ text.stream_fixed6 coord.2 ++ ")"
          | none => ""))) ++ ")"

/-- The distance `findRoute` sums along a Dijkstra path (dhl_routing_service.cpp:418-435):
for every step the weight of the first adjacency entry that leads to the next node, and 1
when the adjacency list cannot be read. -/
def pathDistance (g : RoadGraph) : List NodeID → distance_t
  | [] => 0
  | [_] => 0
  | a :: b :: rest =>
    let step : distance_t :=
      match g.get_neighbors a with
      | none => 1
      | some neighbors =>
        match neighbors.find? (fun neighbor => decide (neighbor.node = b)) with
        | some neighbor => neighbor.distance
        | none => 0
    (pathDistance g (b :: rest) + step) % distance_modulus

/-- The part of `DHLRoutingService::findRoute` after the two nearest nodes are found
(dhl_routing_service.cpp:372-490). -/
def DHLRoutingService.findRouteFromNodes {I : Type} (index : ContractionIndexOps I)
    (text : TextOps) (svc : DHLRoutingService I) (g : RoadGraph) (con_index : I)
    (stored : DHLRoutingResult) (start_node dest_node : NodeID) (use_disruptions : Bool) :
    DHLRoutingResult :=
  let start_coord := svc.coordinate_mapper.getNodeCoordinates start_node
  let dest_coord := svc.coordinate_mapper.getNodeCoordinates dest_node
  let gps_info : String :=
    "Start: (" ++ text.stream_double stored.start_lat ++ ", "
      ++ text.stream_double stored.start_lng ++ ") -> Node " ++ toString start_node
      ++ (match start_coord with
        | some c => " at (" ++ text.stream_double c.1 ++ ", " ++ text.stream_double c.2 ++ ")"
        | none => "")
      ++ "; Dest: (" ++ text.stream_double stored.dest_lat ++ ", "
      ++ text.stream_double stored.dest_lng ++ ") -> Node " ++ toString dest_node
      ++ (match dest_coord with
        | some c => " at (" ++ text.stream_double c.1 ++ ", " ++ text.stream_double c.2 ++ ")"
        | none => "")
  let result : DHLRoutingResult :=
    { stored with start_node := start_node, dest_node := dest_node,
                  gps_to_node_info := gps_info }
  if use_disruptions && svc.isNodeBlocked start_node then
    { result with error_message := "Start node " ++ toString start_node ++ " is blocked" }
  else if use_disruptions && svc.isNodeBlocked dest_node then
    { result with
      error_message := "Destination node " ++ toString dest_node ++ " is blocked" }
  else
    let queried : List NodeID × distance_t × Nat :=
      if use_disruptions && !svc.disrupted_edges.isEmpty then
        let path := svc.dijkstra_with_path_reconstruction start_node dest_node
        if path.isEmpty then (path, index.infinity, 0)
        else (path, pathDistance g path, path.length - 1)
      else
        ([], index.get_distance con_index start_node dest_node,
          index.get_hoplinks con_index start_node dest_node)
    let distance := queried.2.1
    let hoplinks := queried.2.2
    let result1 : DHLRoutingResult := { result with path := queried.1 }
    if distance = index.infinity then
      { result1 with
        error_message := "No path exists between nodes " ++ toString start_node ++ " and "
          ++ toString dest_node }
    else
      let path : List NodeID :=
        if result1.path.isEmpty then svc.reconstruct_path start_node dest_node
        else result1.path
      { result1 with
        success := true
        total_distance := distance
        hoplinks_examined := hoplinks
        labeling_time_ms := svc.last_labeling_time_ms
        labeling_size_bytes := svc.last_labeling_size_bytes
        graph_file := svc.current_graph_file
        coordinates_file := svc.current_coord_file
        disruptions_file := svc.current_disruption_file
        index_height := index.height con_index
        avg_cut_size := index.avg_cut_size con_index
        total_labels := index.label_count con_index
        path := path
        path_length := path.length
        complete_route_trace := svc.create_route_trace text path
        blocked_edges :=
          if use_disruptions then svc.disrupted_edges.map Prod.fst else []
        blocked_nodes := if use_disruptions then svc.blocked_nodes else [] }

/-- The function `DHLRoutingService::findRoute` (dhl_routing_service.cpp:340-490). -/
def DHLRoutingService.findRoute {I : Type} (index : ContractionIndexOps I) (text : TextOps)
    (svc : DHLRoutingService I) (start_lat start_lng dest_lat dest_lng : ℚ)
    (use_disruptions : Bool) (threshold_meters : ℚ) : DHLRoutingResult :=
  match svc.graph, svc.con_index with
  | some g, some con_index =>
    let stored : DHLRoutingResult :=
      { DHLRoutingResult.default with
        start_lat := start_lat
        start_lng := start_lng
        dest_lat := dest_lat
        dest_lng := dest_lng
        uses_disruptions := use_disruptions
        coordinate_threshold_meters := threshold_meters }
    let start_node := svc.find_nearest_node text start_lat start_lng threshold_meters
    let dest_node := svc.find_nearest_node text dest_lat dest_lng threshold_meters
    if start_node = 0 then
      { stored with
        error_message := "No start node found within "
          ++ text.to_string_double threshold_meters ++ "m threshold" }
    else if dest_node = 0 then
      { stored with
        error_message := "No destination node found within "
          ++ text.to_string_double threshold_meters ++ "m threshold" }
    else
      svc.findRouteFromNodes index text g con_index stored start_node dest_node use_disruptions
  | _, _ =>
    { DHLRoutingResult.default with error_message := "DHL routing service not initialized" }

/-! ## Routes and the invariants of the Dijkstra loop -/

/-- The graph has an edge from `a` to `b`: `b` is among `neighbours(a)`. -/
def RoadGraph.hasEdge (g : RoadGraph) (a b : NodeID) : Bool :=
  match g.get_neighbors a with
  | none => false
  | some neighbors => neighbors.any (fun neighbor => decide (neighbor.node = b))

/-- A valid route from `start` to `dest`: it starts at `start`, ends at `dest`, every
consecutive pair is joined by an edge of the graph, and no node after the first is
blocked. -/
def validRoute (g : RoadGraph) (blocked_nodes : List NodeID) (start dest : NodeID)
    (path : List NodeID) : Prop :=
  path.head? = some start ∧ path.getLast? = some dest
    ∧ List.Chain' (fun a b => g.hasEdge a b = true ∧ b ∉ blocked_nodes) path

/-- Every settled node other than `start` has a parent that was settled before it; the
list holds the settled nodes, last settled first. -/
def settledChain (parents : List (NodeID × NodeID)) (start : NodeID) : List NodeID → Prop
  | [] => True
  | n :: rest =>
    (n = start ∨ ∃ p, mapFind parents n = some p ∧ p ∈ rest) ∧ settledChain parents start rest

/-- The invariant of the Dijkstra loop: a parent pointer follows an edge into a node that
is not blocked and comes from a settled node; settled nodes have earlier settled parents;
every queued node is `start` or has a parent. -/
structure DijkstraInv (g : RoadGraph) (blocked_nodes : List NodeID) (start : NodeID)
    (st : DijkstraState) : Prop where
  parent_edge : ∀ n p, mapFind st.parents n = some p →
    g.hasEdge p n = true ∧ n ∉ blocked_nodes ∧ p ∈ st.visited
  settled : settledChain st.parents start st.visited
  queued : ∀ e ∈ st.pq, e.2 = start ∨ ∃ p, mapFind st.parents e.2 = some p

/-- The sum of the degrees of the nodes that are not settled yet. -/
def unsettledDegree (g : RoadGraph) (visited : List NodeID) : Nat :=
  (((List.range g.adjacency.length).filter (fun v => decide (v ∉ visited))).map
    (fun v => (g.adjacency.getD v []).length)).sum

/-- The measure that every iteration of the Dijkstra loop decreases. -/
def dijkstraMeasure (g : RoadGraph) (st : DijkstraState) : Nat :=
  st.pq.length + unsettledDegree g st.visited

/-! ## A routing service for concrete runs -/

/-- A road graph for concrete runs: the line 1 - 2 - 3 with weights 5 and 7; node ids start
at 1, so the adjacency list of 0 is empty. -/
def lineRoadGraph : RoadGraph :=
  { adjacency := [[], [⟨2, 5⟩], [⟨1, 5⟩, ⟨3, 7⟩], [⟨2, 7⟩]] }

/-- The coordinates loaded for `lineRoadGraph`: node `n` lies at latitude 0, longitude
`n - 1`. -/
def lineMapper : DHLCoordinateMapper :=
  { node_coordinates := [⟨1, 0, 0⟩, ⟨2, 0, 1⟩, ⟨3, 0, 2⟩]
    node_index_map := [(1, 0), (2, 1), (3, 2)] }

/-- An initialised routing service on `lineRoadGraph` with the given blocked nodes and no
disrupted edge. -/
def lineService (blocked_nodes : List NodeID) : DHLRoutingService Unit :=
  { graph := some lineRoadGraph
    con_index := some ()
    coordinate_mapper := lineMapper
    coordinate_mapping_initialized := true
    disrupted_edges := []
    blocked_nodes := blocked_nodes
    last_labeling_time_ms := 0
    last_labeling_size_bytes := 0
    current_graph_file := ""
    current_coord_file := ""
    current_disruption_file := "" }

/-- A stand-in for the numeric helpers in concrete runs: the distance between two
coordinates is the sum of the absolute differences, numbers print as their floor. -/
def lineText : TextOps :=
  { to_string_double := fun x => toString (Int.floor x)
    stream_double := fun x => toString (Int.floor x)
    stream_fixed6 := fun x => toString (Int.floor x)
    calculateDistance := fun lat1 lng1 lat2 lng2 => |lat2 - lat1| + |lng2 - lng1| }

/-- The number `d` is the distance from the coordinate to its nearest loaded node: some
loaded node lies at distance `d`, and none lies nearer. -/
def isNearestDistance (calculateDistance : ℚ → ℚ → ℚ → ℚ → ℚ) (mapper : DHLCoordinateMapper)
    (latitude longitude d : ℚ) : Prop :=
  (∃ coord ∈ mapper.node_coordinates,
      calculateDistance latitude longitude coord.latitude coord.longitude = d)
    ∧ ∀ coord ∈ mapper.node_coordinates,
      d ≤ calculateDistance latitude longitude coord.latitude coord.longitude

/-- A stand-in for the index of `lineRoadGraph` in concrete runs: node 1 lies at 0, node 2
at 5 and node 3 at 12 along the line, and the distance is the difference of positions. -/
def lineIndex : ContractionIndexOps Unit :=
  { get_distance := fun _ u w =>
      let position : NodeID → Nat := fun n => if n = 1 then 0 else if n = 2 then 5 else 12
      if u = w then 0 else max (position u) (position w) - min (position u) (position w)
    get_hoplinks := fun _ _ _ => 0
    height := fun _ => 1
    avg_cut_size := fun _ => 1
    label_count := fun _ => 3
    infinity := 4294967295 }

/-! ## Walks and shortest distances in the graph store -/

/-- The body of the fold in `Graph.relaxRound`: the relaxation of one edge in both
directions. -/
def Graph.relaxEdge (weighted : Bool) (d : List Nat) (e : NodeID × NodeID × Nat × Bool) :
    List Nat :=
  if e.2.2.2 then d
  else
    let w : Nat := if weighted then e.2.2.1 else 1
    let du := d.getD e.1 Graph.infinity
    let dv := d.getD e.2.1 Graph.infinity
    let d1 := if du + w < dv then d.set e.2.1 (du + w) else d
    let dv1 := d1.getD e.2.1 Graph.infinity
    let du1 := d1.getD e.1 Graph.infinity
    if dv1 + w < du1 then d1.set e.1 (dv1 + w) else d1

/-- An open edge of weight `w` joins the nodes `a` and `b` (in either direction); the
store has the slots `0 .. node_count`. -/
def Graph.hasStep (g : Graph) (weighted : Bool) (a b : NodeID) (w : Nat) : Prop :=
  a ≤ g.node_count ∧ b ≤ g.node_count
    ∧ ∃ e ∈ g.edges, e.2.2.2 = false ∧ (if weighted then e.2.2.1 else 1) = w
      ∧ ((e.1 = a ∧ e.2.1 = b) ∨ (e.1 = b ∧ e.2.1 = a))

/-- A walk from `u` to `v`: the list of its steps, each the node reached and the weight of
the edge taken. -/
def Graph.isWalk (g : Graph) (weighted : Bool) :
    NodeID → NodeID → List (NodeID × Nat) → Prop
  | u, v, [] => u = v ∧ u ≤ g.node_count
  | u, v, step :: rest => g.hasStep weighted u step.1 step.2 ∧ Graph.isWalk g weighted step.1 v rest

/-- The length of a walk: the sum of the weights of its steps. -/
def walkWeight (steps : List (NodeID × Nat)) : Nat :=
  (steps.map Prod.snd).sum

/-- The number `d` is the shortest-path distance from `u` to `v` in the sense of section 3
of the spec: no walk from `u` to `v` is shorter than `d`, and `d` is the length of a walk
unless it is `INF`, which stands for every length from `INF` on. -/
def Graph.isShortest (g : Graph) (weighted : Bool) (u v : NodeID) (d : distance_t) : Prop :=
  d ≤ Graph.infinity
    ∧ (∀ steps, g.isWalk weighted u v steps → d ≤ walkWeight steps)
    ∧ (d < Graph.infinity → ∃ steps, g.isWalk weighted u v steps ∧ walkWeight steps = d)

/-- The relaxation of one direction of an edge: the slot of `b` takes the value of `a` plus
`w` when that is smaller. -/
def Graph.relaxHalf (d : List Nat) (a b : NodeID) (w : Nat) : List Nat :=
  if d.getD a Graph.infinity + w < d.getD b Graph.infinity then
    d.set b (d.getD a Graph.infinity + w)
  else d

/-- The invariant of the relaxation rounds that compute the distances to `u`: there is a
slot for every node, no slot exceeds `INF`, and every slot below `INF` holds the length of
a walk from its node to `u`. -/
structure Graph.RelaxInv (g : Graph) (weighted : Bool) (u : NodeID) (d : List Nat) : Prop where
  length : d.length = g.node_count + 1
  bounded : ∀ i, d.getD i Graph.infinity ≤ Graph.infinity
  sound : ∀ i, d.getD i Graph.infinity < Graph.infinity →
    ∃ steps, g.isWalk weighted i u steps ∧ walkWeight steps = d.getD i Graph.infinity

/-! ## The contraction index (sections 4.B to 4.E of the spec)

`Graph::contract`, `Graph::create_cut_index`, `ContractionIndex` and the separator live in
`road_network.h` and its implementation, which are not part of the sources; they are
modelled from sections 3 and 4 of the spec. The labels hold weighted distances. -/

/-- Modelled from the spec: the subgraph "restricted to S" of section 4.D: the edges with
both ends in `S`. -/
def Graph.restrict (g : Graph) (S : List NodeID) : Graph :=
  { g with edges := g.edges.filter (fun e => decide (e.1 ∈ S) && decide (e.2.1 ∈ S)) }

/-- Modelled from the spec: one ancestor cut in the CutIndex entry of a vertex `v`
(section 3): the cut, the distances from `v` to its vertices in the order of the cut, and
the half below the cut in which `v` lies (`none` when `v` is in the cut itself and its
list of ancestors ends here). -/
structure CutLevel where
  cut : List NodeID
  side : Option Bool
  dist : List distance_t
  deriving DecidableEq, Repr

/-- Modelled from the spec: step 3 of the distance query of section 4.E: the minimum of
`dist(u, c) + dist(c, w)` over the vertices `c` of the cuts that are ancestors of both
vertices; `INF` when there is none (step 4) and for sums from `INF` on (section 4.D). -/
def commonCutDistance : List CutLevel → List CutLevel → distance_t
  | level_u :: rest_u, level_w :: rest_w =>
    let here := (List.zipWith (fun a b => a + b) level_u.dist level_w.dist).foldl min
      Graph.infinity
    let below :=
      if level_u.side = level_w.side ∧ level_u.side ≠ none then commonCutDistance rest_u rest_w
      else Graph.infinity
    min here below
  | _, _ => Graph.infinity

/-- The edges of a graph of the store (section 3 of the spec): both ends are slots of the
store, and no edge is a self-loop. -/
def Graph.wellFormed (g : Graph) : Prop :=
  ∀ e ∈ g.edges, e.1 ≤ g.node_count ∧ e.2.1 ≤ g.node_count ∧ e.1 ≠ e.2.1

/-- Modelled from the spec: `degree(v)` of section 4.A behind the absent `Graph::degree`:
the number of edges at `v`, open or closed. -/
def Graph.degree (g : Graph) (v : NodeID) : Nat :=
  (g.edges.filter (fun e => decide (e.1 = v) || decide (e.2.1 = v))).length

/-- Modelled from the spec: the graph after the vertex `v` is removed by the folding of
section 4.B: the edges at `v` are gone. -/
def Graph.withoutNode (g : Graph) (v : NodeID) : Graph :=
  { g with edges := g.edges.filter (fun e => !(decide (e.1 = v) || decide (e.2.1 = v))) }

/-- Modelled from the spec: one step of the degree-1 folding of section 4.B. The vertex of
degree 1 with the least id is removed; the entry recorded for it is its one neighbour with
the effective weight of the edge between them (`INF` for a closed edge, section 4.A).
`none` when no vertex has degree 1. -/
def Graph.contractStep (g : Graph) : Option (Graph × NodeID × Neighbor) :=
  match (List.range (g.node_count + 1)).find? (fun v => decide (g.degree v = 1)) with
  | none => none
  | some v =>
    match g.edges.find? (fun e => decide (e.1 = v) || decide (e.2.1 = v)) with
    | none => none
    | some e =>
      some (g.withoutNode v, v,
        { node := if e.1 = v then e.2.1 else e.1
          distance := if e.2.2.2 then Graph.infinity else e.2.2.1 })

/-- Modelled from the spec: the loop of the degree-1 folding of section 4.B: steps are
taken until no vertex of degree 1 remains; the entries recorded form the chain table, in
the order of removal. `fuel` bounds the number of steps. -/
def Graph.contractLoop : Nat → Graph → Graph × List (NodeID × Neighbor)
  | 0, g => (g, [])
  | fuel + 1, g =>
    match g.contractStep with
    | none => (g, [])
    | some (g1, v, parent) =>
      ((Graph.contractLoop fuel g1).1, (v, parent) :: (Graph.contractLoop fuel g1).2)

/-- Modelled from the spec: the contraction preprocessor of section 4.B behind the absent
`Graph::contract`: the graph that is left and the chain table `closest`. Every step
removes one edge, so as many steps as there are edges suffice (`contract_complete`). -/
def Graph.contract (g : Graph) : Graph × List (NodeID × Neighbor) :=
  Graph.contractLoop g.edges.length g

/-- Modelled from the spec: the ContractionIndex of sections 3 and 4.E behind the absent
class `ContractionIndex`, built from the cut index and the chain table of the folding. -/
structure ContractionIndex where
  cut_index : List (NodeID × List CutLevel)
  closest : List (NodeID × Neighbor)

/-- Modelled from the spec: step 2 of the distance query of section 4.E: a folded vertex is
redirected through the chain to the closest retained core vertex; the value is that vertex
and the distance accumulated on the way. `fuel` bounds the length of the chain. -/
def ContractionIndex.redirect (closest : List (NodeID × Neighbor)) :
    Nat → NodeID → distance_t → NodeID × distance_t
  | 0, v, pre => (v, pre)
  | fuel + 1, v, pre =>
    match mapFind closest v with
    | none => (v, pre)
    | some parent => ContractionIndex.redirect closest fuel parent.node (pre + parent.distance)

/-- Modelled from the spec: steps 3 and 4 of the distance query of section 4.E for two
vertices of the contracted graph: the minimum over their common ancestor cuts, `INF` when
there is none; a vertex is at the self-distance 0 from itself (section 4.D). -/
def ContractionIndex.core_distance (cut_index : List (NodeID × List CutLevel))
    (a b : NodeID) : distance_t :=
  if a = b then 0
  else
    match mapFind cut_index a, mapFind cut_index b with
    | some label_a, some label_b => commonCutDistance label_a label_b
    | _, _ => Graph.infinity

/-- Modelled from the spec: the distance query of section 4.E behind the absent
`ContractionIndex::get_distance`. Step 1: 0 for `u = w`. Step 2: both ends are redirected
to their core vertices, and the pre-distances are kept. Steps 3 and 4: the distance of the
two core vertices from their labels. The pre-distances are added, and sums from `INF` on
are `INF`. -/
def ContractionIndex.get_distance (index : ContractionIndex) (u w : NodeID) : distance_t :=
  if u = w then 0
  else
    let from_u := ContractionIndex.redirect index.closest index.closest.length u 0
    let from_w := ContractionIndex.redirect index.closest index.closest.length w 0
    min (from_u.2 + from_w.2 + ContractionIndex.core_distance index.cut_index from_u.1 from_w.1)
      Graph.infinity

/-- The same diamond with the nodes numbered from 1 (scenario S1 of the spec). -/
def diamondGraphFromOne : Graph where
  node_count := 4
  edges := [(1, 2, 10, false), (1, 3, 15, false), (2, 4, 20, false), (3, 4, 5, false)]

/-- The answer of the lazy branch of `get_path` when the pair counts as not affected
(Dynamic.cpp:603-608): the distance of the preceding `get_distance` call and the path
reconstructed from the labels. -/
def lazyIndexAnswer {G : Type} (ops : GraphPathOps G) (s : Dynamic G)
    (source target : NodeID) : (distance_t × List NodeID) × Dynamic G :=
  let r := get_distance ops.toGraphOps s source target ops.get_distance_weighted
  ((r.1, if r.1 < ops.infinity then reconstructPathFromLabels ops r.2 source target else []),
    r.2)

/-- The answer of the lazy branch of `get_path` when the pair counts as affected
(Dynamic.cpp:584-601): the result of the Dijkstra search on the temporary graph. -/
def lazyDijkstraAnswer {G : Type} (ops : GraphPathOps G) (s : Dynamic G)
    (source target : NodeID) (weighted : Bool) : (distance_t × List NodeID) × Dynamic G :=
  let r := get_distance ops.toGraphOps s source target ops.get_distance_weighted
  (ops.get_path_dijkstra
      (lazyTempGraph ops.toGraphOps r.2.disruptedClosedEdges r.2.disruptedSlowdownFactorByEdge
        r.2.graph)
      source target weighted,
    r.2)

/-- The ring 1 - 2 - 3 - 4 - 5 - 1 with every edge of weight 10. -/
def ringGraphTen : Graph where
  node_count := 5
  edges :=
    [(1, 2, 10, false), (2, 3, 10, false), (3, 4, 10, false), (4, 5, 10, false),
      (5, 1, 10, false)]

/-- A manager on the ring in LAZY_UPDATE mode whose closed road has fresh ends: the closure
of the road between 1 and 2 is reported with tau = 2/5 and selects IMMEDIATE_UPDATE, then
tau is set to 9/10 (the threshold is a global variable that the front ends write) and a
medium accident is reported on the road between 4 and 5, which selects LAZY_UPDATE. -/
def freshLazyRingState : Dynamic Graph :=
  addUserDisruption Graph.ops
    { addUserDisruption Graph.ops (Dynamic.init ringGraphTen (2 / 5)) 1 2 "Road Closure"
        "Closed" with DISRUPTION_THRESHOLD_TAU := 9 / 10 }
    4 5 "Accident" "Medium"

/-- The weight of one slowed edge in the weighted impact: 1.5 for a factor below 0.5, else
1.0 (Dynamic.cpp:342-346). -/
def slowWeight (r : ℚ) : ℚ :=
  if r < 1 / 2 then 3 / 2 else 1

/-- The slowdown factor that a user report of the given severity writes for its edge, if it
writes one (Dynamic.cpp:62-71). -/
def severityFactor (severity : String) : Option ℚ :=
  if severity = "Heavy" then some (3 / 10)
  else if severity = "Medium" then some (6 / 10)
  else if severity = "Light" then some (85 / 100)
  else none

/-- A user report lowers the weight of its edge: the edge is recorded with a slowdown factor
below 0.5 and the report writes a factor of 0.5 or more. -/
def lowersWeight {G : Type} (s : Dynamic G) (u v : NodeID) (severity : String) : Prop :=
  (severity = "Medium" ∨ severity = "Light")
    ∧ ∃ r0, mapFind s.disruptedSlowdownFactorByEdge (makeEdgeId u v) = some r0 ∧ r0 < 1 / 2

/-- The manager on the chain with tau = 3/8 after a heavy accident has been reported on the
road between 3 and 4: the report selects IMMEDIATE_UPDATE. -/
def immediateChainState : Dynamic Graph :=
  addUserDisruption Graph.ops (Dynamic.init chainGraph (3 / 8)) 3 4 "Accident" "Heavy"

/-! ## The CSV line splitter (Dynamic.cpp:104-123, dhl_coordinate_mapper.cpp:11-30)

The two copies of `parseCSVLine` are the same loop. A `std::string` is the list of its
characters. -/

/-- The double-quote character. -/
def quoteChar : Char := Char.ofNat 34

/-- The comma character. -/
def commaChar : Char := Char.ofNat 44

/-- The `for` loop of `parseCSVLine` over the characters still to read, with the local
variables `fields`, `field` and `inQuotes`, followed by the final `push_back`. -/
def parseCSVLoop : List Char → List (List Char) → List Char → Bool → List (List Char)
  | [], fields, field, _ => fields ++ [field]
  | c :: rest, fields, field, inQuotes =>
    if c = quoteChar then parseCSVLoop rest fields field (!inQuotes)
    else if c = commaChar ∧ inQuotes = false then parseCSVLoop rest (fields ++ [field]) [] inQuotes
    else parseCSVLoop rest fields (field ++ [c]) inQuotes

/-- The function `parseCSVLine`. -/
def parseCSVLine (line : List Char) : List (List Char) :=
  parseCSVLoop line [] [] false

/-- The number of commas of the line that lie outside double quotes: the positions that
hold a comma and have an even number of double quotes before them; `opened` counts the
double quotes read before the line starts. -/
def commasOutsideQuotes (opened : Nat) (line : List Char) : Nat :=
  ((List.range line.length).filter (fun i =>
    decide (line.get? i = some commaChar)
      && decide ((opened + (line.take i).count quoteChar) % 2 = 0))).length

/-! ## The public interface of the DHL routing service (dhl_routing_service.h:95-128)

`initialize` reads files and builds the index through `road_network` code whose header
is absent; what one call found in the files and built from them is the argument `run`. -/

/-- The outcome of a loading step of `initialize`: the file cannot be opened, the step
finished with a value, or it threw after writing a value. -/
inductive LoadOutcome (α : Type)
  | cannotOpen
  | done (value : α)
  | threw (value : α)

/-- The outcome of `build_index` (dhl_routing_service.cpp:105-130) on a loaded graph: the
graph after `contract` and `reset`, the index, and the time and size measured; or an
exception before `con_index` is assigned, with the graph as it is then; or an exception
in `con_index->size()`, after the index and the time are assigned. -/
inductive BuildOutcome (I : Type)
  | built (graph : RoadGraph) (con_index : I) (time_ms : ℚ) (size_bytes : Nat)
  | threw (graph : RoadGraph)
  | threwLate (graph : RoadGraph) (con_index : I) (time_ms : ℚ)

/-- What the environment did during one call of `initialize`: the three file names that
`find_data_files` settles on (`none` when it returns false), and the outcomes of
`load_graph`, `loadNodeCoordinates`, `loadRoadSegments` (only whether it threw: it writes
the road segments of the mapper, which no query of the service reads) and `build_index`. -/
structure InitializeRun (I : Type) where
  detected : Option (String × String × String)
  graph_load : LoadOutcome RoadGraph
  coordinate_load : LoadOutcome DHLCoordinateMapper
  segments_threw : Bool
  index_build : BuildOutcome I

/-- The constructor `DHLRoutingService::DHLRoutingService()` with the default member
initialisers (dhl_routing_service.cpp:13-17, dhl_routing_service.h:60-93). -/
def DHLRoutingService.new {I : Type} : DHLRoutingService I where
  graph := none
  con_index := none
  coordinate_mapper := { node_coordinates := [], node_index_map := [] }
  coordinate_mapping_initialized := false
  disrupted_edges := []
  blocked_nodes := []
  last_labeling_time_ms := 0
  last_labeling_size_bytes := 0
  current_graph_file := ""
  current_coord_file := ""
  current_disruption_file := ""

/-- The function `DHLRoutingService::initialize` (dhl_routing_service.cpp:286-338): the
value it returns and the state it leaves behind. -/
def DHLRoutingService.initializeService {I : Type} (svc : DHLRoutingService I)
    (graph_file coord_file disruption_file : String) (run : InitializeRun I) :
    Bool × DHLRoutingService I :=
  let files : Option (String × String × String) :=
    if graph_file = "" ∨ coord_file = "" then run.detected
    else some (graph_file, coord_file, disruption_file)
  match files with
  | none => (false, svc)
  | some (final_graph_file, final_coord_file, final_disruption_file) =>
    match run.graph_load with
    | LoadOutcome.cannotOpen => (false, svc)
    | LoadOutcome.threw g => (false, { svc with graph := some g })
    | LoadOutcome.done g =>
      let svc1 : DHLRoutingService I :=
        { svc with graph := some g, current_graph_file := final_graph_file }
      match run.coordinate_load with
      | LoadOutcome.cannotOpen => (false, svc1)
      | LoadOutcome.threw mapper => (false, { svc1 with coordinate_mapper := mapper })
      | LoadOutcome.done mapper =>
        let svc2 : DHLRoutingService I := { svc1 with coordinate_mapper := mapper }
        if mapper.node_coordinates.isEmpty then (false, svc2)
        else
          let svc3 : DHLRoutingService I :=
            { svc2 with
              current_coord_file := final_coord_file
              coordinate_mapping_initialized := true }
          if final_disruption_file ≠ "" ∧ run.segments_threw = true then (false, svc3)
          else
            let svc4 : DHLRoutingService I :=
              if final_disruption_file ≠ "" then
                { svc3 with current_disruption_file := final_disruption_file }
              else svc3
            match run.index_build with
            | BuildOutcome.threw g1 => (false, { svc4 with graph := some g1 })
            | BuildOutcome.threwLate g1 con_index time_ms =>
              (false,
                { svc4 with
                  graph := some g1
                  con_index := some con_index
                  last_labeling_time_ms := time_ms })
            | BuildOutcome.built g1 con_index time_ms size_bytes =>
              (true,
                { svc4 with
                  graph := some g1
                  con_index := some con_index
                  last_labeling_time_ms := time_ms
                  last_labeling_size_bytes := size_bytes })

/-- The function `DHLRoutingService::addBlockedNode`: `std::set::insert`. -/
def DHLRoutingService.addBlockedNode {I : Type} (svc : DHLRoutingService I) (node : NodeID) :
    DHLRoutingService I :=
  { svc with
    blocked_nodes :=
      if node ∈ svc.blocked_nodes then svc.blocked_nodes
      else svc.blocked_nodes.orderedInsert (fun a b => a ≤ b) node }

/-- The function `DHLRoutingService::removeBlockedNode`: `std::set::erase`. -/
def DHLRoutingService.removeBlockedNode {I : Type} (svc : DHLRoutingService I)
    (node : NodeID) : DHLRoutingService I :=
  { svc with blocked_nodes := svc.blocked_nodes.filter (fun n => decide (n ≠ node)) }

/-- The function `DHLRoutingService::clearBlockedNodes`. -/
def DHLRoutingService.clearBlockedNodes {I : Type} (svc : DHLRoutingService I) :
    DHLRoutingService I :=
  { svc with blocked_nodes := [] }

/-- A call on the public interface of `DHLRoutingService` that can write the state or
read the disruption set. -/
inductive ServiceCall (I : Type)
  | initializeService (graph_file coord_file disruption_file : String) (run : InitializeRun I)
  | findRoute (start_lat start_lng dest_lat dest_lng : ℚ) (use_disruptions : Bool)
      (threshold_meters : ℚ)
  | addBlockedNode (node : NodeID)
  | removeBlockedNode (node : NodeID)
  | clearBlockedNodes

/-- The state of the service after one call; `findRoute` writes no data member. -/
def runServiceCall {I : Type} (svc : DHLRoutingService I) : ServiceCall I → DHLRoutingService I
  | ServiceCall.initializeService graph_file coord_file disruption_file run =>
    (svc.initializeService graph_file coord_file disruption_file run).2
  | ServiceCall.findRoute _ _ _ _ _ _ => svc
  | ServiceCall.addBlockedNode node => svc.addBlockedNode node
  | ServiceCall.removeBlockedNode node => svc.removeBlockedNode node
  | ServiceCall.clearBlockedNodes => svc.clearBlockedNodes

/-- The state of the service after a sequence of calls. -/
def runServiceCalls {I : Type} (svc : DHLRoutingService I) (calls : List (ServiceCall I)) :
    DHLRoutingService I :=
  calls.foldl runServiceCall svc

/-- One run of `initialize` for concrete runs: the files load `lineRoadGraph` and
`lineMapper`, and `build_index` builds the index of `lineIndex`. -/
def lineInitializeRun : InitializeRun Unit :=
  { detected := none
    graph_load := LoadOutcome.done lineRoadGraph
    coordinate_load := LoadOutcome.done lineMapper
    segments_threw := false
    index_build := BuildOutcome.built lineRoadGraph () 0 0 }

/-- A sequence of calls for concrete runs: `initialize` on two named files, then node 3 is
blocked, a route is queried, node 2 is blocked and unblocked again. -/
def lineServiceCalls : List (ServiceCall Unit) :=
  [ServiceCall.initializeService "graph.txt" "coords.csv" "" lineInitializeRun,
    ServiceCall.addBlockedNode 3,
    ServiceCall.findRoute 0 0 0 1 true 1,
    ServiceCall.addBlockedNode 2,
    ServiceCall.removeBlockedNode 2]

/-! ## Routes over the arcs that the Dijkstra search follows -/

/-- The adjacency list of `a` holds the entry (`b`, `w`). -/
def RoadGraph.hasArc (g : RoadGraph) (a b : NodeID) (w : distance_t) : Prop :=
  ∃ neighbors, g.get_neighbors a = some neighbors ∧ (⟨b, w⟩ : Neighbor) ∈ neighbors

/-- A route from `a`: a sequence of adjacency entries, each taken from the list of the node
reached before it, whose far endpoints are not blocked. -/
def isRoute (g : RoadGraph) (blocked_nodes : List NodeID) : NodeID → List Neighbor → Prop
  | _, [] => True
  | a, step :: rest =>
    g.hasArc a step.node step.distance ∧ step.node ∉ blocked_nodes
      ∧ isRoute g blocked_nodes step.node rest

/-- The node a route from `a` ends in. -/
def routeEnd : NodeID → List Neighbor → NodeID
  | a, [] => a
  | _, step :: rest => routeEnd step.node rest

/-- The total weight of a route, as a natural number. -/
def routeWeight (steps : List Neighbor) : Nat :=
  (steps.map (fun step => step.distance)).sum

/-- The nodes of a route from `a`, in order. -/
def routeNodes (a : NodeID) (steps : List Neighbor) : List NodeID :=
  a :: steps.map (fun step => step.node)

/-- The invariant of the Dijkstra loop that gives shortest distances. The tentative
distance of `start` is 0; a parent pointer follows an arc whose weight is the difference
of the two tentative distances; the queue holds, for every node that is not settled, its
tentative distance, and no key below it; every arc out of a settled node outside `exempt`
has been relaxed; the distance of a settled node is at most the weight of every route to
it; `dest` is not settled. -/
structure DijkstraOpt (g : RoadGraph) (blocked_nodes : List NodeID) (start dest : NodeID)
    (exempt : List NodeID) (st : DijkstraState) : Prop where
  start_dist : mapFind st.distances start = some 0
  start_parent : mapFind st.parents start = none
  start_settled : start ∈ st.visited ∨ st.pq = [(0, start)]
  tree : ∀ n p, mapFind st.parents n = some p →
    ∃ dp w, mapFind st.distances p = some dp ∧ mapFind st.distances n = some (dp + w)
      ∧ g.hasArc p n w
  pq_dist : ∀ e ∈ st.pq, ∃ d, mapFind st.distances e.2 = some d ∧ d ≤ e.1
  pq_has : ∀ n d, mapFind st.distances n = some d → n ∉ st.visited → (d, n) ∈ st.pq
  visited_dist : ∀ x ∈ st.visited, ∃ d, mapFind st.distances x = some d
  closed : ∀ x ∈ st.visited, x ∉ exempt → ∀ dx, mapFind st.distances x = some dx →
    ∀ y w, g.hasArc x y w → y ∉ blocked_nodes → y ∉ st.visited →
      ∃ dy, mapFind st.distances y = some dy ∧ dy ≤ dx + w
  optimal : ∀ x ∈ st.visited, ∀ dx, mapFind st.distances x = some dx →
    ∀ steps, isRoute g blocked_nodes start steps → routeEnd start steps = x →
      dx ≤ routeWeight steps
  dest_open : dest ∉ st.visited
  visited_nodup : st.visited.Nodup

/-- The result of a correct search for a shortest route from `start` to `dest`: the empty
list when no route over arcs with unblocked far endpoints reaches `dest`, and otherwise
the node sequence of such a route whose weight is the least among all of them. -/
def isShortestRouteResult (g : RoadGraph) (blocked_nodes : List NodeID) (start dest : NodeID)
    (path : List NodeID) : Prop :=
  (path = [] ∧ ¬ ∃ steps, isRoute g blocked_nodes start steps ∧ routeEnd start steps = dest)
    ∨ ∃ steps, isRoute g blocked_nodes start steps ∧ routeEnd start steps = dest
      ∧ path = routeNodes start steps
      ∧ ∀ steps2, isRoute g blocked_nodes start steps2 → routeEnd start steps2 = dest →
        routeWeight steps ≤ routeWeight steps2

/-! ## The nearest-node scan with a distance that may be NaN

`calculateDistance` returns NaN for some inputs: for a coordinate that is NaN itself (the
text "nan" in the file parses to it), and for nearly antipodal points, where rounding
takes the haversine term `a` above 1 and `sqrt(1-a)` is NaN. The comparison
`dist < min_distance` is false when `dist` is NaN. -/

/-- The function `DHLCoordinateMapper::findNearestNode` (dhl_coordinate_mapper.cpp:155-174)
with a distance function whose value may be NaN (`none`): the comparison
`dist < min_distance` fails on NaN, so the loop passes over such a node. -/
def DHLCoordinateMapper.findNearestNodeNaN (calculateDistance : ℚ → ℚ → ℚ → ℚ → Option ℚ)
    (mapper : DHLCoordinateMapper) (latitude longitude : ℚ) : NodeID × ℚ :=
  if mapper.node_coordinates.isEmpty then (0, DBL_MAX)
  else
    mapper.node_coordinates.foldl
      (fun best coord =>
        match calculateDistance latitude longitude coord.latitude coord.longitude with
        | none => best
        | some dist => if dist < best.2 then (coord.node_id, dist) else best)
      (0, DBL_MAX)

/-- A distance function for concrete runs on the line: NaN for the node at longitude 0, and
the distance of `lineText` for every other node. -/
def lineDistanceNaN (lat1 lng1 lat2 lng2 : ℚ) : Option ℚ :=
  if lng2 = 0 then none else some (lineText.calculateDistance lat1 lng1 lat2 lng2)

/-! ## Lemmas on the containers and the loops -/

theorem foldl_closed_weight (l : List EdgeID) (a : ℚ) :
    l.foldl (fun acc _ => acc + 2) a = a + 2 * (l.length : ℚ) := by
  induction l generalizing a with
  | nil => simp
  | cons x xs ih =>
    simp only [List.foldl_cons, List.length_cons, ih]
    push_cast
    ring

theorem foldl_slowed_weight (l : List (EdgeID × ℚ)) (a : ℚ) :
    l.foldl (fun acc entry => if entry.2 < 1 / 2 then acc + 3 / 2 else acc + 1) a
      = a + (l.map (fun e => if e.2 < 1 / 2 then (3 / 2 : ℚ) else 1)).sum := by
  induction l generalizing a with
  | nil => simp
  | cons x xs ih =>
    simp only [List.foldl_cons, List.map_cons, List.sum_cons, ih]
    split <;> ring

theorem length_le_slowed_weight (l : List (EdgeID × ℚ)) :
    (l.length : ℚ) ≤ (l.map (fun e => if e.2 < 1 / 2 then (3 / 2 : ℚ) else 1)).sum := by
  induction l with
  | nil => simp
  | cons x xs ih =>
    simp only [List.length_cons, List.map_cons, List.sum_cons]
    push_cast
    split <;> linarith

theorem count_le_specWeightedImpact (closed : List EdgeID) (slowed : List (EdgeID × ℚ)) :
    ((closed.length + slowed.length : Nat) : ℚ) ≤ specWeightedImpact closed slowed := by
  unfold specWeightedImpact
  have h1 := length_le_slowed_weight slowed
  have h2 : (0 : ℚ) ≤ (closed.length : ℚ) := Nat.cast_nonneg _
  push_cast
  linarith

theorem base_le_weighted (closed : List EdgeID) (slowed : List (EdgeID × ℚ)) (n : Nat) :
    ((closed.length + slowed.length : Nat) : ℚ) / (n : ℚ)
      ≤ specWeightedImpact closed slowed / (n : ℚ) :=
  div_le_div_of_nonneg_right (count_le_specWeightedImpact closed slowed) (Nat.cast_nonneg n)

/-- The percentage in closed form. -/
theorem calculateNetworkImpactPercentage_eq {G : Type} (ops : GraphOps G) (s : Dynamic G) :
    calculateNetworkImpactPercentage ops s
      = if ops.edge_count s.graph = 0 then 0
        else min 1 (specWeightedImpact s.disruptedClosedEdges s.disruptedSlowdownFactorByEdge
          / (ops.edge_count s.graph : ℚ)) := by
  unfold calculateNetworkImpactPercentage
  by_cases h : ops.edge_count s.graph = 0
  · simp [h]
  · simp only [h, if_false]
    have hw : List.foldl
        (fun acc entry => if entry.2 < 1 / 2 then acc + 3 / 2 else acc + 1)
        (List.foldl (fun acc _ => acc + 2) (0 : ℚ) s.disruptedClosedEdges)
        s.disruptedSlowdownFactorByEdge
        = specWeightedImpact s.disruptedClosedEdges s.disruptedSlowdownFactorByEdge := by
      rw [foldl_slowed_weight, foldl_closed_weight]
      unfold specWeightedImpact
      ring
    rw [hw, max_eq_right (base_le_weighted _ _ _)]

theorem determineUpdateMode_calculateImpactScore {G : Type} (ops : GraphOps G)
    (s : Dynamic G) (r j : ℚ) (c : Bool) (len : ℚ) :
    determineUpdateMode (calculateImpactScore ops s r j c len)
      = specModeByThreshold (calculateNetworkImpactPercentage ops s)
          s.DISRUPTION_THRESHOLD_TAU := by
  simp [determineUpdateMode, calculateImpactScore, specModeByThreshold]

theorem selectMode_of_mode {G : Type} (ops : GraphOps G) (s : Dynamic G)
    (nodes : List NodeID) (m : Mode)
    (hm : m = specModeByThreshold (calculateNetworkImpactPercentage ops s)
      s.DISRUPTION_THRESHOLD_TAU) :
    (if m = Mode.IMMEDIATE_UPDATE then triggerBackgroundLabelUpdate ops (setMode s m)
      else if m = Mode.LAZY_UPDATE then markLabelsStale (setMode s m) nodes
      else setMode s m) = selectMode ops s nodes := by
  subst hm
  unfold selectMode specModeByThreshold
  by_cases hp : calculateNetworkImpactPercentage ops s ≥ s.DISRUPTION_THRESHOLD_TAU
  · simp only [hp, if_true]
    simp [triggerBackgroundLabelUpdate, setMode]
  · simp only [hp, if_false]
    simp

theorem addUserDisruption_eq {G : Type} (ops : GraphOps G) (s : Dynamic G) (u v : NodeID)
    (incidentType severity : String) :
    addUserDisruption ops s u v incidentType severity
      = if invalidNodeIds ops s u v then s
        else selectMode ops (userRecorded s u v incidentType severity) [u, v] := by
  unfold addUserDisruption
  by_cases hinv : invalidNodeIds ops s u v = true
  · simp [hinv]
  · simp only [hinv, if_false, Bool.false_eq_true]
    by_cases h1 : severity = "Heavy"
    · simp only [userRecorded, h1, if_true]
      exact selectMode_of_mode ops _ _ _ (determineUpdateMode_calculateImpactScore ops _ _ _ _ _)
    · by_cases h2 : severity = "Medium"
      · simp only [userRecorded, h1, h2, if_true, if_false]
        exact selectMode_of_mode ops _ _ _
          (determineUpdateMode_calculateImpactScore ops _ _ _ _ _)
      · by_cases h3 : severity = "Light"
        · simp only [userRecorded, h1, h2, h3, if_true, if_false]
          exact selectMode_of_mode ops _ _ _
            (determineUpdateMode_calculateImpactScore ops _ _ _ _ _)
        · by_cases h4 : severity = "Closed"
          · simp only [userRecorded, h1, h2, h3, h4, if_true, if_false]
            exact selectMode_of_mode ops _ _ _
              (determineUpdateMode_calculateImpactScore ops _ _ _ _ _)
          · simp only [userRecorded, h1, h2, h3, h4, if_false]
            exact selectMode_of_mode ops _ _ _
              (determineUpdateMode_calculateImpactScore ops _ _ _ _ _)

theorem loadDisruptionsFinish_eq {G : Type} (ops : GraphOps G) (s : Dynamic G) :
    loadDisruptionsFinish ops s
      = if s.disruptedClosedEdges = [] ∧ s.disruptedSlowdownFactorByEdge = [] then s
        else selectMode ops s
          (affectedNodes s.disruptedClosedEdges s.disruptedSlowdownFactorByEdge) := by
  unfold loadDisruptionsFinish
  by_cases he : s.disruptedClosedEdges = [] ∧ s.disruptedSlowdownFactorByEdge = []
  · simp [he.1, he.2]
  · have hne : (!s.disruptedClosedEdges.isEmpty || !s.disruptedSlowdownFactorByEdge.isEmpty)
        = true := by
      rcases Classical.not_and_iff_or_not_not.mp he with h | h
      · simp [List.isEmpty_iff, h]
      · simp [List.isEmpty_iff, h]
    rw [if_pos hne, if_neg he]
    exact selectMode_of_mode ops _ _ _
      (by simp [determineUpdateMode, specModeByThreshold])

theorem loadDisruptions_eq {G : Type} (ops : GraphOps G) (s : Dynamic G)
    (file : ScenarioFile) :
    loadDisruptions ops s file = loadDisruptionsFinish ops (loadRead s file) := by
  cases file <;> simp [loadDisruptions, loadRead, loadDisruptionsFinish]

theorem loadDisruptionsRow_sameControl {G : Type} (s : Dynamic G) (row : ScenarioRow) :
    sameControl (loadDisruptionsRow s row) s := by
  unfold loadDisruptionsRow sameControl
  by_cases hc : row.isClosed = true
  · simp [hc]
  · by_cases hs : clampSlowdown
        (row.speed_kph / (if row.freeFlow_kph > 0 then row.freeFlow_kph else 1)) < 1
    · simp only [hc, hs, if_true, if_false, Bool.false_eq_true]
      simp
    · simp only [hc, hs, if_false, Bool.false_eq_true]
      simp

theorem loadDisruptionsRows_sameControl {G : Type} (s : Dynamic G)
    (rows : List (Option ScenarioRow)) : sameControl (loadDisruptionsRows s rows) s := by
  induction rows generalizing s with
  | nil => simp [loadDisruptionsRows, sameControl]
  | cons line rest ih =>
    cases line with
    | none => exact ih s
    | some row =>
      have h1 := ih (loadDisruptionsRow s row)
      have h2 := loadDisruptionsRow_sameControl s row
      unfold sameControl at h1 h2 ⊢
      unfold loadDisruptionsRows at h1 ⊢
      simp only [List.foldl_cons]
      refine ⟨h1.1.trans h2.1, h1.2.1.trans h2.2.1, h1.2.2.1.trans h2.2.2.1,
        h1.2.2.2.1.trans h2.2.2.2.1, h1.2.2.2.2.1.trans h2.2.2.2.2.1,
        h1.2.2.2.2.2.1.trans h2.2.2.2.2.2.1, h1.2.2.2.2.2.2.trans h2.2.2.2.2.2.2⟩

theorem loadRead_sameControl {G : Type} (s : Dynamic G) (file : ScenarioFile) :
    sameControl (loadRead s file) s := by
  cases file with
  | unreadable => simp [loadRead, sameControl]
  | noHeader => simp [loadRead, sameControl]
  | lines header rows =>
    have h := loadDisruptionsRows_sameControl
      ({ s with
        disruptedClosedEdges := []
        disruptedSlowdownFactorByEdge := []
        disruptionSeverityByEdge := []
        disruptionTypeByEdge := [] } : Dynamic G) rows
    simpa [loadRead, sameControl] using h

theorem userRecorded_sameControl {G : Type} (s : Dynamic G) (u v : NodeID)
    (incidentType severity : String) :
    sameControl (userRecorded s u v incidentType severity) s := by
  unfold userRecorded sameControl
  split_ifs <;> simp

theorem makeEdgeId_zero (n : NodeID) : makeEdgeId n 0 = (0, n) := by
  unfold makeEdgeId
  rcases Nat.eq_zero_or_pos n with h | h
  · simp [h]
  · simp [h]

theorem markLabelsStale_eq {G : Type} (s : Dynamic G) (nodes : List NodeID) :
    markLabelsStale s nodes
      = { s with
          stale_nodes := s.stale_nodes ∪ nodes.toFinset
          dirty_pairs := s.dirty_pairs ∪ (nodes.map (fun n => ((0, n) : NodeID × NodeID))).toFinset } := by
  induction nodes generalizing s with
  | nil => simp [markLabelsStale]
  | cons x xs ih =>
    have h := ih ({ s with
      stale_nodes := insert x s.stale_nodes
      dirty_pairs := mark_dirty s.dirty_pairs x 0 } : Dynamic G)
    unfold markLabelsStale at h ⊢
    simp only [List.foldl_cons]
    rw [h]
    simp [mark_dirty, makeEdgeId_zero, Finset.insert_union, Finset.union_insert]

theorem calculateNetworkImpactPercentage_congr {G : Type} (ops : GraphOps G)
    (a b : Dynamic G) (hg : ops.edge_count a.graph = ops.edge_count b.graph)
    (hc : a.disruptedClosedEdges = b.disruptedClosedEdges)
    (hs : a.disruptedSlowdownFactorByEdge = b.disruptedSlowdownFactorByEdge) :
    calculateNetworkImpactPercentage ops a = calculateNetworkImpactPercentage ops b := by
  rw [calculateNetworkImpactPercentage_eq, calculateNetworkImpactPercentage_eq, hg, hc, hs]

theorem selectMode_immediate {G : Type} (ops : GraphOps G) (s : Dynamic G)
    (nodes : List NodeID)
    (hp : calculateNetworkImpactPercentage ops s ≥ s.DISRUPTION_THRESHOLD_TAU) :
    selectMode ops s nodes = precomputeAffectedLabels ops (setMode s Mode.IMMEDIATE_UPDATE) := by
  unfold selectMode
  rw [if_pos hp]

theorem selectMode_lazy {G : Type} (ops : GraphOps G) (s : Dynamic G) (nodes : List NodeID)
    (hp : ¬ calculateNetworkImpactPercentage ops s ≥ s.DISRUPTION_THRESHOLD_TAU) :
    selectMode ops s nodes = markLabelsStale (setMode s Mode.LAZY_UPDATE) nodes := by
  unfold selectMode
  rw [if_neg hp]

/-- The disruption records and the threshold are not touched by the final step. -/
theorem selectMode_records {G : Type} (ops : GraphOps G) (s : Dynamic G)
    (nodes : List NodeID) :
    (selectMode ops s nodes).disruptedClosedEdges = s.disruptedClosedEdges
      ∧ (selectMode ops s nodes).disruptedSlowdownFactorByEdge
          = s.disruptedSlowdownFactorByEdge
      ∧ (selectMode ops s nodes).disruptionSeverityByEdge = s.disruptionSeverityByEdge
      ∧ (selectMode ops s nodes).disruptionTypeByEdge = s.disruptionTypeByEdge
      ∧ (selectMode ops s nodes).DISRUPTION_THRESHOLD_TAU = s.DISRUPTION_THRESHOLD_TAU := by
  by_cases hp : calculateNetworkImpactPercentage ops s ≥ s.DISRUPTION_THRESHOLD_TAU
  · rw [selectMode_immediate ops s nodes hp]
    unfold precomputeAffectedLabels setMode
    split_ifs <;> simp
  · rw [selectMode_lazy ops s nodes hp, markLabelsStale_eq]
    simp [setMode]

theorem selectMode_mode {G : Type} (ops : GraphOps G) (s : Dynamic G) (nodes : List NodeID) :
    (selectMode ops s nodes).currentMode
      = specModeByThreshold (calculateNetworkImpactPercentage ops s)
          s.DISRUPTION_THRESHOLD_TAU := by
  by_cases hp : calculateNetworkImpactPercentage ops s ≥ s.DISRUPTION_THRESHOLD_TAU
  · rw [selectMode_immediate ops s nodes hp]
    unfold precomputeAffectedLabels setMode specModeByThreshold
    split_ifs <;> simp
  · rw [selectMode_lazy ops s nodes hp, markLabelsStale_eq]
    simp [setMode, specModeByThreshold, hp]

theorem loadDisruptions_records {G : Type} (ops : GraphOps G) (s : Dynamic G)
    (file : ScenarioFile) :
    (loadDisruptions ops s file).disruptedClosedEdges = (loadRead s file).disruptedClosedEdges
      ∧ (loadDisruptions ops s file).disruptedSlowdownFactorByEdge
          = (loadRead s file).disruptedSlowdownFactorByEdge
      ∧ (loadDisruptions ops s file).DISRUPTION_THRESHOLD_TAU = s.DISRUPTION_THRESHOLD_TAU := by
  have hctl := loadRead_sameControl s file
  rw [loadDisruptions_eq, loadDisruptionsFinish_eq]
  split_ifs with he
  · exact ⟨rfl, rfl, hctl.2.2.2.2.2.2⟩
  · have hrec := selectMode_records ops (loadRead s file)
      (affectedNodes (loadRead s file).disruptedClosedEdges
        (loadRead s file).disruptedSlowdownFactorByEdge)
    exact ⟨hrec.1, hrec.2.1, hrec.2.2.2.2.trans hctl.2.2.2.2.2.2⟩

theorem loadDisruptions_mode {G : Type} (ops : GraphOps G) (s : Dynamic G)
    (file : ScenarioFile)
    (hne : (loadDisruptions ops s file).disruptedClosedEdges ≠ []
      ∨ (loadDisruptions ops s file).disruptedSlowdownFactorByEdge ≠ []) :
    (loadDisruptions ops s file).currentMode
      = specModeByThreshold
          (calculateNetworkImpactPercentage ops
            { loadDisruptions ops s file with graph := s.graph })
          s.DISRUPTION_THRESHOLD_TAU := by
  have hctl := loadRead_sameControl s file
  rw [loadDisruptions_eq, loadDisruptionsFinish_eq] at hne ⊢
  by_cases he : (loadRead s file).disruptedClosedEdges = []
      ∧ (loadRead s file).disruptedSlowdownFactorByEdge = []
  · rw [if_pos he] at hne
    rcases hne with h | h
    · exact absurd he.1 h
    · exact absurd he.2 h
  · rw [if_neg he]
    have hrec := selectMode_records ops (loadRead s file)
      (affectedNodes (loadRead s file).disruptedClosedEdges
        (loadRead s file).disruptedSlowdownFactorByEdge)
    rw [selectMode_mode, hctl.2.2.2.2.2.2]
    congr 1
    apply calculateNetworkImpactPercentage_congr
    · simp [hctl.1]
    · exact hrec.1.symm
    · exact hrec.2.1.symm

theorem addUserDisruption_mode {G : Type} (ops : GraphOps G) (s : Dynamic G) (u v : NodeID)
    (incidentType severity : String) (hvalid : invalidNodeIds ops s u v = false) :
    (addUserDisruption ops s u v incidentType severity).currentMode
      = specModeByThreshold
          (calculateNetworkImpactPercentage ops
            { addUserDisruption ops s u v incidentType severity with graph := s.graph })
          s.DISRUPTION_THRESHOLD_TAU := by
  have hctl := userRecorded_sameControl s u v incidentType severity
  rw [addUserDisruption_eq, hvalid]
  simp only [Bool.false_eq_true, if_false]
  have hrec := selectMode_records ops (userRecorded s u v incidentType severity) [u, v]
  rw [selectMode_mode, hctl.2.2.2.2.2.2]
  congr 1
  apply calculateNetworkImpactPercentage_congr
  · simp [hctl.1]
  · exact hrec.1.symm
  · exact hrec.2.1.symm

theorem makeEdgeId_comm (a b : NodeID) : makeEdgeId a b = makeEdgeId b a := by
  unfold makeEdgeId
  rcases Nat.lt_trichotomy a b with h | h | h
  · simp [h, Nat.lt_asymm h]
  · simp [h]
  · simp [h, Nat.lt_asymm h]

theorem mapFind_mapAssign_self {K V : Type} [DecidableEq K] (m : List (K × V)) (k : K)
    (v : V) : mapFind (mapAssign m k v) k = some v := by
  induction m with
  | nil => simp [mapAssign, mapFind]
  | cons e rest ih =>
    obtain ⟨k0, v0⟩ := e
    by_cases h : k0 = k
    · simp [mapAssign, mapFind, h]
    · simp [mapAssign, mapFind, h, ih]

theorem mem_setInsert {α : Type} [DecidableEq α] (l : List α) (x : α) :
    x ∈ setInsert l x := by
  unfold setInsert
  split_ifs with h
  · exact h
  · simp

theorem lazyChainState_eq :
    lazyChainState
      = { Dynamic.init chainGraph (1 / 2) with
          currentMode := Mode.LAZY_UPDATE
          disruptedSlowdownFactorByEdge := [((3, 4), 3 / 10)]
          disruptionSeverityByEdge := [((3, 4), "Heavy")]
          disruptionTypeByEdge := [((3, 4), "Accident")]
          stale_nodes := {3, 4}
          dirty_pairs := {(0, 3), (0, 4)} } := by
  have hpct : ¬ calculateNetworkImpactPercentage Graph.ops
      (userRecorded (Dynamic.init chainGraph (1 / 2)) 3 4 "Accident" "Heavy")
      ≥ (userRecorded (Dynamic.init chainGraph (1 / 2)) 3 4 "Accident"
          "Heavy").DISRUPTION_THRESHOLD_TAU := by
    rw [calculateNetworkImpactPercentage_eq]
    simp [userRecorded, Dynamic.init, Graph.ops, chainGraph, specWeightedImpact, mapAssign]
    norm_num
  unfold lazyChainState
  rw [addUserDisruption_eq, if_neg (by decide), selectMode_lazy _ _ _ hpct, markLabelsStale_eq]
  simp [userRecorded, Dynamic.init, setMode, mapAssign, makeEdgeId]

theorem lazyChainState_mode : lazyChainState.currentMode = Mode.LAZY_UPDATE := by
  rw [lazyChainState_eq]

theorem specWeightedImpact_agree (c1 c2 : List EdgeID) (s1 s2 : List (EdgeID × ℚ))
    (hc : c1.length = c2.length) (hs : s1.Perm s2) :
    specWeightedImpact c1 s1 = specWeightedImpact c2 s2 := by
  unfold specWeightedImpact
  rw [hc, (hs.map _).sum_eq]

theorem calculateNetworkImpactPercentage_agree {G : Type} (ops : GraphOps G)
    (a b : Dynamic G) (hg : ops.edge_count a.graph = ops.edge_count b.graph)
    (hc : a.disruptedClosedEdges.length = b.disruptedClosedEdges.length)
    (hs : a.disruptedSlowdownFactorByEdge.Perm b.disruptedSlowdownFactorByEdge) :
    calculateNetworkImpactPercentage ops a = calculateNetworkImpactPercentage ops b := by
  rw [calculateNetworkImpactPercentage_eq, calculateNetworkImpactPercentage_eq, hg,
    specWeightedImpact_agree _ _ _ _ hc hs]

theorem addUserDisruption_records {G : Type} (ops : GraphOps G) (s : Dynamic G)
    (u v : NodeID) (incidentType severity : String)
    (hvalid : invalidNodeIds ops s u v = false) :
    (addUserDisruption ops s u v incidentType severity).disruptedClosedEdges
        = (userRecorded s u v incidentType severity).disruptedClosedEdges
      ∧ (addUserDisruption ops s u v incidentType severity).disruptedSlowdownFactorByEdge
        = (userRecorded s u v incidentType severity).disruptedSlowdownFactorByEdge := by
  have hrec := selectMode_records ops (userRecorded s u v incidentType severity) [u, v]
  rw [addUserDisruption_eq, hvalid]
  simp only [Bool.false_eq_true, if_false]
  exact ⟨hrec.1, hrec.2.1⟩

theorem clampSlowdown_half : clampSlowdown (20 / (if (40 : ℚ) > 0 then 40 else 1)) = 1 / 2 := by
  unfold clampSlowdown
  norm_num

theorem loadRead_lazyChainState_scenarioOneSlow :
    (loadRead lazyChainState scenarioOneSlow).disruptedClosedEdges = []
      ∧ (loadRead lazyChainState scenarioOneSlow).disruptedSlowdownFactorByEdge
        = [((1, 2), 1 / 2)] := by
  simp only [loadRead, scenarioOneSlow, loadDisruptionsRows, List.foldl_cons, List.foldl_nil,
    loadDisruptionsRow, slowRow, clampSlowdown_half]
  constructor
  · norm_num
  · norm_num [mapAssign, makeEdgeId]

theorem loadDisruptions_lazyChainState_scenarioOneSlow_eq :
    loadDisruptions Graph.ops lazyChainState scenarioOneSlow
      = markLabelsStale (setMode (loadRead lazyChainState scenarioOneSlow) Mode.LAZY_UPDATE)
          (affectedNodes (loadRead lazyChainState scenarioOneSlow).disruptedClosedEdges
            (loadRead lazyChainState scenarioOneSlow).disruptedSlowdownFactorByEdge) := by
  have hread := loadRead_lazyChainState_scenarioOneSlow
  have hne : ¬ ((loadRead lazyChainState scenarioOneSlow).disruptedClosedEdges = []
      ∧ (loadRead lazyChainState scenarioOneSlow).disruptedSlowdownFactorByEdge = []) := by
    rw [hread.2]
    simp
  have hctl := loadRead_sameControl lazyChainState scenarioOneSlow
  have hpct : ¬ calculateNetworkImpactPercentage Graph.ops
      (loadRead lazyChainState scenarioOneSlow)
      ≥ (loadRead lazyChainState scenarioOneSlow).DISRUPTION_THRESHOLD_TAU := by
    rw [calculateNetworkImpactPercentage_eq, hread.1, hread.2, hctl.1, hctl.2.2.2.2.2.2,
      lazyChainState_eq]
    simp [Dynamic.init, Graph.ops, chainGraph, specWeightedImpact]
    norm_num
  rw [loadDisruptions_eq, loadDisruptionsFinish_eq, if_neg hne, selectMode_lazy _ _ _ hpct]

theorem loadDisruptions_lazyChainState_scenarioOneSlow_mode :
    (loadDisruptions Graph.ops lazyChainState scenarioOneSlow).currentMode
      = Mode.LAZY_UPDATE := by
  rw [loadDisruptions_lazyChainState_scenarioOneSlow_eq, markLabelsStale_eq]
  rfl

theorem selectMode_lazy_of_mode {G : Type} (ops : GraphOps G) (s : Dynamic G)
    (nodes : List NodeID) (hmode : (selectMode ops s nodes).currentMode = Mode.LAZY_UPDATE) :
    ¬ calculateNetworkImpactPercentage ops s ≥ s.DISRUPTION_THRESHOLD_TAU := by
  intro hp
  rw [selectMode_mode] at hmode
  unfold specModeByThreshold at hmode
  rw [if_pos hp] at hmode
  exact absurd hmode (by decide)

theorem selectMode_immediate_of_mode {G : Type} (ops : GraphOps G) (s : Dynamic G)
    (nodes : List NodeID)
    (hmode : (selectMode ops s nodes).currentMode = Mode.IMMEDIATE_UPDATE) :
    calculateNetworkImpactPercentage ops s ≥ s.DISRUPTION_THRESHOLD_TAU := by
  by_contra hp
  rw [selectMode_mode] at hmode
  unfold specModeByThreshold at hmode
  rw [if_neg hp] at hmode
  exact absurd hmode (by decide)

theorem mem_foldl_closed_endpoints (l : List EdgeID) (init : List NodeID) (x : NodeID) :
    x ∈ l.foldl (fun acc edge => acc ++ [edge.1, edge.2]) init
      ↔ x ∈ init ∨ ∃ e ∈ l, x = e.1 ∨ x = e.2 := by
  induction l generalizing init with
  | nil => simp
  | cons e rest ih =>
    simp only [List.foldl_cons, ih, List.mem_append, List.mem_cons, List.mem_singleton,
      List.not_mem_nil, or_false, exists_eq_or_imp]
    constructor
    · rintro ((h | h) | h)
      · exact Or.inl h
      · exact Or.inr (Or.inl h)
      · exact Or.inr (Or.inr h)
    · rintro (h | h | h)
      · exact Or.inl (Or.inl h)
      · exact Or.inl (Or.inr h)
      · exact Or.inr h

theorem mem_foldl_slowed_endpoints (l : List (EdgeID × ℚ)) (init : List NodeID)
    (x : NodeID) :
    x ∈ l.foldl (fun acc entry => acc ++ [entry.1.1, entry.1.2]) init
      ↔ x ∈ init ∨ ∃ e ∈ l, x = e.1.1 ∨ x = e.1.2 := by
  induction l generalizing init with
  | nil => simp
  | cons e rest ih =>
    simp only [List.foldl_cons, ih, List.mem_append, List.mem_cons, List.mem_singleton,
      List.not_mem_nil, or_false, exists_eq_or_imp]
    constructor
    · rintro ((h | h) | h)
      · exact Or.inl h
      · exact Or.inr (Or.inl h)
      · exact Or.inr (Or.inr h)
    · rintro (h | h | h)
      · exact Or.inl (Or.inl h)
      · exact Or.inl (Or.inr h)
      · exact Or.inr h

theorem affectedNodes_toFinset (closed : List EdgeID) (slowed : List (EdgeID × ℚ)) :
    (affectedNodes closed slowed).toFinset = disruptedEndpoints closed slowed := by
  ext x
  unfold affectedNodes disruptedEndpoints
  rw [List.mem_toFinset, List.mem_toFinset, mem_foldl_slowed_endpoints,
    mem_foldl_closed_endpoints]
  simp only [List.not_mem_nil, false_or, List.mem_append, List.mem_map]
  constructor
  · rintro (⟨e, he, h | h⟩ | ⟨e, he, h | h⟩)
    · exact Or.inl (Or.inl (Or.inl ⟨e, he, h.symm⟩))
    · exact Or.inl (Or.inl (Or.inr ⟨e, he, h.symm⟩))
    · exact Or.inl (Or.inr ⟨e, he, h.symm⟩)
    · exact Or.inr ⟨e, he, h.symm⟩
  · rintro (((⟨e, he, h⟩ | ⟨e, he, h⟩) | ⟨e, he, h⟩) | ⟨e, he, h⟩)
    · exact Or.inl ⟨e, he, Or.inl h.symm⟩
    · exact Or.inl ⟨e, he, Or.inr h.symm⟩
    · exact Or.inr ⟨e, he, Or.inl h.symm⟩
    · exact Or.inr ⟨e, he, Or.inr h.symm⟩

theorem precomputeAffectedLabels_idle {G : Type} (ops : GraphOps G) (s : Dynamic G)
    (hidle : s.background_update_active = false) :
    precomputeAffectedLabels ops s
      = { s with
          graph := applyAllDisruptions ops s.disruptedClosedEdges
            s.disruptedSlowdownFactorByEdge s.graph
          stale_nodes := ∅
          dirty_pairs := ∅
          background_update_active := false } := by
  unfold precomputeAffectedLabels
  rw [hidle]
  simp [clear_dirty]

theorem foldl_callLog_closed (closed : List EdgeID) (log : List DisruptionCall) :
    closed.foldl (fun gr edge => callLog.applyDisruption gr edge.1 edge.2 1 true) log
      = log ++ closed.map (fun e => (e.1, e.2, 1, true)) := by
  induction closed generalizing log with
  | nil => simp
  | cons e rest ih =>
    simp only [List.foldl_cons, ih, List.map_cons]
    simp [callLog]

theorem foldl_callLog_slowed (slowed : List (EdgeID × ℚ)) (log : List DisruptionCall) :
    slowed.foldl
        (fun gr entry => callLog.applyDisruption gr entry.1.1 entry.1.2 entry.2 false) log
      = log ++ slowed.map (fun e => (e.1.1, e.1.2, e.2, false)) := by
  induction slowed generalizing log with
  | nil => simp
  | cons e rest ih =>
    simp only [List.foldl_cons, ih, List.map_cons]
    simp [callLog]

theorem applyAllDisruptions_callLog (closed : List EdgeID) (slowed : List (EdgeID × ℚ))
    (log : List DisruptionCall) :
    applyAllDisruptions callLog closed slowed log
      = log ++ closed.map (fun e => (e.1, e.2, 1, true))
          ++ slowed.map (fun e => (e.1.1, e.1.2, e.2, false)) := by
  unfold applyAllDisruptions
  rw [foldl_callLog_closed, foldl_callLog_slowed]

theorem ringLoad_closed :
    (loadDisruptions Graph.ops (Dynamic.init ringGraph (1 / 2))
      scenarioThreeClosed).disruptedClosedEdges = [(1, 2), (2, 3), (3, 4)] := by
  rw [(loadDisruptions_records _ _ _).1]
  rfl

theorem ringLoad_closed_ne :
    (loadDisruptions Graph.ops (Dynamic.init ringGraph (1 / 2))
      scenarioThreeClosed).disruptedClosedEdges ≠ [] := by
  rw [ringLoad_closed]
  simp

theorem ringLoad_mode :
    (loadDisruptions Graph.ops (Dynamic.init ringGraph (1 / 2))
      scenarioThreeClosed).currentMode = Mode.IMMEDIATE_UPDATE := by
  have hslow : (loadDisruptions Graph.ops (Dynamic.init ringGraph (1 / 2))
      scenarioThreeClosed).disruptedSlowdownFactorByEdge = [] := by
    rw [(loadDisruptions_records _ _ _).2.1]
    rfl
  rw [loadDisruptions_mode _ _ _ (Or.inl ringLoad_closed_ne),
    calculateNetworkImpactPercentage_eq]
  simp only [ringLoad_closed, hslow]
  simp [Dynamic.init, Graph.ops, ringGraph, specWeightedImpact, specModeByThreshold]
  norm_num

theorem chainClosure_mode :
    (addUserDisruption Graph.ops (Dynamic.init chainGraph (1 / 2)) 3 4 "Road Closure"
      "Closed").currentMode = Mode.IMMEDIATE_UPDATE := by
  have hv : invalidNodeIds Graph.ops (Dynamic.init chainGraph (1 / 2)) 3 4 = false := by
    decide
  have hrec := addUserDisruption_records Graph.ops (Dynamic.init chainGraph (1 / 2)) 3 4
    "Road Closure" "Closed" hv
  rw [addUserDisruption_mode _ _ _ _ _ _ hv, calculateNetworkImpactPercentage_eq]
  simp only [hrec.1, hrec.2]
  simp [userRecorded, Dynamic.init, Graph.ops, chainGraph, specWeightedImpact,
    specModeByThreshold, setInsert]
  norm_num

theorem get_distance_base {G : Type} (ops : GraphOps G) (s : Dynamic G) (u w : NodeID)
    (weighted : Bool) (hmode : s.currentMode = Mode.BASE)
    (hvalid : invalidNodeIds ops s u w = false) :
    get_distance ops s u w weighted = (ops.get_distance s.graph u w weighted, s) := by
  unfold get_distance
  rw [hvalid, hmode]
  simp

theorem get_distance_lazy_fresh {G : Type} (ops : GraphOps G) (s : Dynamic G) (u w : NodeID)
    (weighted : Bool) (hmode : s.currentMode = Mode.LAZY_UPDATE)
    (hvalid : invalidNodeIds ops s u w = false) (hu : u ∉ s.stale_nodes)
    (hw : w ∉ s.stale_nodes) (hd : makeEdgeId u w ∉ s.dirty_pairs) :
    get_distance ops s u w weighted = (ops.get_distance s.graph u w weighted, s) := by
  have hfresh : areLabelsStale s u w = false := by
    simp [areLabelsStale, is_dirty, hu, hw, hd]
  unfold get_distance
  rw [hvalid, hmode, hfresh]
  simp

theorem get_distance_lazy_stale {G : Type} (ops : GraphOps G) (s : Dynamic G) (u w : NodeID)
    (weighted : Bool) (hmode : s.currentMode = Mode.LAZY_UPDATE)
    (hvalid : invalidNodeIds ops s u w = false) (hstale : areLabelsStale s u w = true) :
    (get_distance ops s u w weighted).1
      = ops.get_distance
          (applyAllDisruptions ops s.disruptedClosedEdges s.disruptedSlowdownFactorByEdge
            s.graph) u w weighted := by
  unfold get_distance
  rw [hvalid, hmode]
  simp [hstale, repairStaleLabels]

theorem lazyChainState_valid (u w : NodeID) (hu : u ∈ [1, 2, 3, 4, 5])
    (hw : w ∈ [1, 2, 3, 4, 5]) : invalidNodeIds Graph.ops lazyChainState u w = false := by
  rw [lazyChainState_eq]
  simp only [List.mem_cons, List.mem_singleton, List.not_mem_nil, or_false] at hu hw
  rcases hu with h | h | h | h | h <;> rcases hw with h2 | h2 | h2 | h2 | h2 <;> subst h
    <;> subst h2 <;> decide

theorem lazyChainState_fresh (x : NodeID) (h3 : x ≠ 3) (h4 : x ≠ 4) :
    x ∉ lazyChainState.stale_nodes := by
  rw [lazyChainState_eq]
  simp [h3, h4]

theorem lazyChainState_clean (u w : NodeID) (hu : u ≠ 0) (hw : w ≠ 0) :
    makeEdgeId u w ∉ lazyChainState.dirty_pairs := by
  rw [lazyChainState_eq]
  unfold makeEdgeId
  split_ifs <;> simp [hu, hw, Ne.symm hu, Ne.symm hw]

set_option maxRecDepth 100000 in
theorem chainGraph_distance_1_5 : Graph.get_distance chainGraph 1 5 true = 4 := by
  decide

set_option maxRecDepth 100000 in
theorem chainGraph_edge_on_path :
    Graph.get_distance chainGraph 1 3 true + 1 + Graph.get_distance chainGraph 4 5 true
      = Graph.get_distance chainGraph 1 5 true := by
  decide

/-! ## Lemmas on the queries -/

theorem sameManager_refl {G : Type} (a : Dynamic G) : sameManager a a :=
  ⟨rfl, rfl, rfl, rfl, rfl, rfl, rfl, rfl⟩

theorem sameManager_trans {G : Type} {a b c : Dynamic G} (h1 : sameManager a b)
    (h2 : sameManager b c) : sameManager a c :=
  ⟨h1.1.trans h2.1, h1.2.1.trans h2.2.1, h1.2.2.1.trans h2.2.2.1,
    h1.2.2.2.1.trans h2.2.2.2.1, h1.2.2.2.2.1.trans h2.2.2.2.2.1,
    h1.2.2.2.2.2.1.trans h2.2.2.2.2.2.1, h1.2.2.2.2.2.2.1.trans h2.2.2.2.2.2.2.1,
    h1.2.2.2.2.2.2.2.trans h2.2.2.2.2.2.2.2⟩

theorem repairStaleLabels_sameManager {G : Type} (ops : GraphOps G) (s : Dynamic G)
    (u v : NodeID) : sameManager (repairStaleLabels ops s u v) s := by
  unfold repairStaleLabels sameManager
  split_ifs <;> simp

theorem get_distance_sameManager {G : Type} (ops : GraphOps G) (s : Dynamic G) (v w : NodeID)
    (weighted : Bool) : sameManager (get_distance ops s v w weighted).2 s := by
  have hrep := repairStaleLabels_sameManager ops s v w
  unfold get_distance
  split_ifs
  all_goals first
    | exact sameManager_refl s
    | exact hrep

theorem get_path_sameManager {G : Type} (ops : GraphPathOps G) (s : Dynamic G)
    (source target : NodeID) (weighted : Bool) :
    sameManager (get_path ops s source target weighted).2 s := by
  have hbase := get_distance_sameManager ops.toGraphOps s source target
    ops.get_distance_weighted
  have happlied := get_distance_sameManager ops.toGraphOps
    ({ s with
      graph := applyAllDisruptions ops.toGraphOps s.disruptedClosedEdges
        s.disruptedSlowdownFactorByEdge s.graph } : Dynamic G) source target
    ops.get_distance_weighted
  have hs1 : sameManager
      ({ s with
        graph := applyAllDisruptions ops.toGraphOps s.disruptedClosedEdges
          s.disruptedSlowdownFactorByEdge s.graph } : Dynamic G) s :=
    ⟨rfl, rfl, rfl, rfl, rfl, rfl, rfl, rfl⟩
  unfold get_path
  simp only [rebuildLabelsWithDisruptions, markAffectedLabelsAsStale]
  split_ifs
  all_goals first
    | exact sameManager_refl s
    | exact hbase
    | exact sameManager_trans happlied hs1

theorem findRouteByGPS_sameManager {G : Type} (ops : GraphPathOps G)
    (mapper : CoordinateMapperOps) (initialized : Bool) (s : Dynamic G)
    (start_lat start_lng end_lat end_lng : ℚ) (weighted : Bool) :
    sameManager
      (findRouteByGPS ops mapper initialized s start_lat start_lng end_lat end_lng weighted).2
      s := by
  unfold findRouteByGPS
  simp only []
  split_ifs
  all_goals first
    | exact sameManager_refl s
    | exact get_path_sameManager ops s _ _ weighted

theorem get_visited_nodes_count_state {G : Type} (ops : GraphPathOps G) (s : Dynamic G)
    (v w : NodeID) (weighted : Bool) : (get_visited_nodes_count ops s v w weighted).2 = s := by
  unfold get_visited_nodes_count
  simp only []
  split_ifs <;> rfl

theorem mapFind_mapAssign_ne {K V : Type} [DecidableEq K] (m : List (K × V)) (k k2 : K)
    (v : V) (hne : k ≠ k2) : mapFind (mapAssign m k v) k2 = mapFind m k2 := by
  induction m with
  | nil => simp [mapAssign, mapFind, hne]
  | cons e rest ih =>
    obtain ⟨k0, v0⟩ := e
    by_cases h : k0 = k
    · subst h
      simp [mapAssign, mapFind, hne]
    · by_cases h2 : k0 = k2
      · subst h2
        simp [mapAssign, mapFind, h]
      · simp [mapAssign, mapFind, h, h2, ih]

theorem mem_setInsert_iff {α : Type} [DecidableEq α] (l : List α) (x y : α) :
    y ∈ setInsert l x ↔ y ∈ l ∨ y = x := by
  unfold setInsert
  split_ifs with h
  · constructor
    · intro hy
      exact Or.inl hy
    · rintro (hy | hy)
      · exact hy
      · rw [hy]
        exact h
  · simp

theorem recordOf_congr {G : Type} (a b : Dynamic G) (eid : EdgeID)
    (hc : a.disruptedClosedEdges = b.disruptedClosedEdges)
    (hs : a.disruptedSlowdownFactorByEdge = b.disruptedSlowdownFactorByEdge)
    (hv : a.disruptionSeverityByEdge = b.disruptionSeverityByEdge)
    (ht : a.disruptionTypeByEdge = b.disruptionTypeByEdge) :
    recordOf a eid = recordOf b eid := by
  unfold recordOf
  rw [hc, hs, hv, ht]

theorem recordOf_sameManager {G : Type} (a b : Dynamic G) (eid : EdgeID)
    (h : sameManager a b) : recordOf a eid = recordOf b eid :=
  recordOf_congr a b eid h.2.1 h.2.2.1 h.2.2.2.1 h.2.2.2.2.1

theorem recordOf_userRecorded_other {G : Type} (s : Dynamic G) (u v : NodeID)
    (incidentType severity : String) (eid : EdgeID) (hne : makeEdgeId u v ≠ eid) :
    recordOf (userRecorded s u v incidentType severity) eid = recordOf s eid := by
  have hmem : ∀ l : List EdgeID, decide (eid ∈ setInsert l (makeEdgeId u v))
      = decide (eid ∈ l) := by
    intro l
    have h := mem_setInsert_iff l (makeEdgeId u v) eid
    have hne2 : ¬ eid = makeEdgeId u v := fun h2 => hne h2.symm
    simp only [hne2, or_false] at h
    exact decide_eq_decide.mpr h
  unfold userRecorded recordOf
  simp only []
  split_ifs <;> simp [mapFind_mapAssign_ne _ _ _ _ hne, hmem]

theorem recordOf_addUserDisruption_other {G : Type} (ops : GraphOps G) (s : Dynamic G)
    (u v : NodeID) (incidentType severity : String) (eid : EdgeID)
    (hne : makeEdgeId u v ≠ eid) :
    recordOf (addUserDisruption ops s u v incidentType severity) eid = recordOf s eid := by
  rw [addUserDisruption_eq]
  split_ifs
  · rfl
  · have hrec := selectMode_records ops (userRecorded s u v incidentType severity) [u, v]
    rw [recordOf_congr _ (userRecorded s u v incidentType severity) eid hrec.1 hrec.2.1
      hrec.2.2.1 hrec.2.2.2.1]
    exact recordOf_userRecorded_other s u v incidentType severity eid hne

theorem recordOf_runCall {G : Type} (ops : GraphPathOps G) (mapper : CoordinateMapperOps)
    (initialized : Bool) (s : Dynamic G) (eid : EdgeID) (call : ManagerCall)
    (hkeep : keepsEdge eid call = true) :
    recordOf (runCall ops mapper initialized s call) eid = recordOf s eid := by
  cases call with
  | get_distance v w weighted =>
    exact recordOf_sameManager _ _ eid (get_distance_sameManager ops.toGraphOps s v w weighted)
  | get_path source target weighted =>
    exact recordOf_sameManager _ _ eid (get_path_sameManager ops s source target weighted)
  | findRouteByGPS a b c d weighted =>
    exact recordOf_sameManager _ _ eid
      (findRouteByGPS_sameManager ops mapper initialized s a b c d weighted)
  | get_visited_nodes_count v w weighted =>
    have h : runCall ops mapper initialized s
        (ManagerCall.get_visited_nodes_count v w weighted) = s :=
      get_visited_nodes_count_state ops s v w weighted
    rw [h]
  | setMode mode => rfl
  | addUserDisruption u v incidentType severity =>
    have hne : makeEdgeId u v ≠ eid := by simpa [keepsEdge] using hkeep
    exact recordOf_addUserDisruption_other ops.toGraphOps s u v incidentType severity eid hne
  | loadDisruptions file => simp [keepsEdge] at hkeep

theorem recordOf_runCalls {G : Type} (ops : GraphPathOps G) (mapper : CoordinateMapperOps)
    (initialized : Bool) (s : Dynamic G) (eid : EdgeID) (calls : List ManagerCall)
    (hkeep : ∀ call ∈ calls, keepsEdge eid call = true) :
    recordOf (runCalls ops mapper initialized s calls) eid = recordOf s eid := by
  induction calls generalizing s with
  | nil => rfl
  | cons call rest ih =>
    have h1 := recordOf_runCall ops mapper initialized s eid call
      (hkeep call (List.mem_cons_self _ _))
    have h2 := ih (runCall ops mapper initialized s call)
      (fun c hc => hkeep c (List.mem_cons_of_mem _ hc))
    unfold runCalls at h2 ⊢
    simp only [List.foldl_cons]
    rw [h2, h1]

theorem recordOf_userRecorded_self {G : Type} (s : Dynamic G) (u v : NodeID)
    (incidentType severity : String)
    (hsev : severity = "Light" ∨ severity = "Medium" ∨ severity = "Heavy"
      ∨ severity = "Closed") :
    ((recordOf (userRecorded s u v incidentType severity) (makeEdgeId u v)).1 = true
        ∨ (recordOf (userRecorded s u v incidentType severity) (makeEdgeId u v)).2.1.isSome
          = true)
      ∧ (recordOf (userRecorded s u v incidentType severity) (makeEdgeId u v)).2.2.1
        = some incidentType
      ∧ (recordOf (userRecorded s u v incidentType severity) (makeEdgeId u v)).2.2.2
        = some severity := by
  unfold recordOf userRecorded
  rcases hsev with h | h | h | h <;> subst h <;>
    simp [mapFind_mapAssign_self, mem_setInsert]

theorem loadDisruptionsRow_records {G : Type} (a b : Dynamic G) (row : ScenarioRow)
    (hc : a.disruptedClosedEdges = b.disruptedClosedEdges)
    (hs : a.disruptedSlowdownFactorByEdge = b.disruptedSlowdownFactorByEdge)
    (hv : a.disruptionSeverityByEdge = b.disruptionSeverityByEdge)
    (ht : a.disruptionTypeByEdge = b.disruptionTypeByEdge) :
    (loadDisruptionsRow a row).disruptedClosedEdges
        = (loadDisruptionsRow b row).disruptedClosedEdges
      ∧ (loadDisruptionsRow a row).disruptedSlowdownFactorByEdge
        = (loadDisruptionsRow b row).disruptedSlowdownFactorByEdge
      ∧ (loadDisruptionsRow a row).disruptionSeverityByEdge
        = (loadDisruptionsRow b row).disruptionSeverityByEdge
      ∧ (loadDisruptionsRow a row).disruptionTypeByEdge
        = (loadDisruptionsRow b row).disruptionTypeByEdge := by
  unfold loadDisruptionsRow
  by_cases hclosed : row.isClosed = true
  · simp [hclosed, hc, hs, hv, ht]
  · by_cases hslow : clampSlowdown
        (row.speed_kph / (if row.freeFlow_kph > 0 then row.freeFlow_kph else 1)) < 1
    · simp only [hclosed, hslow, if_true, if_false, Bool.false_eq_true]
      simp [hc, hs, hv, ht]
    · simp only [hclosed, hslow, if_false, Bool.false_eq_true]
      simp [hc, hs, hv, ht]

theorem loadDisruptionsRows_records {G : Type} (a b : Dynamic G)
    (rows : List (Option ScenarioRow))
    (hc : a.disruptedClosedEdges = b.disruptedClosedEdges)
    (hs : a.disruptedSlowdownFactorByEdge = b.disruptedSlowdownFactorByEdge)
    (hv : a.disruptionSeverityByEdge = b.disruptionSeverityByEdge)
    (ht : a.disruptionTypeByEdge = b.disruptionTypeByEdge) :
    (loadDisruptionsRows a rows).disruptedClosedEdges
        = (loadDisruptionsRows b rows).disruptedClosedEdges
      ∧ (loadDisruptionsRows a rows).disruptedSlowdownFactorByEdge
        = (loadDisruptionsRows b rows).disruptedSlowdownFactorByEdge
      ∧ (loadDisruptionsRows a rows).disruptionSeverityByEdge
        = (loadDisruptionsRows b rows).disruptionSeverityByEdge
      ∧ (loadDisruptionsRows a rows).disruptionTypeByEdge
        = (loadDisruptionsRows b rows).disruptionTypeByEdge := by
  induction rows generalizing a b with
  | nil => exact ⟨hc, hs, hv, ht⟩
  | cons line rest ih =>
    cases line with
    | none => exact ih a b hc hs hv ht
    | some row =>
      have h := loadDisruptionsRow_records a b row hc hs hv ht
      exact ih (loadDisruptionsRow a row) (loadDisruptionsRow b row) h.1 h.2.1 h.2.2.1 h.2.2.2

theorem loadDisruptions_forgets {G : Type} (ops : GraphOps G) (a b : Dynamic G)
    (file : ScenarioFile) (eid : EdgeID) :
    recordOf (loadDisruptions ops a file) eid = recordOf (loadDisruptions ops b file) eid := by
  have hread : recordOf (loadRead a file) eid = recordOf (loadRead b file) eid := by
    cases file with
    | unreadable => rfl
    | noHeader => rfl
    | lines header rows =>
      have h := loadDisruptionsRows_records
        ({ a with
          disruptedClosedEdges := []
          disruptedSlowdownFactorByEdge := []
          disruptionSeverityByEdge := []
          disruptionTypeByEdge := [] } : Dynamic G)
        ({ b with
          disruptedClosedEdges := []
          disruptedSlowdownFactorByEdge := []
          disruptionSeverityByEdge := []
          disruptionTypeByEdge := [] } : Dynamic G) rows rfl rfl rfl rfl
      exact recordOf_congr _ _ eid h.1 h.2.1 h.2.2.1 h.2.2.2
  have hfinish : ∀ s : Dynamic G,
      recordOf (loadDisruptionsFinish ops s) eid = recordOf s eid := by
    intro s
    rw [loadDisruptionsFinish_eq]
    split_ifs
    · rfl
    · have hrec := selectMode_records ops s
        (affectedNodes s.disruptedClosedEdges s.disruptedSlowdownFactorByEdge)
      exact recordOf_congr _ _ eid hrec.1 hrec.2.1 hrec.2.2.1 hrec.2.2.2.1
  rw [loadDisruptions_eq, loadDisruptions_eq, hfinish, hfinish, hread]

theorem invalidNodeIds_iff {G : Type} (ops : GraphOps G) (s : Dynamic G) (u v : NodeID) :
    invalidNodeIds ops s u v = true
      ↔ u = 0 ∨ v = 0 ∨ u > ops.super_node_count s.graph
        ∨ v > ops.super_node_count s.graph := by
  unfold invalidNodeIds
  simp only [Bool.or_eq_true, decide_eq_true_eq, ge_iff_le, gt_iff_lt, Nat.add_one_le_iff]
  tauto

theorem invalidNodeIds_comm {G : Type} (ops : GraphOps G) (s : Dynamic G) (u v : NodeID) :
    invalidNodeIds ops s u v = invalidNodeIds ops s v u := by
  rw [Bool.eq_iff_iff, invalidNodeIds_iff, invalidNodeIds_iff]
  tauto

theorem get_distance_invalid {G : Type} (ops : GraphOps G) (s : Dynamic G) (v w : NodeID)
    (weighted : Bool) (h : invalidNodeIds ops s v w = true) :
    get_distance ops s v w weighted = (ops.distance_max, s) := by
  unfold get_distance
  rw [if_pos h]

theorem get_path_self {G : Type} (ops : GraphPathOps G) (s : Dynamic G) (n : NodeID)
    (weighted : Bool) (hn : n ≠ 0) : get_path ops s n n weighted = ((0, [n]), s) := by
  unfold get_path
  rw [if_neg (by simp [hn]), if_pos rfl]

theorem userRecorded_comm {G : Type} (s : Dynamic G) (u v : NodeID)
    (incidentType severity : String) :
    userRecorded s u v incidentType severity = userRecorded s v u incidentType severity := by
  unfold userRecorded
  rw [makeEdgeId_comm u v]

theorem selectMode_nodes_comm {G : Type} (ops : GraphOps G) (s : Dynamic G) (u v : NodeID) :
    selectMode ops s [u, v] = selectMode ops s [v, u] := by
  unfold selectMode
  split_ifs
  · rfl
  · rw [markLabelsStale_eq, markLabelsStale_eq]
    have h1 : [u, v].toFinset = [v, u].toFinset := by
      ext x
      simp [or_comm]
    have h2 : (List.map (fun n => ((0, n) : NodeID × NodeID)) [u, v]).toFinset
        = (List.map (fun n => ((0, n) : NodeID × NodeID)) [v, u]).toFinset := by
      ext x
      simp [or_comm]
    rw [h1, h2]

theorem makeEdgeId_le (a b : NodeID) : (makeEdgeId a b).1 ≤ (makeEdgeId a b).2 := by
  unfold makeEdgeId
  split_ifs with h
  · exact Nat.le_of_lt h
  · exact Nat.le_of_not_lt h

theorem clampSlowdown_negative :
    clampSlowdown (-5 / (if (40 : ℚ) > 0 then 40 else 1)) = 0 := by
  unfold clampSlowdown
  norm_num

theorem loadRead_scenarioNegativeSpeed :
    (loadRead (Dynamic.init chainGraph (1 / 2))
      scenarioNegativeSpeed).disruptedSlowdownFactorByEdge = [((1, 2), 0)] := by
  simp only [loadRead, scenarioNegativeSpeed, loadDisruptionsRows, List.foldl_cons,
    List.foldl_nil, loadDisruptionsRow, slowRow, clampSlowdown_negative]
  norm_num [mapAssign, makeEdgeId, Dynamic.init]

/-! ## Lemmas on the DHL Dijkstra search -/

theorem pqTop_mem (l : List (distance_t × NodeID)) (x : distance_t × NodeID)
    (h : pqTop l = some x) : x ∈ l := by
  induction l generalizing x with
  | nil => simp [pqTop] at h
  | cons y rest ih =>
    unfold pqTop at h
    cases hrest : pqTop rest with
    | none =>
      rw [hrest] at h
      simp only [Option.some.injEq] at h
      rw [← h]
      exact List.mem_cons_self _ _
    | some z =>
      rw [hrest] at h
      simp only [] at h
      split_ifs at h
      · simp only [Option.some.injEq] at h
        rw [← h]
        exact List.mem_cons_of_mem _ (ih z hrest)
      · simp only [Option.some.injEq] at h
        rw [← h]
        exact List.mem_cons_self _ _

theorem settledChain_congr (parents parents2 : List (NodeID × NodeID)) (start : NodeID)
    (l : List NodeID) (hsame : ∀ n ∈ l, mapFind parents2 n = mapFind parents n)
    (h : settledChain parents start l) : settledChain parents2 start l := by
  induction l with
  | nil => trivial
  | cons n rest ih =>
    obtain ⟨hn, hrest⟩ := h
    refine ⟨?_, ih (fun m hm => hsame m (List.mem_cons_of_mem _ hm)) hrest⟩
    rcases hn with hn | ⟨p, hp, hmem⟩
    · exact Or.inl hn
    · exact Or.inr ⟨p, by rw [hsame n (List.mem_cons_self _ _)]; exact hp, hmem⟩

theorem hasEdge_of_mem (g : RoadGraph) (a : NodeID) (neighbors : List Neighbor)
    (hget : g.get_neighbors a = some neighbors) (nb : Neighbor) (hnb : nb ∈ neighbors) :
    g.hasEdge a nb.node = true := by
  unfold RoadGraph.hasEdge
  rw [hget]
  simp only [List.any_eq_true, decide_eq_true_eq]
  exact ⟨nb, hnb, rfl⟩

theorem relaxNeighbor_visited (de : List (String × Bool)) (bl : List NodeID)
    (d : distance_t) (current : NodeID) (st : DijkstraState) (nb : Neighbor) :
    (relaxNeighbor de bl d current st nb).visited = st.visited := by
  unfold relaxNeighbor
  split_ifs
  · rfl
  · rfl
  · rfl
  · simp only []
    split
    · rfl
    · split_ifs <;> rfl

theorem relaxNeighbor_pq_length (de : List (String × Bool)) (bl : List NodeID)
    (d : distance_t) (current : NodeID) (st : DijkstraState) (nb : Neighbor) :
    (relaxNeighbor de bl d current st nb).pq.length ≤ st.pq.length + 1 := by
  unfold relaxNeighbor
  split_ifs
  · exact Nat.le_succ _
  · exact Nat.le_succ _
  · exact Nat.le_succ _
  · simp only []
    split
    · simp
    · split_ifs
      · simp
      · exact Nat.le_succ _

theorem improved_inv (g : RoadGraph) (bl : List NodeID) (start : NodeID)
    (st : DijkstraState) (current m : NodeID) (new_dist : distance_t)
    (hinv : DijkstraInv g bl start st) (hcur : current ∈ st.visited)
    (hedge : g.hasEdge current m = true) (hvis : m ∉ st.visited) (hbl : m ∉ bl) :
    DijkstraInv g bl start
      { st with
        distances := mapAssign st.distances m new_dist
        parents := mapAssign st.parents m current
        pq := (new_dist, m) :: st.pq } := by
  constructor
  · intro n p hnp
    by_cases hnm : m = n
    · subst hnm
      simp only [mapFind_mapAssign_self, Option.some.injEq] at hnp
      subst hnp
      exact ⟨hedge, hbl, hcur⟩
    · simp only [mapFind_mapAssign_ne _ _ _ _ hnm] at hnp
      exact hinv.parent_edge n p hnp
  · apply settledChain_congr st.parents _ start st.visited _ hinv.settled
    intro n hn
    have hnm : m ≠ n := fun h => hvis (h ▸ hn)
    exact mapFind_mapAssign_ne _ _ _ _ hnm
  · intro e he
    simp only [List.mem_cons] at he
    rcases he with he | he
    · subst he
      exact Or.inr ⟨current, mapFind_mapAssign_self _ _ _⟩
    · rcases hinv.queued e he with h | ⟨p, hp⟩
      · exact Or.inl h
      · by_cases hnm : m = e.2
        · exact Or.inr ⟨current, by rw [← hnm]; exact mapFind_mapAssign_self _ _ _⟩
        · exact Or.inr ⟨p, by rw [mapFind_mapAssign_ne _ _ _ _ hnm]; exact hp⟩

theorem relaxNeighbor_inv (g : RoadGraph) (de : List (String × Bool)) (bl : List NodeID)
    (start : NodeID) (d : distance_t) (current : NodeID) (st : DijkstraState) (nb : Neighbor)
    (hinv : DijkstraInv g bl start st) (hcur : current ∈ st.visited)
    (hedge : g.hasEdge current nb.node = true) :
    DijkstraInv g bl start (relaxNeighbor de bl d current st nb) := by
  unfold relaxNeighbor
  split_ifs with hvis hde hbl
  · exact hinv
  · exact hinv
  · exact hinv
  · simp only []
    split
    · exact improved_inv g bl start st current nb.node _ hinv hcur hedge hvis hbl
    · split_ifs
      · exact improved_inv g bl start st current nb.node _ hinv hcur hedge hvis hbl
      · exact hinv

theorem relaxFold_spec (g : RoadGraph) (de : List (String × Bool)) (bl : List NodeID)
    (start : NodeID) (d : distance_t) (current : NodeID) (neighbors : List Neighbor)
    (st : DijkstraState) (hinv : DijkstraInv g bl start st) (hcur : current ∈ st.visited)
    (hedge : ∀ nb ∈ neighbors, g.hasEdge current nb.node = true) :
    DijkstraInv g bl start (neighbors.foldl (relaxNeighbor de bl d current) st)
      ∧ (neighbors.foldl (relaxNeighbor de bl d current) st).visited = st.visited
      ∧ (neighbors.foldl (relaxNeighbor de bl d current) st).pq.length
        ≤ st.pq.length + neighbors.length := by
  induction neighbors generalizing st with
  | nil => exact ⟨hinv, rfl, Nat.le_refl _⟩
  | cons nb rest ih =>
    have h1 := relaxNeighbor_inv g de bl start d current st nb hinv hcur
      (hedge nb (List.mem_cons_self _ _))
    have hv := relaxNeighbor_visited de bl d current st nb
    have hl := relaxNeighbor_pq_length de bl d current st nb
    have h2 := ih (relaxNeighbor de bl d current st nb) h1 (by rw [hv]; exact hcur)
      (fun x hx => hedge x (List.mem_cons_of_mem _ hx))
    simp only [List.foldl_cons, List.length_cons]
    refine ⟨h2.1, h2.2.1.trans hv, ?_⟩
    have := h2.2.2
    omega

theorem rebuildPath_spec (parents : List (NodeID × NodeID)) (start : NodeID)
    (l : List NodeID) :
    ∀ (fuel : Nat) (node : NodeID) (acc : List NodeID),
      settledChain parents start l → node ∈ l → l.length < fuel →
      ∃ pre, rebuildPath parents start fuel node acc = some (pre ++ acc)
        ∧ pre.head? = some start ∧ pre.getLast? = some node
        ∧ List.Chain' (fun a b => mapFind parents b = some a) pre := by
  induction l with
  | nil =>
    intro fuel node acc _ hmem _
    simp at hmem
  | cons n rest ih =>
    intro fuel node acc hset hmem hfuel
    cases fuel with
    | zero => omega
    | succ f =>
      by_cases hstart : node = start
      · refine ⟨[start], ?_, rfl, ?_, List.chain'_singleton _⟩
        · unfold rebuildPath
          rw [if_pos hstart]
          rfl
        · rw [hstart]
          rfl
      · obtain ⟨hn, hrest⟩ := hset
        by_cases hhead : node = n
        · rcases hn with hn | ⟨p, hp, hpmem⟩
          · exact absurd (hhead.trans hn) hstart
          · have hlen : rest.length < f := by
              simp only [List.length_cons] at hfuel
              omega
            obtain ⟨pre, hpre, hh, hl, hc⟩ := ih f p (node :: acc) hrest hpmem hlen
            refine ⟨pre ++ [node], ?_, ?_, ?_, ?_⟩
            · unfold rebuildPath
              rw [if_neg hstart, hhead, hp]
              simp only []
              rw [← hhead, hpre]
              simp
            · cases pre with
              | nil => simp at hh
              | cons x xs => simpa using hh
            · simp
            · apply List.Chain'.append hc (List.chain'_singleton _)
              intro x hx y hy
              rw [hl] at hx
              simp only [Option.mem_def, Option.some.injEq] at hx
              simp only [List.head?_cons, Option.mem_def, Option.some.injEq] at hy
              subst hx
              subst hy
              rw [hhead]
              exact hp
        · have hmem2 : node ∈ rest := by
            rcases List.mem_cons.mp hmem with h | h
            · exact absurd h hhead
            · exact h
          have hlen : rest.length < f + 1 := by
            simp only [List.length_cons] at hfuel
            omega
          exact ih (f + 1) node acc hrest hmem2 hlen

theorem sum_filter_settle (f : NodeID → Nat) (l : List NodeID) (visited : List NodeID)
    (c : NodeID) (hnodup : l.Nodup) (hc : c ∈ l) (hvis : c ∉ visited) :
    ((l.filter (fun v => decide (v ∉ c :: visited))).map f).sum + f c
      = ((l.filter (fun v => decide (v ∉ visited))).map f).sum := by
  induction l with
  | nil => simp at hc
  | cons x xs ih =>
    have hx : x ∉ xs := (List.nodup_cons.mp hnodup).1
    have hxs : xs.Nodup := (List.nodup_cons.mp hnodup).2
    by_cases hxc : x = c
    · subst hxc
      have hsame : xs.filter (fun v => decide (v ∉ x :: visited))
          = xs.filter (fun v => decide (v ∉ visited)) := by
        apply List.filter_congr
        intro v hv
        have hvx : v ≠ x := fun h => hx (h ▸ hv)
        simp [hvx]
      have hl : (x :: xs).filter (fun v => decide (v ∉ x :: visited))
          = xs.filter (fun v => decide (v ∉ x :: visited)) := by
        rw [List.filter_cons]
        simp
      have hr : (x :: xs).filter (fun v => decide (v ∉ visited))
          = x :: xs.filter (fun v => decide (v ∉ visited)) := by
        rw [List.filter_cons]
        simp [hvis]
      rw [hl, hr, hsame, List.map_cons, List.sum_cons]
      omega
    · have hc2 : c ∈ xs := by
        rcases List.mem_cons.mp hc with h | h
        · exact absurd h.symm hxc
        · exact h
      have h := ih hxs hc2
      by_cases hxv : x ∈ visited
      · have hl : (x :: xs).filter (fun v => decide (v ∉ c :: visited))
            = xs.filter (fun v => decide (v ∉ c :: visited)) := by
          rw [List.filter_cons]
          simp [hxv]
        have hr : (x :: xs).filter (fun v => decide (v ∉ visited))
            = xs.filter (fun v => decide (v ∉ visited)) := by
          rw [List.filter_cons]
          simp [hxv]
        rw [hl, hr]
        exact h
      · have hl : (x :: xs).filter (fun v => decide (v ∉ c :: visited))
            = x :: xs.filter (fun v => decide (v ∉ c :: visited)) := by
          rw [List.filter_cons]
          simp [hxv, hxc]
        have hr : (x :: xs).filter (fun v => decide (v ∉ visited))
            = x :: xs.filter (fun v => decide (v ∉ visited)) := by
          rw [List.filter_cons]
          simp [hxv]
        rw [hl, hr, List.map_cons, List.sum_cons, List.map_cons, List.sum_cons]
        omega

theorem unsettledDegree_settle (g : RoadGraph) (visited : List NodeID) (c : NodeID)
    (neighbors : List Neighbor) (hget : g.get_neighbors c = some neighbors)
    (hvis : c ∉ visited) :
    unsettledDegree g (c :: visited) + neighbors.length = unsettledDegree g visited := by
  unfold RoadGraph.get_neighbors at hget
  have hlt : c < g.adjacency.length := by
    rcases List.get?_eq_some.mp hget with ⟨h, _⟩
    exact h
  have hD : (g.adjacency.getD c []).length = neighbors.length := by
    rw [List.getD_eq_getElem?_getD, ← List.get?_eq_getElem?, hget]
    rfl
  unfold unsettledDegree
  rw [← hD]
  exact sum_filter_settle (fun v => (g.adjacency.getD v []).length)
    (List.range g.adjacency.length) visited c (List.nodup_range _)
    (List.mem_range.mpr hlt) hvis

theorem map_getD_range {α : Type} (l : List (List α)) :
    (List.range l.length).map (fun v => (l.getD v []).length) = l.map List.length := by
  induction l with
  | nil => rfl
  | cons x xs ih =>
    rw [List.length_cons, List.range_succ_eq_map, List.map_cons, List.map_map, List.map_cons,
      ← ih]
    rfl

theorem unsettledDegree_nil (g : RoadGraph) :
    unsettledDegree g [] = (g.adjacency.map List.length).sum := by
  unfold unsettledDegree
  simp only [List.not_mem_nil, not_false_eq_true, decide_True, List.filter_true]
  rw [map_getD_range]

theorem dijkstraLoop_spec (g : RoadGraph) (de : List (String × Bool)) (bl : List NodeID)
    (start dest : NodeID) :
    ∀ (fuel : Nat) (st : DijkstraState), DijkstraInv g bl start st →
      dijkstraMeasure g st < fuel →
      ∃ path, dijkstraLoop g de bl start dest fuel st = some path
        ∧ (path = [] ∨ validRoute g bl start dest path) := by
  intro fuel
  induction fuel with
  | zero =>
    intro st _ hm
    omega
  | succ f ih =>
    intro st hinv hm
    unfold dijkstraLoop
    cases htop : pqTop st.pq with
    | none => exact ⟨[], rfl, Or.inl rfl⟩
    | some top =>
      have hmem : top ∈ st.pq := pqTop_mem st.pq top htop
      have hlen : (st.pq.erase top).length + 1 = st.pq.length := by
        rw [List.length_erase_of_mem hmem]
        have : 0 < st.pq.length := List.length_pos_of_mem hmem
        omega
      simp only []
      by_cases hvis : top.2 ∈ st.visited
      · rw [if_pos hvis]
        apply ih
        · exact ⟨hinv.parent_edge, hinv.settled,
            fun e he => hinv.queued e (List.mem_of_mem_erase he)⟩
        · unfold dijkstraMeasure at hm ⊢
          simp only []
          omega
      · rw [if_neg hvis]
        have hsettled : DijkstraInv g bl start
            { st with pq := st.pq.erase top, visited := top.2 :: st.visited } := by
          refine ⟨?_, ?_, ?_⟩
          · intro n p hnp
            obtain ⟨h1, h2, h3⟩ := hinv.parent_edge n p hnp
            exact ⟨h1, h2, List.mem_cons_of_mem _ h3⟩
          · refine ⟨?_, hinv.settled⟩
            rcases hinv.queued top hmem with h | ⟨p, hp⟩
            · exact Or.inl h
            · exact Or.inr ⟨p, hp, (hinv.parent_edge top.2 p hp).2.2⟩
          · exact fun e he => hinv.queued e (List.mem_of_mem_erase he)
        by_cases hdest : top.2 = dest
        · rw [if_pos hdest]
          obtain ⟨pre, hpre, hh, hl, hc⟩ := rebuildPath_spec st.parents start
            (top.2 :: st.visited) ((top.2 :: st.visited).length + 1) dest []
            hsettled.settled (by rw [← hdest]; exact List.mem_cons_self _ _)
            (Nat.lt_succ_self _)
          refine ⟨pre, ?_, Or.inr ⟨hh, hl, ?_⟩⟩
          · rw [hpre, List.append_nil]
          · exact hc.imp (fun {a b} hab =>
              ⟨(hinv.parent_edge b a hab).1, (hinv.parent_edge b a hab).2.1⟩)
        · rw [if_neg hdest]
          cases hget : g.get_neighbors top.2 with
          | none => exact ⟨[], rfl, Or.inl rfl⟩
          | some neighbors =>
            simp only []
            have hfold := relaxFold_spec g de bl start top.1 top.2 neighbors
              { st with pq := st.pq.erase top, visited := top.2 :: st.visited } hsettled
              (List.mem_cons_self _ _)
              (fun nb hnb => hasEdge_of_mem g top.2 neighbors hget nb hnb)
            apply ih _ hfold.1
            have hdeg := unsettledDegree_settle g st.visited top.2 neighbors hget hvis
            have hpq := hfold.2.2
            unfold dijkstraMeasure at hm ⊢
            rw [hfold.2.1]
            simp only [] at hpq ⊢
            omega

theorem dijkstra_with_path_reconstruction_spec {I : Type} (svc : DHLRoutingService I)
    (g : RoadGraph) (start dest : NodeID) (hgraph : svc.graph = some g)
    (hne : start ≠ dest) :
    dijkstraLoop g svc.disrupted_edges svc.blocked_nodes start dest (dijkstraFuel g)
        { distances := [(start, 0)], parents := [], visited := [], pq := [(0, start)] }
        = some (svc.dijkstra_with_path_reconstruction start dest)
      ∧ (svc.dijkstra_with_path_reconstruction start dest = []
        ∨ validRoute g svc.blocked_nodes start dest
          (svc.dijkstra_with_path_reconstruction start dest)) := by
  have hinit : DijkstraInv g svc.blocked_nodes start
      { distances := [(start, 0)], parents := [], visited := [], pq := [(0, start)] } := by
    refine ⟨?_, trivial, ?_⟩
    · intro n p hnp
      simp [mapFind] at hnp
    · intro e he
      simp only [List.mem_singleton] at he
      subst he
      exact Or.inl rfl
  have hm : dijkstraMeasure g
      { distances := [(start, 0)], parents := [], visited := [], pq := [(0, start)] }
      < dijkstraFuel g := by
    unfold dijkstraMeasure dijkstraFuel
    simp only [List.length_singleton]
    rw [unsettledDegree_nil]
    omega
  obtain ⟨path, hpath, hvalid⟩ := dijkstraLoop_spec g svc.disrupted_edges svc.blocked_nodes
    start dest (dijkstraFuel g) _ hinit hm
  have heq : svc.dijkstra_with_path_reconstruction start dest = path := by
    unfold DHLRoutingService.dijkstra_with_path_reconstruction
    rw [hgraph]
    simp only []
    rw [if_neg hne, hpath]
    rfl
  rw [heq]
  exact ⟨hpath, hvalid⟩

/-! ## Lemmas on the nearest-node scan -/

theorem findNearest_fold (dist : ℚ → ℚ → ℚ → ℚ → ℚ) (lat lng : ℚ) :
    ∀ (l : List DHLCoordinate) (best : NodeID × ℚ),
      (l.foldl (fun best coord =>
          if dist lat lng coord.latitude coord.longitude < best.2
          then (coord.node_id, dist lat lng coord.latitude coord.longitude) else best)
          best = best
        ∨ ∃ coord ∈ l, l.foldl (fun best coord =>
          if dist lat lng coord.latitude coord.longitude < best.2
          then (coord.node_id, dist lat lng coord.latitude coord.longitude) else best)
          best = (coord.node_id, dist lat lng coord.latitude coord.longitude))
      ∧ (l.foldl (fun best coord =>
          if dist lat lng coord.latitude coord.longitude < best.2
          then (coord.node_id, dist lat lng coord.latitude coord.longitude) else best)
          best).2 ≤ best.2
      ∧ ∀ coord ∈ l, (l.foldl (fun best coord =>
          if dist lat lng coord.latitude coord.longitude < best.2
          then (coord.node_id, dist lat lng coord.latitude coord.longitude) else best)
          best).2 ≤ dist lat lng coord.latitude coord.longitude := by
  intro l
  induction l with
  | nil =>
    intro best
    exact ⟨Or.inl rfl, le_refl _, fun c hc => absurd hc (List.not_mem_nil c)⟩
  | cons c rest ih =>
    intro best
    rw [List.foldl_cons]
    by_cases hlt : dist lat lng c.latitude c.longitude < best.2
    · rw [if_pos hlt]
      obtain ⟨h1, h2, h3⟩ := ih (c.node_id, dist lat lng c.latitude c.longitude)
      refine ⟨Or.inr ?_, le_trans h2 (le_of_lt hlt), ?_⟩
      · rcases h1 with h | ⟨d, hd, h⟩
        · exact ⟨c, List.mem_cons_self _ _, h⟩
        · exact ⟨d, List.mem_cons_of_mem _ hd, h⟩
      · intro d hd
        rcases List.mem_cons.mp hd with rfl | hd
        · exact h2
        · exact h3 d hd
    · rw [if_neg hlt]
      obtain ⟨h1, h2, h3⟩ := ih best
      refine ⟨?_, h2, ?_⟩
      · rcases h1 with h | ⟨d, hd, h⟩
        · exact Or.inl h
        · exact Or.inr ⟨d, List.mem_cons_of_mem _ hd, h⟩
      · intro d hd
        rcases List.mem_cons.mp hd with rfl | hd
        · exact le_trans h2 (not_lt.mp hlt)
        · exact h3 d hd

/-- The scan returns a loaded node at the least distance, provided every distance is below
the start value `DBL_MAX`. -/
theorem findNearestNode_spec (dist : ℚ → ℚ → ℚ → ℚ → ℚ) (mapper : DHLCoordinateMapper)
    (lat lng d : ℚ)
    (hfinite : ∀ coord ∈ mapper.node_coordinates,
      dist lat lng coord.latitude coord.longitude < DBL_MAX)
    (hnear : isNearestDistance dist mapper lat lng d) :
    (mapper.findNearestNode dist lat lng).2 = d
      ∧ ∃ coord ∈ mapper.node_coordinates,
        (mapper.findNearestNode dist lat lng).1 = coord.node_id
          ∧ dist lat lng coord.latitude coord.longitude = d := by
  obtain ⟨⟨c0, hc0, hd0⟩, hmin⟩ := hnear
  have hne : mapper.node_coordinates.isEmpty = false := by
    cases hl : mapper.node_coordinates with
    | nil => rw [hl] at hc0; exact absurd hc0 (List.not_mem_nil _)
    | cons a b => rfl
  unfold DHLCoordinateMapper.findNearestNode
  rw [hne]
  simp only [Bool.false_eq_true, if_false]
  obtain ⟨h1, _, h3⟩ := findNearest_fold dist lat lng mapper.node_coordinates (0, DBL_MAX)
  rcases h1 with h | ⟨c, hc, h⟩
  · exfalso
    have := h3 c0 hc0
    rw [h] at this
    exact absurd (lt_of_le_of_lt this (hfinite c0 hc0)) (lt_irrefl _)
  · have hle : dist lat lng c.latitude c.longitude ≤ d := by
      have := h3 c0 hc0
      rw [h, hd0] at this
      exact this
    have heq : dist lat lng c.latitude c.longitude = d := le_antisymm hle (hmin c hc)
    rw [h]
    exact ⟨heq, c, hc, rfl, heq⟩

theorem find_nearest_node_spec {I : Type} (text : TextOps) (svc : DHLRoutingService I)
    (lat lng threshold_meters d : ℚ)
    (hmapping : svc.coordinate_mapping_initialized = true)
    (hids : ∀ coord ∈ svc.coordinate_mapper.node_coordinates, 1 ≤ coord.node_id)
    (hfinite : ∀ coord ∈ svc.coordinate_mapper.node_coordinates,
      text.calculateDistance lat lng coord.latitude coord.longitude < DBL_MAX)
    (hnear : isNearestDistance text.calculateDistance svc.coordinate_mapper lat lng d) :
    (threshold_meters < d → svc.find_nearest_node text lat lng threshold_meters = 0)
      ∧ (d ≤ threshold_meters →
        svc.find_nearest_node text lat lng threshold_meters ≠ 0
          ∧ ∃ coord ∈ svc.coordinate_mapper.node_coordinates,
            svc.find_nearest_node text lat lng threshold_meters = coord.node_id
              ∧ text.calculateDistance lat lng coord.latitude coord.longitude = d) := by
  obtain ⟨h2, c, hc, h1, hcd⟩ :=
    findNearestNode_spec text.calculateDistance svc.coordinate_mapper lat lng d hfinite hnear
  unfold DHLRoutingService.find_nearest_node
  rw [hmapping]
  simp only [Bool.not_true, Bool.false_eq_true, if_false, h2, gt_iff_lt]
  constructor
  · intro h
    rw [if_pos h]
  · intro h
    rw [if_neg (not_lt.mpr h), h1]
    exact ⟨Nat.one_le_iff_ne_zero.mp (hids c hc), c, hc, rfl, hcd⟩

theorem string_ne_of_char (a b : String) (i : Nat) (h : a.data[i]? ≠ b.data[i]?) : a ≠ b := by
  intro hab
  exact h (by rw [hab])

theorem data_append_left (a t : String) (i : Nat) (hi : i < a.data.length) :
    (a ++ t).data[i]? = a.data[i]? := by
  rw [String.data_append]
  exact List.getElem?_append_left hi

/-- The error messages that the part of `findRoute` after the snap can leave. -/
theorem findRouteFromNodes_error_message {I : Type} (index : ContractionIndexOps I)
    (text : TextOps) (svc : DHLRoutingService I) (g : RoadGraph) (con_index : I)
    (stored : DHLRoutingResult) (start_node dest_node : NodeID) (use_disruptions : Bool) :
    (svc.findRouteFromNodes index text g con_index stored start_node dest_node
        use_disruptions).error_message = stored.error_message
      ∨ (svc.findRouteFromNodes index text g con_index stored start_node dest_node
        use_disruptions).error_message = "Start node " ++ toString start_node ++ " is blocked"
      ∨ (svc.findRouteFromNodes index text g con_index stored start_node dest_node
        use_disruptions).error_message
          = "Destination node " ++ toString dest_node ++ " is blocked"
      ∨ (svc.findRouteFromNodes index text g con_index stored start_node dest_node
        use_disruptions).error_message
          = "No path exists between nodes " ++ toString start_node ++ " and "
            ++ toString dest_node := by
  unfold DHLRoutingService.findRouteFromNodes
  simp only []
  split_ifs <;> simp

/-- None of the messages left after the snap is one of the two snap failures. -/
theorem not_snap_message (message t u v : String)
    (h : message = "" ∨ message = "Start node " ++ u ++ " is blocked"
      ∨ message = "Destination node " ++ v ++ " is blocked"
      ∨ message = "No path exists between nodes " ++ u ++ " and " ++ v) :
    message ≠ "No start node found within " ++ t ++ "m threshold"
      ∧ message ≠ "No destination node found within " ++ t ++ "m threshold" := by
  rcases h with h | h | h | h
  · subst h
    constructor
    · apply string_ne_of_char _ _ 0
      rw [String.append_assoc, data_append_left _ _ 0 (by decide)]
      decide
    · apply string_ne_of_char _ _ 0
      rw [String.append_assoc, data_append_left _ _ 0 (by decide)]
      decide
  · subst h
    constructor
    · apply string_ne_of_char _ _ 0
      rw [String.append_assoc, String.append_assoc, data_append_left _ _ 0 (by decide),
        data_append_left _ _ 0 (by decide)]
      decide
    · apply string_ne_of_char _ _ 0
      rw [String.append_assoc, String.append_assoc, data_append_left _ _ 0 (by decide),
        data_append_left _ _ 0 (by decide)]
      decide
  · subst h
    constructor
    · apply string_ne_of_char _ _ 0
      rw [String.append_assoc, String.append_assoc, data_append_left _ _ 0 (by decide),
        data_append_left _ _ 0 (by decide)]
      decide
    · apply string_ne_of_char _ _ 0
      rw [String.append_assoc, String.append_assoc, data_append_left _ _ 0 (by decide),
        data_append_left _ _ 0 (by decide)]
      decide
  · subst h
    constructor
    · apply string_ne_of_char _ _ 3
      simp only [String.append_assoc]
      rw [data_append_left _ _ 3 (by decide), data_append_left _ _ 3 (by decide)]
      decide
    · apply string_ne_of_char _ _ 3
      simp only [String.append_assoc]
      rw [data_append_left _ _ 3 (by decide), data_append_left _ _ 3 (by decide)]
      decide

/-! ## Lemmas on walks -/

theorem hasStep_symm (g : Graph) (weighted : Bool) (a b : NodeID) (w : Nat)
    (h : g.hasStep weighted a b w) : g.hasStep weighted b a w := by
  obtain ⟨ha, hb, e, he, hopen, hw, hends⟩ := h
  exact ⟨hb, ha, e, he, hopen, hw, hends.symm⟩

theorem isWalk_append (g : Graph) (weighted : Bool) (c : NodeID) (s2 : List (NodeID × Nat)) :
    ∀ (s1 : List (NodeID × Nat)) (a b : NodeID), g.isWalk weighted a b s1 →
      g.isWalk weighted b c s2 → g.isWalk weighted a c (s1 ++ s2) := by
  intro s1
  induction s1 with
  | nil =>
    intro a b h1 h2
    rw [h1.1]
    exact h2
  | cons step rest ih =>
    intro a b h1 h2
    exact ⟨h1.1, ih step.1 b h1.2 h2⟩

theorem walkWeight_append (s1 s2 : List (NodeID × Nat)) :
    walkWeight (s1 ++ s2) = walkWeight s1 + walkWeight s2 := by
  simp [walkWeight]

theorem walkWeight_cons (step : NodeID × Nat) (rest : List (NodeID × Nat)) :
    walkWeight (step :: rest) = step.2 + walkWeight rest := by
  simp [walkWeight]

theorem isWalk_end_le (g : Graph) (weighted : Bool) (v : NodeID) :
    ∀ (steps : List (NodeID × Nat)) (u : NodeID), g.isWalk weighted u v steps →
      v ≤ g.node_count := by
  intro steps
  induction steps with
  | nil =>
    intro u h
    rw [← h.1]
    exact h.2
  | cons step rest ih =>
    intro u h
    exact ih step.1 h.2

/-- A walk can be walked backwards. -/
theorem isWalk_reverse (g : Graph) (weighted : Bool) (v : NodeID) :
    ∀ (steps : List (NodeID × Nat)) (u : NodeID), g.isWalk weighted u v steps →
      ∃ back, g.isWalk weighted v u back ∧ walkWeight back = walkWeight steps
        ∧ back.length = steps.length := by
  intro steps
  induction steps with
  | nil =>
    intro u h
    exact ⟨[], ⟨h.1.symm, h.1 ▸ h.2⟩, rfl, rfl⟩
  | cons step rest ih =>
    intro u h
    obtain ⟨back, hback, hw, hl⟩ := ih step.1 h.2
    refine ⟨back ++ [(u, step.2)], ?_, ?_, ?_⟩
    · apply isWalk_append g weighted u [(u, step.2)] back v step.1 hback
      exact ⟨hasStep_symm g weighted u step.1 step.2 h.1, rfl, h.1.1⟩
    · rw [walkWeight_append, walkWeight_cons, hw]
      simp [walkWeight]
      omega
    · simp [hl]

/-- A walk that reaches `x` after at least one step splits there. -/
theorem isWalk_split (g : Graph) (weighted : Bool) (v x : NodeID) :
    ∀ (steps : List (NodeID × Nat)) (u : NodeID), g.isWalk weighted u v steps →
      x ∈ steps.map Prod.fst →
      ∃ s1 s2, steps = s1 ++ s2 ∧ s1 ≠ [] ∧ g.isWalk weighted u x s1
        ∧ g.isWalk weighted x v s2 ∧ x ∈ s1.map Prod.fst := by
  intro steps
  induction steps with
  | nil =>
    intro u _ hx
    exact absurd hx (List.not_mem_nil _)
  | cons step rest ih =>
    intro u h hx
    by_cases hstep : step.1 = x
    · exact ⟨[step], rest, rfl, by simp, ⟨h.1, hstep, h.1.2.1⟩, hstep ▸ h.2, by simp [hstep]⟩
    · have hx2 : x ∈ rest.map Prod.fst := by
        rw [List.map_cons] at hx
        rcases List.mem_cons.mp hx with h1 | h1
        · exact absurd h1.symm hstep
        · exact h1
      obtain ⟨s1, s2, heq, _, hw1, hw2, hmem⟩ := ih step.1 h.2 hx2
      refine ⟨step :: s1, s2, by rw [heq]; rfl, by simp, ⟨h.1, hw1⟩, hw2, ?_⟩
      simp only [List.map_cons, List.mem_cons]
      exact Or.inr hmem

theorem isWalk_nodes_le (g : Graph) (weighted : Bool) (v : NodeID) :
    ∀ (steps : List (NodeID × Nat)) (u : NodeID), g.isWalk weighted u v steps →
      ∀ x ∈ u :: steps.map Prod.fst, x ≤ g.node_count := by
  intro steps
  induction steps with
  | nil =>
    intro u h x hx
    simp only [List.map_nil, List.mem_singleton] at hx
    rw [hx]
    exact h.2
  | cons step rest ih =>
    intro u h x hx
    rcases List.mem_cons.mp hx with h1 | h1
    · rw [h1]
      exact h.1.1
    · exact ih step.1 h.2 x h1

/-- Every walk contains a walk between the same ends that is no longer and visits no node
twice. -/
theorem isWalk_shorten (g : Graph) (weighted : Bool) (v : NodeID) :
    ∀ (steps : List (NodeID × Nat)) (u : NodeID), g.isWalk weighted u v steps →
      ∃ short, g.isWalk weighted u v short ∧ walkWeight short ≤ walkWeight steps
        ∧ (u :: short.map Prod.fst).Nodup := by
  intro steps
  induction steps with
  | nil =>
    intro u h
    exact ⟨[], h, le_refl _, by simp⟩
  | cons step rest ih =>
    intro u h
    obtain ⟨short, hshort, hw, hnodup⟩ := ih step.1 h.2
    by_cases hub : u = step.1
    · refine ⟨short, hub ▸ hshort, ?_, hub ▸ hnodup⟩
      rw [walkWeight_cons]
      omega
    · by_cases hmem : u ∈ short.map Prod.fst
      · obtain ⟨s1, s2, heq, hne, hw1, hw2, hmem1⟩ :=
          isWalk_split g weighted v u short step.1 hshort hmem
        refine ⟨s2, hw2, ?_, ?_⟩
        · rw [walkWeight_cons]
          rw [heq, walkWeight_append] at hw
          omega
        · rw [heq, List.map_append] at hnodup
          have hn := (List.nodup_cons.mp hnodup).2
          have hn2 := (List.nodup_append.mp hn).2.1
          have hdis := (List.nodup_append.mp hn).2.2
          exact List.nodup_cons.mpr ⟨fun h2 => hdis hmem1 h2, hn2⟩
      · refine ⟨step :: short, ⟨h.1, hshort⟩, ?_, ?_⟩
        · rw [walkWeight_cons, walkWeight_cons]
          omega
        · rw [List.map_cons]
          refine List.nodup_cons.mpr ⟨?_, hnodup⟩
          intro h2
          rcases List.mem_cons.mp h2 with h3 | h3
          · exact hub h3
          · exact hmem h3

theorem nodup_length_le (n : Nat) (l : List Nat) (hnodup : l.Nodup)
    (hle : ∀ x ∈ l, x ≤ n) : l.length ≤ n + 1 := by
  have hsub : l.toFinset ⊆ Finset.range (n + 1) := by
    intro x hx
    rw [List.mem_toFinset] at hx
    exact Finset.mem_range.mpr (Nat.lt_succ_of_le (hle x hx))
  have hcard := Finset.card_le_card hsub
  rw [List.toFinset_card_of_nodup hnodup, Finset.card_range] at hcard
  exact hcard

/-- Every walk contains a walk between the same ends that is no longer and has at most
`node_count` steps. -/
theorem isWalk_bounded (g : Graph) (weighted : Bool) (u v : NodeID)
    (steps : List (NodeID × Nat)) (h : g.isWalk weighted u v steps) :
    ∃ short, g.isWalk weighted u v short ∧ walkWeight short ≤ walkWeight steps
      ∧ short.length ≤ g.node_count := by
  obtain ⟨short, hshort, hw, hnodup⟩ := isWalk_shorten g weighted v steps u h
  refine ⟨short, hshort, hw, ?_⟩
  have := nodup_length_le g.node_count (u :: short.map Prod.fst) hnodup
    (isWalk_nodes_le g weighted v short u hshort)
  simp only [List.length_cons, List.length_map] at this
  omega

/-! ## Lemmas on the relaxation rounds -/

theorem getD_set (l : List Nat) (i j a dflt : Nat) :
    (l.set i a).getD j dflt = if i = j ∧ i < l.length then a else l.getD j dflt := by
  simp only [List.getD_eq_getElem?_getD, List.getElem?_set]
  by_cases hij : i = j
  · by_cases hlt : i < l.length
    · simp [hij, hlt, hij ▸ hlt]
    · subst hij
      simp [hlt, List.getElem?_eq_none (not_lt.mp hlt)]
  · simp [hij]

theorem getD_lt_length (l : List Nat) (i dflt : Nat) (h : l.getD i dflt < dflt) :
    i < l.length := by
  by_contra hge
  rw [List.getD_eq_default _ _ (not_lt.mp hge)] at h
  exact lt_irrefl _ h

theorem relaxEdge_eq (weighted : Bool) (d : List Nat) (e : NodeID × NodeID × Nat × Bool) :
    Graph.relaxEdge weighted d e
      = if e.2.2.2 then d
        else Graph.relaxHalf (Graph.relaxHalf d e.1 e.2.1 (if weighted then e.2.2.1 else 1))
          e.2.1 e.1 (if weighted then e.2.2.1 else 1) := by
  rfl

theorem relaxRound_eq (g : Graph) (weighted : Bool) (d : List Nat) :
    g.relaxRound weighted d = g.edges.foldl (Graph.relaxEdge weighted) d := by
  rfl

theorem relaxHalf_length (d : List Nat) (a b : NodeID) (w : Nat) :
    (Graph.relaxHalf d a b w).length = d.length := by
  unfold Graph.relaxHalf
  split_ifs <;> simp

theorem relaxHalf_le (d : List Nat) (a b : NodeID) (w : Nat) (i : Nat) :
    (Graph.relaxHalf d a b w).getD i Graph.infinity ≤ d.getD i Graph.infinity := by
  unfold Graph.relaxHalf
  split_ifs with h
  · rw [getD_set]
    split_ifs with h2
    · rw [← h2.1]
      exact le_of_lt h
    · exact le_refl _
  · exact le_refl _

theorem relaxHalf_relaxed (d : List Nat) (a b : NodeID) (w : Nat) (hb : b < d.length) :
    (Graph.relaxHalf d a b w).getD b Graph.infinity ≤ d.getD a Graph.infinity + w := by
  unfold Graph.relaxHalf
  split_ifs with h
  · rw [getD_set, if_pos ⟨rfl, hb⟩]
  · exact not_lt.mp h

theorem relaxHalf_inv (g : Graph) (weighted : Bool) (u : NodeID) (d : List Nat)
    (a b : NodeID) (w : Nat) (hinv : g.RelaxInv weighted u d)
    (hedge : ∃ e ∈ g.edges, e.2.2.2 = false ∧ (if weighted then e.2.2.1 else 1) = w
      ∧ ((e.1 = a ∧ e.2.1 = b) ∨ (e.1 = b ∧ e.2.1 = a))) :
    g.RelaxInv weighted u (Graph.relaxHalf d a b w) := by
  refine ⟨?_, ?_, ?_⟩
  · rw [relaxHalf_length]
    exact hinv.length
  · intro i
    exact le_trans (relaxHalf_le d a b w i) (hinv.bounded i)
  · intro i hi
    unfold Graph.relaxHalf at hi ⊢
    split_ifs at hi ⊢ with h
    · rw [getD_set] at hi ⊢
      split_ifs at hi ⊢ with h2
      · have hda : d.getD a Graph.infinity < Graph.infinity := by
          have := hinv.bounded b
          omega
        obtain ⟨steps, hwalk, hweight⟩ := hinv.sound a hda
        have hlen := hinv.length
        have hale : a ≤ g.node_count := by
          have hlt := getD_lt_length d a Graph.infinity hda
          rw [hlen] at hlt
          exact Nat.lt_succ_iff.mp hlt
        have hble : b ≤ g.node_count := by
          have hlt := h2.2
          rw [hlen] at hlt
          exact Nat.lt_succ_iff.mp hlt
        obtain ⟨e, he, hopen, hw, hends⟩ := hedge
        refine ⟨(a, w) :: steps, ⟨?_, hwalk⟩, ?_⟩
        · rw [← h2.1]
          exact ⟨hble, hale, e, he, hopen, hw, hends.symm⟩
        · rw [walkWeight_cons, hweight]
          simp only []
          omega
      · exact hinv.sound i hi
    · exact hinv.sound i hi

theorem relaxEdge_length (weighted : Bool) (d : List Nat) (e : NodeID × NodeID × Nat × Bool) :
    (Graph.relaxEdge weighted d e).length = d.length := by
  rw [relaxEdge_eq]
  by_cases hclosed : e.2.2.2 = true
  · rw [if_pos hclosed]
  · rw [if_neg hclosed, relaxHalf_length, relaxHalf_length]

theorem relaxEdge_le (weighted : Bool) (d : List Nat) (e : NodeID × NodeID × Nat × Bool)
    (i : Nat) :
    (Graph.relaxEdge weighted d e).getD i Graph.infinity ≤ d.getD i Graph.infinity := by
  rw [relaxEdge_eq]
  by_cases hclosed : e.2.2.2 = true
  · rw [if_pos hclosed]
  · rw [if_neg hclosed]
    exact le_trans (relaxHalf_le _ _ _ _ i) (relaxHalf_le _ _ _ _ i)

theorem relaxEdge_inv (g : Graph) (weighted : Bool) (u : NodeID) (d : List Nat)
    (e : NodeID × NodeID × Nat × Bool) (he : e ∈ g.edges) (hinv : g.RelaxInv weighted u d) :
    g.RelaxInv weighted u (Graph.relaxEdge weighted d e) := by
  rw [relaxEdge_eq]
  by_cases hclosed : e.2.2.2 = true
  · rw [if_pos hclosed]
    exact hinv
  · rw [if_neg hclosed]
    have hopen : e.2.2.2 = false := by simpa using hclosed
    apply relaxHalf_inv g weighted u _ _ _ _ _ ⟨e, he, hopen, rfl, Or.inr ⟨rfl, rfl⟩⟩
    exact relaxHalf_inv g weighted u _ _ _ _ hinv ⟨e, he, hopen, rfl, Or.inl ⟨rfl, rfl⟩⟩

/-- After an open edge is relaxed, each end is at most the other end plus the weight. -/
theorem relaxEdge_relaxed (weighted : Bool) (d : List Nat) (e : NodeID × NodeID × Nat × Bool)
    (hopen : e.2.2.2 = false) (ha : e.1 < d.length) (hb : e.2.1 < d.length) :
    (Graph.relaxEdge weighted d e).getD e.2.1 Graph.infinity
        ≤ d.getD e.1 Graph.infinity + (if weighted then e.2.2.1 else 1)
      ∧ (Graph.relaxEdge weighted d e).getD e.1 Graph.infinity
        ≤ d.getD e.2.1 Graph.infinity + (if weighted then e.2.2.1 else 1) := by
  rw [relaxEdge_eq, hopen]
  simp only [Bool.false_eq_true, if_false]
  constructor
  · exact le_trans (relaxHalf_le _ _ _ _ _) (relaxHalf_relaxed d _ _ _ hb)
  · refine le_trans (relaxHalf_relaxed _ _ _ _ (by rw [relaxHalf_length]; exact ha)) ?_
    exact Nat.add_le_add_right (relaxHalf_le d _ _ _ _) _

theorem relaxFold_le (weighted : Bool) (i : Nat) :
    ∀ (es : List (NodeID × NodeID × Nat × Bool)) (d : List Nat),
      (es.foldl (Graph.relaxEdge weighted) d).getD i Graph.infinity
        ≤ d.getD i Graph.infinity := by
  intro es
  induction es with
  | nil => intro d; exact le_refl _
  | cons e rest ih =>
    intro d
    exact le_trans (ih _) (relaxEdge_le weighted d e i)

theorem relaxFold_length (weighted : Bool) :
    ∀ (es : List (NodeID × NodeID × Nat × Bool)) (d : List Nat),
      (es.foldl (Graph.relaxEdge weighted) d).length = d.length := by
  intro es
  induction es with
  | nil => intro d; rfl
  | cons e rest ih =>
    intro d
    rw [List.foldl_cons, ih, relaxEdge_length]

theorem relaxFold_inv (g : Graph) (weighted : Bool) (u : NodeID) :
    ∀ (es : List (NodeID × NodeID × Nat × Bool)) (d : List Nat),
      (∀ e ∈ es, e ∈ g.edges) → g.RelaxInv weighted u d →
      g.RelaxInv weighted u (es.foldl (Graph.relaxEdge weighted) d) := by
  intro es
  induction es with
  | nil => intro d _ hinv; exact hinv
  | cons e rest ih =>
    intro d hsub hinv
    exact ih _ (fun x hx => hsub x (List.mem_cons_of_mem _ hx))
      (relaxEdge_inv g weighted u d e (hsub e (List.mem_cons_self _ _)) hinv)

theorem relaxFold_relaxed (weighted : Bool) (e : NodeID × NodeID × Nat × Bool)
    (hopen : e.2.2.2 = false) :
    ∀ (es : List (NodeID × NodeID × Nat × Bool)) (d : List Nat), e ∈ es →
      e.1 < d.length → e.2.1 < d.length →
      (es.foldl (Graph.relaxEdge weighted) d).getD e.2.1 Graph.infinity
          ≤ d.getD e.1 Graph.infinity + (if weighted then e.2.2.1 else 1)
        ∧ (es.foldl (Graph.relaxEdge weighted) d).getD e.1 Graph.infinity
          ≤ d.getD e.2.1 Graph.infinity + (if weighted then e.2.2.1 else 1) := by
  intro es
  induction es with
  | nil => intro d he; exact absurd he (List.not_mem_nil _)
  | cons e2 rest ih =>
    intro d he ha hb
    rw [List.foldl_cons]
    rcases List.mem_cons.mp he with h | h
    · subst h
      have h1 := relaxEdge_relaxed weighted d e hopen ha hb
      exact ⟨le_trans (relaxFold_le weighted _ rest _) h1.1,
        le_trans (relaxFold_le weighted _ rest _) h1.2⟩
    · have h1 := ih (Graph.relaxEdge weighted d e2) h
        (by rw [relaxEdge_length]; exact ha) (by rw [relaxEdge_length]; exact hb)
      exact ⟨le_trans h1.1 (Nat.add_le_add_right (relaxEdge_le weighted d e2 _) _),
        le_trans h1.2 (Nat.add_le_add_right (relaxEdge_le weighted d e2 _) _)⟩

/-- After a round, the slot of a node is at most the slot that a neighbour had before the
round plus the weight of the edge between them. -/
theorem relaxRound_relaxed (g : Graph) (weighted : Bool) (d : List Nat) (x y : NodeID)
    (w : Nat) (hlen : d.length = g.node_count + 1) (hstep : g.hasStep weighted x y w) :
    (g.relaxRound weighted d).getD x Graph.infinity ≤ d.getD y Graph.infinity + w := by
  obtain ⟨hx, hy, e, he, hopen, hw, hends⟩ := hstep
  have hxl : x < d.length := by rw [hlen]; exact Nat.lt_succ_of_le hx
  have hyl : y < d.length := by rw [hlen]; exact Nat.lt_succ_of_le hy
  rw [relaxRound_eq, ← hw]
  rcases hends with ⟨h1, h2⟩ | ⟨h1, h2⟩
  · have := (relaxFold_relaxed weighted e hopen g.edges d he (h1 ▸ hxl) (h2 ▸ hyl)).2
    rw [h1, h2] at this
    exact this
  · have := (relaxFold_relaxed weighted e hopen g.edges d he (h1 ▸ hyl) (h2 ▸ hxl)).1
    rw [h1, h2] at this
    exact this

theorem relaxRound_inv (g : Graph) (weighted : Bool) (u : NodeID) (d : List Nat)
    (hinv : g.RelaxInv weighted u d) : g.RelaxInv weighted u (g.relaxRound weighted d) := by
  rw [relaxRound_eq]
  exact relaxFold_inv g weighted u g.edges d (fun _ h => h) hinv

theorem relaxRound_le (g : Graph) (weighted : Bool) (d : List Nat) (i : Nat) :
    (g.relaxRound weighted d).getD i Graph.infinity ≤ d.getD i Graph.infinity := by
  rw [relaxRound_eq]
  exact relaxFold_le weighted i g.edges d

theorem relaxRounds_succ (g : Graph) (weighted : Bool) (start : List Nat) (k : Nat) :
    (List.range (k + 1)).foldl (fun d _ => g.relaxRound weighted d) start
      = g.relaxRound weighted
        ((List.range k).foldl (fun d _ => g.relaxRound weighted d) start) := by
  rw [List.range_succ, List.foldl_append]
  rfl

/-- After `k` rounds the invariant holds and every slot is at most the length of every
walk of at most `k` steps from its node to `u`. -/
theorem relaxRounds_spec (g : Graph) (weighted : Bool) (u : NodeID) (start : List Nat)
    (hinv : g.RelaxInv weighted u start)
    (hstart : u ≤ g.node_count → start.getD u Graph.infinity = 0) :
    ∀ k, g.RelaxInv weighted u
        ((List.range k).foldl (fun d _ => g.relaxRound weighted d) start)
      ∧ ∀ v steps, g.isWalk weighted v u steps → steps.length ≤ k →
        ((List.range k).foldl (fun d _ => g.relaxRound weighted d) start).getD v
          Graph.infinity ≤ walkWeight steps := by
  intro k
  induction k with
  | zero =>
    refine ⟨hinv, ?_⟩
    intro v steps hwalk hlen
    cases steps with
    | nil =>
      obtain ⟨hvu, hv⟩ := hwalk
      subst hvu
      simp only [List.range_zero, List.foldl_nil]
      rw [hstart hv]
      exact Nat.zero_le _
    | cons step rest => simp at hlen
  | succ k ih =>
    rw [relaxRounds_succ]
    refine ⟨relaxRound_inv g weighted u _ ih.1, ?_⟩
    intro v steps hwalk hlen
    cases steps with
    | nil =>
      exact le_trans (relaxRound_le g weighted _ v) (ih.2 v [] hwalk (Nat.zero_le _))
    | cons step rest =>
      have h1 := relaxRound_relaxed g weighted _ v step.1 step.2 ih.1.length hwalk.1
      have h2 := ih.2 step.1 rest hwalk.2 (by simpa using hlen)
      rw [walkWeight_cons]
      omega

theorem getD_replicate_default (n i a : Nat) : (List.replicate n a).getD i a = a := by
  simp only [List.getD_eq_getElem?_getD, List.getElem?_replicate]
  split_ifs <;> rfl

theorem relaxStart_inv (g : Graph) (weighted : Bool) (u : NodeID) :
    g.RelaxInv weighted u ((List.replicate (g.node_count + 1) Graph.infinity).set u 0)
      ∧ (u ≤ g.node_count →
        ((List.replicate (g.node_count + 1) Graph.infinity).set u 0).getD u Graph.infinity
          = 0) := by
  refine ⟨⟨by simp, ?_, ?_⟩, ?_⟩
  · intro i
    rw [getD_set, getD_replicate_default]
    split_ifs
    · exact Nat.zero_le _
    · exact le_refl _
  · intro i hi
    rw [getD_set, getD_replicate_default] at hi ⊢
    split_ifs at hi ⊢ with h
    · refine ⟨[], ⟨h.1.symm, ?_⟩, rfl⟩
      have h2 := h.2
      rw [List.length_replicate] at h2
      rw [← h.1]
      exact Nat.lt_succ_iff.mp h2
    · exact absurd hi (lt_irrefl _)
  · intro hu
    rw [getD_set, if_pos ⟨rfl, by rw [List.length_replicate]; exact Nat.lt_succ_of_le hu⟩]

/-- The relaxation rounds behind `Graph.get_distance` compute the shortest-path distance:
the value returned is the least length of a walk over open edges, capped at `INF`. -/
theorem get_distance_isShortest (g : Graph) (u v : NodeID) (weighted : Bool) :
    g.isShortest weighted u v (g.get_distance u v weighted) := by
  obtain ⟨hstartinv, hstart⟩ := relaxStart_inv g weighted u
  obtain ⟨hinv, hcomplete⟩ := relaxRounds_spec g weighted u _ hstartinv hstart g.node_count
  unfold Graph.get_distance
  simp only []
  refine ⟨min_le_right _ _, ?_, ?_⟩
  · intro steps hwalk
    obtain ⟨back, hback, hbw, _⟩ := isWalk_reverse g weighted v steps u hwalk
    obtain ⟨short, hshort, hsw, hsl⟩ := isWalk_bounded g weighted v u back hback
    have hle := hcomplete v short hshort hsl
    refine le_trans (min_le_left _ _) (le_trans hle ?_)
    rw [← hbw]
    exact hsw
  · intro hlt
    have hlt2 : ((List.range g.node_count).foldl (fun d _ => g.relaxRound weighted d)
        ((List.replicate (g.node_count + 1) Graph.infinity).set u 0)).getD v Graph.infinity
        < Graph.infinity := by
      by_contra hge
      rw [min_eq_right (not_lt.mp hge)] at hlt
      exact lt_irrefl _ hlt
    obtain ⟨steps, hwalk, hw⟩ := hinv.sound v hlt2
    obtain ⟨back, hback, hbw, _⟩ := isWalk_reverse g weighted u steps v hwalk
    refine ⟨back, hback, ?_⟩
    rw [hbw, hw, min_eq_left (le_of_lt hlt2)]

theorem isShortest_unique (g : Graph) (weighted : Bool) (u v : NodeID) (d1 d2 : distance_t)
    (h1 : g.isShortest weighted u v d1) (h2 : g.isShortest weighted u v d2) : d1 = d2 := by
  obtain ⟨hb1, hl1, ha1⟩ := h1
  obtain ⟨hb2, hl2, ha2⟩ := h2
  by_cases hlt1 : d1 < Graph.infinity
  · obtain ⟨s1, hs1, hw1⟩ := ha1 hlt1
    have h21 : d2 ≤ d1 := hw1 ▸ hl2 s1 hs1
    obtain ⟨s2, hs2, hw2⟩ := ha2 (lt_of_le_of_lt h21 hlt1)
    have h12 : d1 ≤ d2 := hw2 ▸ hl1 s2 hs2
    exact le_antisymm h12 h21
  · have he1 : d1 = Graph.infinity := le_antisymm hb1 (not_lt.mp hlt1)
    by_cases hlt2 : d2 < Graph.infinity
    · obtain ⟨s2, hs2, hw2⟩ := ha2 hlt2
      have h12 : d1 ≤ d2 := hw2 ▸ hl1 s2 hs2
      exact absurd (lt_of_le_of_lt h12 hlt2) hlt1
    · rw [he1]
      exact (le_antisymm hb2 (not_lt.mp hlt2)).symm

/-- The distance from a node of the store to itself is 0. -/
theorem get_distance_self (g : Graph) (u : NodeID) (weighted : Bool)
    (hu : u ≤ g.node_count) : g.get_distance u u weighted = 0 := by
  have h := (get_distance_isShortest g u u weighted).2.1 [] ⟨rfl, hu⟩
  exact Nat.le_zero.mp h

/-! ## Lemmas on the cut index -/

theorem restrict_hasStep (g : Graph) (S : List NodeID) (weighted : Bool) (a b : NodeID)
    (w : Nat) :
    (g.restrict S).hasStep weighted a b w ↔ g.hasStep weighted a b w ∧ a ∈ S ∧ b ∈ S := by
  constructor
  · rintro ⟨ha, hb, e, he, hopen, hw, hends⟩
    have he2 := List.mem_filter.mp he
    have hin : e.1 ∈ S ∧ e.2.1 ∈ S := by simpa using he2.2
    refine ⟨⟨ha, hb, e, he2.1, hopen, hw, hends⟩, ?_⟩
    rcases hends with ⟨h1, h2⟩ | ⟨h1, h2⟩
    · exact ⟨h1 ▸ hin.1, h2 ▸ hin.2⟩
    · exact ⟨h2 ▸ hin.2, h1 ▸ hin.1⟩
  · rintro ⟨⟨ha, hb, e, he, hopen, hw, hends⟩, haS, hbS⟩
    refine ⟨ha, hb, e, List.mem_filter.mpr ⟨he, ?_⟩, hopen, hw, hends⟩
    rcases hends with ⟨h1, h2⟩ | ⟨h1, h2⟩
    · simp [h1, h2, haS, hbS]
    · simp [h1, h2, haS, hbS]

theorem restrict_range_isWalk (g : Graph) (weighted : Bool) (v : NodeID) :
    ∀ (steps : List (NodeID × Nat)) (u : NodeID),
      (g.restrict (List.range (g.node_count + 1))).isWalk weighted u v steps
        ↔ g.isWalk weighted u v steps := by
  intro steps
  induction steps with
  | nil => intro u; exact Iff.rfl
  | cons step rest ih =>
    intro u
    constructor
    · intro h
      exact ⟨((restrict_hasStep g _ weighted u step.1 step.2).mp h.1).1, (ih step.1).mp h.2⟩
    · intro h
      refine ⟨(restrict_hasStep g _ weighted u step.1 step.2).mpr ⟨h.1, ?_, ?_⟩,
        (ih step.1).mpr h.2⟩
      · exact List.mem_range.mpr (Nat.lt_succ_of_le h.1.1)
      · exact List.mem_range.mpr (Nat.lt_succ_of_le h.1.2.1)

theorem restrict_range_get_distance (g : Graph) (u w : NodeID) (weighted : Bool) :
    (g.restrict (List.range (g.node_count + 1))).get_distance u w weighted
      = g.get_distance u w weighted := by
  apply isShortest_unique g weighted u w _ _ _ (get_distance_isShortest g u w weighted)
  obtain ⟨h1, h2, h3⟩ :=
    get_distance_isShortest (g.restrict (List.range (g.node_count + 1))) u w weighted
  refine ⟨h1, ?_, ?_⟩
  · intro steps hwalk
    exact h2 steps ((restrict_range_isWalk g weighted w steps u).mpr hwalk)
  · intro hlt
    obtain ⟨steps, hwalk, hweight⟩ := h3 hlt
    exact ⟨steps, (restrict_range_isWalk g weighted w steps u).mp hwalk, hweight⟩

theorem applyAllDisruptions_node_count (closed : List EdgeID) (slowed : List (EdgeID × ℚ))
    (g : Graph) : (applyAllDisruptions Graph.ops closed slowed g).node_count = g.node_count := by
  unfold applyAllDisruptions
  have h1 : ∀ (l : List EdgeID) (gr : Graph),
      (l.foldl (fun gr edge => Graph.ops.applyDisruption gr edge.1 edge.2 1 true)
        gr).node_count = gr.node_count := by
    intro l
    induction l with
    | nil => intro gr; rfl
    | cons x rest ih => intro gr; rw [List.foldl_cons, ih]; rfl
  have h2 : ∀ (l : List (EdgeID × ℚ)) (gr : Graph),
      (l.foldl (fun gr entry =>
          Graph.ops.applyDisruption gr entry.1.1 entry.1.2 entry.2 false)
        gr).node_count = gr.node_count := by
    intro l
    induction l with
    | nil => intro gr; rfl
    | cons x rest ih => intro gr; rw [List.foldl_cons, ih]; rfl
  rw [h2, h1]

/-- Through the graph store, `Dynamic::get_distance` answers 0 for a valid node and itself
in every mode. -/
theorem get_distance_self_every_mode (s : Dynamic Graph) (n : NodeID) (weighted : Bool)
    (hvalid : invalidNodeIds Graph.ops s n n = false) :
    (get_distance Graph.ops s n n weighted).1 = 0 := by
  have hn : n ≤ s.graph.node_count := by
    by_contra hgt
    have := (invalidNodeIds_iff Graph.ops s n n).mpr (Or.inr (Or.inr (Or.inl (not_le.mp hgt))))
    rw [hvalid] at this
    exact Bool.false_ne_true this
  have hn2 : n ≤ (applyAllDisruptions Graph.ops s.disruptedClosedEdges
      s.disruptedSlowdownFactorByEdge s.graph).node_count := by
    rw [applyAllDisruptions_node_count]
    exact hn
  unfold get_distance
  rw [hvalid]
  simp only [Bool.false_eq_true, if_false]
  split_ifs with h1 h2 h3 h4 h5
  · exact get_distance_self _ n weighted hn
  · unfold repairStaleLabels
    rw [h3]
    exact get_distance_self _ n weighted hn2
  · exact get_distance_self _ n weighted hn
  · exact get_distance_self _ n weighted hn
  · exact get_distance_self _ n weighted hn2
  · exact get_distance_self _ n weighted hn

set_option maxRecDepth 100000 in
theorem diamondGraphFromOne_distance_1_4 :
    diamondGraphFromOne.get_distance 1 4 true = 20 := by
  decide

/-- The scan keeps the start value when no node is nearer, and otherwise ends at the first
node of least distance. -/
theorem findNearest_fold_first (dist : ℚ → ℚ → ℚ → ℚ → ℚ) (lat lng : ℚ) :
    ∀ (l : List DHLCoordinate) (best : NodeID × ℚ),
      ((∀ x ∈ l, best.2 ≤ dist lat lng x.latitude x.longitude)
        ∧ l.foldl (fun best coord =>
            if dist lat lng coord.latitude coord.longitude < best.2
            then (coord.node_id, dist lat lng coord.latitude coord.longitude) else best)
            best = best)
      ∨ ∃ pre coord post, l = pre ++ coord :: post
        ∧ l.foldl (fun best coord =>
            if dist lat lng coord.latitude coord.longitude < best.2
            then (coord.node_id, dist lat lng coord.latitude coord.longitude) else best)
            best = (coord.node_id, dist lat lng coord.latitude coord.longitude)
        ∧ dist lat lng coord.latitude coord.longitude < best.2
        ∧ (∀ x ∈ pre, dist lat lng coord.latitude coord.longitude
            < dist lat lng x.latitude x.longitude)
        ∧ (∀ x ∈ post, dist lat lng coord.latitude coord.longitude
            ≤ dist lat lng x.latitude x.longitude) := by
  intro l
  induction l with
  | nil =>
    intro best
    exact Or.inl ⟨fun x hx => absurd hx (List.not_mem_nil _), rfl⟩
  | cons a rest ih =>
    intro best
    rw [List.foldl_cons]
    by_cases hlt : dist lat lng a.latitude a.longitude < best.2
    · rw [if_pos hlt]
      rcases ih (a.node_id, dist lat lng a.latitude a.longitude) with ⟨h1, h2⟩
        | ⟨pre, c, post, heq, hres, hc, hpre, hpost⟩
      · exact Or.inr ⟨[], a, rest, rfl, h2, hlt,
          fun x hx => absurd hx (List.not_mem_nil _), h1⟩
      · refine Or.inr ⟨a :: pre, c, post, by rw [heq]; rfl, hres, lt_trans hc hlt, ?_, hpost⟩
        intro x hx
        rcases List.mem_cons.mp hx with h | h
        · rw [h]
          exact hc
        · exact hpre x h
    · rw [if_neg hlt]
      rcases ih best with ⟨h1, h2⟩ | ⟨pre, c, post, heq, hres, hc, hpre, hpost⟩
      · refine Or.inl ⟨?_, h2⟩
        intro x hx
        rcases List.mem_cons.mp hx with h | h
        · rw [h]
          exact not_lt.mp hlt
        · exact h1 x h
      · refine Or.inr ⟨a :: pre, c, post, by rw [heq]; rfl, hres, hc, ?_, hpost⟩
        intro x hx
        rcases List.mem_cons.mp hx with h | h
        · rw [h]
          exact lt_of_lt_of_le hc (not_lt.mp hlt)
        · exact hpre x h

/-! ## Lemmas on the lazy branch of `get_path` -/

theorem isPathAffectedByDisruptions_congr {G : Type} (a b : Dynamic G) (source target : NodeID)
    (h : a.disruptedClosedEdges = b.disruptedClosedEdges) :
    isPathAffectedByDisruptions a source target
      = isPathAffectedByDisruptions b source target := by
  unfold isPathAffectedByDisruptions
  rw [h]

theorem isPathAffectedByDisruptions_iff {G : Type} (s : Dynamic G) (source target : NodeID) :
    isPathAffectedByDisruptions s source target = true
      ↔ ∃ edge ∈ s.disruptedClosedEdges,
          edge.1 = source ∨ edge.1 = target ∨ edge.2 = source ∨ edge.2 = target := by
  unfold isPathAffectedByDisruptions
  simp only [List.any_eq_true, Bool.or_eq_true, decide_eq_true_eq]
  constructor
  · rintro ⟨edge, he, h⟩
    exact ⟨edge, he, by tauto⟩
  · rintro ⟨edge, he, h⟩
    exact ⟨edge, he, by tauto⟩

/-- The lazy branch of `get_path` in normal form: the test is the one on the closed edges,
taken on the state the call started from. -/
theorem get_path_lazy {G : Type} (ops : GraphPathOps G) (s : Dynamic G)
    (source target : NodeID) (weighted : Bool) (hmode : s.currentMode = Mode.LAZY_UPDATE)
    (hsource : source ≠ 0) (htarget : target ≠ 0) (hne : source ≠ target) :
    get_path ops s source target weighted
      = if isPathAffectedByDisruptions s source target then
          lazyDijkstraAnswer ops s source target weighted
        else lazyIndexAnswer ops s source target := by
  have hclosed := (get_distance_sameManager ops.toGraphOps s source target
    ops.get_distance_weighted).2.1
  have haff := isPathAffectedByDisruptions_congr _ _ source target hclosed
  unfold get_path lazyDijkstraAnswer lazyIndexAnswer
  rw [if_neg (by simp [hsource, htarget]), if_neg hne]
  simp only [hmode, markAffectedLabelsAsStale, haff]
  simp

theorem lazyTempGraph_callLog (closed : List EdgeID) (slowed : List (EdgeID × ℚ))
    (log : List DisruptionCall) :
    lazyTempGraph callLog closed slowed log
      = log ++ closed.map (fun e => (e.1, e.2, 1, true))
          ++ (slowed.filter (fun e => decide (e.2 < 1 / 2))).map
              (fun e => (e.1.1, e.1.2, e.2, false)) := by
  unfold lazyTempGraph
  rw [foldl_callLog_closed]
  generalize log ++ closed.map (fun e => ((e.1, e.2, 1, true) : DisruptionCall)) = start
  induction slowed generalizing start with
  | nil => simp
  | cons e rest ih =>
    rw [List.foldl_cons]
    by_cases h : e.2 < 1 / 2
    · rw [if_pos h, ih, List.filter_cons_of_pos (by simpa using h)]
      simp [callLog]
    · rw [if_neg h, ih, List.filter_cons_of_neg (by simpa using h)]

/-- The graph that a lazy `get_distance` call leaves behind: repaired when the pair is
valid and its labels are stale, untouched otherwise. -/
theorem get_distance_lazy_graph {G : Type} (ops : GraphOps G) (s : Dynamic G) (u w : NodeID)
    (weighted : Bool) (hmode : s.currentMode = Mode.LAZY_UPDATE) :
    (get_distance ops s u w weighted).2.graph
      = if invalidNodeIds ops s u w = false ∧ areLabelsStale s u w = true then
          applyAllDisruptions ops s.disruptedClosedEdges s.disruptedSlowdownFactorByEdge s.graph
        else s.graph := by
  unfold get_distance
  by_cases hinv : invalidNodeIds ops s u w = true
  · simp [hinv]
  · have hinv2 : invalidNodeIds ops s u w = false := by simpa using hinv
    by_cases hstale : areLabelsStale s u w = true
    · simp [hinv2, hmode, hstale, repairStaleLabels]
    · have hstale2 : areLabelsStale s u w = false := by simpa using hstale
      simp [hinv2, hmode, hstale2]

theorem freshLazyRingState_eq :
    freshLazyRingState
      = { Dynamic.init ringGraphTen (9 / 10) with
          graph := { node_count := 5
                     edges := [(1, 2, 10, true), (2, 3, 10, false), (3, 4, 10, false),
                       (4, 5, 10, false), (5, 1, 10, false)] }
          currentMode := Mode.LAZY_UPDATE
          disruptedClosedEdges := [(1, 2)]
          disruptedSlowdownFactorByEdge := [((4, 5), 6 / 10)]
          disruptionSeverityByEdge := [((1, 2), "Closed"), ((4, 5), "Medium")]
          disruptionTypeByEdge := [((1, 2), "Road Closure"), ((4, 5), "Accident")]
          stale_nodes := {4, 5}
          dirty_pairs := {(0, 4), (0, 5)} } := by
  have hfirst : addUserDisruption Graph.ops (Dynamic.init ringGraphTen (2 / 5)) 1 2
      "Road Closure" "Closed"
      = { Dynamic.init ringGraphTen (2 / 5) with
          graph := { node_count := 5
                     edges := [(1, 2, 10, true), (2, 3, 10, false), (3, 4, 10, false),
                       (4, 5, 10, false), (5, 1, 10, false)] }
          currentMode := Mode.IMMEDIATE_UPDATE
          disruptedClosedEdges := [(1, 2)]
          disruptionSeverityByEdge := [((1, 2), "Closed")]
          disruptionTypeByEdge := [((1, 2), "Road Closure")] } := by
    have hpct : calculateNetworkImpactPercentage Graph.ops
        (userRecorded (Dynamic.init ringGraphTen (2 / 5)) 1 2 "Road Closure" "Closed")
        ≥ (userRecorded (Dynamic.init ringGraphTen (2 / 5)) 1 2 "Road Closure"
            "Closed").DISRUPTION_THRESHOLD_TAU := by
      rw [calculateNetworkImpactPercentage_eq]
      simp [userRecorded, Dynamic.init, Graph.ops, ringGraphTen, specWeightedImpact,
        setInsert]
      norm_num
    rw [addUserDisruption_eq, if_neg (by decide), selectMode_immediate _ _ _ hpct]
    simp [precomputeAffectedLabels, userRecorded, Dynamic.init, setMode, mapAssign,
      makeEdgeId, setInsert, applyAllDisruptions, Graph.ops, Graph.applyDisruption,
      ringGraphTen, clear_dirty]
  unfold freshLazyRingState
  rw [hfirst]
  have hpct : ¬ calculateNetworkImpactPercentage Graph.ops
      (userRecorded
        { ({ Dynamic.init ringGraphTen (2 / 5) with
            graph := { node_count := 5
                       edges := [(1, 2, 10, true), (2, 3, 10, false), (3, 4, 10, false),
                         (4, 5, 10, false), (5, 1, 10, false)] }
            currentMode := Mode.IMMEDIATE_UPDATE
            disruptedClosedEdges := [(1, 2)]
            disruptionSeverityByEdge := [((1, 2), "Closed")]
            disruptionTypeByEdge := [((1, 2), "Road Closure")] } : Dynamic Graph) with
          DISRUPTION_THRESHOLD_TAU := 9 / 10 } 4 5 "Accident" "Medium")
      ≥ (9 / 10 : ℚ) := by
    rw [calculateNetworkImpactPercentage_eq]
    simp [userRecorded, Dynamic.init, Graph.ops, specWeightedImpact, mapAssign]
    norm_num
  rw [addUserDisruption_eq, if_neg (by decide), selectMode_lazy _ _ _ hpct, markLabelsStale_eq]
  simp [userRecorded, Dynamic.init, setMode, mapAssign, makeEdgeId]

theorem freshLazyRingState_tempGraph :
    lazyTempGraph Graph.ops freshLazyRingState.disruptedClosedEdges
        freshLazyRingState.disruptedSlowdownFactorByEdge freshLazyRingState.graph
      = freshLazyRingState.graph := by
  rw [freshLazyRingState_eq]
  simp [lazyTempGraph, Graph.ops, Graph.applyDisruption, makeEdgeId]
  norm_num

theorem freshLazyRingState_effectiveGraph :
    applyAllDisruptions Graph.ops freshLazyRingState.disruptedClosedEdges
        freshLazyRingState.disruptedSlowdownFactorByEdge freshLazyRingState.graph
      = { node_count := 5
          edges := [(1, 2, 10, true), (2, 3, 10, false), (3, 4, 10, false),
            (4, 5, 16, false), (5, 1, 10, false)] } := by
  have hfloor : ((50 : ℚ) / 3).floor = 16 := by
    change ⌊(50 : ℚ) / 3⌋ = 16
    rw [Int.floor_eq_iff]
    constructor <;> norm_num
  rw [freshLazyRingState_eq]
  simp [applyAllDisruptions, Graph.ops, Graph.applyDisruption, makeEdgeId]
  norm_num [hfloor]
  rfl

set_option maxRecDepth 100000 in
theorem closedRing_path_1_3 :
    Graph.get_path_dijkstra
        { node_count := 5
          edges := [(1, 2, 10, true), (2, 3, 10, false), (3, 4, 10, false),
            (4, 5, 10, false), (5, 1, 10, false)] } 1 3 true = (30, [1, 5, 4, 3]) := by
  decide

set_option maxRecDepth 100000 in
theorem slowedRing_distance_1_3 :
    Graph.get_distance
        { node_count := 5
          edges := [(1, 2, 10, true), (2, 3, 10, false), (3, 4, 10, false),
            (4, 5, 16, false), (5, 1, 10, false)] } 1 3 true = 36 := by
  decide

theorem freshLazyRingState_fresh_1_3 : areLabelsStale freshLazyRingState 1 3 = false := by
  rw [freshLazyRingState_eq]
  decide

theorem get_distance_lazy_notstale {G : Type} (ops : GraphOps G) (s : Dynamic G)
    (u w : NodeID) (weighted : Bool) (hmode : s.currentMode = Mode.LAZY_UPDATE)
    (hfresh : areLabelsStale s u w = false) :
    (get_distance ops s u w weighted).2 = s := by
  unfold get_distance
  by_cases hinv : invalidNodeIds ops s u w = true
  · simp [hinv]
  · have hinv2 : invalidNodeIds ops s u w = false := by simpa using hinv
    simp [hinv2, hmode, hfresh]

theorem freshLazyRingState_mode : freshLazyRingState.currentMode = Mode.LAZY_UPDATE := by
  rw [freshLazyRingState_eq]

theorem freshLazyRingState_affected_1_3 :
    isPathAffectedByDisruptions freshLazyRingState 1 3 = true := by
  rw [freshLazyRingState_eq]
  decide

theorem freshLazyRingState_graph :
    freshLazyRingState.graph
      = { node_count := 5
          edges := [(1, 2, 10, true), (2, 3, 10, false), (3, 4, 10, false),
            (4, 5, 10, false), (5, 1, 10, false)] } := by
  rw [freshLazyRingState_eq]

theorem freshLazyRingState_path_1_3 :
    (get_path Graph.pathOps freshLazyRingState 1 3 true).1 = (30, [1, 5, 4, 3]) := by
  rw [get_path_lazy Graph.pathOps freshLazyRingState 1 3 true freshLazyRingState_mode
    (by decide) (by decide) (by decide), if_pos freshLazyRingState_affected_1_3]
  unfold lazyDijkstraAnswer
  simp only []
  have hops : Graph.pathOps.toGraphOps = Graph.ops := rfl
  rw [hops, get_distance_lazy_notstale Graph.ops freshLazyRingState 1 3 _
    freshLazyRingState_mode freshLazyRingState_fresh_1_3, freshLazyRingState_tempGraph,
    freshLazyRingState_graph]
  have hpath : Graph.pathOps.get_path_dijkstra = Graph.get_path_dijkstra := rfl
  rw [hpath, closedRing_path_1_3]

/-! ## Lemmas on repair, on routes and on reports with an unknown severity -/

/-- A repair leaves the stale set as it was and sets the dirty flag of the pair. -/
theorem repairStaleLabels_stale {G : Type} (ops : GraphOps G) (s : Dynamic G) (u v : NodeID)
    (hstale : areLabelsStale s u v = true) :
    (repairStaleLabels ops s u v).stale_nodes = s.stale_nodes
      ∧ is_dirty (repairStaleLabels ops s u v).dirty_pairs u v = true
      ∧ areLabelsStale (repairStaleLabels ops s u v) u v = true := by
  have hdirty : is_dirty (mark_dirty s.dirty_pairs u v) u v = true := by
    simp [is_dirty, mark_dirty]
  have heq : repairStaleLabels ops s u v
      = { s with
          graph := applyAllDisruptions ops s.disruptedClosedEdges
            s.disruptedSlowdownFactorByEdge s.graph
          precomputed_labels := mapAssign s.precomputed_labels (u, v) true
          dirty_pairs := mark_dirty s.dirty_pairs u v } := by
    unfold repairStaleLabels
    rw [hstale]
    rfl
  rw [heq]
  refine ⟨rfl, hdirty, ?_⟩
  unfold areLabelsStale
  simp only [hdirty, Bool.or_true]

theorem get_distance_lazy_repairs {G : Type} (ops : GraphOps G) (s : Dynamic G) (u w : NodeID)
    (weighted : Bool) (hmode : s.currentMode = Mode.LAZY_UPDATE)
    (hvalid : invalidNodeIds ops s u w = false) (hstale : areLabelsStale s u w = true) :
    (get_distance ops s u w weighted).2 = repairStaleLabels ops s u w := by
  unfold get_distance
  rw [hvalid, hmode]
  simp [hstale]

theorem repairStaleLabels_mode {G : Type} (ops : GraphOps G) (s : Dynamic G) (u v : NodeID) :
    (repairStaleLabels ops s u v).currentMode = s.currentMode :=
  (repairStaleLabels_sameManager ops s u v).1

theorem userRecorded_unknown {G : Type} (s : Dynamic G) (u v : NodeID)
    (incidentType severity : String) (h1 : severity ≠ "Heavy") (h2 : severity ≠ "Medium")
    (h3 : severity ≠ "Light") (h4 : severity ≠ "Closed") :
    userRecorded s u v incidentType severity
      = { s with
          disruptionTypeByEdge := mapAssign s.disruptionTypeByEdge (makeEdgeId u v) incidentType
          disruptionSeverityByEdge :=
            mapAssign s.disruptionSeverityByEdge (makeEdgeId u v) severity } := by
  unfold userRecorded
  simp only [h1, h2, h3, h4, if_false]

/-! ## Lemmas on the weighted impact under user reports -/

theorem specWeightedImpact_eq (closed : List EdgeID) (slowed : List (EdgeID × ℚ)) :
    specWeightedImpact closed slowed
      = 2 * (closed.length : ℚ) + (slowed.map (fun e => slowWeight e.2)).sum := by
  rfl

theorem slowSum_mapAssign (l : List (EdgeID × ℚ)) (k : EdgeID) (r : ℚ) :
    ((mapAssign l k r).map (fun e => slowWeight e.2)).sum
      = (l.map (fun e => slowWeight e.2)).sum + slowWeight r
        - (match mapFind l k with
          | some r0 => slowWeight r0
          | none => 0) := by
  induction l with
  | nil => simp [mapAssign, mapFind]
  | cons x rest ih =>
    obtain ⟨k0, r0⟩ := x
    unfold mapAssign mapFind
    by_cases h : k0 = k
    · simp only [h, if_true, List.map_cons, List.sum_cons]
      ring
    · simp only [h, if_false, List.map_cons, List.sum_cons, ih]
      ring

theorem slowWeight_bounds (r : ℚ) : 1 ≤ slowWeight r ∧ slowWeight r ≤ 3 / 2 := by
  unfold slowWeight
  split_ifs <;> norm_num

theorem length_setInsert_le {α : Type} [DecidableEq α] (l : List α) (x : α) :
    l.length ≤ (setInsert l x).length := by
  unfold setInsert
  split_ifs
  · exact le_refl _
  · simp

/-- The percentage grows with the weighted impact. -/
theorem calculateNetworkImpactPercentage_mono {G : Type} (ops : GraphOps G) (a b : Dynamic G)
    (hg : ops.edge_count a.graph = ops.edge_count b.graph)
    (hw : specWeightedImpact a.disruptedClosedEdges a.disruptedSlowdownFactorByEdge
      ≤ specWeightedImpact b.disruptedClosedEdges b.disruptedSlowdownFactorByEdge) :
    calculateNetworkImpactPercentage ops a ≤ calculateNetworkImpactPercentage ops b := by
  rw [calculateNetworkImpactPercentage_eq, calculateNetworkImpactPercentage_eq, hg]
  split_ifs with h0
  · exact le_refl _
  · have hpos : (0 : ℚ) < (ops.edge_count b.graph : ℚ) := by
      exact_mod_cast Nat.pos_of_ne_zero h0
    exact min_le_min (le_refl _) (div_le_div_of_nonneg_right hw (le_of_lt hpos))

theorem userRecorded_lists {G : Type} (s : Dynamic G) (u v : NodeID)
    (incidentType severity : String) :
    (userRecorded s u v incidentType severity).disruptedClosedEdges
        = (if severity = "Closed" then setInsert s.disruptedClosedEdges (makeEdgeId u v)
          else s.disruptedClosedEdges)
      ∧ (userRecorded s u v incidentType severity).disruptedSlowdownFactorByEdge
        = (match severityFactor severity with
          | some r => mapAssign s.disruptedSlowdownFactorByEdge (makeEdgeId u v) r
          | none => s.disruptedSlowdownFactorByEdge) := by
  unfold userRecorded severityFactor
  by_cases h1 : severity = "Heavy"
  · subst h1
    simp
  · by_cases h2 : severity = "Medium"
    · subst h2
      simp
    · by_cases h3 : severity = "Light"
      · subst h3
        simp
      · by_cases h4 : severity = "Closed"
        · subst h4
          simp
        · simp [h1, h2, h3, h4]

/-- The weighted impact of the records after a user report, against the one before. -/
theorem userRecorded_weight {G : Type} (s : Dynamic G) (u v : NodeID)
    (incidentType severity : String) :
    (lowersWeight s u v severity →
        specWeightedImpact (userRecorded s u v incidentType severity).disruptedClosedEdges
            (userRecorded s u v incidentType severity).disruptedSlowdownFactorByEdge
          = specWeightedImpact s.disruptedClosedEdges s.disruptedSlowdownFactorByEdge - 1 / 2)
      ∧ (¬ lowersWeight s u v severity →
        specWeightedImpact s.disruptedClosedEdges s.disruptedSlowdownFactorByEdge
          ≤ specWeightedImpact (userRecorded s u v incidentType severity).disruptedClosedEdges
            (userRecorded s u v incidentType severity).disruptedSlowdownFactorByEdge) := by
  have hassign : ∀ r : ℚ,
      specWeightedImpact s.disruptedClosedEdges
          (mapAssign s.disruptedSlowdownFactorByEdge (makeEdgeId u v) r)
        = specWeightedImpact s.disruptedClosedEdges s.disruptedSlowdownFactorByEdge
          + slowWeight r
          - (match mapFind s.disruptedSlowdownFactorByEdge (makeEdgeId u v) with
            | some r0 => slowWeight r0
            | none => 0) := by
    intro r
    rw [specWeightedImpact_eq, specWeightedImpact_eq, slowSum_mapAssign]
    ring
  have hw1 : slowWeight (3 / 10) = 3 / 2 := by unfold slowWeight; norm_num
  have hw2 : slowWeight (6 / 10) = 1 := by unfold slowWeight; norm_num
  have hw3 : slowWeight (85 / 100) = 1 := by unfold slowWeight; norm_num
  have hold : (match mapFind s.disruptedSlowdownFactorByEdge (makeEdgeId u v) with
      | some r0 => slowWeight r0
      | none => 0) ≤ 3 / 2 := by
    cases mapFind s.disruptedSlowdownFactorByEdge (makeEdgeId u v) with
    | none => norm_num
    | some r0 => exact (slowWeight_bounds r0).2
  have hold1 : (¬ ∃ r0, mapFind s.disruptedSlowdownFactorByEdge (makeEdgeId u v) = some r0
      ∧ r0 < 1 / 2) →
      (match mapFind s.disruptedSlowdownFactorByEdge (makeEdgeId u v) with
      | some r0 => slowWeight r0
      | none => 0) ≤ 1 := by
    intro hno
    cases hfind : mapFind s.disruptedSlowdownFactorByEdge (makeEdgeId u v) with
    | none => norm_num
    | some r0 =>
      have : ¬ r0 < 1 / 2 := fun h => hno ⟨r0, hfind, h⟩
      simp only [slowWeight, this, if_false]
      exact le_refl _
  have hold2 : ∀ r0, mapFind s.disruptedSlowdownFactorByEdge (makeEdgeId u v) = some r0 →
      r0 < 1 / 2 →
      (match mapFind s.disruptedSlowdownFactorByEdge (makeEdgeId u v) with
      | some r0 => slowWeight r0
      | none => 0) = 3 / 2 := by
    intro r0 hfind hlt
    rw [hfind]
    simp only [slowWeight, hlt, if_true]
  obtain ⟨hc, hs⟩ := userRecorded_lists s u v incidentType severity
  rw [hc, hs]
  have hf1 : severityFactor "Heavy" = some (3 / 10) := by simp [severityFactor]
  have hf2 : severityFactor "Medium" = some (6 / 10) := by simp [severityFactor]
  have hf3 : severityFactor "Light" = some (85 / 100) := by simp [severityFactor]
  unfold lowersWeight
  constructor
  · rintro ⟨hsev, r0, hfind, hlt⟩
    have h32 := hold2 r0 hfind hlt
    rcases hsev with h | h
    · subst h
      rw [if_neg (by decide), hf2]
      simp only []
      rw [hassign, hw2, h32]
      ring
    · subst h
      rw [if_neg (by decide), hf3]
      simp only []
      rw [hassign, hw3, h32]
      ring
  · intro hnot
    by_cases h1 : severity = "Heavy"
    · subst h1
      rw [if_neg (by decide), hf1]
      simp only []
      rw [hassign, hw1]
      linarith
    · by_cases h2 : severity = "Medium"
      · have hno := fun h => hnot ⟨Or.inl h2, h⟩
        subst h2
        rw [if_neg (by decide), hf2]
        simp only []
        rw [hassign, hw2]
        have := hold1 hno
        linarith
      · by_cases h3 : severity = "Light"
        · have hno := fun h => hnot ⟨Or.inr h3, h⟩
          subst h3
          rw [if_neg (by decide), hf3]
          simp only []
          rw [hassign, hw3]
          have := hold1 hno
          linarith
        · have hnone : severityFactor severity = none := by
            unfold severityFactor
            simp [h1, h2, h3]
          rw [hnone]
          simp only []
          rw [specWeightedImpact_eq, specWeightedImpact_eq]
          have hlen : (s.disruptedClosedEdges.length : ℚ)
              ≤ ((if severity = "Closed" then
                  setInsert s.disruptedClosedEdges (makeEdgeId u v)
                else s.disruptedClosedEdges).length : ℚ) := by
            split_ifs
            · exact_mod_cast length_setInsert_le _ _
            · exact le_refl _
          linarith

theorem addUserDisruption_tau {G : Type} (ops : GraphOps G) (s : Dynamic G) (u v : NodeID)
    (incidentType severity : String) :
    (addUserDisruption ops s u v incidentType severity).DISRUPTION_THRESHOLD_TAU
      = s.DISRUPTION_THRESHOLD_TAU := by
  rw [addUserDisruption_eq]
  split_ifs
  · rfl
  · rw [(selectMode_records ops _ [u, v]).2.2.2.2]
    exact (userRecorded_sameControl s u v incidentType severity).2.2.2.2.2.2

theorem applyAllDisruptions_edges_length (closed : List EdgeID) (slowed : List (EdgeID × ℚ))
    (g : Graph) :
    (applyAllDisruptions Graph.ops closed slowed g).edges.length = g.edges.length := by
  unfold applyAllDisruptions
  have h1 : ∀ (l : List EdgeID) (gr : Graph),
      (l.foldl (fun gr edge => Graph.ops.applyDisruption gr edge.1 edge.2 1 true)
        gr).edges.length = gr.edges.length := by
    intro l
    induction l with
    | nil => intro gr; rfl
    | cons x rest ih =>
      intro gr
      rw [List.foldl_cons, ih]
      simp [Graph.ops, Graph.applyDisruption]
  have h2 : ∀ (l : List (EdgeID × ℚ)) (gr : Graph),
      (l.foldl (fun gr entry =>
          Graph.ops.applyDisruption gr entry.1.1 entry.1.2 entry.2 false)
        gr).edges.length = gr.edges.length := by
    intro l
    induction l with
    | nil => intro gr; rfl
    | cons x rest ih =>
      intro gr
      rw [List.foldl_cons, ih]
      simp [Graph.ops, Graph.applyDisruption]
  rw [h2, h1]

/-- On the graph store a user report changes neither the number of nodes nor the number of
edges of the graph. -/
theorem addUserDisruption_graph_size (s : Dynamic Graph) (u v : NodeID)
    (incidentType severity : String) :
    (addUserDisruption Graph.ops s u v incidentType severity).graph.node_count
        = s.graph.node_count
      ∧ (addUserDisruption Graph.ops s u v incidentType severity).graph.edges.length
        = s.graph.edges.length := by
  have hctl := userRecorded_sameControl s u v incidentType severity
  rw [addUserDisruption_eq]
  split_ifs
  · exact ⟨rfl, rfl⟩
  · by_cases hp : calculateNetworkImpactPercentage Graph.ops
        (userRecorded s u v incidentType severity)
        ≥ (userRecorded s u v incidentType severity).DISRUPTION_THRESHOLD_TAU
    · rw [selectMode_immediate _ _ _ hp]
      unfold precomputeAffectedLabels setMode
      split_ifs
      · exact ⟨by rw [hctl.1], by rw [hctl.1]⟩
      · exact ⟨by rw [applyAllDisruptions_node_count, hctl.1],
          by rw [applyAllDisruptions_edges_length, hctl.1]⟩
    · rw [selectMode_lazy _ _ _ hp, markLabelsStale_eq]
      exact ⟨by simp only [setMode]; rw [hctl.1], by simp only [setMode]; rw [hctl.1]⟩

/-- The percentage after a user report, on the graph store. -/
theorem addUserDisruption_percentage (s : Dynamic Graph) (u v : NodeID)
    (incidentType severity : String) (hvalid : invalidNodeIds Graph.ops s u v = false) :
    calculateNetworkImpactPercentage Graph.ops
        (addUserDisruption Graph.ops s u v incidentType severity)
      = calculateNetworkImpactPercentage Graph.ops
        { userRecorded s u v incidentType severity with graph := s.graph } := by
  have hrec := addUserDisruption_records Graph.ops s u v incidentType severity hvalid
  apply calculateNetworkImpactPercentage_congr
  · exact (addUserDisruption_graph_size s u v incidentType severity).2
  · exact hrec.1
  · exact hrec.2

theorem lazyChainState_percentage :
    calculateNetworkImpactPercentage Graph.ops lazyChainState = 3 / 8 := by
  rw [calculateNetworkImpactPercentage_eq, lazyChainState_eq]
  simp [Dynamic.init, Graph.ops, chainGraph, specWeightedImpact]
  norm_num

theorem lazyChainState_light_percentage :
    calculateNetworkImpactPercentage Graph.ops
        (addUserDisruption Graph.ops lazyChainState 3 4 "Accident" "Light") = 1 / 4 := by
  rw [addUserDisruption_percentage _ _ _ _ _ (lazyChainState_valid 3 4 (by simp) (by simp)),
    calculateNetworkImpactPercentage_eq, lazyChainState_eq]
  simp [userRecorded, Dynamic.init, Graph.ops, chainGraph, specWeightedImpact, mapAssign,
    makeEdgeId]
  norm_num

theorem immediateChainState_records :
    immediateChainState.disruptedClosedEdges = []
      ∧ immediateChainState.disruptedSlowdownFactorByEdge = [((3, 4), 3 / 10)]
      ∧ immediateChainState.DISRUPTION_THRESHOLD_TAU = 3 / 8
      ∧ immediateChainState.graph.node_count = 5
      ∧ immediateChainState.graph.edges.length = 4 := by
  have hrec := addUserDisruption_records Graph.ops (Dynamic.init chainGraph (3 / 8)) 3 4
    "Accident" "Heavy" (by decide)
  have hsize := addUserDisruption_graph_size (Dynamic.init chainGraph (3 / 8)) 3 4
    "Accident" "Heavy"
  unfold immediateChainState
  refine ⟨?_, ?_, ?_, hsize.1, hsize.2⟩
  · rw [hrec.1]
    rfl
  · rw [hrec.2]
    simp [userRecorded, Dynamic.init, mapAssign, makeEdgeId]
  · rw [addUserDisruption_tau]
    rfl

theorem immediateChainState_mode : immediateChainState.currentMode = Mode.IMMEDIATE_UPDATE := by
  unfold immediateChainState
  rw [addUserDisruption_mode _ _ _ _ _ _ (by decide)]
  have hpct : calculateNetworkImpactPercentage Graph.ops
      { addUserDisruption Graph.ops (Dynamic.init chainGraph (3 / 8)) 3 4 "Accident" "Heavy"
        with graph := (Dynamic.init chainGraph (3 / 8)).graph } = 3 / 8 := by
    rw [calculateNetworkImpactPercentage_eq]
    have h := immediateChainState_records
    unfold immediateChainState at h
    simp only [h.1, h.2.1]
    simp [Dynamic.init, Graph.ops, chainGraph, specWeightedImpact]
    norm_num
  rw [hpct]
  simp [specModeByThreshold, Dynamic.init]

theorem immediateChainState_valid : invalidNodeIds Graph.ops immediateChainState 3 4 = false := by
  unfold invalidNodeIds
  have h : Graph.ops.super_node_count immediateChainState.graph = 5 :=
    immediateChainState_records.2.2.2.1
  rw [h]
  decide

theorem immediateChainState_light_mode :
    (addUserDisruption Graph.ops immediateChainState 3 4 "Accident" "Light").currentMode
      = Mode.LAZY_UPDATE := by
  rw [addUserDisruption_mode _ _ _ _ _ _ immediateChainState_valid]
  have hrec := addUserDisruption_records Graph.ops immediateChainState 3 4 "Accident" "Light"
    immediateChainState_valid
  have hlists := userRecorded_lists immediateChainState 3 4 "Accident" "Light"
  have hbase := immediateChainState_records
  have hpct : calculateNetworkImpactPercentage Graph.ops
      { addUserDisruption Graph.ops immediateChainState 3 4 "Accident" "Light"
        with graph := immediateChainState.graph } = 1 / 4 := by
    rw [calculateNetworkImpactPercentage_eq]
    simp only [hrec.1, hrec.2, hlists.1, hlists.2, hbase.1, hbase.2.1]
    have hcount : Graph.ops.edge_count immediateChainState.graph = 4 := hbase.2.2.2.2
    rw [hcount]
    simp [severityFactor, specWeightedImpact, mapAssign, makeEdgeId]
    norm_num
  rw [hpct, hbase.2.2.1]
  simp [specModeByThreshold]
  norm_num

/-! ## Lemmas on the CSV line splitter -/

theorem commasOutsideQuotes_cons (opened : Nat) (c : Char) (rest : List Char) :
    commasOutsideQuotes opened (c :: rest)
      = (if c = commaChar ∧ opened % 2 = 0 then 1 else 0)
        + commasOutsideQuotes (opened + (if c = quoteChar then 1 else 0)) rest := by
  unfold commasOutsideQuotes
  have hfun : ((fun i => decide ((c :: rest).get? i = some commaChar)
        && decide ((opened + ((c :: rest).take i).count quoteChar) % 2 = 0)) ∘ Nat.succ)
      = (fun i => decide (rest.get? i = some commaChar)
        && decide ((opened + (if c = quoteChar then 1 else 0)
          + (rest.take i).count quoteChar) % 2 = 0)) := by
    funext i
    simp only [Function.comp, List.get?_cons_succ, List.take_succ_cons, List.count_cons]
    by_cases hq : c = quoteChar
    · simp only [hq, beq_self_eq_true, if_true]
      have : opened + ((rest.take i).count quoteChar + 1)
          = opened + 1 + (rest.take i).count quoteChar := by omega
      rw [this]
    · have hq2 : ¬ (c == quoteChar) = true := by simpa using hq
      simp [hq, hq2]
  have hhead : (decide ((c :: rest).get? 0 = some commaChar)
      && decide ((opened + ((c :: rest).take 0).count quoteChar) % 2 = 0))
      = decide (c = commaChar ∧ opened % 2 = 0) := by
    simp only [List.get?_cons_zero, List.take_zero, List.count_nil, Nat.add_zero,
      Option.some.injEq, Bool.decide_and]
  rw [List.length_cons, List.range_succ_eq_map, List.filter_cons, List.filter_map, hfun, hhead]
  by_cases h0 : c = commaChar ∧ opened % 2 = 0
  · rw [if_pos (by simpa using h0), if_pos h0, List.length_cons, List.length_map]
    omega
  · rw [if_neg (by simpa using h0), if_neg h0, List.length_map]
    omega

theorem quoteChar_ne_commaChar : quoteChar ≠ commaChar := by decide

/-- The loop of the splitter: the number of fields, and no field holds a double quote. -/
theorem parseCSVLoop_spec :
    ∀ (rest : List Char) (fields : List (List Char)) (field : List Char) (opened : Nat),
      (parseCSVLoop rest fields field (decide (opened % 2 = 1))).length
          = fields.length + 1 + commasOutsideQuotes opened rest
        ∧ ((∀ f ∈ fields, quoteChar ∉ f) → quoteChar ∉ field →
          ∀ f ∈ parseCSVLoop rest fields field (decide (opened % 2 = 1)), quoteChar ∉ f) := by
  intro rest
  induction rest with
  | nil =>
    intro fields field opened
    constructor
    · simp [parseCSVLoop, commasOutsideQuotes]
    · intro hfields hfield f hf
      simp only [parseCSVLoop, List.mem_append, List.mem_singleton] at hf
      rcases hf with h | h
      · exact hfields f h
      · rw [h]
        exact hfield
  | cons c rest ih =>
    intro fields field opened
    rw [commasOutsideQuotes_cons]
    unfold parseCSVLoop
    by_cases hq : c = quoteChar
    · rw [if_pos hq, if_pos hq]
      have hflip : (!decide (opened % 2 = 1)) = decide ((opened + 1) % 2 = 1) := by
        by_cases h : opened % 2 = 1
        · have : ¬ (opened + 1) % 2 = 1 := by omega
          simp [h, this]
        · have : (opened + 1) % 2 = 1 := by omega
          simp [h, this]
      rw [hflip]
      have hc : ¬ (c = commaChar ∧ opened % 2 = 0) := by
        intro h
        exact quoteChar_ne_commaChar (hq ▸ h.1)
      rw [if_neg hc]
      obtain ⟨h1, h2⟩ := ih fields field (opened + 1)
      exact ⟨by rw [h1]; omega, h2⟩
    · rw [if_neg hq, if_neg hq]
      simp only [Nat.add_zero]
      by_cases hc : c = commaChar ∧ decide (opened % 2 = 1) = false
      · rw [if_pos hc]
        have heven : opened % 2 = 0 := by
          have := hc.2
          simp at this
          omega
        rw [if_pos ⟨hc.1, heven⟩]
        obtain ⟨h1, h2⟩ := ih (fields ++ [field]) [] opened
        refine ⟨by rw [h1]; simp; omega, ?_⟩
        intro hfields hfield
        apply h2
        · intro f hf
          rcases List.mem_append.mp hf with h | h
          · exact hfields f h
          · rw [List.mem_singleton.mp h]
            exact hfield
        · exact List.not_mem_nil _
      · rw [if_neg hc]
        have hc2 : ¬ (c = commaChar ∧ opened % 2 = 0) := by
          intro h
          apply hc
          refine ⟨h.1, ?_⟩
          have : ¬ opened % 2 = 1 := by omega
          simp [this]
        rw [if_neg hc2]
        obtain ⟨h1, h2⟩ := ih fields (field ++ [c]) opened
        refine ⟨by rw [h1]; omega, ?_⟩
        intro hfields hfield
        apply h2 hfields
        intro hmem
        rcases List.mem_append.mp hmem with h | h
        · exact hfield h
        · exact hq (List.mem_singleton.mp h).symm

theorem intercalate_append_pair (sep : List Char) (a b : List Char) :
    ∀ xs : List (List Char),
      List.intercalate sep (xs ++ [a, b]) = List.intercalate sep (xs ++ [a ++ sep ++ b]) := by
  intro xs
  induction xs with
  | nil => simp [List.intercalate, List.intersperse]
  | cons x rest ih =>
    cases rest with
    | nil => simp [List.intercalate, List.intersperse]
    | cons y more =>
      simp only [List.intercalate, List.cons_append, List.intersperse, List.flatten_cons,
        List.append_eq] at ih ⊢
      rw [ih]

/-- On a line without double quotes the fields joined by commas give the line back. -/
theorem parseCSVLoop_join :
    ∀ (rest : List Char) (fields : List (List Char)) (field : List Char),
      quoteChar ∉ rest →
      List.intercalate [commaChar] (parseCSVLoop rest fields field false)
        = List.intercalate [commaChar] (fields ++ [field ++ rest]) := by
  intro rest
  induction rest with
  | nil =>
    intro fields field _
    simp [parseCSVLoop]
  | cons c rest ih =>
    intro fields field hno
    have hc : c ≠ quoteChar := fun h => hno (h ▸ List.mem_cons_self _ _)
    have hrest : quoteChar ∉ rest := fun h => hno (List.mem_cons_of_mem _ h)
    unfold parseCSVLoop
    rw [if_neg hc]
    by_cases hcomma : c = commaChar
    · rw [if_pos ⟨hcomma, rfl⟩, ih _ _ hrest, hcomma]
      have := intercalate_append_pair [commaChar] field rest fields
      simp only [List.append_assoc, List.nil_append, List.cons_append] at this ⊢
      simpa using this
    · rw [if_neg (fun h => hcomma h.1), ih _ _ hrest]
      simp

/-! ## Lemmas on the public interface of the DHL routing service -/

theorem initializeService_disrupted_edges {I : Type} (svc : DHLRoutingService I)
    (graph_file coord_file disruption_file : String) (run : InitializeRun I) :
    (svc.initializeService graph_file coord_file disruption_file run).2.disrupted_edges
      = svc.disrupted_edges := by
  unfold DHLRoutingService.initializeService
  simp only []
  split
  · rfl
  · split
    · rfl
    · rfl
    · split
      · rfl
      · rfl
      · split_ifs
        · rfl
        · rfl
        · split <;> rfl
        · split <;> rfl

theorem runServiceCall_disrupted_edges {I : Type} (svc : DHLRoutingService I)
    (call : ServiceCall I) :
    (runServiceCall svc call).disrupted_edges = svc.disrupted_edges := by
  cases call with
  | initializeService graph_file coord_file disruption_file run =>
    exact initializeService_disrupted_edges svc graph_file coord_file disruption_file run
  | findRoute _ _ _ _ _ _ => rfl
  | addBlockedNode node => rfl
  | removeBlockedNode node => rfl
  | clearBlockedNodes => rfl

theorem runServiceCalls_disrupted_edges {I : Type} (calls : List (ServiceCall I)) :
    ∀ svc : DHLRoutingService I,
      (runServiceCalls svc calls).disrupted_edges = svc.disrupted_edges := by
  induction calls with
  | nil => intro svc; rfl
  | cons call rest ih =>
    intro svc
    unfold runServiceCalls at ih ⊢
    rw [List.foldl_cons, ih, runServiceCall_disrupted_edges]

/-- With no disrupted edge, the part of `findRoute` after the snap lists no blocked edge
and, when it succeeds, reports the distance and the hoplinks of the index and the path of
`reconstruct_path`. -/
theorem findRouteFromNodes_no_disrupted_edges {I : Type} (index : ContractionIndexOps I)
    (text : TextOps) (svc : DHLRoutingService I) (g : RoadGraph) (con_index : I)
    (stored : DHLRoutingResult) (start_node dest_node : NodeID) (use_disruptions : Bool)
    (hempty : svc.disrupted_edges = []) (hstored : stored.blocked_edges = [])
    (hfail : stored.success = false) :
    (svc.findRouteFromNodes index text g con_index stored start_node dest_node
        use_disruptions).blocked_edges = []
      ∧ ((svc.findRouteFromNodes index text g con_index stored start_node dest_node
          use_disruptions).success = true →
        (svc.findRouteFromNodes index text g con_index stored start_node dest_node
            use_disruptions).start_node = start_node
          ∧ (svc.findRouteFromNodes index text g con_index stored start_node dest_node
            use_disruptions).dest_node = dest_node
          ∧ (svc.findRouteFromNodes index text g con_index stored start_node dest_node
            use_disruptions).total_distance = index.get_distance con_index start_node dest_node
          ∧ (svc.findRouteFromNodes index text g con_index stored start_node dest_node
            use_disruptions).hoplinks_examined
              = index.get_hoplinks con_index start_node dest_node
          ∧ (svc.findRouteFromNodes index text g con_index stored start_node dest_node
            use_disruptions).path = svc.reconstruct_path start_node dest_node) := by
  unfold DHLRoutingService.findRouteFromNodes
  simp only [hempty, List.isEmpty_nil, Bool.not_true, Bool.and_false, Bool.false_eq_true,
    if_false, List.map_nil, ite_self]
  split_ifs <;> simp [hstored, hfail]

/-- With no disrupted edge, `findRoute` lists no blocked edge and, when it succeeds,
reports the distance and the hoplinks that the index gives for the two snapped nodes. -/
theorem findRoute_no_disrupted_edges {I : Type} (index : ContractionIndexOps I)
    (text : TextOps) (svc : DHLRoutingService I) (start_lat start_lng dest_lat dest_lng : ℚ)
    (use_disruptions : Bool) (threshold_meters : ℚ) (hempty : svc.disrupted_edges = []) :
    (svc.findRoute index text start_lat start_lng dest_lat dest_lng use_disruptions
        threshold_meters).blocked_edges = []
      ∧ ((svc.findRoute index text start_lat start_lng dest_lat dest_lng use_disruptions
          threshold_meters).success = true →
        ∃ con_index, svc.con_index = some con_index
          ∧ (svc.findRoute index text start_lat start_lng dest_lat dest_lng use_disruptions
              threshold_meters).total_distance
            = index.get_distance con_index
                (svc.findRoute index text start_lat start_lng dest_lat dest_lng
                  use_disruptions threshold_meters).start_node
                (svc.findRoute index text start_lat start_lng dest_lat dest_lng
                  use_disruptions threshold_meters).dest_node
          ∧ (svc.findRoute index text start_lat start_lng dest_lat dest_lng use_disruptions
              threshold_meters).hoplinks_examined
            = index.get_hoplinks con_index
                (svc.findRoute index text start_lat start_lng dest_lat dest_lng
                  use_disruptions threshold_meters).start_node
                (svc.findRoute index text start_lat start_lng dest_lat dest_lng
                  use_disruptions threshold_meters).dest_node
          ∧ (svc.findRoute index text start_lat start_lng dest_lat dest_lng use_disruptions
              threshold_meters).path
            = svc.reconstruct_path
                (svc.findRoute index text start_lat start_lng dest_lat dest_lng
                  use_disruptions threshold_meters).start_node
                (svc.findRoute index text start_lat start_lng dest_lat dest_lng
                  use_disruptions threshold_meters).dest_node) := by
  unfold DHLRoutingService.findRoute
  split
  · rename_i g con_index hg hc
    simp only []
    split_ifs with h0 h1
    · simp [DHLRoutingResult.default]
    · simp [DHLRoutingResult.default]
    · have h := findRouteFromNodes_no_disrupted_edges index text svc g con_index
        { DHLRoutingResult.default with
          start_lat := start_lat
          start_lng := start_lng
          dest_lat := dest_lat
          dest_lng := dest_lng
          uses_disruptions := use_disruptions
          coordinate_threshold_meters := threshold_meters }
        (svc.find_nearest_node text start_lat start_lng threshold_meters)
        (svc.find_nearest_node text dest_lat dest_lng threshold_meters) use_disruptions
        hempty rfl rfl
      refine ⟨h.1, fun hs => ⟨con_index, hc, ?_⟩⟩
      obtain ⟨e1, e2, e3, e4, e5⟩ := h.2 hs
      rw [e1, e2]
      exact ⟨e3, e4, e5⟩
  · simp [DHLRoutingResult.default]

theorem lineServiceCalls_state :
    runServiceCalls DHLRoutingService.new lineServiceCalls
      = { lineService [3] with
          current_graph_file := "graph.txt"
          current_coord_file := "coords.csv" } := by
  simp [runServiceCalls, lineServiceCalls, runServiceCall, DHLRoutingService.initializeService,
    DHLRoutingService.new, lineInitializeRun, lineMapper, lineService,
    DHLRoutingService.addBlockedNode, DHLRoutingService.removeBlockedNode]

theorem lineServiceCalls_findRoute :
    ((runServiceCalls DHLRoutingService.new lineServiceCalls).findRoute lineIndex lineText
        0 0 0 1 true (1 / 2)).success = true
      ∧ ((runServiceCalls DHLRoutingService.new lineServiceCalls).findRoute lineIndex lineText
        0 0 0 1 true (1 / 2)).total_distance = 5
      ∧ ((runServiceCalls DHLRoutingService.new lineServiceCalls).findRoute lineIndex lineText
        0 0 0 1 true (1 / 2)).blocked_nodes = [3] := by
  rw [lineServiceCalls_state]
  have hbig : (12 : ℚ) < DBL_MAX := by
    unfold DBL_MAX
    norm_num
  have h1 : ((1 : ℚ) < DBL_MAX) := lt_trans (by norm_num) hbig
  have h0 : ((0 : ℚ) < DBL_MAX) := lt_trans (by norm_num) hbig
  have hs : DHLRoutingService.find_nearest_node lineText
      { lineService [3] with
        current_graph_file := "graph.txt"
        current_coord_file := "coords.csv" } 0 0 (1 / 2) = 1 := by
    simp only [DHLRoutingService.find_nearest_node, lineService,
      DHLCoordinateMapper.findNearestNode, lineMapper, lineText, List.isEmpty_cons,
      Bool.false_eq_true, if_false, List.foldl_cons, List.foldl_nil]
    norm_num [abs_of_pos, abs_of_neg, h1, h0]
  have hd : DHLRoutingService.find_nearest_node lineText
      { lineService [3] with
        current_graph_file := "graph.txt"
        current_coord_file := "coords.csv" } 0 1 (1 / 2) = 2 := by
    simp only [DHLRoutingService.find_nearest_node, lineService,
      DHLCoordinateMapper.findNearestNode, lineMapper, lineText, List.isEmpty_cons,
      Bool.false_eq_true, if_false, List.foldl_cons, List.foldl_nil]
    norm_num [abs_of_pos, abs_of_neg, h1, h0]
  simp only [DHLRoutingService.findRoute, hs, hd]
  simp [lineService, DHLRoutingService.findRouteFromNodes, DHLRoutingService.isNodeBlocked,
    lineIndex]

/-! ## Lemmas on the shortest routes of the DHL Dijkstra search -/

theorem pqTop_none (l : List (distance_t × NodeID)) (h : pqTop l = none) : l = [] := by
  cases l with
  | nil => rfl
  | cons x rest =>
    unfold pqTop at h
    cases hrest : pqTop rest with
    | none =>
      rw [hrest] at h
      simp at h
    | some y =>
      rw [hrest] at h
      simp only [] at h
      split_ifs at h

theorem pqTop_le (l : List (distance_t × NodeID)) (x : distance_t × NodeID)
    (h : pqTop l = some x) : ∀ y ∈ l, x.1 ≤ y.1 := by
  induction l generalizing x with
  | nil => simp [pqTop] at h
  | cons z rest ih =>
    unfold pqTop at h
    cases hrest : pqTop rest with
    | none =>
      rw [hrest] at h
      simp only [Option.some.injEq] at h
      have hnil := pqTop_none rest hrest
      intro y hy
      rw [hnil, List.mem_singleton] at hy
      rw [hy, h]
    | some t =>
      rw [hrest] at h
      simp only [] at h
      have ht := ih t hrest
      by_cases hless : pqLess t z = true
      · rw [if_pos hless] at h
        simp only [Option.some.injEq] at h
        rw [← h]
        intro y hy
        rcases List.mem_cons.mp hy with hy | hy
        · rw [hy]
          unfold pqLess at hless
          simp only [Bool.or_eq_true, Bool.and_eq_true, decide_eq_true_eq] at hless
          rcases hless with hl | ⟨hl, _⟩
          · exact Nat.le_of_lt hl
          · exact Nat.le_of_eq hl
        · exact ht y hy
      · rw [if_neg hless] at h
        simp only [Option.some.injEq] at h
        rw [← h]
        have hzt : z.1 ≤ t.1 := by
          by_contra hcon
          apply hless
          unfold pqLess
          simp only [Bool.or_eq_true, Bool.and_eq_true, decide_eq_true_eq]
          exact Or.inl (Nat.lt_of_not_le hcon)
        intro y hy
        rcases List.mem_cons.mp hy with hy | hy
        · rw [hy]
        · exact Nat.le_trans hzt (ht y hy)

theorem isRoute_append (g : RoadGraph) (bl : List NodeID) (steps1 steps2 : List Neighbor) :
    ∀ a, isRoute g bl a (steps1 ++ steps2)
      ↔ isRoute g bl a steps1 ∧ isRoute g bl (routeEnd a steps1) steps2 := by
  induction steps1 with
  | nil =>
    intro a
    simp [isRoute, routeEnd]
  | cons s rest ih =>
    intro a
    have h := ih s.node
    change (g.hasArc a s.node s.distance ∧ s.node ∉ bl ∧ isRoute g bl s.node (rest ++ steps2))
      ↔ (g.hasArc a s.node s.distance ∧ s.node ∉ bl ∧ isRoute g bl s.node rest)
        ∧ isRoute g bl (routeEnd s.node rest) steps2
    rw [h]
    tauto

theorem routeEnd_append (steps1 steps2 : List Neighbor) :
    ∀ a, routeEnd a (steps1 ++ steps2) = routeEnd (routeEnd a steps1) steps2 := by
  induction steps1 with
  | nil =>
    intro a
    rfl
  | cons s rest ih =>
    intro a
    exact ih s.node

theorem routeWeight_append (steps1 steps2 : List Neighbor) :
    routeWeight (steps1 ++ steps2) = routeWeight steps1 + routeWeight steps2 := by
  unfold routeWeight
  rw [List.map_append, List.sum_append]

theorem routeEnd_mem (steps : List Neighbor) :
    ∀ a, routeEnd a steps ∈ routeNodes a steps := by
  induction steps with
  | nil =>
    intro a
    simp [routeEnd, routeNodes]
  | cons s rest ih =>
    intro a
    have h := ih s.node
    unfold routeNodes at h ⊢
    simp only [routeEnd, List.map_cons]
    exact List.mem_cons_of_mem _ h

theorem routeNodes_getLast (steps : List Neighbor) :
    ∀ a, (routeNodes a steps).getLast? = some (routeEnd a steps) := by
  induction steps with
  | nil =>
    intro a
    rfl
  | cons s rest ih =>
    intro a
    have h := ih s.node
    unfold routeNodes at h ⊢
    simp only [routeEnd, List.map_cons]
    rw [List.getLast?_cons_cons]
    exact h

/-- A route that starts inside a set of nodes and ends outside it crosses an arc from a
node of the set to a node outside it. -/
theorem route_first_outside (g : RoadGraph) (bl : List NodeID) (visited : List NodeID)
    (steps : List Neighbor) :
    ∀ a, a ∈ visited → isRoute g bl a steps → routeEnd a steps ∉ visited →
      ∃ steps1 step steps2, steps = steps1 ++ step :: steps2
        ∧ isRoute g bl a steps1 ∧ routeEnd a steps1 ∈ visited
        ∧ g.hasArc (routeEnd a steps1) step.node step.distance
        ∧ step.node ∉ bl ∧ step.node ∉ visited := by
  induction steps with
  | nil =>
    intro a ha _ hend
    exact absurd ha hend
  | cons s rest ih =>
    intro a ha hroute hend
    obtain ⟨harc, hbl, hrest⟩ := hroute
    by_cases hs : s.node ∈ visited
    · obtain ⟨steps1, step, steps2, heq, h1, h2, h3, h4, h5⟩ := ih s.node hs hrest hend
      refine ⟨s :: steps1, step, steps2, ?_, ⟨harc, hbl, h1⟩, h2, h3, h4, h5⟩
      rw [heq]
      rfl
    · exact ⟨[], s, rest, rfl, trivial, ha, harc, hbl, hs⟩

/-- From a settled node the parent pointers lead back to `start` along settled nodes,
without a repetition. -/
theorem settledChain_path (parents : List (NodeID × NodeID)) (start : NodeID)
    (l : List NodeID) :
    ∀ node, settledChain parents start l → l.Nodup → node ∈ l →
      ∃ pre, pre.head? = some start ∧ pre.getLast? = some node
        ∧ List.Chain' (fun a b => mapFind parents b = some a) pre
        ∧ pre.Nodup ∧ ∀ m ∈ pre, m ∈ l := by
  induction l with
  | nil =>
    intro node _ _ hmem
    simp at hmem
  | cons n rest ih =>
    intro node hset hnodup hmem
    obtain ⟨hn, hrest⟩ := hset
    have hnr : n ∉ rest := (List.nodup_cons.mp hnodup).1
    have hrn : rest.Nodup := (List.nodup_cons.mp hnodup).2
    by_cases hstart : node = start
    · refine ⟨[start], rfl, ?_, List.chain'_singleton _, List.nodup_singleton _, ?_⟩
      · rw [hstart]
        rfl
      · intro m hm
        rw [List.mem_singleton] at hm
        rw [hm, ← hstart]
        exact hmem
    · by_cases hhead : node = n
      · rcases hn with hn | ⟨p, hp, hpmem⟩
        · exact absurd (hhead.trans hn) hstart
        · obtain ⟨pre, hh, hl, hc, hnd, hsub⟩ := ih p hrest hrn hpmem
          refine ⟨pre ++ [node], ?_, ?_, ?_, ?_, ?_⟩
          · cases pre with
            | nil => simp at hh
            | cons x xs => simpa using hh
          · simp
          · apply List.Chain'.append hc (List.chain'_singleton _)
            intro x hx y hy
            rw [hl] at hx
            simp only [Option.mem_def, Option.some.injEq] at hx
            simp only [List.head?_cons, Option.mem_def, Option.some.injEq] at hy
            subst hx
            subst hy
            rw [hhead]
            exact hp
          · rw [List.nodup_append]
            refine ⟨hnd, List.nodup_singleton _, ?_⟩
            intro x hx1 hx2
            rw [List.mem_singleton] at hx2
            rw [hx2, hhead] at hx1
            exact hnr (hsub n hx1)
          · intro m hm
            rcases List.mem_append.mp hm with hm | hm
            · exact List.mem_cons_of_mem _ (hsub m hm)
            · rw [List.mem_singleton] at hm
              rw [hm, hhead]
              exact List.mem_cons_self _ _
      · have hmem2 : node ∈ rest := by
          rcases List.mem_cons.mp hmem with h | h
          · exact absurd h hhead
          · exact h
        obtain ⟨pre, hh, hl, hc, hnd, hsub⟩ := ih node hrest hrn hmem2
        exact ⟨pre, hh, hl, hc, hnd, fun m hm => List.mem_cons_of_mem _ (hsub m hm)⟩

/-- A chain of parent pointers is the node sequence of a route whose weight is the
difference of the tentative distances of its two ends. -/
theorem route_of_chain (g : RoadGraph) (bl : List NodeID)
    (distances : List (NodeID × distance_t)) (parents : List (NodeID × NodeID))
    (htree : ∀ n p, mapFind parents n = some p →
      ∃ dp w, mapFind distances p = some dp ∧ mapFind distances n = some (dp + w)
        ∧ g.hasArc p n w)
    (hbl : ∀ n p, mapFind parents n = some p → n ∉ bl)
    (rest : List NodeID) :
    ∀ (a : NodeID) (da : distance_t), mapFind distances a = some da →
      List.Chain' (fun a b => mapFind parents b = some a) (a :: rest) →
      ∃ steps, isRoute g bl a steps ∧ routeNodes a steps = a :: rest
        ∧ mapFind distances (routeEnd a steps) = some (da + routeWeight steps) := by
  induction rest with
  | nil =>
    intro a da hda _
    exact ⟨[], trivial, rfl, by simpa [routeEnd, routeWeight] using hda⟩
  | cons b rest ih =>
    intro a da hda hchain
    rw [List.chain'_cons] at hchain
    obtain ⟨hab, hrest⟩ := hchain
    obtain ⟨dp, w, hdp, hdb, harc⟩ := htree b a hab
    rw [hda] at hdp
    simp only [Option.some.injEq] at hdp
    subst hdp
    obtain ⟨steps, hroute, hnodes, hend⟩ := ih b (da + w) hdb hrest
    refine ⟨⟨b, w⟩ :: steps, ⟨harc, hbl b a hab, hroute⟩, ?_, ?_⟩
    · unfold routeNodes at hnodes ⊢
      simp only [List.map_cons]
      rw [hnodes]
    · simp only [routeEnd]
      rw [hend]
      unfold routeWeight
      simp only [List.map_cons, List.sum_cons]
      rw [Nat.add_assoc]

theorem improved_opt (g : RoadGraph) (bl : List NodeID) (start dest : NodeID)
    (st : DijkstraState) (current m : NodeID) (d w : distance_t)
    (hinv : DijkstraInv g bl start st) (hopt : DijkstraOpt g bl start dest [current] st)
    (hstart : start ∈ st.visited) (hcur : current ∈ st.visited)
    (hd : mapFind st.distances current = some d) (harc : g.hasArc current m w)
    (hvis : m ∉ st.visited)
    (hless : ∀ old, mapFind st.distances m = some old → d + w < old) :
    DijkstraOpt g bl start dest [current]
      { st with
        distances := mapAssign st.distances m (d + w)
        parents := mapAssign st.parents m current
        pq := (d + w, m) :: st.pq } := by
  have hms : m ≠ start := fun h => hvis (h ▸ hstart)
  have hmc : m ≠ current := fun h => hvis (h ▸ hcur)
  have hfrozen : ∀ x ∈ st.visited,
      mapFind (mapAssign st.distances m (d + w)) x = mapFind st.distances x := by
    intro x hx
    exact mapFind_mapAssign_ne _ _ _ _ (fun h => hvis (h ▸ hx))
  constructor
  · change mapFind (mapAssign st.distances m (d + w)) start = some 0
    rw [hfrozen start hstart]
    exact hopt.start_dist
  · change mapFind (mapAssign st.parents m current) start = none
    rw [mapFind_mapAssign_ne _ _ _ _ hms]
    exact hopt.start_parent
  · exact Or.inl hstart
  · intro n p hnp
    change mapFind (mapAssign st.parents m current) n = some p at hnp
    change ∃ dp w2, mapFind (mapAssign st.distances m (d + w)) p = some dp
      ∧ mapFind (mapAssign st.distances m (d + w)) n = some (dp + w2) ∧ g.hasArc p n w2
    by_cases hnm : m = n
    · subst hnm
      rw [mapFind_mapAssign_self] at hnp
      simp only [Option.some.injEq] at hnp
      subst hnp
      refine ⟨d, w, ?_, mapFind_mapAssign_self _ _ _, harc⟩
      rw [hfrozen current hcur]
      exact hd
    · rw [mapFind_mapAssign_ne _ _ _ _ hnm] at hnp
      obtain ⟨dp, w2, h1, h2, h3⟩ := hopt.tree n p hnp
      have hp : p ∈ st.visited := (hinv.parent_edge n p hnp).2.2
      refine ⟨dp, w2, ?_, ?_, h3⟩
      · rw [hfrozen p hp]
        exact h1
      · rw [mapFind_mapAssign_ne _ _ _ _ hnm]
        exact h2
  · intro e he
    change e ∈ (d + w, m) :: st.pq at he
    change ∃ d2, mapFind (mapAssign st.distances m (d + w)) e.2 = some d2 ∧ d2 ≤ e.1
    rcases List.mem_cons.mp he with he | he
    · rw [he]
      exact ⟨d + w, mapFind_mapAssign_self _ _ _, Nat.le_refl _⟩
    · obtain ⟨d2, h1, h2⟩ := hopt.pq_dist e he
      by_cases hem : m = e.2
      · rw [← hem]
        refine ⟨d + w, mapFind_mapAssign_self _ _ _, ?_⟩
        rw [← hem] at h1
        exact Nat.le_trans (Nat.le_of_lt (hless d2 h1)) h2
      · exact ⟨d2, by rw [mapFind_mapAssign_ne _ _ _ _ hem]; exact h1, h2⟩
  · intro n dn hn hnv
    change mapFind (mapAssign st.distances m (d + w)) n = some dn at hn
    change (dn, n) ∈ (d + w, m) :: st.pq
    by_cases hnm : m = n
    · subst hnm
      rw [mapFind_mapAssign_self] at hn
      simp only [Option.some.injEq] at hn
      rw [← hn]
      exact List.mem_cons_self _ _
    · rw [mapFind_mapAssign_ne _ _ _ _ hnm] at hn
      exact List.mem_cons_of_mem _ (hopt.pq_has n dn hn hnv)
  · intro x hx
    change ∃ d2, mapFind (mapAssign st.distances m (d + w)) x = some d2
    rw [hfrozen x hx]
    exact hopt.visited_dist x hx
  · intro x hx hex dx hdx y w2 hxy hybl hyv
    change mapFind (mapAssign st.distances m (d + w)) x = some dx at hdx
    change ∃ dy, mapFind (mapAssign st.distances m (d + w)) y = some dy ∧ dy ≤ dx + w2
    rw [hfrozen x hx] at hdx
    obtain ⟨dy, h1, h2⟩ := hopt.closed x hx hex dx hdx y w2 hxy hybl hyv
    by_cases hym : m = y
    · subst hym
      exact ⟨d + w, mapFind_mapAssign_self _ _ _, Nat.le_trans (Nat.le_of_lt (hless dy h1)) h2⟩
    · exact ⟨dy, by rw [mapFind_mapAssign_ne _ _ _ _ hym]; exact h1, h2⟩
  · intro x hx dx hdx steps hroute hend
    change mapFind (mapAssign st.distances m (d + w)) x = some dx at hdx
    rw [hfrozen x hx] at hdx
    exact hopt.optimal x hx dx hdx steps hroute hend
  · exact hopt.dest_open
  · exact hopt.visited_nodup

/-- One step of the relaxation loop keeps the invariant, raises no tentative distance, and
leaves the neighbour, when it is neither settled nor blocked, with a tentative distance of
at most `d + w`. -/
theorem relaxNeighbor_opt (g : RoadGraph) (bl : List NodeID) (start dest : NodeID)
    (d : distance_t) (current : NodeID) (st : DijkstraState) (nb : Neighbor)
    (hinv : DijkstraInv g bl start st) (hopt : DijkstraOpt g bl start dest [current] st)
    (hstart : start ∈ st.visited) (hcur : current ∈ st.visited)
    (hd : mapFind st.distances current = some d)
    (harc : g.hasArc current nb.node nb.distance)
    (hbound : nb.node ∉ st.visited → nb.node ∉ bl → d + nb.distance < distance_modulus) :
    DijkstraOpt g bl start dest [current] (relaxNeighbor [] bl d current st nb)
      ∧ (∀ n dn, mapFind st.distances n = some dn →
        ∃ dn2, mapFind (relaxNeighbor [] bl d current st nb).distances n = some dn2
          ∧ dn2 ≤ dn)
      ∧ (nb.node ∉ st.visited → nb.node ∉ bl →
        ∃ dy, mapFind (relaxNeighbor [] bl d current st nb).distances nb.node = some dy
          ∧ dy ≤ d + nb.distance) := by
  have hsame : ∀ n dn, mapFind st.distances n = some dn →
      ∃ dn2, mapFind st.distances n = some dn2 ∧ dn2 ≤ dn :=
    fun n dn h => ⟨dn, h, Nat.le_refl _⟩
  unfold relaxNeighbor
  split_ifs with hvis hde hbl
  · exact ⟨hopt, hsame, fun h _ => absurd hvis h⟩
  · simp at hde
  · exact ⟨hopt, hsame, fun _ h => absurd hbl h⟩
  · have hmod : (d + nb.distance) % distance_modulus = d + nb.distance :=
      Nat.mod_eq_of_lt (hbound hvis hbl)
    simp only [hmod]
    have himproved : (∀ old, mapFind st.distances nb.node = some old → d + nb.distance < old) →
        DijkstraOpt g bl start dest [current]
            { st with
              distances := mapAssign st.distances nb.node (d + nb.distance)
              parents := mapAssign st.parents nb.node current
              pq := (d + nb.distance, nb.node) :: st.pq }
          ∧ (∀ n dn, mapFind st.distances n = some dn →
            ∃ dn2, mapFind (mapAssign st.distances nb.node (d + nb.distance)) n = some dn2
              ∧ dn2 ≤ dn)
          ∧ (nb.node ∉ st.visited → nb.node ∉ bl →
            ∃ dy, mapFind (mapAssign st.distances nb.node (d + nb.distance)) nb.node
                = some dy ∧ dy ≤ d + nb.distance) := by
      intro hless
      refine ⟨improved_opt g bl start dest st current nb.node d nb.distance hinv hopt hstart
        hcur hd harc hvis hless, ?_, ?_⟩
      · intro n dn hn
        by_cases hnm : nb.node = n
        · subst hnm
          exact ⟨d + nb.distance, mapFind_mapAssign_self _ _ _, Nat.le_of_lt (hless dn hn)⟩
        · exact ⟨dn, by rw [mapFind_mapAssign_ne _ _ _ _ hnm]; exact hn, Nat.le_refl _⟩
      · intro _ _
        exact ⟨d + nb.distance, mapFind_mapAssign_self _ _ _, Nat.le_refl _⟩
    cases hold : mapFind st.distances nb.node with
    | none =>
      simp only []
      apply himproved
      intro old h
      rw [hold] at h
      exact absurd h (by simp)
    | some old =>
      simp only []
      by_cases hlt : d + nb.distance < old
      · rw [if_pos hlt]
        apply himproved
        intro old2 h
        rw [hold] at h
        simp only [Option.some.injEq] at h
        rw [← h]
        exact hlt
      · rw [if_neg hlt]
        exact ⟨hopt, hsame, fun _ _ => ⟨old, hold, Nat.le_of_not_lt hlt⟩⟩

theorem relaxNeighbor_frozen (de : List (String × Bool)) (bl : List NodeID)
    (d : distance_t) (current : NodeID) (st : DijkstraState) (nb : Neighbor) (x : NodeID)
    (hx : x ∈ st.visited) :
    mapFind (relaxNeighbor de bl d current st nb).distances x = mapFind st.distances x := by
  unfold relaxNeighbor
  split_ifs with hvis hde hbl
  · rfl
  · rfl
  · rfl
  · have hne : nb.node ≠ x := fun h => hvis (h ▸ hx)
    simp only []
    split
    · exact mapFind_mapAssign_ne _ _ _ _ hne
    · split_ifs
      · exact mapFind_mapAssign_ne _ _ _ _ hne
      · rfl

/-- The relaxation loop over the neighbours of the node being settled keeps the invariant
and leaves every neighbour that is neither settled nor blocked with a tentative distance
of at most `d + w`. -/
theorem relaxFold_opt (g : RoadGraph) (bl : List NodeID) (start dest : NodeID)
    (d : distance_t) (current : NodeID) (neighbors : List Neighbor) :
    ∀ st : DijkstraState, DijkstraInv g bl start st →
      DijkstraOpt g bl start dest [current] st → start ∈ st.visited →
      current ∈ st.visited → mapFind st.distances current = some d →
      (∀ nb ∈ neighbors, g.hasArc current nb.node nb.distance) →
      (∀ nb ∈ neighbors, nb.node ∉ st.visited → nb.node ∉ bl →
        d + nb.distance < distance_modulus) →
      DijkstraOpt g bl start dest [current]
          (neighbors.foldl (relaxNeighbor [] bl d current) st)
        ∧ (∀ n dn, mapFind st.distances n = some dn →
          ∃ dn2, mapFind (neighbors.foldl (relaxNeighbor [] bl d current) st).distances n
              = some dn2 ∧ dn2 ≤ dn)
        ∧ (∀ nb ∈ neighbors, nb.node ∉ st.visited → nb.node ∉ bl →
          ∃ dy, mapFind (neighbors.foldl (relaxNeighbor [] bl d current) st).distances
              nb.node = some dy ∧ dy ≤ d + nb.distance) := by
  induction neighbors with
  | nil =>
    intro st _ hopt _ _ _ _ _
    refine ⟨hopt, fun n dn h => ⟨dn, h, Nat.le_refl _⟩, ?_⟩
    intro nb hnb
    simp at hnb
  | cons nb rest ih =>
    intro st hinv hopt hstart hcur hd harc hbound
    have harc1 := harc nb (List.mem_cons_self _ _)
    have hedge : g.hasEdge current nb.node = true := by
      obtain ⟨neighbors, hget, hmem⟩ := harc1
      exact hasEdge_of_mem g current neighbors hget _ hmem
    have hinv1 := relaxNeighbor_inv g [] bl start d current st nb hinv hcur hedge
    obtain ⟨hopt1, hmono1, hnb1⟩ := relaxNeighbor_opt g bl start dest d current st nb hinv
      hopt hstart hcur hd harc1 (hbound nb (List.mem_cons_self _ _))
    have hv := relaxNeighbor_visited [] bl d current st nb
    have hd1 : mapFind (relaxNeighbor [] bl d current st nb).distances current = some d := by
      rw [relaxNeighbor_frozen [] bl d current st nb current hcur]
      exact hd
    obtain ⟨hopt2, hmono2, hnb2⟩ := ih (relaxNeighbor [] bl d current st nb) hinv1 hopt1
      (by rw [hv]; exact hstart) (by rw [hv]; exact hcur) hd1
      (fun x hx => harc x (List.mem_cons_of_mem _ hx))
      (fun x hx hxv => hbound x (List.mem_cons_of_mem _ hx) (by rw [← hv]; exact hxv))
    simp only [List.foldl_cons]
    refine ⟨hopt2, ?_, ?_⟩
    · intro n dn hn
      obtain ⟨dn1, h1, h2⟩ := hmono1 n dn hn
      obtain ⟨dn2, h3, h4⟩ := hmono2 n dn1 h1
      exact ⟨dn2, h3, Nat.le_trans h4 h2⟩
    · intro x hx hxv hxbl
      rcases List.mem_cons.mp hx with hx | hx
      · subst hx
        obtain ⟨dy, h1, h2⟩ := hnb1 hxv hxbl
        obtain ⟨dy2, h3, h4⟩ := hmono2 x.node dy h1
        exact ⟨dy2, h3, Nat.le_trans h4 h2⟩
      · exact hnb2 x hx (by rw [hv]; exact hxv) hxbl

theorem relaxFold_frozen (de : List (String × Bool)) (bl : List NodeID) (d : distance_t)
    (current : NodeID) (neighbors : List Neighbor) (x : NodeID) :
    ∀ st : DijkstraState, x ∈ st.visited →
      mapFind (neighbors.foldl (relaxNeighbor de bl d current) st).distances x
        = mapFind st.distances x := by
  induction neighbors with
  | nil =>
    intro st _
    rfl
  | cons nb rest ih =>
    intro st hx
    simp only [List.foldl_cons]
    rw [ih (relaxNeighbor de bl d current st nb)
      (by rw [relaxNeighbor_visited]; exact hx)]
    exact relaxNeighbor_frozen de bl d current st nb x hx

/-- The key of the queue entry that settles a node is the tentative distance of the
node. -/
theorem settle_key (g : RoadGraph) (bl : List NodeID) (start dest : NodeID)
    (st : DijkstraState) (top : distance_t × NodeID)
    (hopt : DijkstraOpt g bl start dest [] st) (htop : pqTop st.pq = some top)
    (hvis : top.2 ∉ st.visited) : mapFind st.distances top.2 = some top.1 := by
  obtain ⟨d2, h1, h2⟩ := hopt.pq_dist top (pqTop_mem st.pq top htop)
  have hmem := hopt.pq_has top.2 d2 h1 hvis
  have hle := pqTop_le st.pq top htop (d2, top.2) hmem
  rw [h1, Nat.le_antisymm h2 hle]

/-- The key of the queue entry that settles a node is at most the weight of every route
from `start` to the node. -/
theorem settle_optimal (g : RoadGraph) (bl : List NodeID) (start dest : NodeID)
    (st : DijkstraState) (top : distance_t × NodeID)
    (hopt : DijkstraOpt g bl start dest [] st) (htop : pqTop st.pq = some top)
    (hvis : top.2 ∉ st.visited) (steps : List Neighbor) (hroute : isRoute g bl start steps)
    (hend : routeEnd start steps = top.2) : top.1 ≤ routeWeight steps := by
  by_cases hsv : start ∈ st.visited
  · obtain ⟨steps1, step, steps2, heq, h1, h2, h3, h4, h5⟩ :=
      route_first_outside g bl st.visited steps start hsv hroute (by rw [hend]; exact hvis)
    obtain ⟨dx, hdx⟩ := hopt.visited_dist _ h2
    have hx := hopt.optimal _ h2 dx hdx steps1 h1 rfl
    obtain ⟨dy, hdy, hle⟩ := hopt.closed _ h2 (List.not_mem_nil _) dx hdx step.node
      step.distance h3 h4 h5
    have hmem := hopt.pq_has step.node dy hdy h5
    have htopy := pqTop_le st.pq top htop (dy, step.node) hmem
    have hw : routeWeight steps
        = routeWeight steps1 + (step.distance + routeWeight steps2) := by
      rw [heq, routeWeight_append]
      unfold routeWeight
      simp only [List.map_cons, List.sum_cons]
    rw [hw]
    have h6 : top.1 ≤ dx + step.distance := Nat.le_trans htopy hle
    have h7 : dx + step.distance ≤ routeWeight steps1 + step.distance :=
      Nat.add_le_add_right hx _
    have h8 : routeWeight steps1 + step.distance
        ≤ routeWeight steps1 + (step.distance + routeWeight steps2) :=
      Nat.add_le_add_left (Nat.le_add_right _ _) _
    exact Nat.le_trans h6 (Nat.le_trans h7 h8)
  · have hmem := hopt.pq_has start 0 hopt.start_dist hsv
    have hle := pqTop_le st.pq top htop (0, start) hmem
    exact Nat.le_trans hle (Nat.zero_le _)

/-- Dropping a queue entry of a settled node keeps the invariant. -/
theorem pop_stale_opt (g : RoadGraph) (bl : List NodeID) (start dest : NodeID)
    (st : DijkstraState) (top : distance_t × NodeID)
    (hopt : DijkstraOpt g bl start dest [] st) (htop : pqTop st.pq = some top)
    (hvis : top.2 ∈ st.visited) :
    DijkstraOpt g bl start dest [] { st with pq := st.pq.erase top } := by
  refine ⟨hopt.start_dist, hopt.start_parent, ?_, hopt.tree, ?_, ?_, hopt.visited_dist,
    hopt.closed, hopt.optimal, hopt.dest_open, hopt.visited_nodup⟩
  · rcases hopt.start_settled with h | h
    · exact Or.inl h
    · have hmem := pqTop_mem st.pq top htop
      rw [h, List.mem_singleton] at hmem
      rw [hmem] at hvis
      exact Or.inl hvis
  · exact fun e he => hopt.pq_dist e (List.mem_of_mem_erase he)
  · intro n d hn hnv
    have hmem := hopt.pq_has n d hn hnv
    have hne : (d, n) ≠ top := by
      intro h
      rw [← h] at hvis
      exact hnv hvis
    exact (List.mem_erase_of_ne hne).mpr hmem

/-- Settling the node of the least queue entry keeps the invariant, except that the arcs
out of the node are still to be relaxed. -/
theorem settle_opt (g : RoadGraph) (bl : List NodeID) (start dest : NodeID)
    (st : DijkstraState) (top : distance_t × NodeID)
    (hopt : DijkstraOpt g bl start dest [] st) (htop : pqTop st.pq = some top)
    (hvis : top.2 ∉ st.visited) (hdest : top.2 ≠ dest) :
    DijkstraOpt g bl start dest [top.2]
        { st with pq := st.pq.erase top, visited := top.2 :: st.visited }
      ∧ start ∈ top.2 :: st.visited := by
  have hkey := settle_key g bl start dest st top hopt htop hvis
  have hstart : start ∈ top.2 :: st.visited := by
    rcases hopt.start_settled with h | h
    · exact List.mem_cons_of_mem _ h
    · have hmem := pqTop_mem st.pq top htop
      rw [h, List.mem_singleton] at hmem
      rw [hmem]
      exact List.mem_cons_self _ _
  refine ⟨⟨hopt.start_dist, hopt.start_parent, Or.inl hstart, hopt.tree, ?_, ?_, ?_, ?_, ?_,
    ?_, ?_⟩, hstart⟩
  · exact fun e he => hopt.pq_dist e (List.mem_of_mem_erase he)
  · intro n d hn hnv
    have hn1 : n ≠ top.2 := fun h => hnv (h ▸ List.mem_cons_self _ _)
    have hn2 : n ∉ st.visited := fun h => hnv (List.mem_cons_of_mem _ h)
    have hmem := hopt.pq_has n d hn hn2
    have hne : (d, n) ≠ top := by
      intro h
      rw [← h] at hn1
      exact hn1 rfl
    exact (List.mem_erase_of_ne hne).mpr hmem
  · intro x hx
    rcases List.mem_cons.mp hx with hx | hx
    · rw [hx]
      exact ⟨top.1, hkey⟩
    · exact hopt.visited_dist x hx
  · intro x hx hex dx hdx y w hxy hybl hyv
    have hx1 : x ≠ top.2 := fun h => hex (by rw [h]; exact List.mem_singleton_self _)
    have hx2 : x ∈ st.visited := by
      rcases List.mem_cons.mp hx with h | h
      · exact absurd h hx1
      · exact h
    exact hopt.closed x hx2 (List.not_mem_nil _) dx hdx y w hxy hybl
      (fun h => hyv (List.mem_cons_of_mem _ h))
  · intro x hx dx hdx steps hroute hend
    rcases List.mem_cons.mp hx with hx | hx
    · subst hx
      change mapFind st.distances top.2 = some dx at hdx
      rw [hkey] at hdx
      simp only [Option.some.injEq] at hdx
      rw [← hdx]
      exact settle_optimal g bl start dest st top hopt htop hvis steps hroute hend
    · exact hopt.optimal x hx dx hdx steps hroute hend
  · intro h
    rcases List.mem_cons.mp h with h | h
    · exact hdest h.symm
    · exact hopt.dest_open h
  · exact List.nodup_cons.mpr ⟨hvis, hopt.visited_nodup⟩

/-- A settled node is the end of a route from `start` along the parent pointers that
repeats no node, stays among the settled nodes and weighs the tentative distance of the
node. -/
theorem settled_route (g : RoadGraph) (bl : List NodeID) (start : NodeID)
    (distances : List (NodeID × distance_t)) (parents : List (NodeID × NodeID))
    (htree : ∀ n p, mapFind parents n = some p →
      ∃ dp w, mapFind distances p = some dp ∧ mapFind distances n = some (dp + w)
        ∧ g.hasArc p n w)
    (hbl : ∀ n p, mapFind parents n = some p → n ∉ bl)
    (hstart : mapFind distances start = some 0)
    (pre : List NodeID) (node : NodeID) (hhead : pre.head? = some start)
    (hlast : pre.getLast? = some node)
    (hchain : List.Chain' (fun a b => mapFind parents b = some a) pre) :
    ∃ steps, isRoute g bl start steps ∧ routeEnd start steps = node
      ∧ routeNodes start steps = pre
      ∧ mapFind distances node = some (routeWeight steps) := by
  cases pre with
  | nil => simp at hhead
  | cons a rest =>
    simp only [List.head?_cons, Option.some.injEq] at hhead
    subst hhead
    obtain ⟨steps, h1, h2, h3⟩ := route_of_chain g bl distances parents htree hbl rest a 0
      hstart hchain
    have hend : routeEnd a steps = node := by
      have h4 := routeNodes_getLast steps a
      rw [h2, hlast] at h4
      simp only [Option.some.injEq] at h4
      exact h4.symm
    refine ⟨steps, h1, hend, h2, ?_⟩
    rw [hend, Nat.zero_add] at h3
    exact h3

/-- In a graph whose neighbour ids all have an adjacency list, the far endpoint of an
edge has an adjacency list. -/
theorem get_neighbors_of_hasEdge (g : RoadGraph)
    (hwf : ∀ row ∈ g.adjacency, ∀ nb ∈ row, nb.node < g.adjacency.length)
    (p n : NodeID) (hedge : g.hasEdge p n = true) :
    ∃ neighbors, g.get_neighbors n = some neighbors := by
  unfold RoadGraph.hasEdge at hedge
  cases hget : g.get_neighbors p with
  | none =>
    rw [hget] at hedge
    simp at hedge
  | some row =>
    rw [hget] at hedge
    simp only [List.any_eq_true, decide_eq_true_eq] at hedge
    obtain ⟨nb, hnb, hnode⟩ := hedge
    unfold RoadGraph.get_neighbors at hget ⊢
    have hrow : row ∈ g.adjacency := List.get?_mem hget
    have hlt : n < g.adjacency.length := by
      rw [← hnode]
      exact hwf row hrow nb hnb
    exact ⟨g.adjacency.get ⟨n, hlt⟩, List.get?_eq_get hlt⟩

/-- Relaxing every arc out of the node just settled restores the invariant of the loop. -/
theorem close_opt (g : RoadGraph) (bl : List NodeID) (start dest : NodeID)
    (st : DijkstraState) (current : NodeID) (d : distance_t) (neighbors : List Neighbor)
    (hopt : DijkstraOpt g bl start dest [current] st)
    (hget : g.get_neighbors current = some neighbors)
    (hd : mapFind st.distances current = some d)
    (hrelaxed : ∀ nb ∈ neighbors, nb.node ∉ st.visited → nb.node ∉ bl →
      ∃ dy, mapFind st.distances nb.node = some dy ∧ dy ≤ d + nb.distance) :
    DijkstraOpt g bl start dest [] st := by
  refine ⟨hopt.start_dist, hopt.start_parent, hopt.start_settled, hopt.tree, hopt.pq_dist,
    hopt.pq_has, hopt.visited_dist, ?_, hopt.optimal, hopt.dest_open, hopt.visited_nodup⟩
  intro x hx _ dx hdx y w hxy hybl hyv
  by_cases hxc : x = current
  · subst hxc
    rw [hd] at hdx
    simp only [Option.some.injEq] at hdx
    rw [← hdx]
    obtain ⟨row, hrow, hmem⟩ := hxy
    rw [hget] at hrow
    simp only [Option.some.injEq] at hrow
    rw [← hrow] at hmem
    exact hrelaxed ⟨y, w⟩ hmem hyv hybl
  · exact hopt.closed x hx (by simpa using hxc) dx hdx y w hxy hybl hyv

/-- When the queue is empty, no route reaches `dest`. -/
theorem no_route_of_empty_queue (g : RoadGraph) (bl : List NodeID) (start dest : NodeID)
    (st : DijkstraState) (hopt : DijkstraOpt g bl start dest [] st) (hpq : st.pq = []) :
    ¬ ∃ steps, isRoute g bl start steps ∧ routeEnd start steps = dest := by
  rintro ⟨steps, hroute, hend⟩
  have hsv : start ∈ st.visited := by
    rcases hopt.start_settled with h | h
    · exact h
    · rw [hpq] at h
      simp at h
  obtain ⟨steps1, step, steps2, _, _, h2, h3, h4, h5⟩ :=
    route_first_outside g bl st.visited steps start hsv hroute
      (by rw [hend]; exact hopt.dest_open)
  obtain ⟨dx, hdx⟩ := hopt.visited_dist _ h2
  obtain ⟨dy, hdy, _⟩ := hopt.closed _ h2 (List.not_mem_nil _) dx hdx step.node
    step.distance h3 h4 h5
  have hmem := hopt.pq_has step.node dy hdy h5
  rw [hpq] at hmem
  simp at hmem

/-- The sum `d + w` that the search forms for a neighbour that is neither settled nor
blocked is the weight of a route without repetition, so it does not wrap. -/
theorem relax_bound (g : RoadGraph) (bl : List NodeID) (start dest : NodeID)
    (hsum : ∀ steps, isRoute g bl start steps → (routeNodes start steps).Nodup →
      routeWeight steps < distance_modulus)
    (st : DijkstraState) (hinv : DijkstraInv g bl start st)
    (hopt : DijkstraOpt g bl start dest [] st) (current : NodeID) (d : distance_t)
    (hset : settledChain st.parents start (current :: st.visited))
    (hvis : current ∉ st.visited) (hd : mapFind st.distances current = some d)
    (nb : Neighbor) (harc : g.hasArc current nb.node nb.distance)
    (hnv : nb.node ∉ current :: st.visited) (hnbl : nb.node ∉ bl) :
    d + nb.distance < distance_modulus := by
  obtain ⟨pre, hh, hl, hc, hnd, hsub⟩ := settledChain_path st.parents start
    (current :: st.visited) current hset
    (List.nodup_cons.mpr ⟨hvis, hopt.visited_nodup⟩) (List.mem_cons_self _ _)
  obtain ⟨steps, h1, h2, h3, h4⟩ := settled_route g bl start st.distances st.parents
    hopt.tree (fun n p h => (hinv.parent_edge n p h).2.1) hopt.start_dist pre current hh hl hc
  rw [hd] at h4
  simp only [Option.some.injEq] at h4
  have hroute : isRoute g bl start (steps ++ [nb]) := by
    rw [isRoute_append, h2]
    exact ⟨h1, harc, hnbl, trivial⟩
  have hnodes : routeNodes start (steps ++ [nb]) = pre ++ [nb.node] := by
    rw [← h3]
    unfold routeNodes
    simp
  have hnodup : (routeNodes start (steps ++ [nb])).Nodup := by
    rw [hnodes, List.nodup_append]
    refine ⟨hnd, List.nodup_singleton _, ?_⟩
    intro x hx1 hx2
    rw [List.mem_singleton] at hx2
    rw [hx2] at hx1
    exact hnv (hsub _ hx1)
  have hw := hsum (steps ++ [nb]) hroute hnodup
  rw [routeWeight_append, ← h4] at hw
  simpa [routeWeight] using hw

/-- The Dijkstra loop returns within the fuel, and what it returns is the empty list when
no route reaches `dest` and the node sequence of a lightest route otherwise. -/
theorem dijkstraLoop_correct (g : RoadGraph) (bl : List NodeID) (start dest : NodeID)
    (hwf : ∀ row ∈ g.adjacency, ∀ nb ∈ row, nb.node < g.adjacency.length)
    (hsum : ∀ steps, isRoute g bl start steps → (routeNodes start steps).Nodup →
      routeWeight steps < distance_modulus)
    (hne : start ≠ dest) :
    ∀ (fuel : Nat) (st : DijkstraState), DijkstraInv g bl start st →
      DijkstraOpt g bl start dest [] st → dijkstraMeasure g st < fuel →
      ∃ path, dijkstraLoop g [] bl start dest fuel st = some path
        ∧ isShortestRouteResult g bl start dest path := by
  intro fuel
  induction fuel with
  | zero =>
    intro st _ _ hm
    exact absurd hm (Nat.not_lt_zero _)
  | succ f ih =>
    intro st hinv hopt hm
    unfold dijkstraLoop
    cases htop : pqTop st.pq with
    | none =>
      exact ⟨[], rfl, Or.inl ⟨rfl,
        no_route_of_empty_queue g bl start dest st hopt (pqTop_none st.pq htop)⟩⟩
    | some top =>
      have hmem : top ∈ st.pq := pqTop_mem st.pq top htop
      have hlen : (st.pq.erase top).length + 1 = st.pq.length := by
        rw [List.length_erase_of_mem hmem]
        have : 0 < st.pq.length := List.length_pos_of_mem hmem
        omega
      simp only []
      by_cases hvis : top.2 ∈ st.visited
      · rw [if_pos hvis]
        apply ih
        · exact ⟨hinv.parent_edge, hinv.settled,
            fun e he => hinv.queued e (List.mem_of_mem_erase he)⟩
        · exact pop_stale_opt g bl start dest st top hopt htop hvis
        · unfold dijkstraMeasure at hm ⊢
          simp only []
          omega
      · rw [if_neg hvis]
        have hkey := settle_key g bl start dest st top hopt htop hvis
        have hsettled : DijkstraInv g bl start
            { st with pq := st.pq.erase top, visited := top.2 :: st.visited } := by
          refine ⟨?_, ?_, ?_⟩
          · intro n p hnp
            obtain ⟨h1, h2, h3⟩ := hinv.parent_edge n p hnp
            exact ⟨h1, h2, List.mem_cons_of_mem _ h3⟩
          · refine ⟨?_, hinv.settled⟩
            rcases hinv.queued top hmem with h | ⟨p, hp⟩
            · exact Or.inl h
            · exact Or.inr ⟨p, hp, (hinv.parent_edge top.2 p hp).2.2⟩
          · exact fun e he => hinv.queued e (List.mem_of_mem_erase he)
        by_cases hdest : top.2 = dest
        · rw [if_pos hdest]
          obtain ⟨pre, hpre, hh, hl, hc⟩ := rebuildPath_spec st.parents start
            (top.2 :: st.visited) ((top.2 :: st.visited).length + 1) dest []
            hsettled.settled (by rw [← hdest]; exact List.mem_cons_self _ _)
            (Nat.lt_succ_self _)
          obtain ⟨steps, h1, h2, h3, h4⟩ := settled_route g bl start st.distances
            st.parents hopt.tree (fun n p h => (hinv.parent_edge n p h).2.1) hopt.start_dist
            pre dest hh hl hc
          refine ⟨pre, ?_, Or.inr ⟨steps, h1, h2, h3.symm, ?_⟩⟩
          · rw [hpre, List.append_nil]
          · intro steps2 hroute2 hend2
            rw [← hdest, hkey] at h4
            simp only [Option.some.injEq] at h4
            rw [← h4]
            exact settle_optimal g bl start dest st top hopt htop hvis steps2 hroute2
              (by rw [hend2, hdest])
        · rw [if_neg hdest]
          cases hget : g.get_neighbors top.2 with
          | none =>
            refine ⟨[], rfl, Or.inl ⟨rfl, ?_⟩⟩
            rcases hinv.queued top hmem with h | ⟨p, hp⟩
            · rintro ⟨steps, hroute, hend⟩
              cases steps with
              | nil => exact hne hend
              | cons s rest =>
                obtain ⟨⟨row, hrow, _⟩, _⟩ := hroute
                rw [← h, hget] at hrow
                simp at hrow
            · obtain ⟨row, hrow⟩ := get_neighbors_of_hasEdge g hwf p top.2
                (hinv.parent_edge top.2 p hp).1
              rw [hget] at hrow
              simp at hrow
          | some neighbors =>
            simp only []
            obtain ⟨hmid, hstart⟩ := settle_opt g bl start dest st top hopt htop hvis hdest
            have harcs : ∀ nb ∈ neighbors, g.hasArc top.2 nb.node nb.distance :=
              fun nb hnb => ⟨neighbors, hget, hnb⟩
            have hfold := relaxFold_spec g [] bl start top.1 top.2 neighbors
              { st with pq := st.pq.erase top, visited := top.2 :: st.visited } hsettled
              (List.mem_cons_self _ _)
              (fun nb hnb => hasEdge_of_mem g top.2 neighbors hget nb hnb)
            obtain ⟨hopt2, _, hrelaxed⟩ := relaxFold_opt g bl start dest top.1 top.2 neighbors
              { st with pq := st.pq.erase top, visited := top.2 :: st.visited } hsettled hmid
              hstart (List.mem_cons_self _ _) hkey harcs
              (fun nb hnb hnv hnbl => relax_bound g bl start dest hsum st hinv hopt top.2
                top.1 hsettled.settled hvis hkey nb (harcs nb hnb) hnv hnbl)
            have hfrozen := relaxFold_frozen [] bl top.1 top.2 neighbors top.2
              { st with pq := st.pq.erase top, visited := top.2 :: st.visited }
              (List.mem_cons_self _ _)
            have hclosed := close_opt g bl start dest _ top.2 top.1 neighbors hopt2 hget
              (by rw [hfrozen]; exact hkey)
              (by
                intro nb hnb hnv hnbl
                rw [hfold.2.1] at hnv
                exact hrelaxed nb hnb hnv hnbl)
            apply ih _ hfold.1 hclosed
            have hdeg := unsettledDegree_settle g st.visited top.2 neighbors hget hvis
            have hpq := hfold.2.2
            unfold dijkstraMeasure at hm ⊢
            rw [hfold.2.1]
            simp only [] at hpq ⊢
            omega

theorem nodup_length_le_of_lt (l : List Nat) (n : Nat) (hnodup : l.Nodup)
    (hlt : ∀ x ∈ l, x < n) : l.length ≤ n := by
  have hsub : l.toFinset ⊆ Finset.range n := by
    intro x hx
    rw [List.mem_toFinset] at hx
    exact Finset.mem_range.mpr (hlt x hx)
  have hcard := Finset.card_le_card hsub
  rw [List.toFinset_card_of_nodup hnodup, Finset.card_range] at hcard
  exact hcard

theorem route_steps_bounded (g : RoadGraph) (bl : List NodeID) (W : Nat)
    (hwf : ∀ row ∈ g.adjacency, ∀ nb ∈ row, nb.node < g.adjacency.length)
    (hW : ∀ row ∈ g.adjacency, ∀ nb ∈ row, nb.distance ≤ W) (steps : List Neighbor) :
    ∀ a, isRoute g bl a steps →
      ∀ s ∈ steps, s.node < g.adjacency.length ∧ s.distance ≤ W := by
  induction steps with
  | nil =>
    intro a _ s hs
    simp at hs
  | cons t rest ih =>
    intro a hroute s hs
    obtain ⟨⟨row, hrow, hmem⟩, _, hrest⟩ := hroute
    rcases List.mem_cons.mp hs with hs | hs
    · rw [hs]
      have hin : row ∈ g.adjacency := List.get?_mem hrow
      exact ⟨hwf row hin _ hmem, hW row hin _ hmem⟩
    · exact ih t.node hrest s hs

theorem sum_le_of_bounded (l : List Nat) (W : Nat) (h : ∀ x ∈ l, x ≤ W) :
    l.sum ≤ W * l.length := by
  induction l with
  | nil => simp
  | cons x rest ih =>
    have h1 := h x (List.mem_cons_self _ _)
    have h2 := ih (fun y hy => h y (List.mem_cons_of_mem _ hy))
    rw [List.sum_cons, List.length_cons, Nat.mul_succ]
    omega

/-- In a graph whose weights are at most `W`, a route that repeats no node weighs at most
`W` times the number of adjacency lists. -/
theorem route_weight_bounded (g : RoadGraph) (bl : List NodeID) (W : Nat)
    (hwf : ∀ row ∈ g.adjacency, ∀ nb ∈ row, nb.node < g.adjacency.length)
    (hW : ∀ row ∈ g.adjacency, ∀ nb ∈ row, nb.distance ≤ W) (a : NodeID)
    (steps : List Neighbor) (hroute : isRoute g bl a steps)
    (hnodup : (routeNodes a steps).Nodup) :
    routeWeight steps ≤ W * g.adjacency.length := by
  have hb := route_steps_bounded g bl W hwf hW steps a hroute
  have hnd : (steps.map (fun step => step.node)).Nodup := by
    unfold routeNodes at hnodup
    exact (List.nodup_cons.mp hnodup).2
  have hlen : (steps.map (fun step => step.node)).length ≤ g.adjacency.length := by
    apply nodup_length_le_of_lt _ _ hnd
    intro x hx
    obtain ⟨s, hs, hsx⟩ := List.mem_map.mp hx
    rw [← hsx]
    exact (hb s hs).1
  rw [List.length_map] at hlen
  have hsum : routeWeight steps ≤ W * steps.length := by
    unfold routeWeight
    have h := sum_le_of_bounded (steps.map (fun step => step.distance)) W (by
      intro x hx
      obtain ⟨s, hs, hsx⟩ := List.mem_map.mp hx
      rw [← hsx]
      exact (hb s hs).2)
    rw [List.length_map] at h
    exact h
  exact Nat.le_trans hsum (Nat.mul_le_mul_left W hlen)

theorem lineRoadGraph_wellFormed :
    ∀ row ∈ lineRoadGraph.adjacency, ∀ nb ∈ row, nb.node < lineRoadGraph.adjacency.length := by
  decide

theorem lineRoadGraph_weights :
    ∀ row ∈ lineRoadGraph.adjacency, ∀ nb ∈ row, nb.distance ≤ 7 := by
  decide

theorem lineRoadGraph_no_overflow (bl : List NodeID) (a : NodeID) (steps : List Neighbor)
    (hroute : isRoute lineRoadGraph bl a steps) (hnodup : (routeNodes a steps).Nodup) :
    routeWeight steps < distance_modulus := by
  have h := route_weight_bounded lineRoadGraph bl 7 lineRoadGraph_wellFormed
    lineRoadGraph_weights a steps hroute hnodup
  have hlen : lineRoadGraph.adjacency.length = 4 := rfl
  rw [hlen] at h
  unfold distance_modulus
  omega

theorem lineService_dijkstra_1_3 :
    (lineService []).dijkstra_with_path_reconstruction 1 3 = [1, 2, 3] := by
  decide

theorem lineService_blocked_dijkstra_1_3 :
    (lineService [2]).dijkstra_with_path_reconstruction 1 3 = [] := by
  decide

/-! ## Lemmas on the nearest-node scan with NaN distances -/

/-- In the scan a NaN distance acts like a distance that is not below the maximum double:
the scan with NaN distances is the scan of `findNearestNode` with `DBL_MAX` in the place
of every NaN. -/
theorem findNearestNodeNaN_fold (dist : ℚ → ℚ → ℚ → ℚ → Option ℚ) (lat lng : ℚ) :
    ∀ (l : List DHLCoordinate) (best : NodeID × ℚ), best.2 ≤ DBL_MAX →
      l.foldl (fun best coord =>
          match dist lat lng coord.latitude coord.longitude with
          | none => best
          | some d => if d < best.2 then (coord.node_id, d) else best) best
        = l.foldl (fun best coord =>
          if (dist lat lng coord.latitude coord.longitude).getD DBL_MAX < best.2
          then (coord.node_id, (dist lat lng coord.latitude coord.longitude).getD DBL_MAX)
          else best) best := by
  intro l
  induction l with
  | nil =>
    intro best _
    rfl
  | cons c rest ih =>
    intro best hbest
    rw [List.foldl_cons, List.foldl_cons]
    cases hd : dist lat lng c.latitude c.longitude with
    | none =>
      simp only [Option.getD_none]
      rw [if_neg (not_lt.mpr hbest)]
      exact ih best hbest
    | some d =>
      simp only [Option.getD_some]
      by_cases hlt : d < best.2
      · rw [if_pos hlt]
        exact ih (c.node_id, d) (le_trans (le_of_lt hlt) hbest)
      · rw [if_neg hlt]
        exact ih best hbest

/-- The scan with NaN distances keeps the start value when no distance is a number below
the maximum double, and otherwise ends at the first node of least distance among the
nodes whose distance is a number. -/
theorem findNearestNodeNaN_spec (dist : ℚ → ℚ → ℚ → ℚ → Option ℚ)
    (mapper : DHLCoordinateMapper) (lat lng : ℚ) :
    ((∀ coord ∈ mapper.node_coordinates, ∀ d,
          dist lat lng coord.latitude coord.longitude = some d → DBL_MAX ≤ d)
        ∧ mapper.findNearestNodeNaN dist lat lng = (0, DBL_MAX))
      ∨ ∃ pre coord post d, mapper.node_coordinates = pre ++ coord :: post
        ∧ dist lat lng coord.latitude coord.longitude = some d ∧ d < DBL_MAX
        ∧ mapper.findNearestNodeNaN dist lat lng = (coord.node_id, d)
        ∧ (∀ x ∈ pre, ∀ dx, dist lat lng x.latitude x.longitude = some dx → d < dx)
        ∧ (∀ x ∈ post, ∀ dx, dist lat lng x.latitude x.longitude = some dx → d ≤ dx) := by
  have hfold := findNearestNodeNaN_fold dist lat lng mapper.node_coordinates (0, DBL_MAX)
    (le_refl _)
  have hscan : mapper.findNearestNodeNaN dist lat lng
      = mapper.node_coordinates.foldl (fun best coord =>
          if (dist lat lng coord.latitude coord.longitude).getD DBL_MAX < best.2
          then (coord.node_id, (dist lat lng coord.latitude coord.longitude).getD DBL_MAX)
          else best) (0, DBL_MAX) := by
    unfold DHLCoordinateMapper.findNearestNodeNaN
    cases hl : mapper.node_coordinates with
    | nil => rfl
    | cons a rest =>
      rw [hl] at hfold
      simp only [List.isEmpty_cons, Bool.false_eq_true, if_false]
      exact hfold
  rcases findNearest_fold_first (fun a b c e => (dist a b c e).getD DBL_MAX) lat lng
      mapper.node_coordinates (0, DBL_MAX) with
    ⟨h1, h2⟩ | ⟨pre, c, post, heq, hres, hc, hpre, hpost⟩
  · left
    refine ⟨?_, hscan.trans h2⟩
    intro coord hcoord d hd
    have := h1 coord hcoord
    simp only [hd, Option.getD_some] at this
    exact this
  · right
    simp only [] at hc
    cases hd : dist lat lng c.latitude c.longitude with
    | none =>
      rw [hd] at hc
      simp only [Option.getD_none] at hc
      exact absurd hc (lt_irrefl _)
    | some d =>
      rw [hd] at hc hres hpre hpost
      simp only [Option.getD_some] at hc hres hpre hpost
      refine ⟨pre, c, post, d, heq, hd, hc, hscan.trans hres, ?_, ?_⟩
      · intro x hx dx hdx
        have := hpre x hx
        rw [hdx] at this
        exact this
      · intro x hx dx hdx
        have := hpost x hx
        rw [hdx] at this
        exact this

/-- A distance function that never returns NaN gives the scan of `findNearestNode`. -/
theorem findNearestNodeNaN_some (dist : ℚ → ℚ → ℚ → ℚ → ℚ) (mapper : DHLCoordinateMapper)
    (lat lng : ℚ) :
    mapper.findNearestNodeNaN (fun a b c d => some (dist a b c d)) lat lng
      = mapper.findNearestNode dist lat lng := by
  rfl

/-! ## Lemmas on the degree-1 folding -/

theorem withoutNode_wellFormed (g : Graph) (v : NodeID) (hwf : g.wellFormed) :
    (g.withoutNode v).wellFormed := by
  intro e he
  exact hwf e (List.mem_filter.mp he).1

/-- What one step of the folding does: the vertex removed is a slot of the store with one
edge, which leads to the neighbour recorded, and the distance recorded is the weight of
the steps over that edge. -/
theorem contractStep_spec (g g1 : Graph) (v : NodeID) (parent : Neighbor)
    (hwf : g.wellFormed) (hstep : g.contractStep = some (g1, v, parent)) :
    g1 = g.withoutNode v ∧ v ≤ g.node_count ∧ parent.node ≤ g.node_count
      ∧ parent.node ≠ v
      ∧ (∃ e ∈ g.edges, (e.1 = v ∧ e.2.1 = parent.node) ∨ (e.1 = parent.node ∧ e.2.1 = v))
      ∧ (∀ x w, g.hasStep true v x w → x = parent.node ∧ w = parent.distance)
      ∧ (parent.distance < Graph.infinity → g.hasStep true v parent.node parent.distance) := by
  unfold Graph.contractStep at hstep
  cases hfind : (List.range (g.node_count + 1)).find? (fun v => decide (g.degree v = 1)) with
  | none =>
    rw [hfind] at hstep
    simp at hstep
  | some v0 =>
    rw [hfind] at hstep
    simp only [] at hstep
    cases hedge : g.edges.find? (fun e => decide (e.1 = v0) || decide (e.2.1 = v0)) with
    | none =>
      rw [hedge] at hstep
      simp at hstep
    | some e =>
      rw [hedge] at hstep
      simp only [Option.some.injEq, Prod.mk.injEq] at hstep
      obtain ⟨hg1, hv, hparent⟩ := hstep
      subst hv
      have hv_le : v0 ≤ g.node_count :=
        Nat.lt_succ_iff.mp (List.mem_range.mp (List.mem_of_find?_eq_some hfind))
      have hdeg : g.degree v0 = 1 := by
        have := List.find?_some hfind
        simpa using this
      have he_mem : e ∈ g.edges := List.mem_of_find?_eq_some hedge
      have he_at : e.1 = v0 ∨ e.2.1 = v0 := by
        have := List.find?_some hedge
        simpa using this
      obtain ⟨e0, he0⟩ := List.length_eq_one.mp hdeg
      have hunique : ∀ e2 ∈ g.edges, (e2.1 = v0 ∨ e2.2.1 = v0) → e2 = e := by
        intro e2 he2 hat
        have h2 : e2 ∈ g.edges.filter (fun e => decide (e.1 = v0) || decide (e.2.1 = v0)) :=
          List.mem_filter.mpr ⟨he2, by simpa using hat⟩
        have h1 : e ∈ g.edges.filter (fun e => decide (e.1 = v0) || decide (e.2.1 = v0)) :=
          List.mem_filter.mpr ⟨he_mem, by simpa using he_at⟩
        rw [he0, List.mem_singleton] at h1 h2
        rw [h1, h2]
      obtain ⟨hr1, hr2, hloop⟩ := hwf e he_mem
      have hnode : parent.node = if e.1 = v0 then e.2.1 else e.1 := by rw [← hparent]
      have hdist : parent.distance = if e.2.2.2 then Graph.infinity else e.2.2.1 := by
        rw [← hparent]
      have hends : (e.1 = v0 ∧ e.2.1 = parent.node) ∨ (e.1 = parent.node ∧ e.2.1 = v0) := by
        by_cases h1 : e.1 = v0
        · rw [hnode, if_pos h1]
          exact Or.inl ⟨h1, rfl⟩
        · rw [hnode, if_neg h1]
          rcases he_at with h2 | h2
          · exact absurd h2 h1
          · exact Or.inr ⟨rfl, h2⟩
      have hpv : parent.node ≠ v0 := by
        rcases hends with ⟨h1, h2⟩ | ⟨h1, h2⟩
        · intro h
          exact hloop (h1.trans (h.symm.trans h2.symm))
        · intro h
          exact hloop (h1.trans (h.trans h2.symm))
      have hp_le : parent.node ≤ g.node_count := by
        rcases hends with ⟨_, h2⟩ | ⟨h1, _⟩
        · rw [← h2]
          exact hr2
        · rw [← h1]
          exact hr1
      refine ⟨hg1.symm, hv_le, hp_le, hpv, ⟨e, he_mem, hends⟩, ?_, ?_⟩
      · intro x w hxw
        obtain ⟨_, _, e2, he2, hopen, hw, hends2⟩ := hxw
        have he2e : e2 = e := by
          apply hunique e2 he2
          rcases hends2 with ⟨h1, _⟩ | ⟨_, h2⟩
          · exact Or.inl h1
          · exact Or.inr h2
        subst he2e
        simp only [if_true] at hw
        constructor
        · rcases hends2 with ⟨h1, h2⟩ | ⟨h1, h2⟩
          · rcases hends with ⟨_, h4⟩ | ⟨h3, h4⟩
            · exact h2.symm.trans h4
            · exact absurd (h1.symm.trans h3) (Ne.symm hpv)
          · rcases hends with ⟨h3, h4⟩ | ⟨h3, _⟩
            · exact absurd (h2.symm.trans h4) (Ne.symm hpv)
            · exact h1.symm.trans h3
        · rw [hdist, hopen]
          simp only [Bool.false_eq_true, if_false]
          exact hw.symm
      · intro hlt
        have hopen : e.2.2.2 = false := by
          cases hc : e.2.2.2 with
          | false => rfl
          | true =>
            rw [hdist, hc] at hlt
            simp only [if_true] at hlt
            exact absurd hlt (lt_irrefl _)
        have hd : parent.distance = e.2.2.1 := by
          rw [hdist, hopen]
          simp
        refine ⟨hv_le, hp_le, e, he_mem, hopen, ?_, hends⟩
        simp only [if_true]
        exact hd.symm

theorem contractLoop_node_count :
    ∀ (fuel : Nat) (g : Graph), g.wellFormed →
      (Graph.contractLoop fuel g).1.node_count = g.node_count := by
  intro fuel
  induction fuel with
  | zero =>
    intro g _
    rfl
  | succ fuel ih =>
    intro g hwf
    unfold Graph.contractLoop
    cases hstep : g.contractStep with
    | none => rfl
    | some r =>
      obtain ⟨g1, v, parent⟩ := r
      simp only []
      have hspec := contractStep_spec g g1 v parent hwf hstep
      rw [ih g1 (hspec.1 ▸ withoutNode_wellFormed g v hwf), hspec.1]
      rfl

theorem contractStep_edges (g g1 : Graph) (v : NodeID) (parent : Neighbor)
    (hstep : g.contractStep = some (g1, v, parent)) :
    g1.edges.length + 1 = g.edges.length := by
  unfold Graph.contractStep at hstep
  cases hfind : (List.range (g.node_count + 1)).find? (fun v => decide (g.degree v = 1)) with
  | none =>
    rw [hfind] at hstep
    simp at hstep
  | some v0 =>
    rw [hfind] at hstep
    simp only [] at hstep
    cases hedge : g.edges.find? (fun e => decide (e.1 = v0) || decide (e.2.1 = v0)) with
    | none =>
      rw [hedge] at hstep
      simp at hstep
    | some e =>
      rw [hedge] at hstep
      simp only [Option.some.injEq, Prod.mk.injEq] at hstep
      obtain ⟨hg1, _, _⟩ := hstep
      have hdeg : g.degree v0 = 1 := by
        have := List.find?_some hfind
        simpa using this
      rw [← hg1]
      unfold Graph.degree at hdeg
      unfold Graph.withoutNode
      have hsplit := List.length_eq_countP_add_countP
        (fun e : NodeID × NodeID × Nat × Bool => decide (e.1 = v0) || decide (e.2.1 = v0))
        g.edges
      rw [List.countP_eq_length_filter, List.countP_eq_length_filter, hdeg] at hsplit
      have hsame : g.edges.filter (fun e => !(decide (e.1 = v0) || decide (e.2.1 = v0)))
          = g.edges.filter (fun a => decide
              ¬ ((fun e : NodeID × NodeID × Nat × Bool =>
                decide (e.1 = v0) || decide (e.2.1 = v0)) a = true)) := by
        apply List.filter_congr
        intro x _
        simp
      show (g.edges.filter (fun e => !(decide (e.1 = v0) || decide (e.2.1 = v0)))).length + 1
        = g.edges.length
      rw [hsame, hsplit, Nat.add_comm]

theorem contractStep_none (g : Graph) (hnone : g.contractStep = none) :
    ∀ v, v ≤ g.node_count → g.degree v ≠ 1 := by
  intro v hv hdeg
  unfold Graph.contractStep at hnone
  cases hfind : (List.range (g.node_count + 1)).find? (fun v => decide (g.degree v = 1)) with
  | none =>
    have h := List.find?_eq_none.mp hfind v (List.mem_range.mpr (Nat.lt_succ_of_le hv))
    simp at h
    exact h hdeg
  | some v0 =>
    rw [hfind] at hnone
    simp only [] at hnone
    have hdeg0 : g.degree v0 = 1 := by
      have := List.find?_some hfind
      simpa using this
    cases hedge : g.edges.find? (fun e => decide (e.1 = v0) || decide (e.2.1 = v0)) with
    | none =>
      unfold Graph.degree at hdeg0
      obtain ⟨e0, he0⟩ := List.length_eq_one.mp hdeg0
      have hmem : e0 ∈ g.edges.filter (fun e => decide (e.1 = v0) || decide (e.2.1 = v0)) := by
        rw [he0]
        exact List.mem_singleton.mpr rfl
      have h := List.find?_eq_none.mp hedge e0 (List.mem_filter.mp hmem).1
      exact h (List.mem_filter.mp hmem).2
    | some e =>
      rw [hedge] at hnone
      simp at hnone

theorem contractLoop_complete :
    ∀ (fuel : Nat) (g : Graph), g.edges.length ≤ fuel →
      (Graph.contractLoop fuel g).1.contractStep = none := by
  intro fuel
  induction fuel with
  | zero =>
    intro g hfuel
    show g.contractStep = none
    cases hstep : g.contractStep with
    | none => rfl
    | some r =>
      obtain ⟨g1, v, parent⟩ := r
      have := contractStep_edges g g1 v parent hstep
      omega
  | succ fuel ih =>
    intro g hfuel
    cases hstep : g.contractStep with
    | none =>
      rw [Graph.contractLoop, hstep]
      exact hstep
    | some r =>
      obtain ⟨g1, v, parent⟩ := r
      rw [Graph.contractLoop, hstep]
      have := contractStep_edges g g1 v parent hstep
      exact ih g1 (by omega)

/-- The folding of `Graph.contract` runs to its end: no slot of the graph that is left has
degree 1. -/
theorem contract_complete (g : Graph) (hwf : g.wellFormed) :
    ∀ v, v ≤ g.node_count → g.contract.1.degree v ≠ 1 := by
  intro v hv
  apply contractStep_none _ (contractLoop_complete g.edges.length g (le_refl _)) v
  rw [contractLoop_node_count g.edges.length g hwf]
  exact hv

/-- C1. Mode selection by threshold: after `loadDisruptions` has recorded at least one
closed or slowed edge, and after `addUserDisruption` with valid node ids, the mode is
IMMEDIATE_UPDATE when the network impact percentage of the updated disruption set (on the
graph the call was given) is at least tau and LAZY_UPDATE otherwise; a scenario that closes
0.6 of the edges with tau = 0.5 ends in IMMEDIATE_UPDATE. -/
theorem C1_mode_selection_by_threshold {G : Type} (ops : GraphOps G) (s : Dynamic G) :
    (∀ file : ScenarioFile,
      ((loadDisruptions ops s file).disruptedClosedEdges ≠ []
        ∨ (loadDisruptions ops s file).disruptedSlowdownFactorByEdge ≠ []) →
      (loadDisruptions ops s file).currentMode
        = specModeByThreshold
            (calculateNetworkImpactPercentage ops
              { loadDisruptions ops s file with graph := s.graph })
            s.DISRUPTION_THRESHOLD_TAU)
    ∧ (∀ (u v : NodeID) (incidentType severity : String),
      invalidNodeIds ops s u v = false →
      (addUserDisruption ops s u v incidentType severity).currentMode
        = specModeByThreshold
            (calculateNetworkImpactPercentage ops
              { addUserDisruption ops s u v incidentType severity with graph := s.graph })
            s.DISRUPTION_THRESHOLD_TAU)
    ∧ (∀ file : ScenarioFile,
      s.DISRUPTION_THRESHOLD_TAU = 1 / 2 →
      0 < ops.edge_count s.graph →
      ((loadDisruptions ops s file).disruptedClosedEdges.length : ℚ)
        = 6 / 10 * (ops.edge_count s.graph : ℚ) →
      (loadDisruptions ops s file).currentMode = Mode.IMMEDIATE_UPDATE) := by
  refine ⟨fun file hne => loadDisruptions_mode ops s file hne,
    fun u v incidentType severity hvalid =>
      addUserDisruption_mode ops s u v incidentType severity hvalid, ?_⟩
  intro file htau hpos hfrac
  have hne : (loadDisruptions ops s file).disruptedClosedEdges ≠ [] := by
    intro h0
    rw [h0] at hfrac
    have hq : (0 : ℚ) < (ops.edge_count s.graph : ℚ) := by exact_mod_cast hpos
    simp at hfrac
    linarith
  rw [loadDisruptions_mode ops s file (Or.inl hne), calculateNetworkImpactPercentage_eq]
  have hE : ops.edge_count s.graph ≠ 0 := Nat.pos_iff_ne_zero.mp hpos
  have hq : (0 : ℚ) < (ops.edge_count s.graph : ℚ) := by exact_mod_cast hpos
  simp only [hE, if_false]
  unfold specModeByThreshold
  rw [if_pos]
  rw [htau]
  have hW : (ops.edge_count s.graph : ℚ) / 2
      ≤ specWeightedImpact (loadDisruptions ops s file).disruptedClosedEdges
          (loadDisruptions ops s file).disruptedSlowdownFactorByEdge := by
    unfold specWeightedImpact
    have hs := length_le_slowed_weight
      (loadDisruptions ops s file).disruptedSlowdownFactorByEdge
    have hn : (0 : ℚ)
        ≤ ((loadDisruptions ops s file).disruptedSlowdownFactorByEdge.length : ℚ) :=
      Nat.cast_nonneg _
    rw [hfrac]
    linarith
  have hdiv : (1 : ℚ) / 2
      ≤ specWeightedImpact (loadDisruptions ops s file).disruptedClosedEdges
          (loadDisruptions ops s file).disruptedSlowdownFactorByEdge
        / (ops.edge_count s.graph : ℚ) := by
    rw [le_div_iff₀ hq]
    linarith
  exact le_min (by norm_num) hdiv

/-- C1 at concrete inputs: on the five-edge ring with tau = 1/2, a scenario closing three
edges and a heavy user report on the road between 3 and 4. -/
theorem C1_mode_selection_by_threshold_witness :
    ((loadDisruptions Graph.ops (Dynamic.init ringGraph (1 / 2))
          scenarioThreeClosed).disruptedClosedEdges ≠ []
        ∨ (loadDisruptions Graph.ops (Dynamic.init ringGraph (1 / 2))
          scenarioThreeClosed).disruptedSlowdownFactorByEdge ≠ [])
      ∧ invalidNodeIds Graph.ops (Dynamic.init ringGraph (1 / 2)) 3 4 = false
      ∧ (Dynamic.init ringGraph (1 / 2)).DISRUPTION_THRESHOLD_TAU = 1 / 2
      ∧ 0 < Graph.ops.edge_count (Dynamic.init ringGraph (1 / 2)).graph
      ∧ ((loadDisruptions Graph.ops (Dynamic.init ringGraph (1 / 2))
          scenarioThreeClosed).disruptedClosedEdges.length : ℚ)
          = 6 / 10 * (Graph.ops.edge_count (Dynamic.init ringGraph (1 / 2)).graph : ℚ)
      ∧ (loadDisruptions Graph.ops (Dynamic.init ringGraph (1 / 2))
          scenarioThreeClosed).currentMode
          = specModeByThreshold
              (calculateNetworkImpactPercentage Graph.ops
                { loadDisruptions Graph.ops (Dynamic.init ringGraph (1 / 2))
                    scenarioThreeClosed with
                  graph := (Dynamic.init ringGraph (1 / 2)).graph })
              (Dynamic.init ringGraph (1 / 2)).DISRUPTION_THRESHOLD_TAU
      ∧ (addUserDisruption Graph.ops (Dynamic.init ringGraph (1 / 2)) 3 4 "Accident"
          "Heavy").currentMode
          = specModeByThreshold
              (calculateNetworkImpactPercentage Graph.ops
                { addUserDisruption Graph.ops (Dynamic.init ringGraph (1 / 2)) 3 4 "Accident"
                    "Heavy" with
                  graph := (Dynamic.init ringGraph (1 / 2)).graph })
              (Dynamic.init ringGraph (1 / 2)).DISRUPTION_THRESHOLD_TAU
      ∧ (loadDisruptions Graph.ops (Dynamic.init ringGraph (1 / 2))
          scenarioThreeClosed).currentMode = Mode.IMMEDIATE_UPDATE := by
  have hclosed : (loadDisruptions Graph.ops (Dynamic.init ringGraph (1 / 2))
      scenarioThreeClosed).disruptedClosedEdges = [(1, 2), (2, 3), (3, 4)] := by
    rw [(loadDisruptions_records _ _ _).1]
    rfl
  have h1 : (loadDisruptions Graph.ops (Dynamic.init ringGraph (1 / 2))
        scenarioThreeClosed).disruptedClosedEdges ≠ []
      ∨ (loadDisruptions Graph.ops (Dynamic.init ringGraph (1 / 2))
        scenarioThreeClosed).disruptedSlowdownFactorByEdge ≠ [] := by
    left
    rw [hclosed]
    simp
  have h2 : invalidNodeIds Graph.ops (Dynamic.init ringGraph (1 / 2)) 3 4 = false := by
    decide
  have h3 : (Dynamic.init ringGraph (1 / 2)).DISRUPTION_THRESHOLD_TAU = 1 / 2 := rfl
  have h4 : 0 < Graph.ops.edge_count (Dynamic.init ringGraph (1 / 2)).graph := by decide
  have h5 : ((loadDisruptions Graph.ops (Dynamic.init ringGraph (1 / 2))
      scenarioThreeClosed).disruptedClosedEdges.length : ℚ)
      = 6 / 10 * (Graph.ops.edge_count (Dynamic.init ringGraph (1 / 2)).graph : ℚ) := by
    rw [hclosed]
    simp [Graph.ops, Dynamic.init, ringGraph]
    norm_num
  exact ⟨h1, h2, h3, h4, h5,
    (C1_mode_selection_by_threshold Graph.ops (Dynamic.init ringGraph (1 / 2))).1
      scenarioThreeClosed h1,
    (C1_mode_selection_by_threshold Graph.ops (Dynamic.init ringGraph (1 / 2))).2.1
      3 4 "Accident" "Heavy" h2,
    (C1_mode_selection_by_threshold Graph.ops (Dynamic.init ringGraph (1 / 2))).2.2
      scenarioThreeClosed h3 h4 h5⟩

/-- C2. Network percentage affected: `calculateNetworkImpactPercentage` returns 0 when the
graph has no edge and otherwise exactly `min(1, W / total_edges)` with
`W = 2·(closed edges) + Σ over slowed edges of (1.5 if the factor is < 0.5, else 1.0)`; the
unweighted fraction never exceeds the weighted one, so the `max` of the source is the
weighted fraction. -/
theorem C2_network_percentage_affected {G : Type} (ops : GraphOps G) (s : Dynamic G) :
    calculateNetworkImpactPercentage ops s
        = (if ops.edge_count s.graph = 0 then 0
          else min 1 (specWeightedImpact s.disruptedClosedEdges s.disruptedSlowdownFactorByEdge
            / (ops.edge_count s.graph : ℚ)))
      ∧ max (((s.disruptedClosedEdges.length + s.disruptedSlowdownFactorByEdge.length : Nat) : ℚ)
            / (ops.edge_count s.graph : ℚ))
          (specWeightedImpact s.disruptedClosedEdges s.disruptedSlowdownFactorByEdge
            / (ops.edge_count s.graph : ℚ))
        = specWeightedImpact s.disruptedClosedEdges s.disruptedSlowdownFactorByEdge
            / (ops.edge_count s.graph : ℚ) :=
  ⟨calculateNetworkImpactPercentage_eq ops s, max_eq_right (base_le_weighted _ _ _)⟩

/-- C3. Impact score formula: for a speed ratio `r` in (0, 1], any jam factor `j` (so every
`j` in [0, 10]) and closure flag `c`, `calculateImpactScore` returns `f_delta_w = 1 - r` when
not closed and 1 when closed, `f_jam = min(j / 10, 1)`, `f_closure = 1.5` when closed and 1
otherwise, and `score = f_delta_w * f_jam * f_closure`. -/
theorem C3_impact_score_formula {G : Type} (ops : GraphOps G) (s : Dynamic G)
    (r j : ℚ) (c : Bool) (len : ℚ) (hr0 : 0 < r) (hr1 : r ≤ 1) :
    (calculateImpactScore ops s r j c len).f_delta_w = (if c then 1 else 1 - r)
      ∧ (calculateImpactScore ops s r j c len).f_jam = min (j / 10) 1
      ∧ (calculateImpactScore ops s r j c len).f_closure = (if c then 3 / 2 else 1)
      ∧ (calculateImpactScore ops s r j c len).score
          = (calculateImpactScore ops s r j c len).f_delta_w
            * (calculateImpactScore ops s r j c len).f_jam
            * (calculateImpactScore ops s r j c len).f_closure := by
  have hclamp : max 0 (min 1 (1 - r)) = 1 - r := by
    rw [min_eq_right (by linarith), max_eq_right (by linarith)]
  refine ⟨?_, rfl, rfl, rfl⟩
  cases c
  · simp [calculateImpactScore, hclamp]
  · simp [calculateImpactScore]

/-- C3 at a concrete input: ratio 0.3, jam factor 7, not closed. -/
theorem C3_impact_score_formula_witness :
    (0 : ℚ) < 3 / 10 ∧ (3 / 10 : ℚ) ≤ 1
      ∧ (calculateImpactScore Graph.ops (Dynamic.init chainGraph (1 / 2)) (3 / 10) 7 false
          100).f_delta_w = (if false then 1 else 1 - 3 / 10)
      ∧ (calculateImpactScore Graph.ops (Dynamic.init chainGraph (1 / 2)) (3 / 10) 7 false
          100).f_jam = min (7 / 10) 1
      ∧ (calculateImpactScore Graph.ops (Dynamic.init chainGraph (1 / 2)) (3 / 10) 7 false
          100).f_closure = (if false then 3 / 2 else 1)
      ∧ (calculateImpactScore Graph.ops (Dynamic.init chainGraph (1 / 2)) (3 / 10) 7 false
          100).score
          = (calculateImpactScore Graph.ops (Dynamic.init chainGraph (1 / 2)) (3 / 10) 7 false
              100).f_delta_w
            * (calculateImpactScore Graph.ops (Dynamic.init chainGraph (1 / 2)) (3 / 10) 7 false
              100).f_jam
            * (calculateImpactScore Graph.ops (Dynamic.init chainGraph (1 / 2)) (3 / 10) 7 false
              100).f_closure :=
  ⟨by norm_num, by norm_num,
    C3_impact_score_formula Graph.ops (Dynamic.init chainGraph (1 / 2)) (3 / 10) 7 false 100
      (by norm_num) (by norm_num)⟩

/-- C4. User-reported severity mapping: for valid node ids, `addUserDisruption(u, v, type,
severity)` records slowdown factor 0.85 for the edge id of {u, v} when the severity is
"Light", 0.6 when "Medium", 0.3 when "Heavy"; when it is "Closed" the edge id is in the
closed-edge set and the slowdown map is as before; in every case the edge's incident type
and severity strings are recorded as given. The edge id is the same for (u, v) and (v, u). -/
theorem C4_user_severity_mapping {G : Type} (ops : GraphOps G) (s : Dynamic G) (u v : NodeID)
    (incidentType severity : String) (hvalid : invalidNodeIds ops s u v = false) :
    (severity = "Light" →
        mapFind (addUserDisruption ops s u v incidentType severity).disruptedSlowdownFactorByEdge
          (makeEdgeId u v) = some (85 / 100))
      ∧ (severity = "Medium" →
        mapFind (addUserDisruption ops s u v incidentType severity).disruptedSlowdownFactorByEdge
          (makeEdgeId u v) = some (6 / 10))
      ∧ (severity = "Heavy" →
        mapFind (addUserDisruption ops s u v incidentType severity).disruptedSlowdownFactorByEdge
          (makeEdgeId u v) = some (3 / 10))
      ∧ (severity = "Closed" →
        makeEdgeId u v ∈ (addUserDisruption ops s u v incidentType severity).disruptedClosedEdges
          ∧ (addUserDisruption ops s u v incidentType severity).disruptedSlowdownFactorByEdge
            = s.disruptedSlowdownFactorByEdge)
      ∧ mapFind (addUserDisruption ops s u v incidentType severity).disruptionTypeByEdge
          (makeEdgeId u v) = some incidentType
      ∧ mapFind (addUserDisruption ops s u v incidentType severity).disruptionSeverityByEdge
          (makeEdgeId u v) = some severity
      ∧ makeEdgeId u v = makeEdgeId v u := by
  have hrec := selectMode_records ops (userRecorded s u v incidentType severity) [u, v]
  have heq : addUserDisruption ops s u v incidentType severity
      = selectMode ops (userRecorded s u v incidentType severity) [u, v] := by
    rw [addUserDisruption_eq, hvalid]
    simp
  rw [heq, hrec.1, hrec.2.1, hrec.2.2.1, hrec.2.2.2.1]
  refine ⟨?_, ?_, ?_, ?_, ?_, ?_, makeEdgeId_comm u v⟩
  · intro h
    subst h
    simp [userRecorded, mapFind_mapAssign_self]
  · intro h
    subst h
    simp [userRecorded, mapFind_mapAssign_self]
  · intro h
    subst h
    simp [userRecorded, mapFind_mapAssign_self]
  · intro h
    subst h
    simp [userRecorded, mem_setInsert]
  · unfold userRecorded
    simp only []
    split_ifs <;> exact mapFind_mapAssign_self _ _ _
  · unfold userRecorded
    simp only []
    split_ifs <;> exact mapFind_mapAssign_self _ _ _

/-- C4 at a concrete input: a heavy accident reported on the road between 3 and 4 of the
chain. -/
theorem C4_user_severity_mapping_witness :
    invalidNodeIds Graph.ops (Dynamic.init chainGraph (1 / 2)) 3 4 = false
      ∧ mapFind (addUserDisruption Graph.ops (Dynamic.init chainGraph (1 / 2)) 3 4 "Accident"
          "Heavy").disruptedSlowdownFactorByEdge (makeEdgeId 3 4) = some (3 / 10)
      ∧ mapFind (addUserDisruption Graph.ops (Dynamic.init chainGraph (1 / 2)) 3 4 "Accident"
          "Heavy").disruptionTypeByEdge (makeEdgeId 3 4) = some "Accident"
      ∧ mapFind (addUserDisruption Graph.ops (Dynamic.init chainGraph (1 / 2)) 3 4 "Accident"
          "Heavy").disruptionSeverityByEdge (makeEdgeId 3 4) = some "Heavy" :=
  ⟨by decide,
    (C4_user_severity_mapping Graph.ops (Dynamic.init chainGraph (1 / 2)) 3 4 "Accident"
      "Heavy" (by decide)).2.2.1 rfl,
    (C4_user_severity_mapping Graph.ops (Dynamic.init chainGraph (1 / 2)) 3 4 "Accident"
      "Heavy" (by decide)).2.2.2.2.1,
    (C4_user_severity_mapping Graph.ops (Dynamic.init chainGraph (1 / 2)) 3 4 "Accident"
      "Heavy" (by decide)).2.2.2.2.2.1⟩

/-- C5, as stated, fails: a manager that a heavy user report has put in LAZY_UPDATE is given
a scenario file that cannot be opened; the load ends with no closed and no slowed edge, and
the mode is still LAZY_UPDATE, not BASE. -/
theorem C5_empty_load_not_base_counterexample :
    lazyChainState.currentMode = Mode.LAZY_UPDATE
      ∧ (loadDisruptions Graph.ops lazyChainState
          ScenarioFile.unreadable).disruptedClosedEdges = []
      ∧ (loadDisruptions Graph.ops lazyChainState
          ScenarioFile.unreadable).disruptedSlowdownFactorByEdge = []
      ∧ (loadDisruptions Graph.ops lazyChainState ScenarioFile.unreadable).currentMode
          ≠ Mode.BASE := by
  have hmode : lazyChainState.currentMode = Mode.LAZY_UPDATE := lazyChainState_mode
  refine ⟨hmode, rfl, rfl, ?_⟩
  have h : (loadDisruptions Graph.ops lazyChainState ScenarioFile.unreadable).currentMode
      = lazyChainState.currentMode := rfl
  rw [h, hmode]
  decide

/-- C5, amended. If `loadDisruptions` finishes with no closed edge and no slowed edge
recorded, the mode afterwards is the mode before the call; a file that cannot be opened, a
file without a header line and a header-only file all end that way. -/
theorem C5_empty_load_keeps_mode {G : Type} (ops : GraphOps G) (s : Dynamic G) :
    (∀ file : ScenarioFile,
      (loadDisruptions ops s file).disruptedClosedEdges = [] →
      (loadDisruptions ops s file).disruptedSlowdownFactorByEdge = [] →
      (loadDisruptions ops s file).currentMode = s.currentMode)
    ∧ (∀ file : ScenarioFile,
      (file = ScenarioFile.unreadable ∨ file = ScenarioFile.noHeader
        ∨ ∃ header, file = ScenarioFile.lines header []) →
      (loadDisruptions ops s file).disruptedClosedEdges = []
        ∧ (loadDisruptions ops s file).disruptedSlowdownFactorByEdge = []) := by
  constructor
  · intro file hc hs
    have hrec := loadDisruptions_records ops s file
    rw [hrec.1] at hc
    rw [hrec.2.1] at hs
    rw [loadDisruptions_eq, loadDisruptionsFinish_eq, if_pos ⟨hc, hs⟩]
    exact (loadRead_sameControl s file).2.1
  · intro file hfile
    have hrec := loadDisruptions_records ops s file
    rw [hrec.1, hrec.2.1]
    rcases hfile with h | h | ⟨header, h⟩
    · subst h
      exact ⟨rfl, rfl⟩
    · subst h
      exact ⟨rfl, rfl⟩
    · subst h
      exact ⟨rfl, rfl⟩

/-- C5 amended, at a concrete input: the lazy manager and a header-only file. -/
theorem C5_empty_load_keeps_mode_witness :
    (loadDisruptions Graph.ops lazyChainState
        (ScenarioFile.lines "header" [])).disruptedClosedEdges = []
      ∧ (loadDisruptions Graph.ops lazyChainState
        (ScenarioFile.lines "header" [])).disruptedSlowdownFactorByEdge = []
      ∧ (loadDisruptions Graph.ops lazyChainState
        (ScenarioFile.lines "header" [])).currentMode = lazyChainState.currentMode :=
  ⟨((C5_empty_load_keeps_mode Graph.ops lazyChainState).2 (ScenarioFile.lines "header" [])
      (Or.inr (Or.inr ⟨"header", rfl⟩))).1,
    ((C5_empty_load_keeps_mode Graph.ops lazyChainState).2 (ScenarioFile.lines "header" [])
      (Or.inr (Or.inr ⟨"header", rfl⟩))).2,
    (C5_empty_load_keeps_mode Graph.ops lazyChainState).1 (ScenarioFile.lines "header" [])
      ((C5_empty_load_keeps_mode Graph.ops lazyChainState).2 (ScenarioFile.lines "header" [])
        (Or.inr (Or.inr ⟨"header", rfl⟩))).1
      ((C5_empty_load_keeps_mode Graph.ops lazyChainState).2 (ScenarioFile.lines "header" [])
        (Or.inr (Or.inr ⟨"header", rfl⟩))).2⟩

/-- C6. Mode determinism: with the graph's edge count and tau fixed, the mode chosen for a
disruption batch depends only on the number of closed edges and on the slowed edges with
their factors. The selection function returns the same mode for any two managers that agree
on these, whatever the ratio, jam factor, closure flag and segment length of the scored edge
(hence whatever f_delta_w, f_jam, f_closure and score), the previous mode, the stale set and
the dirty set; so do any two user reports with valid ids, any two scenario loads that
record something, and a load compared with a user report. -/
theorem C6_mode_determinism {G : Type} (ops : GraphOps G) (a b : Dynamic G)
    (hgraph : ops.edge_count a.graph = ops.edge_count b.graph)
    (htau : a.DISRUPTION_THRESHOLD_TAU = b.DISRUPTION_THRESHOLD_TAU) :
    (a.disruptedClosedEdges.length = b.disruptedClosedEdges.length →
      a.disruptedSlowdownFactorByEdge.Perm b.disruptedSlowdownFactorByEdge →
      ∀ (r j : ℚ) (c : Bool) (len r2 j2 : ℚ) (c2 : Bool) (len2 : ℚ),
        determineUpdateMode (calculateImpactScore ops a r j c len)
          = determineUpdateMode (calculateImpactScore ops b r2 j2 c2 len2))
    ∧ (∀ (u v : NodeID) (ty sev : String) (u2 v2 : NodeID) (ty2 sev2 : String),
      invalidNodeIds ops a u v = false → invalidNodeIds ops b u2 v2 = false →
      (addUserDisruption ops a u v ty sev).disruptedClosedEdges.length
        = (addUserDisruption ops b u2 v2 ty2 sev2).disruptedClosedEdges.length →
      (addUserDisruption ops a u v ty sev).disruptedSlowdownFactorByEdge.Perm
        (addUserDisruption ops b u2 v2 ty2 sev2).disruptedSlowdownFactorByEdge →
      (addUserDisruption ops a u v ty sev).currentMode
        = (addUserDisruption ops b u2 v2 ty2 sev2).currentMode)
    ∧ (∀ file file2 : ScenarioFile,
      ((loadDisruptions ops a file).disruptedClosedEdges ≠ []
        ∨ (loadDisruptions ops a file).disruptedSlowdownFactorByEdge ≠ []) →
      (loadDisruptions ops a file).disruptedClosedEdges.length
        = (loadDisruptions ops b file2).disruptedClosedEdges.length →
      (loadDisruptions ops a file).disruptedSlowdownFactorByEdge.Perm
        (loadDisruptions ops b file2).disruptedSlowdownFactorByEdge →
      (loadDisruptions ops a file).currentMode = (loadDisruptions ops b file2).currentMode)
    ∧ (∀ (file : ScenarioFile) (u2 v2 : NodeID) (ty2 sev2 : String),
      ((loadDisruptions ops a file).disruptedClosedEdges ≠ []
        ∨ (loadDisruptions ops a file).disruptedSlowdownFactorByEdge ≠ []) →
      invalidNodeIds ops b u2 v2 = false →
      (loadDisruptions ops a file).disruptedClosedEdges.length
        = (addUserDisruption ops b u2 v2 ty2 sev2).disruptedClosedEdges.length →
      (loadDisruptions ops a file).disruptedSlowdownFactorByEdge.Perm
        (addUserDisruption ops b u2 v2 ty2 sev2).disruptedSlowdownFactorByEdge →
      (loadDisruptions ops a file).currentMode
        = (addUserDisruption ops b u2 v2 ty2 sev2).currentMode) := by
  refine ⟨?_, ?_, ?_, ?_⟩
  · intro hc hs r j c len r2 j2 c2 len2
    rw [determineUpdateMode_calculateImpactScore, determineUpdateMode_calculateImpactScore,
      htau, calculateNetworkImpactPercentage_agree ops a b hgraph hc hs]
  · intro u v ty sev u2 v2 ty2 sev2 hv hv2 hc hs
    rw [addUserDisruption_mode ops a u v ty sev hv,
      addUserDisruption_mode ops b u2 v2 ty2 sev2 hv2, htau]
    congr 1
    exact calculateNetworkImpactPercentage_agree ops _ _ hgraph hc hs
  · intro file file2 hne hc hs
    have hne2 : (loadDisruptions ops b file2).disruptedClosedEdges ≠ []
        ∨ (loadDisruptions ops b file2).disruptedSlowdownFactorByEdge ≠ [] := by
      rcases hne with h | h
      · left
        intro h0
        rw [h0] at hc
        exact h (List.length_eq_zero.mp hc)
      · right
        intro h0
        rw [h0] at hs
        exact h (List.perm_nil.mp hs)
    rw [loadDisruptions_mode ops a file hne, loadDisruptions_mode ops b file2 hne2, htau]
    congr 1
    exact calculateNetworkImpactPercentage_agree ops _ _ hgraph hc hs
  · intro file u2 v2 ty2 sev2 hne hv2 hc hs
    rw [loadDisruptions_mode ops a file hne,
      addUserDisruption_mode ops b u2 v2 ty2 sev2 hv2, htau]
    congr 1
    exact calculateNetworkImpactPercentage_agree ops _ _ hgraph hc hs

/-- C6 at concrete inputs: a fresh manager and one switched to DISRUPTED by `setMode`
receive a heavy report on the same road, with the endpoints in either order and different
incident types. -/
theorem C6_mode_determinism_witness :
    Graph.ops.edge_count (Dynamic.init chainGraph (1 / 2)).graph
        = Graph.ops.edge_count (setMode (Dynamic.init chainGraph (1 / 2)) Mode.DISRUPTED).graph
      ∧ (Dynamic.init chainGraph (1 / 2)).DISRUPTION_THRESHOLD_TAU
        = (setMode (Dynamic.init chainGraph (1 / 2)) Mode.DISRUPTED).DISRUPTION_THRESHOLD_TAU
      ∧ invalidNodeIds Graph.ops (Dynamic.init chainGraph (1 / 2)) 3 4 = false
      ∧ invalidNodeIds Graph.ops (setMode (Dynamic.init chainGraph (1 / 2)) Mode.DISRUPTED) 4 3
        = false
      ∧ (addUserDisruption Graph.ops (Dynamic.init chainGraph (1 / 2)) 3 4 "Accident"
          "Heavy").disruptedClosedEdges.length
        = (addUserDisruption Graph.ops (setMode (Dynamic.init chainGraph (1 / 2))
            Mode.DISRUPTED) 4 3 "Road Hazard" "Heavy").disruptedClosedEdges.length
      ∧ (addUserDisruption Graph.ops (Dynamic.init chainGraph (1 / 2)) 3 4 "Accident"
          "Heavy").disruptedSlowdownFactorByEdge.Perm
          (addUserDisruption Graph.ops (setMode (Dynamic.init chainGraph (1 / 2))
            Mode.DISRUPTED) 4 3 "Road Hazard" "Heavy").disruptedSlowdownFactorByEdge
      ∧ (addUserDisruption Graph.ops (Dynamic.init chainGraph (1 / 2)) 3 4 "Accident"
          "Heavy").currentMode
        = (addUserDisruption Graph.ops (setMode (Dynamic.init chainGraph (1 / 2))
            Mode.DISRUPTED) 4 3 "Road Hazard" "Heavy").currentMode := by
  have hv : invalidNodeIds Graph.ops (Dynamic.init chainGraph (1 / 2)) 3 4 = false := by
    decide
  have hv2 : invalidNodeIds Graph.ops
      (setMode (Dynamic.init chainGraph (1 / 2)) Mode.DISRUPTED) 4 3 = false := by
    decide
  have hc : (addUserDisruption Graph.ops (Dynamic.init chainGraph (1 / 2)) 3 4 "Accident"
        "Heavy").disruptedClosedEdges.length
      = (addUserDisruption Graph.ops (setMode (Dynamic.init chainGraph (1 / 2))
          Mode.DISRUPTED) 4 3 "Road Hazard" "Heavy").disruptedClosedEdges.length := by
    rw [(addUserDisruption_records _ _ _ _ _ _ hv).1,
      (addUserDisruption_records _ _ _ _ _ _ hv2).1]
    rfl
  have hs : (addUserDisruption Graph.ops (Dynamic.init chainGraph (1 / 2)) 3 4 "Accident"
        "Heavy").disruptedSlowdownFactorByEdge.Perm
      (addUserDisruption Graph.ops (setMode (Dynamic.init chainGraph (1 / 2))
        Mode.DISRUPTED) 4 3 "Road Hazard" "Heavy").disruptedSlowdownFactorByEdge := by
    rw [(addUserDisruption_records _ _ _ _ _ _ hv).2,
      (addUserDisruption_records _ _ _ _ _ _ hv2).2]
    exact List.Perm.refl _
  exact ⟨rfl, rfl, hv, hv2, hc, hs,
    (C6_mode_determinism Graph.ops (Dynamic.init chainGraph (1 / 2))
      (setMode (Dynamic.init chainGraph (1 / 2)) Mode.DISRUPTED) rfl rfl).2.1
      3 4 "Accident" "Heavy" 4 3 "Road Hazard" "Heavy" hv hv2 hc hs⟩

/-- C7, as stated, fails: the manager whose stale set is {3, 4} after a heavy report on the
road between 3 and 4 loads a scenario that slows the road between 1 and 2 to half speed.
The load selects LAZY_UPDATE, the only recorded disrupted edge is {1, 2}, and vertex 3 is
still stale although it is not incident to a recorded disrupted edge. -/
theorem C7_stale_set_not_exact_counterexample :
    (loadDisruptions Graph.ops lazyChainState scenarioOneSlow).currentMode = Mode.LAZY_UPDATE
      ∧ (loadDisruptions Graph.ops lazyChainState scenarioOneSlow).disruptedClosedEdges = []
      ∧ (loadDisruptions Graph.ops lazyChainState
          scenarioOneSlow).disruptedSlowdownFactorByEdge = [((1, 2), 1 / 2)]
      ∧ 3 ∈ (loadDisruptions Graph.ops lazyChainState scenarioOneSlow).stale_nodes
      ∧ 3 ∉ disruptedEndpoints
          (loadDisruptions Graph.ops lazyChainState scenarioOneSlow).disruptedClosedEdges
          (loadDisruptions Graph.ops lazyChainState
            scenarioOneSlow).disruptedSlowdownFactorByEdge := by
  have hread := loadRead_lazyChainState_scenarioOneSlow
  have hrec := loadDisruptions_records Graph.ops lazyChainState scenarioOneSlow
  have hc : (loadDisruptions Graph.ops lazyChainState scenarioOneSlow).disruptedClosedEdges
      = [] := by
    rw [hrec.1, hread.1]
  have hs : (loadDisruptions Graph.ops lazyChainState
      scenarioOneSlow).disruptedSlowdownFactorByEdge = [((1, 2), 1 / 2)] := by
    rw [hrec.2.1, hread.2]
  have hctl := loadRead_sameControl lazyChainState scenarioOneSlow
  refine ⟨loadDisruptions_lazyChainState_scenarioOneSlow_mode, hc, hs, ?_, ?_⟩
  · rw [loadDisruptions_lazyChainState_scenarioOneSlow_eq, markLabelsStale_eq]
    simp only [setMode]
    rw [hctl.2.2.1, lazyChainState_eq]
    simp
  · rw [hc, hs]
    decide

/-- C7, amended. Stale nodes accumulate: when `loadDisruptions` leaves the manager in
LAZY_UPDATE, `stale_nodes` afterwards is the stale set from before the call together with
every vertex incident to a recorded closed or slowed edge; when `addUserDisruption(u, v, ..)`
with valid ids selects LAZY_UPDATE, it is the stale set from before the call together with
`u` and `v`. -/
theorem C7_stale_set_accumulates {G : Type} (ops : GraphOps G) (s : Dynamic G) :
    (∀ file : ScenarioFile,
      (loadDisruptions ops s file).currentMode = Mode.LAZY_UPDATE →
      (loadDisruptions ops s file).stale_nodes
        = s.stale_nodes ∪ disruptedEndpoints (loadDisruptions ops s file).disruptedClosedEdges
            (loadDisruptions ops s file).disruptedSlowdownFactorByEdge)
    ∧ (∀ (u v : NodeID) (incidentType severity : String),
      invalidNodeIds ops s u v = false →
      (addUserDisruption ops s u v incidentType severity).currentMode = Mode.LAZY_UPDATE →
      (addUserDisruption ops s u v incidentType severity).stale_nodes
        = s.stale_nodes ∪ {u, v}) := by
  constructor
  · intro file hmode
    have hrec := loadDisruptions_records ops s file
    have hctl := loadRead_sameControl s file
    rw [hrec.1, hrec.2.1]
    rw [loadDisruptions_eq, loadDisruptionsFinish_eq] at hmode ⊢
    by_cases he : (loadRead s file).disruptedClosedEdges = []
        ∧ (loadRead s file).disruptedSlowdownFactorByEdge = []
    · rw [if_pos he, he.1, he.2, hctl.2.2.1]
      simp [disruptedEndpoints]
    · rw [if_neg he] at hmode ⊢
      have hp := selectMode_lazy_of_mode ops _ _ hmode
      rw [selectMode_lazy _ _ _ hp, markLabelsStale_eq, affectedNodes_toFinset]
      simp only [setMode]
      rw [hctl.2.2.1]
  · intro u v incidentType severity hvalid hmode
    have hctl := userRecorded_sameControl s u v incidentType severity
    rw [addUserDisruption_eq, hvalid] at hmode ⊢
    simp only [Bool.false_eq_true, if_false] at hmode ⊢
    have hp := selectMode_lazy_of_mode ops _ _ hmode
    rw [selectMode_lazy _ _ _ hp, markLabelsStale_eq]
    simp only [setMode]
    rw [hctl.2.2.1]
    congr 1
    ext x
    simp

/-- C7 amended, at concrete inputs: the slow-road scenario loaded into the lazy manager, and
the heavy report that made the manager lazy. -/
theorem C7_stale_set_accumulates_witness :
    (loadDisruptions Graph.ops lazyChainState scenarioOneSlow).currentMode = Mode.LAZY_UPDATE
      ∧ (loadDisruptions Graph.ops lazyChainState scenarioOneSlow).stale_nodes
        = lazyChainState.stale_nodes
          ∪ disruptedEndpoints
            (loadDisruptions Graph.ops lazyChainState scenarioOneSlow).disruptedClosedEdges
            (loadDisruptions Graph.ops lazyChainState
              scenarioOneSlow).disruptedSlowdownFactorByEdge
      ∧ invalidNodeIds Graph.ops (Dynamic.init chainGraph (1 / 2)) 3 4 = false
      ∧ (addUserDisruption Graph.ops (Dynamic.init chainGraph (1 / 2)) 3 4 "Accident"
          "Heavy").currentMode = Mode.LAZY_UPDATE
      ∧ (addUserDisruption Graph.ops (Dynamic.init chainGraph (1 / 2)) 3 4 "Accident"
          "Heavy").stale_nodes = (Dynamic.init chainGraph (1 / 2)).stale_nodes ∪ {3, 4} :=
  ⟨loadDisruptions_lazyChainState_scenarioOneSlow_mode,
    (C7_stale_set_accumulates Graph.ops lazyChainState).1 scenarioOneSlow
      loadDisruptions_lazyChainState_scenarioOneSlow_mode,
    by decide, lazyChainState_mode,
    (C7_stale_set_accumulates Graph.ops (Dynamic.init chainGraph (1 / 2))).2 3 4 "Accident"
      "Heavy" (by decide) lazyChainState_mode⟩

/-- C8. Immediate update applies disruptions and leaves labels fresh: for a manager with
no precomputation in progress (the flag is false after construction and after every call),
whenever `loadDisruptions` records something and selects IMMEDIATE_UPDATE, or
`addUserDisruption` with valid ids selects it, the graph on return is the graph of the call
after `applyDisruption(first, second, 1.0, true)` for every recorded closed edge and
`applyDisruption(first, second, factor, false)` for every recorded slowed edge,
`stale_nodes` and the dirty-pair set are empty, `areLabelsStale(x, y)` is false for all
`x, y`, and no precomputation is in progress. On a graph that logs its calls, the log grows
by exactly one such call per recorded edge. -/
theorem C8_immediate_update_applies_and_freshens {G : Type} (ops : GraphOps G)
    (s : Dynamic G) (hidle : s.background_update_active = false) :
    (∀ file : ScenarioFile,
      ((loadDisruptions ops s file).disruptedClosedEdges ≠ []
        ∨ (loadDisruptions ops s file).disruptedSlowdownFactorByEdge ≠ []) →
      (loadDisruptions ops s file).currentMode = Mode.IMMEDIATE_UPDATE →
      (loadDisruptions ops s file).graph
          = applyAllDisruptions ops (loadDisruptions ops s file).disruptedClosedEdges
              (loadDisruptions ops s file).disruptedSlowdownFactorByEdge s.graph
        ∧ (loadDisruptions ops s file).stale_nodes = ∅
        ∧ (loadDisruptions ops s file).dirty_pairs = ∅
        ∧ (∀ x y : NodeID, areLabelsStale (loadDisruptions ops s file) x y = false)
        ∧ (loadDisruptions ops s file).background_update_active = false)
    ∧ (∀ (u v : NodeID) (incidentType severity : String),
      invalidNodeIds ops s u v = false →
      (addUserDisruption ops s u v incidentType severity).currentMode
        = Mode.IMMEDIATE_UPDATE →
      (addUserDisruption ops s u v incidentType severity).graph
          = applyAllDisruptions ops
              (addUserDisruption ops s u v incidentType severity).disruptedClosedEdges
              (addUserDisruption ops s u v incidentType severity).disruptedSlowdownFactorByEdge
              s.graph
        ∧ (addUserDisruption ops s u v incidentType severity).stale_nodes = ∅
        ∧ (addUserDisruption ops s u v incidentType severity).dirty_pairs = ∅
        ∧ (∀ x y : NodeID,
          areLabelsStale (addUserDisruption ops s u v incidentType severity) x y = false)
        ∧ (addUserDisruption ops s u v incidentType severity).background_update_active
          = false)
    ∧ (∀ (closed : List EdgeID) (slowed : List (EdgeID × ℚ)) (log : List DisruptionCall),
      applyAllDisruptions callLog closed slowed log
        = log ++ closed.map (fun e => (e.1, e.2, 1, true))
            ++ slowed.map (fun e => (e.1.1, e.1.2, e.2, false))) := by
  refine ⟨?_, ?_, applyAllDisruptions_callLog⟩
  · intro file hne hmode
    have hrec := loadDisruptions_records ops s file
    have hctl := loadRead_sameControl s file
    rw [hrec.1, hrec.2.1] at hne ⊢
    have he : ¬ ((loadRead s file).disruptedClosedEdges = []
        ∧ (loadRead s file).disruptedSlowdownFactorByEdge = []) := by
      rintro ⟨h1, h2⟩
      rcases hne with h | h
      · exact h h1
      · exact h h2
    rw [loadDisruptions_eq, loadDisruptionsFinish_eq, if_neg he] at hmode ⊢
    have hp := selectMode_immediate_of_mode ops _ _ hmode
    rw [selectMode_immediate _ _ _ hp]
    have hfresh := precomputeAffectedLabels_idle ops
      (setMode (loadRead s file) Mode.IMMEDIATE_UPDATE) (hctl.2.2.2.2.1.trans hidle)
    rw [hfresh]
    simp [setMode, areLabelsStale, is_dirty, clear_dirty, hctl.1]
  · intro u v incidentType severity hvalid hmode
    have hrec := addUserDisruption_records ops s u v incidentType severity hvalid
    have hctl := userRecorded_sameControl s u v incidentType severity
    rw [hrec.1, hrec.2]
    rw [addUserDisruption_eq, hvalid] at hmode ⊢
    simp only [Bool.false_eq_true, if_false] at hmode ⊢
    have hp := selectMode_immediate_of_mode ops _ _ hmode
    rw [selectMode_immediate _ _ _ hp]
    have hfresh := precomputeAffectedLabels_idle ops
      (setMode (userRecorded s u v incidentType severity) Mode.IMMEDIATE_UPDATE)
      (hctl.2.2.2.2.1.trans hidle)
    rw [hfresh]
    simp [setMode, areLabelsStale, is_dirty, clear_dirty, hctl.1]

/-- C8 at concrete inputs: the scenario closing three of the five ring edges, and a
closure reported on the road between 3 and 4 of the chain, both with tau = 1/2. -/
theorem C8_immediate_update_applies_and_freshens_witness :
    (Dynamic.init ringGraph (1 / 2)).background_update_active = false
      ∧ (loadDisruptions Graph.ops (Dynamic.init ringGraph (1 / 2))
          scenarioThreeClosed).currentMode = Mode.IMMEDIATE_UPDATE
      ∧ (loadDisruptions Graph.ops (Dynamic.init ringGraph (1 / 2))
          scenarioThreeClosed).stale_nodes = ∅
      ∧ (Dynamic.init chainGraph (1 / 2)).background_update_active = false
      ∧ invalidNodeIds Graph.ops (Dynamic.init chainGraph (1 / 2)) 3 4 = false
      ∧ (addUserDisruption Graph.ops (Dynamic.init chainGraph (1 / 2)) 3 4 "Road Closure"
          "Closed").currentMode = Mode.IMMEDIATE_UPDATE
      ∧ (addUserDisruption Graph.ops (Dynamic.init chainGraph (1 / 2)) 3 4 "Road Closure"
          "Closed").graph
        = applyAllDisruptions Graph.ops
            (addUserDisruption Graph.ops (Dynamic.init chainGraph (1 / 2)) 3 4 "Road Closure"
              "Closed").disruptedClosedEdges
            (addUserDisruption Graph.ops (Dynamic.init chainGraph (1 / 2)) 3 4 "Road Closure"
              "Closed").disruptedSlowdownFactorByEdge
            (Dynamic.init chainGraph (1 / 2)).graph :=
  ⟨rfl, ringLoad_mode,
    ((C8_immediate_update_applies_and_freshens Graph.ops (Dynamic.init ringGraph (1 / 2))
      rfl).1 scenarioThreeClosed (Or.inl ringLoad_closed_ne) ringLoad_mode).2.1,
    rfl, by decide, chainClosure_mode,
    ((C8_immediate_update_applies_and_freshens Graph.ops (Dynamic.init chainGraph (1 / 2))
      rfl).2.1 3 4 "Road Closure" "Closed" (by decide) chainClosure_mode).1⟩

/-- C9. Lazy fast path: in LAZY_UPDATE mode, for valid `u` and `w` with neither in
`stale_nodes` and the pair not in the dirty set, `get_distance(u, w, weighted)` returns
`graph.get_distance(u, w, weighted)` on the graph as it is and leaves the whole manager
state as it was: no `applyDisruption` call, and `stale_nodes`, the dirty set and the repair
cache unchanged. -/
theorem C9_lazy_fast_path {G : Type} (ops : GraphOps G) (s : Dynamic G) (u w : NodeID)
    (weighted : Bool) (hmode : s.currentMode = Mode.LAZY_UPDATE)
    (hvalid : invalidNodeIds ops s u w = false) (hu : u ∉ s.stale_nodes)
    (hw : w ∉ s.stale_nodes) (hd : makeEdgeId u w ∉ s.dirty_pairs) :
    get_distance ops s u w weighted = (ops.get_distance s.graph u w weighted, s) :=
  get_distance_lazy_fresh ops s u w weighted hmode hvalid hu hw hd

/-- C9 at a concrete input: the query (1, 2) on the lazy manager whose stale nodes are 3
and 4. -/
theorem C9_lazy_fast_path_witness :
    lazyChainState.currentMode = Mode.LAZY_UPDATE
      ∧ invalidNodeIds Graph.ops lazyChainState 1 2 = false
      ∧ 1 ∉ lazyChainState.stale_nodes ∧ 2 ∉ lazyChainState.stale_nodes
      ∧ makeEdgeId 1 2 ∉ lazyChainState.dirty_pairs
      ∧ get_distance Graph.ops lazyChainState 1 2 true
        = (Graph.ops.get_distance lazyChainState.graph 1 2 true, lazyChainState) :=
  ⟨lazyChainState_mode, lazyChainState_valid 1 2 (by decide) (by decide),
    lazyChainState_fresh 1 (by decide) (by decide),
    lazyChainState_fresh 2 (by decide) (by decide),
    lazyChainState_clean 1 2 (by decide) (by decide),
    C9_lazy_fast_path Graph.ops lazyChainState 1 2 true lazyChainState_mode
      (lazyChainState_valid 1 2 (by decide) (by decide))
      (lazyChainState_fresh 1 (by decide) (by decide))
      (lazyChainState_fresh 2 (by decide) (by decide))
      (lazyChainState_clean 1 2 (by decide) (by decide))⟩

/-- C10, as stated, fails: on the chain 1 - 2 - 3 - 4 - 5 the road {3, 4} lies on the
shortest path from 1 to 5, whose length is 4. The query (1, 5) on the fresh manager returns
4 and leaves the manager as it was; a heavy accident reported on (3, 4) leaves it in
LAZY_UPDATE; the next query (1, 5), whose endpoints are not endpoints of {3, 4}, returns 4
again: not more than before, and not an unreachable value. -/
theorem C10_lazy_distance_not_greater_counterexample :
    Graph.get_distance chainGraph 1 3 true + 1 + Graph.get_distance chainGraph 4 5 true
        = Graph.get_distance chainGraph 1 5 true
      ∧ get_distance Graph.ops (Dynamic.init chainGraph (1 / 2)) 1 5 true
        = (4, Dynamic.init chainGraph (1 / 2))
      ∧ (addUserDisruption Graph.ops (Dynamic.init chainGraph (1 / 2)) 3 4 "Accident"
          "Heavy").currentMode = Mode.LAZY_UPDATE
      ∧ (get_distance Graph.ops
          (addUserDisruption Graph.ops (Dynamic.init chainGraph (1 / 2)) 3 4 "Accident" "Heavy")
          1 5 true).1 = 4
      ∧ ¬ ((get_distance Graph.ops (Dynamic.init chainGraph (1 / 2)) 1 5 true).1
            < (get_distance Graph.ops
                (addUserDisruption Graph.ops (Dynamic.init chainGraph (1 / 2)) 3 4 "Accident"
                  "Heavy") 1 5 true).1
          ∨ (get_distance Graph.ops
                (addUserDisruption Graph.ops (Dynamic.init chainGraph (1 / 2)) 3 4 "Accident"
                  "Heavy") 1 5 true).1 = Graph.ops.infinity
          ∨ (get_distance Graph.ops
                (addUserDisruption Graph.ops (Dynamic.init chainGraph (1 / 2)) 3 4 "Accident"
                  "Heavy") 1 5 true).1 = Graph.ops.distance_max) := by
  have hbefore : get_distance Graph.ops (Dynamic.init chainGraph (1 / 2)) 1 5 true
      = (4, Dynamic.init chainGraph (1 / 2)) := by
    have hv : invalidNodeIds Graph.ops (Dynamic.init chainGraph (1 / 2)) 1 5 = false := by
      decide
    rw [get_distance_base Graph.ops _ 1 5 true rfl hv]
    exact congrArg (fun d => (d, Dynamic.init chainGraph (1 / 2))) chainGraph_distance_1_5
  have hafter : (get_distance Graph.ops lazyChainState 1 5 true).1 = 4 := by
    rw [get_distance_lazy_fresh Graph.ops lazyChainState 1 5 true lazyChainState_mode
      (lazyChainState_valid 1 5 (by decide) (by decide))
      (lazyChainState_fresh 1 (by decide) (by decide))
      (lazyChainState_fresh 5 (by decide) (by decide))
      (lazyChainState_clean 1 5 (by decide) (by decide))]
    have hg : lazyChainState.graph = chainGraph := by rw [lazyChainState_eq]; rfl
    rw [hg]
    exact chainGraph_distance_1_5
  refine ⟨chainGraph_edge_on_path, hbefore, lazyChainState_mode, hafter, ?_⟩
  have hafter2 : (get_distance Graph.ops
      (addUserDisruption Graph.ops (Dynamic.init chainGraph (1 / 2)) 3 4 "Accident" "Heavy")
      1 5 true).1 = 4 := hafter
  rw [hbefore, hafter2]
  decide

/-- C10, amended. After `addUserDisruption(u, v, type, "Heavy")` with valid ids leaves the
manager in LAZY_UPDATE, the graph has not been touched and the edge {u, v} carries slowdown
0.3. The next `get_distance(s, t)` with `s` or `t` an endpoint of {u, v} is answered on the
graph to which every recorded disruption, the 0.3 slowdown of {u, v} included, has been
applied. When neither `s` nor `t` is an endpoint of {u, v} and neither was stale nor the
pair dirty before the report, it is answered on the untouched graph: the value is the
pre-disruption one. -/
theorem C10_lazy_distance_after_heavy_report {G : Type} (ops : GraphOps G) (s0 : Dynamic G)
    (u v s t : NodeID) (incidentType : String) (weighted : Bool)
    (huv : invalidNodeIds ops s0 u v = false) (hst : invalidNodeIds ops s0 s t = false)
    (hmode : (addUserDisruption ops s0 u v incidentType "Heavy").currentMode
      = Mode.LAZY_UPDATE) :
    (addUserDisruption ops s0 u v incidentType "Heavy").graph = s0.graph
      ∧ mapFind (addUserDisruption ops s0 u v incidentType "Heavy").disruptedSlowdownFactorByEdge
          (makeEdgeId u v) = some (3 / 10)
      ∧ ((s = u ∨ s = v ∨ t = u ∨ t = v) →
        (get_distance ops (addUserDisruption ops s0 u v incidentType "Heavy") s t weighted).1
          = ops.get_distance
              (applyAllDisruptions ops
                (addUserDisruption ops s0 u v incidentType "Heavy").disruptedClosedEdges
                (addUserDisruption ops s0 u v incidentType
                  "Heavy").disruptedSlowdownFactorByEdge
                s0.graph) s t weighted)
      ∧ (s ≠ u → s ≠ v → t ≠ u → t ≠ v → s ∉ s0.stale_nodes → t ∉ s0.stale_nodes →
        makeEdgeId s t ∉ s0.dirty_pairs →
        (get_distance ops (addUserDisruption ops s0 u v incidentType "Heavy") s t weighted).1
          = ops.get_distance s0.graph s t weighted) := by
  have hctl := userRecorded_sameControl s0 u v incidentType "Heavy"
  have hrec := selectMode_records ops (userRecorded s0 u v incidentType "Heavy") [u, v]
  have heq : addUserDisruption ops s0 u v incidentType "Heavy"
      = markLabelsStale (setMode (userRecorded s0 u v incidentType "Heavy") Mode.LAZY_UPDATE)
          [u, v] := by
    rw [addUserDisruption_eq, huv] at hmode ⊢
    simp only [Bool.false_eq_true, if_false] at hmode ⊢
    rw [selectMode_lazy _ _ _ (selectMode_lazy_of_mode ops _ _ hmode)]
  have hgraph : (addUserDisruption ops s0 u v incidentType "Heavy").graph = s0.graph := by
    rw [heq, markLabelsStale_eq]
    exact hctl.1
  have hstale : (addUserDisruption ops s0 u v incidentType "Heavy").stale_nodes
      = s0.stale_nodes ∪ {u, v} := by
    rw [heq, markLabelsStale_eq]
    simp only [setMode]
    rw [hctl.2.2.1]
    congr 1
    ext x
    simp
  have hdirty : (addUserDisruption ops s0 u v incidentType "Heavy").dirty_pairs
      = s0.dirty_pairs ∪ {(0, u), (0, v)} := by
    rw [heq, markLabelsStale_eq]
    simp only [setMode]
    rw [hctl.2.2.2.2.2.1]
    congr 1
    ext x
    simp
  have hst1 : invalidNodeIds ops (addUserDisruption ops s0 u v incidentType "Heavy") s t
      = false := by
    unfold invalidNodeIds at hst ⊢
    rw [hgraph]
    exact hst
  refine ⟨hgraph, ?_, ?_, ?_⟩
  · rw [(addUserDisruption_records ops s0 u v incidentType "Heavy" huv).2]
    simp [userRecorded, mapFind_mapAssign_self]
  · intro hend
    have hs1 : areLabelsStale (addUserDisruption ops s0 u v incidentType "Heavy") s t
        = true := by
      unfold areLabelsStale
      rw [hstale]
      rcases hend with h | h | h | h <;> simp [h]
    rw [get_distance_lazy_stale ops _ s t weighted hmode hst1 hs1, hgraph]
  · intro hsu hsv htu htv hs ht hd
    have hs0 : s ≠ 0 := by
      intro h
      simp [invalidNodeIds, h] at hst
    have ht0 : t ≠ 0 := by
      intro h
      simp [invalidNodeIds, h] at hst
    have hne : ∀ x : NodeID, makeEdgeId s t ≠ (0, x) := by
      intro x
      unfold makeEdgeId
      split_ifs
      · intro h
        exact ht0 (congrArg Prod.fst h)
      · intro h
        exact hs0 (congrArg Prod.fst h)
    rw [get_distance_lazy_fresh ops _ s t weighted hmode hst1 (by simp [hstale, hs, hsu, hsv])
      (by simp [hstale, ht, htu, htv]) (by simp [hdirty, hd, hne]), hgraph]

/-- C10 amended, at a concrete input: the heavy report on (3, 4) of the chain, then the
queries (3, 5), which touches the reported road, and (1, 2), which does not. -/
theorem C10_lazy_distance_after_heavy_report_witness :
    invalidNodeIds Graph.ops (Dynamic.init chainGraph (1 / 2)) 3 4 = false
      ∧ invalidNodeIds Graph.ops (Dynamic.init chainGraph (1 / 2)) 3 5 = false
      ∧ (addUserDisruption Graph.ops (Dynamic.init chainGraph (1 / 2)) 3 4 "Accident"
          "Heavy").currentMode = Mode.LAZY_UPDATE
      ∧ (get_distance Graph.ops
          (addUserDisruption Graph.ops (Dynamic.init chainGraph (1 / 2)) 3 4 "Accident" "Heavy")
          3 5 true).1
        = Graph.ops.get_distance
            (applyAllDisruptions Graph.ops
              (addUserDisruption Graph.ops (Dynamic.init chainGraph (1 / 2)) 3 4 "Accident"
                "Heavy").disruptedClosedEdges
              (addUserDisruption Graph.ops (Dynamic.init chainGraph (1 / 2)) 3 4 "Accident"
                "Heavy").disruptedSlowdownFactorByEdge
              (Dynamic.init chainGraph (1 / 2)).graph) 3 5 true
      ∧ (get_distance Graph.ops
          (addUserDisruption Graph.ops (Dynamic.init chainGraph (1 / 2)) 3 4 "Accident" "Heavy")
          1 2 true).1
        = Graph.ops.get_distance (Dynamic.init chainGraph (1 / 2)).graph 1 2 true :=
  ⟨by decide, by decide, lazyChainState_mode,
    (C10_lazy_distance_after_heavy_report Graph.ops (Dynamic.init chainGraph (1 / 2)) 3 4 3 5
      "Accident" true (by decide) (by decide) lazyChainState_mode).2.2.1 (Or.inl rfl),
    (C10_lazy_distance_after_heavy_report Graph.ops (Dynamic.init chainGraph (1 / 2)) 3 4 1 2
      "Accident" true (by decide) (by decide) lazyChainState_mode).2.2.2
      (by decide) (by decide) (by decide) (by decide) (by simp [Dynamic.init])
      (by simp [Dynamic.init]) (by simp [Dynamic.init])⟩

/-- C11, as stated, fails: the heavy accident that `addUserDisruption(3, 4, ..)` has
recorded for the road {3, 4} is gone after a later `loadDisruptions` call, here on a file
that cannot be opened: the edge is in neither the closed set nor the slowdown map, and its
type and severity are forgotten. -/
theorem C11_load_discards_user_record_counterexample :
    recordOf (addUserDisruption Graph.ops (Dynamic.init chainGraph (1 / 2)) 3 4 "Accident"
        "Heavy") (makeEdgeId 3 4) = (false, some (3 / 10), some "Accident", some "Heavy")
      ∧ recordOf
          (loadDisruptions Graph.ops
            (addUserDisruption Graph.ops (Dynamic.init chainGraph (1 / 2)) 3 4 "Accident"
              "Heavy") ScenarioFile.unreadable) (makeEdgeId 3 4)
        = (false, none, none, none) := by
  constructor
  · have h : addUserDisruption Graph.ops (Dynamic.init chainGraph (1 / 2)) 3 4 "Accident"
        "Heavy" = lazyChainState := rfl
    rw [h, lazyChainState_eq]
    simp [recordOf, makeEdgeId, mapFind, Dynamic.init]
  · rfl

/-- C11, amended. A disruption recorded by `addUserDisruption(u, v, ..)` with valid ids and
one of the four severities is still recorded (edge {u, v} in the closed set or the slowdown
map, with its type and severity, the whole record unchanged) after any later sequence of
`get_distance`, `get_path`, `findRouteByGPS`, `get_visited_nodes_count` and `setMode` calls
and `addUserDisruption` calls on other edges. A `loadDisruptions` call discards it: what is
recorded after a load does not depend on what was recorded before. -/
theorem C11_records_persist_until_load {G : Type} (ops : GraphPathOps G)
    (mapper : CoordinateMapperOps) (initialized : Bool) (s : Dynamic G) :
    (∀ (u v : NodeID) (incidentType severity : String) (calls : List ManagerCall),
      invalidNodeIds ops.toGraphOps s u v = false →
      (severity = "Light" ∨ severity = "Medium" ∨ severity = "Heavy"
        ∨ severity = "Closed") →
      (∀ call ∈ calls, keepsEdge (makeEdgeId u v) call = true) →
      recordOf
          (runCalls ops mapper initialized
            (addUserDisruption ops.toGraphOps s u v incidentType severity) calls)
          (makeEdgeId u v)
        = recordOf (addUserDisruption ops.toGraphOps s u v incidentType severity)
          (makeEdgeId u v)
      ∧ ((recordOf
            (runCalls ops mapper initialized
              (addUserDisruption ops.toGraphOps s u v incidentType severity) calls)
            (makeEdgeId u v)).1 = true
          ∨ (recordOf
            (runCalls ops mapper initialized
              (addUserDisruption ops.toGraphOps s u v incidentType severity) calls)
            (makeEdgeId u v)).2.1.isSome = true)
      ∧ (recordOf
          (runCalls ops mapper initialized
            (addUserDisruption ops.toGraphOps s u v incidentType severity) calls)
          (makeEdgeId u v)).2.2.1 = some incidentType
      ∧ (recordOf
          (runCalls ops mapper initialized
            (addUserDisruption ops.toGraphOps s u v incidentType severity) calls)
          (makeEdgeId u v)).2.2.2 = some severity)
    ∧ (∀ (other : Dynamic G) (file : ScenarioFile) (eid : EdgeID),
      recordOf (loadDisruptions ops.toGraphOps s file) eid
        = recordOf (loadDisruptions ops.toGraphOps other file) eid) := by
  constructor
  · intro u v incidentType severity calls hvalid hsev hkeep
    have hrun := recordOf_runCalls ops mapper initialized
      (addUserDisruption ops.toGraphOps s u v incidentType severity) (makeEdgeId u v) calls
      hkeep
    have hrec := selectMode_records ops.toGraphOps
      (userRecorded s u v incidentType severity) [u, v]
    have hadd : recordOf (addUserDisruption ops.toGraphOps s u v incidentType severity)
        (makeEdgeId u v)
        = recordOf (userRecorded s u v incidentType severity) (makeEdgeId u v) := by
      rw [addUserDisruption_eq, hvalid]
      simp only [Bool.false_eq_true, if_false]
      exact recordOf_congr _ _ _ hrec.1 hrec.2.1 hrec.2.2.1 hrec.2.2.2.1
    have hself := recordOf_userRecorded_self s u v incidentType severity hsev
    refine ⟨hrun, ?_, ?_, ?_⟩
    · rw [hrun, hadd]
      exact hself.1
    · rw [hrun, hadd]
      exact hself.2.1
    · rw [hrun, hadd]
      exact hself.2.2
  · intro other file eid
    exact loadDisruptions_forgets ops.toGraphOps s other file eid

/-- C11 amended, at a concrete input: the heavy report on (3, 4) of the chain, followed by
a distance query, a `setMode`, a light report on (1, 2) and a path query. -/
theorem C11_records_persist_until_load_witness :
    invalidNodeIds Graph.pathOps.toGraphOps (Dynamic.init chainGraph (1 / 2)) 3 4 = false
      ∧ (∀ call ∈ [ManagerCall.get_distance 1 5 true, ManagerCall.setMode Mode.BASE,
            ManagerCall.addUserDisruption 1 2 "Congestion" "Light",
            ManagerCall.get_path 3 5 true],
          keepsEdge (makeEdgeId 3 4) call = true)
      ∧ (recordOf
          (runCalls Graph.pathOps emptyMapper false
            (addUserDisruption Graph.pathOps.toGraphOps (Dynamic.init chainGraph (1 / 2)) 3 4
              "Accident" "Heavy")
            [ManagerCall.get_distance 1 5 true, ManagerCall.setMode Mode.BASE,
              ManagerCall.addUserDisruption 1 2 "Congestion" "Light",
              ManagerCall.get_path 3 5 true])
          (makeEdgeId 3 4)).2.2.2 = some "Heavy" :=
  ⟨by decide, by decide,
    ((C11_records_persist_until_load Graph.pathOps emptyMapper false
      (Dynamic.init chainGraph (1 / 2))).1 3 4 "Accident" "Heavy"
      [ManagerCall.get_distance 1 5 true, ManagerCall.setMode Mode.BASE,
        ManagerCall.addUserDisruption 1 2 "Congestion" "Light",
        ManagerCall.get_path 3 5 true]
      (by decide) (Or.inr (Or.inr (Or.inl rfl))) (by decide)).2.2.2⟩

/-- C12. Queries do not mutate the mode: for every state and all arguments, `getMode()` is
the same before and after `get_distance`, `get_path`, `findRouteByGPS` and
`get_visited_nodes_count`. (`route_uses_disruptions` is a `const` member: it returns a
value and has no state to leave behind.) -/
theorem C12_queries_keep_mode {G : Type} (ops : GraphPathOps G)
    (mapper : CoordinateMapperOps) (initialized : Bool) (s : Dynamic G) :
    (∀ (v w : NodeID) (weighted : Bool),
      getMode (get_distance ops.toGraphOps s v w weighted).2 = getMode s)
    ∧ (∀ (source target : NodeID) (weighted : Bool),
      getMode (get_path ops s source target weighted).2 = getMode s)
    ∧ (∀ (start_lat start_lng end_lat end_lng : ℚ) (weighted : Bool),
      getMode
          (findRouteByGPS ops mapper initialized s start_lat start_lng end_lat end_lng
            weighted).2
        = getMode s)
    ∧ (∀ (v w : NodeID) (weighted : Bool),
      getMode (get_visited_nodes_count ops s v w weighted).2 = getMode s) := by
  refine ⟨?_, ?_, ?_, ?_⟩
  · intro v w weighted
    exact (get_distance_sameManager ops.toGraphOps s v w weighted).1
  · intro source target weighted
    exact (get_path_sameManager ops s source target weighted).1
  · intro a b c d weighted
    exact (findRouteByGPS_sameManager ops mapper initialized s a b c d weighted).1
  · intro v w weighted
    rw [get_visited_nodes_count_state]

/-- C13. Invalid node on distance: in every mode, `get_distance(v, w, weighted)` with an
endpoint that is 0 or above `super_node_count()` returns
`numeric_limits<distance_t>::max()` and leaves the whole state as it was: no
`applyDisruption` call and no change to `stale_nodes`, the dirty set, the repair cache or
the mode. -/
theorem C13_invalid_node_on_distance {G : Type} (ops : GraphOps G) (s : Dynamic G)
    (v w : NodeID) (weighted : Bool)
    (hinvalid : v = 0 ∨ w = 0 ∨ v > ops.super_node_count s.graph
      ∨ w > ops.super_node_count s.graph) :
    get_distance ops s v w weighted = (ops.distance_max, s) :=
  get_distance_invalid ops s v w weighted ((invalidNodeIds_iff ops s v w).mpr hinvalid)

/-- C13 at a concrete input: the query (6, 2) on the five-node chain in LAZY_UPDATE mode. -/
theorem C13_invalid_node_on_distance_witness :
    ((6 : NodeID) = 0 ∨ (2 : NodeID) = 0 ∨ 6 > Graph.ops.super_node_count lazyChainState.graph
        ∨ 2 > Graph.ops.super_node_count lazyChainState.graph)
      ∧ get_distance Graph.ops lazyChainState 6 2 true
        = (Graph.ops.distance_max, lazyChainState) := by
  have hg : lazyChainState.graph = chainGraph := by rw [lazyChainState_eq]; rfl
  have h : (6 : NodeID) = 0 ∨ (2 : NodeID) = 0
      ∨ 6 > Graph.ops.super_node_count lazyChainState.graph
      ∨ 2 > Graph.ops.super_node_count lazyChainState.graph := by
    rw [hg]
    decide
  exact ⟨h, C13_invalid_node_on_distance Graph.ops lazyChainState 6 2 true h⟩

/-- C14, the failing input: on the five-node chain the id 6 is out of range (the sibling
check of `get_distance` rejects the pair), yet `get_path(6, 6, true)` returns distance 0
and the one-node path [6] instead of the invalid-node result. -/
theorem C14_same_out_of_range_id_is_answered :
    invalidNodeIds Graph.ops (Dynamic.init chainGraph (1 / 2)) 6 6 = true
      ∧ get_path Graph.pathOps (Dynamic.init chainGraph (1 / 2)) 6 6 true
        = ((0, [6]), Dynamic.init chainGraph (1 / 2))
      ∧ (get_path Graph.pathOps (Dynamic.init chainGraph (1 / 2)) 6 6 true).1
        ≠ (Graph.pathOps.distance_max, []) := by
  have h := get_path_self Graph.pathOps (Dynamic.init chainGraph (1 / 2)) 6 true (by decide)
  refine ⟨by decide, h, ?_⟩
  rw [h]
  decide

/-- C18, the failing input: a scenario line with speed -5 km/h and free flow 40 km/h, not
closed, makes `loadDisruptions` store the slowdown factor 0 for the road {1, 2}, which is
not in (0, 1]. -/
theorem C18_negative_speed_stores_zero :
    (loadDisruptions Graph.ops (Dynamic.init chainGraph (1 / 2))
        scenarioNegativeSpeed).disruptedSlowdownFactorByEdge = [((1, 2), 0)]
      ∧ ¬ ((0 : ℚ) < 0 ∧ (0 : ℚ) ≤ 1) := by
  constructor
  · rw [(loadDisruptions_records _ _ _).2.1]
    exact loadRead_scenarioNegativeSpeed
  · norm_num

/-- C19. Edges are unordered pairs: `addUserDisruption(u, v, ..)` and
`addUserDisruption(v, u, ..)` applied to the same state give the same state (closed set,
slowdown, severity and type maps, stale set, dirty set, mode, and everything else);
`makeEdgeId(u, v) = makeEdgeId(v, u)` with first component at most the second; and
`is_dirty(u, v) = is_dirty(v, u)` after any sequence of `mark_dirty` and `clear_dirty`
calls. -/
theorem C19_edges_are_unordered_pairs {G : Type} (ops : GraphOps G) (s : Dynamic G)
    (u v : NodeID) (incidentType severity : String) :
    addUserDisruption ops s u v incidentType severity
        = addUserDisruption ops s v u incidentType severity
      ∧ makeEdgeId u v = makeEdgeId v u
      ∧ (makeEdgeId u v).1 ≤ (makeEdgeId u v).2
      ∧ (∀ (dirty : Finset (NodeID × NodeID)) (calls : List DirtyCall),
        is_dirty (runDirtyCalls dirty calls) u v
          = is_dirty (runDirtyCalls dirty calls) v u) := by
  refine ⟨?_, makeEdgeId_comm u v, makeEdgeId_le u v, ?_⟩
  · rw [addUserDisruption_eq, addUserDisruption_eq, invalidNodeIds_comm ops s u v,
      userRecorded_comm s u v, selectMode_nodes_comm]
  · intro dirty calls
    unfold is_dirty
    rw [makeEdgeId_comm u v]

/-- C16, the counterexample: on the line 1 - 2 - 3 with node 2 blocked the search from 1
to 3 finds nothing, and `reconstruct_path(1, 3)` returns the fall-back path [1, 3], whose
only pair of nodes is not joined by an edge. -/
theorem C16_fallback_pair_is_no_edge_counterexample :
    (lineService [2]).dijkstra_with_path_reconstruction 1 3 = []
      ∧ (lineService [2]).reconstruct_path 1 3 = [1, 3]
      ∧ lineRoadGraph.hasEdge 1 3 = false
      ∧ ¬ validRoute lineRoadGraph [2] 1 3 ((lineService [2]).reconstruct_path 1 3) := by
  have h1 : (lineService [2]).dijkstra_with_path_reconstruction 1 3 = [] := by decide
  have h2 : (lineService [2]).reconstruct_path 1 3 = [1, 3] := by decide
  refine ⟨h1, h2, by decide, ?_⟩
  rw [h2]
  intro h
  have h3 := h.2.2
  simp only [List.chain'_cons, List.chain'_singleton, and_true] at h3
  exact absurd h3.1 (by decide)

/-- C16. Path validity of the DHL service: for a loaded graph and non-zero
`start != dest`, the path returned by `reconstruct_path(start, dest)` starts at `start` and
ends at `dest`. The search `dijkstra_with_path_reconstruction` always returns; when it
returns a non-empty path, `reconstruct_path` returns that path, every consecutive pair of
it is joined by an edge of the graph and no node after the first is blocked; when it
returns the empty path, `reconstruct_path` returns the two-node fall-back
`[start, dest]`. -/
theorem C16_path_valid_or_fallback {I : Type} (svc : DHLRoutingService I) (g : RoadGraph)
    (start dest : NodeID) (hgraph : svc.graph = some g) (hstart : start ≠ 0)
    (hdest : dest ≠ 0) (hne : start ≠ dest) :
    dijkstraLoop g svc.disrupted_edges svc.blocked_nodes start dest (dijkstraFuel g)
        { distances := [(start, 0)], parents := [], visited := [], pq := [(0, start)] }
        = some (svc.dijkstra_with_path_reconstruction start dest)
      ∧ (svc.reconstruct_path start dest).head? = some start
      ∧ (svc.reconstruct_path start dest).getLast? = some dest
      ∧ ((svc.dijkstra_with_path_reconstruction start dest ≠ []
            ∧ svc.reconstruct_path start dest
              = svc.dijkstra_with_path_reconstruction start dest
            ∧ validRoute g svc.blocked_nodes start dest (svc.reconstruct_path start dest))
          ∨ (svc.dijkstra_with_path_reconstruction start dest = []
            ∧ svc.reconstruct_path start dest = [start, dest])) := by
  obtain ⟨hrun, hvalid⟩ := dijkstra_with_path_reconstruction_spec svc g start dest hgraph hne
  have hrec : svc.reconstruct_path start dest
      = if (svc.dijkstra_with_path_reconstruction start dest).isEmpty then [start, dest]
        else svc.dijkstra_with_path_reconstruction start dest := by
    unfold DHLRoutingService.reconstruct_path
    rw [if_neg (by simp [hgraph, hstart, hdest]), if_neg hne]
  refine ⟨hrun, ?_⟩
  by_cases hempty : svc.dijkstra_with_path_reconstruction start dest = []
  · have h : svc.reconstruct_path start dest = [start, dest] := by
      rw [hrec, hempty]
      rfl
    rw [h]
    exact ⟨rfl, rfl, Or.inr ⟨hempty, rfl⟩⟩
  · have h : svc.reconstruct_path start dest
        = svc.dijkstra_with_path_reconstruction start dest := by
      rw [hrec, if_neg (by simpa [List.isEmpty_iff] using hempty)]
    have hv : validRoute g svc.blocked_nodes start dest
        (svc.dijkstra_with_path_reconstruction start dest) := by
      rcases hvalid with h0 | hv
      · exact absurd h0 hempty
      · exact hv
    rw [h]
    exact ⟨hv.1, hv.2.1, Or.inl ⟨hempty, rfl, hv⟩⟩

/-- C16 at a concrete input: the search from 1 to 3 on the line 1 - 2 - 3 with no blocked
node. -/
theorem C16_path_valid_or_fallback_witness :
    (lineService []).reconstruct_path 1 3 = [1, 2, 3]
      ∧ validRoute lineRoadGraph [] 1 3 ((lineService []).reconstruct_path 1 3) := by
  have h := C16_path_valid_or_fallback (lineService []) lineRoadGraph 1 3 rfl (by decide)
    (by decide) (by decide)
  have h2 : (lineService []).reconstruct_path 1 3 = [1, 2, 3] := by decide
  refine ⟨h2, ?_⟩
  rcases h.2.2.2 with h3 | h3
  · exact h3.2.2
  · rw [h2] at h3
    exact absurd h3.2 (by decide)

/-- C17. Snap threshold: for an initialised service (graph and index built, coordinates
loaded) whose loaded node ids are all at least 1, with `d_start` and `d_dest` the distances
from the start and the destination coordinate to their nearest loaded nodes:
if `d_start` or `d_dest` exceeds `threshold_meters`, `findRoute` fails with
`success = false`, an empty path and the message "No start node found within ..." or
"No destination node found within ..."; if both are at most `threshold_meters`, both
coordinates snap to non-zero nodes, `findRoute` is the rest of the query run on these two
nodes, and its message is neither of the two. Distances are below `DBL_MAX`. -/
theorem C17_snap_threshold {I : Type} (index : ContractionIndexOps I) (text : TextOps)
    (svc : DHLRoutingService I) (g : RoadGraph) (con_index : I)
    (start_lat start_lng dest_lat dest_lng : ℚ) (use_disruptions : Bool)
    (threshold_meters d_start d_dest : ℚ)
    (hgraph : svc.graph = some g) (hindex : svc.con_index = some con_index)
    (hmapping : svc.coordinate_mapping_initialized = true)
    (hids : ∀ coord ∈ svc.coordinate_mapper.node_coordinates, 1 ≤ coord.node_id)
    (hfinite_start : ∀ coord ∈ svc.coordinate_mapper.node_coordinates,
      text.calculateDistance start_lat start_lng coord.latitude coord.longitude < DBL_MAX)
    (hfinite_dest : ∀ coord ∈ svc.coordinate_mapper.node_coordinates,
      text.calculateDistance dest_lat dest_lng coord.latitude coord.longitude < DBL_MAX)
    (hnear_start : isNearestDistance text.calculateDistance svc.coordinate_mapper
      start_lat start_lng d_start)
    (hnear_dest : isNearestDistance text.calculateDistance svc.coordinate_mapper
      dest_lat dest_lng d_dest) :
    ((threshold_meters < d_start ∨ threshold_meters < d_dest) →
        (svc.findRoute index text start_lat start_lng dest_lat dest_lng use_disruptions
          threshold_meters).success = false
        ∧ (svc.findRoute index text start_lat start_lng dest_lat dest_lng use_disruptions
          threshold_meters).path = []
        ∧ ((svc.findRoute index text start_lat start_lng dest_lat dest_lng use_disruptions
            threshold_meters).error_message
              = "No start node found within " ++ text.to_string_double threshold_meters
                ++ "m threshold"
          ∨ (svc.findRoute index text start_lat start_lng dest_lat dest_lng use_disruptions
            threshold_meters).error_message
              = "No destination node found within "
                ++ text.to_string_double threshold_meters ++ "m threshold"))
      ∧ (d_start ≤ threshold_meters → d_dest ≤ threshold_meters →
        svc.find_nearest_node text start_lat start_lng threshold_meters ≠ 0
        ∧ svc.find_nearest_node text dest_lat dest_lng threshold_meters ≠ 0
        ∧ svc.findRoute index text start_lat start_lng dest_lat dest_lng use_disruptions
            threshold_meters
          = svc.findRouteFromNodes index text g con_index
              { DHLRoutingResult.default with
                start_lat := start_lat
                start_lng := start_lng
                dest_lat := dest_lat
                dest_lng := dest_lng
                uses_disruptions := use_disruptions
                coordinate_threshold_meters := threshold_meters }
              (svc.find_nearest_node text start_lat start_lng threshold_meters)
              (svc.find_nearest_node text dest_lat dest_lng threshold_meters)
              use_disruptions
        ∧ (svc.findRoute index text start_lat start_lng dest_lat dest_lng use_disruptions
            threshold_meters).error_message
              ≠ "No start node found within " ++ text.to_string_double threshold_meters
                ++ "m threshold"
        ∧ (svc.findRoute index text start_lat start_lng dest_lat dest_lng use_disruptions
            threshold_meters).error_message
              ≠ "No destination node found within "
                ++ text.to_string_double threshold_meters ++ "m threshold") := by
  have hs := find_nearest_node_spec text svc start_lat start_lng threshold_meters d_start
    hmapping hids hfinite_start hnear_start
  have hd := find_nearest_node_spec text svc dest_lat dest_lng threshold_meters d_dest
    hmapping hids hfinite_dest hnear_dest
  constructor
  · intro hfar
    unfold DHLRoutingService.findRoute
    rw [hgraph, hindex]
    simp only []
    by_cases h0 : svc.find_nearest_node text start_lat start_lng threshold_meters = 0
    · rw [if_pos h0]
      exact ⟨rfl, rfl, Or.inl rfl⟩
    · rw [if_neg h0]
      have hdest0 : svc.find_nearest_node text dest_lat dest_lng threshold_meters = 0 := by
        rcases hfar with h | h
        · exact absurd (hs.1 h) h0
        · exact hd.1 h
      rw [if_pos hdest0]
      exact ⟨rfl, rfl, Or.inr rfl⟩
  · intro hle_start hle_dest
    have h1 := (hs.2 hle_start).1
    have h2 := (hd.2 hle_dest).1
    have heq : svc.findRoute index text start_lat start_lng dest_lat dest_lng use_disruptions
          threshold_meters
        = svc.findRouteFromNodes index text g con_index
            { DHLRoutingResult.default with
              start_lat := start_lat
              start_lng := start_lng
              dest_lat := dest_lat
              dest_lng := dest_lng
              uses_disruptions := use_disruptions
              coordinate_threshold_meters := threshold_meters }
            (svc.find_nearest_node text start_lat start_lng threshold_meters)
            (svc.find_nearest_node text dest_lat dest_lng threshold_meters)
            use_disruptions := by
      unfold DHLRoutingService.findRoute
      rw [hgraph, hindex]
      simp only []
      rw [if_neg h1, if_neg h2]
    refine ⟨h1, h2, heq, ?_⟩
    rw [heq]
    exact not_snap_message _ _ _ _ (findRouteFromNodes_error_message index text svc g
      con_index _ _ _ use_disruptions)

/-- C17 at a concrete input: on the line service with threshold 1 the start (0, 0) lies on
node 1 and the destination (0, 5) lies 3 away from its nearest node 3, so the query fails
with the destination message; with threshold 3 both coordinates snap. -/
theorem C17_snap_threshold_witness :
    isNearestDistance lineText.calculateDistance lineMapper 0 0 0
      ∧ isNearestDistance lineText.calculateDistance lineMapper 0 5 3
      ∧ ((lineService []).findRoute lineIndex lineText 0 0 0 5 false 1).success = false
      ∧ ((lineService []).findRoute lineIndex lineText 0 0 0 5 false 1).path = []
      ∧ (lineService []).find_nearest_node lineText 0 0 3 ≠ 0
      ∧ (lineService []).find_nearest_node lineText 0 5 3 ≠ 0 := by
  have hmem : ∀ coord ∈ (lineService []).coordinate_mapper.node_coordinates,
      coord = ⟨1, 0, 0⟩ ∨ coord = ⟨2, 0, 1⟩ ∨ coord = ⟨3, 0, 2⟩ := by
    intro coord hc
    simpa [lineService, lineMapper] using hc
  have hbig : (12 : ℚ) < DBL_MAX := by
    unfold DBL_MAX
    norm_num
  have hids : ∀ coord ∈ (lineService []).coordinate_mapper.node_coordinates,
      1 ≤ coord.node_id := by
    intro coord hc
    rcases hmem coord hc with rfl | rfl | rfl <;> decide
  have hfs : ∀ coord ∈ (lineService []).coordinate_mapper.node_coordinates,
      lineText.calculateDistance 0 0 coord.latitude coord.longitude < DBL_MAX := by
    intro coord hc
    refine lt_of_le_of_lt ?_ hbig
    rcases hmem coord hc with rfl | rfl | rfl <;> norm_num [lineText]
  have hfd : ∀ coord ∈ (lineService []).coordinate_mapper.node_coordinates,
      lineText.calculateDistance 0 5 coord.latitude coord.longitude < DBL_MAX := by
    intro coord hc
    refine lt_of_le_of_lt ?_ hbig
    rcases hmem coord hc with rfl | rfl | rfl <;> simp [lineText] <;> norm_num
  have hns : isNearestDistance lineText.calculateDistance
      (lineService []).coordinate_mapper 0 0 0 := by
    refine ⟨⟨⟨1, 0, 0⟩, by simp [lineService, lineMapper], by simp [lineText]⟩, ?_⟩
    intro coord hc
    rcases hmem coord hc with rfl | rfl | rfl <;> simp [lineText]
  have hnd : isNearestDistance lineText.calculateDistance
      (lineService []).coordinate_mapper 0 5 3 := by
    refine ⟨⟨⟨3, 0, 2⟩, by simp [lineService, lineMapper], by simp [lineText]; norm_num⟩, ?_⟩
    intro coord hc
    rcases hmem coord hc with rfl | rfl | rfl <;> simp [lineText] <;> norm_num
  have hfail := (C17_snap_threshold lineIndex lineText (lineService []) lineRoadGraph ()
    0 0 0 5 false 1 0 3 rfl rfl rfl hids hfs hfd hns hnd).1 (Or.inr (by norm_num))
  have hsnap := (C17_snap_threshold lineIndex lineText (lineService []) lineRoadGraph ()
    0 0 0 5 false 3 0 3 rfl rfl rfl hids hfs hfd hns hnd).2 (by norm_num) (by norm_num)
  exact ⟨hns, hnd, hfail.1, hfail.2.1, hsnap.1, hsnap.2.1⟩

/-- C15. Self distance is zero: for every valid node `n` (1 ≤ n ≤ super_node_count), in
every mode and whatever disruptions are recorded, `get_path(n, n, weighted)` returns
distance 0 and the one-node path [n] and leaves the manager as it was; the distance query
of the index answers 0 for `(n, n)` on every index, the graph store answers 0 for every
node of it, and so does `Dynamic::get_distance` through the graph store in every mode. -/
theorem C15_self_distance_zero {G : Type} (ops : GraphPathOps G) (s : Dynamic G)
    (n : NodeID) (weighted : Bool)
    (hvalid : 1 ≤ n ∧ n ≤ ops.super_node_count s.graph) :
    get_path ops s n n weighted = ((0, [n]), s)
      ∧ (∀ index : ContractionIndex, ContractionIndex.get_distance index n n = 0)
      ∧ (∀ g : Graph, n ≤ g.node_count → g.get_distance n n weighted = 0)
      ∧ (∀ t : Dynamic Graph, invalidNodeIds Graph.ops t n n = false →
          (get_distance Graph.ops t n n weighted).1 = 0) := by
  refine ⟨get_path_self ops s n weighted (Nat.one_le_iff_ne_zero.mp hvalid.1), ?_, ?_, ?_⟩
  · intro index
    unfold ContractionIndex.get_distance
    rw [if_pos rfl]
  · intro g hn
    exact get_distance_self g n weighted hn
  · intro t ht
    exact get_distance_self_every_mode t n weighted ht

/-- C15 at a concrete input: node 3 of the five-node chain in LAZY_UPDATE mode with a
heavy accident recorded on the road between 3 and 4. -/
theorem C15_self_distance_zero_witness :
    lazyChainState.currentMode = Mode.LAZY_UPDATE
      ∧ get_path Graph.pathOps lazyChainState 3 3 true = ((0, [3]), lazyChainState)
      ∧ (get_distance Graph.ops lazyChainState 3 3 true).1 = 0 := by
  have hg : lazyChainState.graph = chainGraph := by rw [lazyChainState_eq]; rfl
  have hvalid : 1 ≤ (3 : NodeID)
      ∧ (3 : NodeID) ≤ Graph.pathOps.super_node_count lazyChainState.graph := by
    rw [hg]
    decide
  have h := C15_self_distance_zero Graph.pathOps lazyChainState 3 true hvalid
  exact ⟨lazyChainState_mode, h.1,
    h.2.2.2 lazyChainState (lazyChainState_valid 3 3 (by simp) (by simp))⟩

/-- C21, the counterexample: the three nodes of the line are loaded and every distance to
the query is NaN (as for a query coordinate that is NaN): `findNearestNode` passes over
every node and returns 0, which is the id of no loaded node, with `distance_m` the maximum
double. -/
theorem C21_nan_distance_finds_no_node_counterexample :
    lineMapper.node_coordinates ≠ []
      ∧ lineMapper.findNearestNodeNaN (fun _ _ _ _ => none) 0 0 = (0, DBL_MAX)
      ∧ ∀ coord ∈ lineMapper.node_coordinates, coord.node_id ≠ 0 := by
  refine ⟨by simp [lineMapper], rfl, ?_⟩
  intro coord hc
  have hmem : coord = ⟨1, 0, 0⟩ ∨ coord = ⟨2, 0, 1⟩ ∨ coord = ⟨3, 0, 2⟩ := by
    simpa [lineMapper] using hc
  rcases hmem with rfl | rfl | rfl <;> decide

/-- C21. Nearest-node snap, for every list of loaded coordinates, every query and every
distance function, NaN values included: when no loaded node has a distance that is a
number below the maximum double (in particular for an empty list, and when every distance
is NaN) `DHLCoordinateMapper::findNearestNode` returns 0 and sets `distance_m` to the
maximum double; otherwise it returns the id of the first loaded node, in load order, whose
distance is least among the distances that are numbers (strictly nearer than every such
node loaded before it, at least as near as every such node loaded after it) and sets
`distance_m` to that distance. -/
theorem C21_nearest_node_snap (dist : ℚ → ℚ → ℚ → ℚ → Option ℚ)
    (mapper : DHLCoordinateMapper) (latitude longitude : ℚ) :
    ((∀ coord ∈ mapper.node_coordinates, ∀ d,
          dist latitude longitude coord.latitude coord.longitude = some d → DBL_MAX ≤ d)
        ∧ mapper.findNearestNodeNaN dist latitude longitude = (0, DBL_MAX))
      ∨ ∃ pre coord post d, mapper.node_coordinates = pre ++ coord :: post
        ∧ dist latitude longitude coord.latitude coord.longitude = some d ∧ d < DBL_MAX
        ∧ mapper.findNearestNodeNaN dist latitude longitude = (coord.node_id, d)
        ∧ (∀ x ∈ pre, ∀ dx,
            dist latitude longitude x.latitude x.longitude = some dx → d < dx)
        ∧ (∀ x ∈ post, ∀ dx,
            dist latitude longitude x.latitude x.longitude = some dx → d ≤ dx) :=
  findNearestNodeNaN_spec dist mapper latitude longitude

/-- C21 at a concrete input: the three nodes of the line at (0,0), (0,1), (0,2), the
distance of node 1 NaN and the other distances numbers, and the query (0, 3/2), which is
as near to node 2 as to node 3: the scan returns node 2, the one loaded first, at distance
1/2. -/
theorem C21_nearest_node_snap_witness :
    lineMapper.findNearestNodeNaN lineDistanceNaN 0 (3 / 2) = (2, 1 / 2)
      ∧ (((∀ coord ∈ lineMapper.node_coordinates, ∀ d,
            lineDistanceNaN 0 (3 / 2) coord.latitude coord.longitude = some d → DBL_MAX ≤ d)
          ∧ lineMapper.findNearestNodeNaN lineDistanceNaN 0 (3 / 2) = (0, DBL_MAX))
        ∨ ∃ pre coord post d, lineMapper.node_coordinates = pre ++ coord :: post
          ∧ lineDistanceNaN 0 (3 / 2) coord.latitude coord.longitude = some d
          ∧ d < DBL_MAX
          ∧ lineMapper.findNearestNodeNaN lineDistanceNaN 0 (3 / 2) = (coord.node_id, d)
          ∧ (∀ x ∈ pre, ∀ dx,
              lineDistanceNaN 0 (3 / 2) x.latitude x.longitude = some dx → d < dx)
          ∧ (∀ x ∈ post, ∀ dx,
              lineDistanceNaN 0 (3 / 2) x.latitude x.longitude = some dx → d ≤ dx)) := by
  have hbig : (12 : ℚ) < DBL_MAX := by
    unfold DBL_MAX
    norm_num
  refine ⟨?_, C21_nearest_node_snap lineDistanceNaN lineMapper 0 (3 / 2)⟩
  have h1 : ((1 : ℚ) / 2 < DBL_MAX) := lt_trans (by norm_num) hbig
  simp only [DHLCoordinateMapper.findNearestNodeNaN, lineMapper, lineDistanceNaN, lineText,
    List.isEmpty_cons, Bool.false_eq_true, if_false, List.foldl_cons, List.foldl_nil]
  norm_num [abs_of_pos, abs_of_neg, h1]

/-- C22, the counterexample: a manager on the ring in LAZY_UPDATE mode with the road
between 1 and 2 closed and a medium slowdown (factor 0.6) recorded for the road between 4
and 5. `get_path(1, 3)` counts the pair as affected and searches a temporary graph on which
`applyDisruption` was called for the closure only: the search returns the distance 30 along
1, 5, 4, 3, while the distance on the graph with every recorded disruption applied is 36. -/
theorem C22_medium_slowdown_not_applied_counterexample :
    freshLazyRingState.currentMode = Mode.LAZY_UPDATE
      ∧ isPathAffectedByDisruptions freshLazyRingState 1 3 = true
      ∧ mapFind freshLazyRingState.disruptedSlowdownFactorByEdge (4, 5) = some (6 / 10)
      ∧ lazyTempGraph callLog freshLazyRingState.disruptedClosedEdges
          freshLazyRingState.disruptedSlowdownFactorByEdge [] = [(1, 2, 1, true)]
      ∧ (get_path Graph.pathOps freshLazyRingState 1 3 true).1 = (30, [1, 5, 4, 3])
      ∧ Graph.get_distance
          (applyAllDisruptions Graph.ops freshLazyRingState.disruptedClosedEdges
            freshLazyRingState.disruptedSlowdownFactorByEdge freshLazyRingState.graph)
          1 3 true = 36 := by
  refine ⟨freshLazyRingState_mode, freshLazyRingState_affected_1_3, ?_, ?_,
    freshLazyRingState_path_1_3, ?_⟩
  · rw [freshLazyRingState_eq]
    simp [mapFind]
  · rw [lazyTempGraph_callLog, freshLazyRingState_eq]
    simp
    norm_num
  · rw [freshLazyRingState_effectiveGraph]
    exact slowedRing_distance_1_3

/-- C22. Lazy path queries and the temporary graph: in LAZY_UPDATE mode, for non-zero
`source != target` that `get_path` counts as affected, the answer is the result of
`get_path_dijkstra` on a temporary graph. That graph is the manager's graph after the
preceding `get_distance(source, target)` call (repaired with every recorded disruption when
the ids are valid and the labels of the pair are stale, untouched otherwise), to which
`applyDisruption` is applied for every recorded closure and for the recorded slowdowns with
a factor below 0.5 only; on a graph that logs its calls these are exactly the calls made. -/
theorem C22_lazy_path_temp_graph {G : Type} (ops : GraphPathOps G) (s : Dynamic G)
    (source target : NodeID) (weighted : Bool) (hmode : s.currentMode = Mode.LAZY_UPDATE)
    (hsource : source ≠ 0) (htarget : target ≠ 0) (hne : source ≠ target)
    (haffected : isPathAffectedByDisruptions s source target = true) :
    get_path ops s source target weighted
        = (ops.get_path_dijkstra
            (lazyTempGraph ops.toGraphOps s.disruptedClosedEdges
              s.disruptedSlowdownFactorByEdge
              (get_distance ops.toGraphOps s source target ops.get_distance_weighted).2.graph)
            source target weighted,
          (get_distance ops.toGraphOps s source target ops.get_distance_weighted).2)
      ∧ (get_distance ops.toGraphOps s source target ops.get_distance_weighted).2.graph
        = (if invalidNodeIds ops.toGraphOps s source target = false
              ∧ areLabelsStale s source target = true then
            applyAllDisruptions ops.toGraphOps s.disruptedClosedEdges
              s.disruptedSlowdownFactorByEdge s.graph
          else s.graph)
      ∧ ∀ log : List DisruptionCall,
        lazyTempGraph callLog s.disruptedClosedEdges s.disruptedSlowdownFactorByEdge log
          = log ++ s.disruptedClosedEdges.map (fun e => (e.1, e.2, 1, true))
            ++ (s.disruptedSlowdownFactorByEdge.filter (fun e => decide (e.2 < 1 / 2))).map
                (fun e => (e.1.1, e.1.2, e.2, false)) := by
  have hsame := get_distance_sameManager ops.toGraphOps s source target
    ops.get_distance_weighted
  refine ⟨?_, get_distance_lazy_graph ops.toGraphOps s source target _ hmode,
    fun log => lazyTempGraph_callLog _ _ log⟩
  rw [get_path_lazy ops s source target weighted hmode hsource htarget hne, if_pos haffected]
  unfold lazyDijkstraAnswer
  simp only []
  rw [hsame.2.1, hsame.2.2.1]

/-- C22 at a concrete input: the pair (1, 3) on the ring with the road between 1 and 2
closed and a medium slowdown recorded between 4 and 5. -/
theorem C22_lazy_path_temp_graph_witness :
    isPathAffectedByDisruptions freshLazyRingState 1 3 = true
      ∧ get_path Graph.pathOps freshLazyRingState 1 3 true
        = (Graph.pathOps.get_path_dijkstra
            (lazyTempGraph Graph.ops freshLazyRingState.disruptedClosedEdges
              freshLazyRingState.disruptedSlowdownFactorByEdge
              (get_distance Graph.ops freshLazyRingState 1 3 true).2.graph)
            1 3 true,
          (get_distance Graph.ops freshLazyRingState 1 3 true).2) :=
  ⟨freshLazyRingState_affected_1_3,
    (C22_lazy_path_temp_graph Graph.pathOps freshLazyRingState 1 3 true freshLazyRingState_mode
      (by decide) (by decide) (by decide) freshLazyRingState_affected_1_3).1⟩

/-- C23, the counterexample, in both directions. On the chain with a heavy accident on the
road between 3 and 4 the labels of the pair (3, 5) are stale, yet `get_path(3, 5)` answers
from the index, because no closed road ends at 3 or 5. On the ring with the road between 1
and 2 closed the labels of the pair (1, 3) are fresh, yet `get_path(1, 3)` takes the
Dijkstra branch. -/
theorem C23_dispatch_ignores_staleness_counterexample :
    (lazyChainState.currentMode = Mode.LAZY_UPDATE
        ∧ areLabelsStale lazyChainState 3 5 = true
        ∧ isPathAffectedByDisruptions lazyChainState 3 5 = false
        ∧ get_path Graph.pathOps lazyChainState 3 5 true
          = lazyIndexAnswer Graph.pathOps lazyChainState 3 5)
      ∧ (freshLazyRingState.currentMode = Mode.LAZY_UPDATE
        ∧ areLabelsStale freshLazyRingState 1 3 = false
        ∧ isPathAffectedByDisruptions freshLazyRingState 1 3 = true
        ∧ get_path Graph.pathOps freshLazyRingState 1 3 true
          = lazyDijkstraAnswer Graph.pathOps freshLazyRingState 1 3 true) := by
  have hstale : areLabelsStale lazyChainState 3 5 = true := by
    rw [lazyChainState_eq]
    decide
  have hnot : isPathAffectedByDisruptions lazyChainState 3 5 = false := by
    rw [lazyChainState_eq]
    decide
  refine ⟨⟨lazyChainState_mode, hstale, hnot, ?_⟩,
    ⟨freshLazyRingState_mode, freshLazyRingState_fresh_1_3,
      freshLazyRingState_affected_1_3, ?_⟩⟩
  · rw [get_path_lazy Graph.pathOps lazyChainState 3 5 true lazyChainState_mode (by decide)
      (by decide) (by decide), hnot]
    simp
  · rw [get_path_lazy Graph.pathOps freshLazyRingState 1 3 true freshLazyRingState_mode
      (by decide) (by decide) (by decide), if_pos freshLazyRingState_affected_1_3]

/-- C23. Lazy path dispatch: in LAZY_UPDATE mode, for non-zero `source != target`,
`get_path` takes the Dijkstra-on-temporary-graph branch exactly when
`isPathAffectedByDisruptions(source, target)` holds, that is, exactly when some recorded
closed edge has `source` or `target` as an endpoint; otherwise it answers from the index.
The stale set and the dirty flags do not enter the test. -/
theorem C23_lazy_dispatch_on_closed_endpoints {G : Type} (ops : GraphPathOps G)
    (s : Dynamic G) (source target : NodeID) (weighted : Bool)
    (hmode : s.currentMode = Mode.LAZY_UPDATE) (hsource : source ≠ 0) (htarget : target ≠ 0)
    (hne : source ≠ target) :
    (isPathAffectedByDisruptions s source target = true
        ↔ ∃ edge ∈ s.disruptedClosedEdges,
            edge.1 = source ∨ edge.1 = target ∨ edge.2 = source ∨ edge.2 = target)
      ∧ (isPathAffectedByDisruptions s source target = true →
          get_path ops s source target weighted
            = lazyDijkstraAnswer ops s source target weighted)
      ∧ (isPathAffectedByDisruptions s source target = false →
          get_path ops s source target weighted = lazyIndexAnswer ops s source target) := by
  refine ⟨isPathAffectedByDisruptions_iff s source target, ?_, ?_⟩
  · intro h
    rw [get_path_lazy ops s source target weighted hmode hsource htarget hne, if_pos h]
  · intro h
    rw [get_path_lazy ops s source target weighted hmode hsource htarget hne, h]
    simp

/-- C23 at a concrete input: the pair (1, 5) on the chain with a heavy accident on the
road between 3 and 4: no road is closed, so the answer comes from the index. -/
theorem C23_lazy_dispatch_on_closed_endpoints_witness :
    lazyChainState.currentMode = Mode.LAZY_UPDATE
      ∧ isPathAffectedByDisruptions lazyChainState 1 5 = false
      ∧ get_path Graph.pathOps lazyChainState 1 5 true
        = lazyIndexAnswer Graph.pathOps lazyChainState 1 5 := by
  have hnot : isPathAffectedByDisruptions lazyChainState 1 5 = false := by
    rw [lazyChainState_eq]
    decide
  exact ⟨lazyChainState_mode, hnot,
    (C23_lazy_dispatch_on_closed_endpoints Graph.pathOps lazyChainState 1 5 true
      lazyChainState_mode (by decide) (by decide) (by decide)).2.2 hnot⟩

/-- C24, the failing input: on the chain in LAZY_UPDATE mode with a heavy accident on the
road between 3 and 4, the labels of the pair (3, 4) are stale and its dirty flag is not
set. `get_distance(3, 4)` repairs the pair; afterwards the dirty flag of (3, 4) is set, the
nodes 3 and 4 are still in the stale set and `areLabelsStale(3, 4)` is still true, so the
next `get_distance(3, 4)` repairs again. -/
theorem C24_repair_leaves_pair_stale :
    lazyChainState.currentMode = Mode.LAZY_UPDATE
      ∧ areLabelsStale lazyChainState 3 4 = true
      ∧ is_dirty lazyChainState.dirty_pairs 3 4 = false
      ∧ (get_distance Graph.ops lazyChainState 3 4 true).2
        = repairStaleLabels Graph.ops lazyChainState 3 4
      ∧ is_dirty (repairStaleLabels Graph.ops lazyChainState 3 4).dirty_pairs 3 4 = true
      ∧ (repairStaleLabels Graph.ops lazyChainState 3 4).stale_nodes = {3, 4}
      ∧ areLabelsStale (repairStaleLabels Graph.ops lazyChainState 3 4) 3 4 = true
      ∧ (get_distance Graph.ops (get_distance Graph.ops lazyChainState 3 4 true).2 3 4 true).2
        = repairStaleLabels Graph.ops (repairStaleLabels Graph.ops lazyChainState 3 4) 3 4 := by
  have hstale : areLabelsStale lazyChainState 3 4 = true := by
    rw [lazyChainState_eq]
    decide
  have hclean : is_dirty lazyChainState.dirty_pairs 3 4 = false := by
    rw [lazyChainState_eq]
    decide
  have hvalid := lazyChainState_valid 3 4 (by simp) (by simp)
  have hrep := repairStaleLabels_stale Graph.ops lazyChainState 3 4 hstale
  have hfirst := get_distance_lazy_repairs Graph.ops lazyChainState 3 4 true
    lazyChainState_mode hvalid hstale
  have hvalid2 : invalidNodeIds Graph.ops (repairStaleLabels Graph.ops lazyChainState 3 4) 3 4
      = false := by
    have hcount : (repairStaleLabels Graph.ops lazyChainState 3 4).graph.node_count
        = lazyChainState.graph.node_count := by
      unfold repairStaleLabels
      rw [hstale]
      exact applyAllDisruptions_node_count _ _ _
    unfold invalidNodeIds at hvalid ⊢
    have hops : ∀ g : Graph, Graph.ops.super_node_count g = g.node_count := fun _ => rfl
    rw [hops, hcount, ← hops]
    exact hvalid
  refine ⟨lazyChainState_mode, hstale, hclean, hfirst, hrep.2.1, ?_, hrep.2.2, ?_⟩
  · rw [hrep.1, lazyChainState_eq]
  · rw [hfirst]
    exact get_distance_lazy_repairs Graph.ops _ 3 4 true
      ((repairStaleLabels_mode Graph.ops lazyChainState 3 4).trans lazyChainState_mode)
      hvalid2 hrep.2.2

/-- C25, the failing input: for the empty path the loop bound `path.size() - 1` wraps to
2^64 - 1, and the first iteration of `route_uses_disruptions` reads `path[0]` and
`path[1]` past the end of the vector, in every state of the manager. A one-node path gives
the bound 0 and the result false. -/
theorem C25_empty_path_is_read_out_of_bounds {G : Type} (s : Dynamic G) :
    route_uses_disruptions s [] = none
      ∧ ∀ n : NodeID, route_uses_disruptions s [n] = some false := by
  have hwrap : (([] : List NodeID).length + 2 ^ 64 - 1) % 2 ^ 64 = 18446744073709551615 := by
    norm_num
  have hone : ∀ n : NodeID, ([n].length + 2 ^ 64 - 1) % 2 ^ 64 = 0 := by
    intro n
    norm_num
  constructor
  · unfold route_uses_disruptions
    rw [hwrap]
    rfl
  · intro n
    unfold route_uses_disruptions
    rw [hone n]
    rfl

/-- C28, the counterexample: a manager in BASE mode with no disruption recorded receives a
report with the severity "Severe" for the road between 1 and 2. No closed edge and no
slowdown is added, but the mode afterwards is LAZY_UPDATE and the nodes 1 and 2 are
stale. -/
theorem C28_unknown_severity_leaves_base_counterexample :
    (Dynamic.init chainGraph (1 / 2)).currentMode = Mode.BASE
      ∧ (addUserDisruption Graph.ops (Dynamic.init chainGraph (1 / 2)) 1 2 "Accident"
          "Severe").disruptedClosedEdges = []
      ∧ (addUserDisruption Graph.ops (Dynamic.init chainGraph (1 / 2)) 1 2 "Accident"
          "Severe").disruptedSlowdownFactorByEdge = []
      ∧ (addUserDisruption Graph.ops (Dynamic.init chainGraph (1 / 2)) 1 2 "Accident"
          "Severe").currentMode = Mode.LAZY_UPDATE
      ∧ (addUserDisruption Graph.ops (Dynamic.init chainGraph (1 / 2)) 1 2 "Accident"
          "Severe").stale_nodes = {1, 2} := by
  have hrec : userRecorded (Dynamic.init chainGraph (1 / 2)) 1 2 "Accident" "Severe"
      = { Dynamic.init chainGraph (1 / 2) with
          disruptionTypeByEdge := [((1, 2), "Accident")]
          disruptionSeverityByEdge := [((1, 2), "Severe")] } := by
    rw [userRecorded_unknown _ _ _ _ _ (by decide) (by decide) (by decide) (by decide)]
    simp [Dynamic.init, mapAssign, makeEdgeId]
  have hpct : ¬ calculateNetworkImpactPercentage Graph.ops
      (userRecorded (Dynamic.init chainGraph (1 / 2)) 1 2 "Accident" "Severe")
      ≥ (userRecorded (Dynamic.init chainGraph (1 / 2)) 1 2 "Accident"
          "Severe").DISRUPTION_THRESHOLD_TAU := by
    rw [calculateNetworkImpactPercentage_eq, hrec]
    simp [Dynamic.init, Graph.ops, chainGraph, specWeightedImpact]
  have heq : addUserDisruption Graph.ops (Dynamic.init chainGraph (1 / 2)) 1 2 "Accident"
      "Severe"
      = markLabelsStale
          (setMode (userRecorded (Dynamic.init chainGraph (1 / 2)) 1 2 "Accident" "Severe")
            Mode.LAZY_UPDATE) [1, 2] := by
    rw [addUserDisruption_eq, if_neg (by decide), selectMode_lazy _ _ _ hpct]
  rw [heq, markLabelsStale_eq, hrec]
  refine ⟨rfl, rfl, rfl, rfl, ?_⟩
  simp [setMode, Dynamic.init]

/-- C28. Unrecognised severity: for valid node ids and a severity string other than
"Light", "Medium", "Heavy" and "Closed", `addUserDisruption` adds no closed edge and no
slowdown factor, so the network impact percentage of the records is the one before the
call; it records the type and the severity string for the edge, and it selects the mode
anew from that percentage: IMMEDIATE_UPDATE when it is at least tau and LAZY_UPDATE
otherwise (never BASE or DISRUPTED), and when it selects LAZY_UPDATE the two nodes become
stale. -/
theorem C28_unknown_severity_reselects_mode {G : Type} (ops : GraphOps G) (s : Dynamic G)
    (u v : NodeID) (incidentType severity : String)
    (hvalid : invalidNodeIds ops s u v = false)
    (hheavy : severity ≠ "Heavy") (hmedium : severity ≠ "Medium")
    (hlight : severity ≠ "Light") (hclosed : severity ≠ "Closed") :
    (addUserDisruption ops s u v incidentType severity).disruptedClosedEdges
        = s.disruptedClosedEdges
      ∧ (addUserDisruption ops s u v incidentType severity).disruptedSlowdownFactorByEdge
        = s.disruptedSlowdownFactorByEdge
      ∧ calculateNetworkImpactPercentage ops
          { addUserDisruption ops s u v incidentType severity with graph := s.graph }
        = calculateNetworkImpactPercentage ops s
      ∧ mapFind (addUserDisruption ops s u v incidentType severity).disruptionTypeByEdge
          (makeEdgeId u v) = some incidentType
      ∧ mapFind (addUserDisruption ops s u v incidentType severity).disruptionSeverityByEdge
          (makeEdgeId u v) = some severity
      ∧ (addUserDisruption ops s u v incidentType severity).currentMode
        = (if calculateNetworkImpactPercentage ops s ≥ s.DISRUPTION_THRESHOLD_TAU then
            Mode.IMMEDIATE_UPDATE
          else Mode.LAZY_UPDATE)
      ∧ ((addUserDisruption ops s u v incidentType severity).currentMode = Mode.LAZY_UPDATE →
          (addUserDisruption ops s u v incidentType severity).stale_nodes
            = s.stale_nodes ∪ {u, v}) := by
  have hrec := addUserDisruption_records ops s u v incidentType severity hvalid
  have hun := userRecorded_unknown s u v incidentType severity hheavy hmedium hlight hclosed
  have hc : (addUserDisruption ops s u v incidentType severity).disruptedClosedEdges
      = s.disruptedClosedEdges := by rw [hrec.1, hun]
  have hs : (addUserDisruption ops s u v incidentType severity).disruptedSlowdownFactorByEdge
      = s.disruptedSlowdownFactorByEdge := by rw [hrec.2, hun]
  have hpct : calculateNetworkImpactPercentage ops
      { addUserDisruption ops s u v incidentType severity with graph := s.graph }
      = calculateNetworkImpactPercentage ops s :=
    calculateNetworkImpactPercentage_congr ops _ _ rfl hc hs
  have hmode := addUserDisruption_mode ops s u v incidentType severity hvalid
  rw [hpct] at hmode
  refine ⟨hc, hs, hpct, ?_, ?_, hmode, ?_⟩
  · rw [addUserDisruption_eq, hvalid]
    simp only [Bool.false_eq_true, if_false]
    rw [(selectMode_records ops _ [u, v]).2.2.2.1, hun]
    exact mapFind_mapAssign_self _ _ _
  · rw [addUserDisruption_eq, hvalid]
    simp only [Bool.false_eq_true, if_false]
    rw [(selectMode_records ops _ [u, v]).2.2.1, hun]
    exact mapFind_mapAssign_self _ _ _
  · intro hlazy
    rw [addUserDisruption_eq, hvalid] at hlazy ⊢
    simp only [Bool.false_eq_true, if_false] at hlazy ⊢
    rw [selectMode_lazy _ _ _ (selectMode_lazy_of_mode ops _ _ hlazy), markLabelsStale_eq, hun]
    simp only [setMode]
    congr 1
    ext x
    simp

/-- C28 at a concrete input: the report "Severe" of an accident on the road between 1 and 2
on the chain in BASE mode adds no closed edge and no slowdown and records the type
"Accident" and the severity "Severe" for the edge. -/
theorem C28_unknown_severity_reselects_mode_witness :
    invalidNodeIds Graph.ops (Dynamic.init chainGraph (1 / 2)) 1 2 = false
      ∧ (addUserDisruption Graph.ops (Dynamic.init chainGraph (1 / 2)) 1 2 "Accident"
          "Severe").disruptedClosedEdges = []
      ∧ (addUserDisruption Graph.ops (Dynamic.init chainGraph (1 / 2)) 1 2 "Accident"
          "Severe").disruptedSlowdownFactorByEdge = []
      ∧ mapFind (addUserDisruption Graph.ops (Dynamic.init chainGraph (1 / 2)) 1 2 "Accident"
          "Severe").disruptionTypeByEdge (makeEdgeId 1 2) = some "Accident"
      ∧ mapFind (addUserDisruption Graph.ops (Dynamic.init chainGraph (1 / 2)) 1 2 "Accident"
          "Severe").disruptionSeverityByEdge (makeEdgeId 1 2) = some "Severe" := by
  have h := C28_unknown_severity_reselects_mode Graph.ops (Dynamic.init chainGraph (1 / 2))
    1 2 "Accident" "Severe" (by decide) (by decide) (by decide) (by decide) (by decide)
  exact ⟨by decide, h.1, h.2.1, h.2.2.2.1, h.2.2.2.2.1⟩

/-- C29, the counterexample. On the chain with a heavy accident recorded on the road
between 3 and 4 the network impact is 3/8; a later report "Light" for the same road
replaces the factor 0.3 by 0.85 and the impact drops to 1/4. With tau = 3/8 the heavy
report selects IMMEDIATE_UPDATE and the light report after it selects LAZY_UPDATE. -/
theorem C29_light_after_heavy_lowers_impact_counterexample :
    calculateNetworkImpactPercentage Graph.ops lazyChainState = 3 / 8
      ∧ calculateNetworkImpactPercentage Graph.ops
          (addUserDisruption Graph.ops lazyChainState 3 4 "Accident" "Light") = 1 / 4
      ∧ immediateChainState.currentMode = Mode.IMMEDIATE_UPDATE
      ∧ (addUserDisruption Graph.ops immediateChainState 3 4 "Accident" "Light").currentMode
        = Mode.LAZY_UPDATE
      ∧ (addUserDisruption Graph.ops immediateChainState 3 4 "Accident"
          "Light").DISRUPTION_THRESHOLD_TAU = immediateChainState.DISRUPTION_THRESHOLD_TAU :=
  ⟨lazyChainState_percentage, lazyChainState_light_percentage, immediateChainState_mode,
    immediateChainState_light_mode, addUserDisruption_tau _ _ _ _ _ _⟩

/-- C29. Network impact under user reports: for valid node ids, the impact of the recorded
disruptions (on the graph as it was before the call) after `addUserDisruption(u, v, ..)` is
at least the impact before the call, unless the report lowers the weight of its edge: the
edge is recorded with a slowdown factor below 0.5 and the severity is "Medium" or "Light".
In that case the weighted impact drops by exactly 1/2 and the percentage does not grow.
Hence a report that does not lower the weight of its edge selects IMMEDIATE_UPDATE whenever
the impact before it is at least tau. -/
theorem C29_impact_monotone_unless_downgrade {G : Type} (ops : GraphOps G) (s : Dynamic G)
    (u v : NodeID) (incidentType severity : String)
    (hvalid : invalidNodeIds ops s u v = false) :
    (¬ lowersWeight s u v severity →
        calculateNetworkImpactPercentage ops s
            ≤ calculateNetworkImpactPercentage ops
              { addUserDisruption ops s u v incidentType severity with graph := s.graph }
          ∧ (calculateNetworkImpactPercentage ops s ≥ s.DISRUPTION_THRESHOLD_TAU →
            (addUserDisruption ops s u v incidentType severity).currentMode
              = Mode.IMMEDIATE_UPDATE))
      ∧ (lowersWeight s u v severity →
        calculateNetworkImpactPercentage ops
            { addUserDisruption ops s u v incidentType severity with graph := s.graph }
          ≤ calculateNetworkImpactPercentage ops s
        ∧ specWeightedImpact
            (addUserDisruption ops s u v incidentType severity).disruptedClosedEdges
            (addUserDisruption ops s u v incidentType severity).disruptedSlowdownFactorByEdge
          = specWeightedImpact s.disruptedClosedEdges s.disruptedSlowdownFactorByEdge
            - 1 / 2) := by
  have hrec := addUserDisruption_records ops s u v incidentType severity hvalid
  have hweight := userRecorded_weight s u v incidentType severity
  have hmode := addUserDisruption_mode ops s u v incidentType severity hvalid
  constructor
  · intro hnot
    have hle : calculateNetworkImpactPercentage ops s
        ≤ calculateNetworkImpactPercentage ops
          { addUserDisruption ops s u v incidentType severity with graph := s.graph } := by
      refine calculateNetworkImpactPercentage_mono ops _ _ ?_ ?_
      · rfl
      · simp only [hrec.1, hrec.2]
        exact hweight.2 hnot
    refine ⟨hle, ?_⟩
    intro htau
    rw [hmode]
    unfold specModeByThreshold
    rw [if_pos (le_trans htau hle)]
  · intro hlow
    have heq := hweight.1 hlow
    refine ⟨?_, ?_⟩
    · refine calculateNetworkImpactPercentage_mono ops _ _ ?_ ?_
      · rfl
      · simp only [hrec.1, hrec.2]
        rw [heq]
        linarith
    · rw [hrec.1, hrec.2]
      exact heq

/-- C29 at a concrete input: the closure of the road between 1 and 2 reported on the chain
that carries a heavy accident between 3 and 4. -/
theorem C29_impact_monotone_unless_downgrade_witness :
    invalidNodeIds Graph.ops lazyChainState 1 2 = false
      ∧ ¬ lowersWeight lazyChainState 1 2 "Closed"
      ∧ calculateNetworkImpactPercentage Graph.ops lazyChainState
        ≤ calculateNetworkImpactPercentage Graph.ops
          { addUserDisruption Graph.ops lazyChainState 1 2 "Road Closure" "Closed" with
            graph := lazyChainState.graph } := by
  have hvalid := lazyChainState_valid 1 2 (by simp) (by simp)
  have hnot : ¬ lowersWeight lazyChainState 1 2 "Closed" := by
    intro h
    rcases h.1 with h1 | h1
    · exact absurd h1 (by decide)
    · exact absurd h1 (by decide)
  exact ⟨hvalid, hnot,
    ((C29_impact_monotone_unless_downgrade Graph.ops lazyChainState 1 2 "Road Closure"
      "Closed" hvalid).1 hnot).1⟩

/-- C30. The splitter `parseCSVLine` splits on unquoted commas: for every line the result
is non-empty, no returned field holds a double-quote character, and the number of fields is
one more than the number of commas that have an even number of double quotes before them;
for a line without a double-quote character, the fields joined by commas give the line
back. -/
theorem C30_parseCSVLine_splits_on_unquoted_commas (line : List Char) :
    parseCSVLine line ≠ []
      ∧ (∀ field ∈ parseCSVLine line, quoteChar ∉ field)
      ∧ (parseCSVLine line).length = commasOutsideQuotes 0 line + 1
      ∧ (quoteChar ∉ line → List.intercalate [commaChar] (parseCSVLine line) = line) := by
  have hspec := parseCSVLoop_spec line [] [] 0
  have hfalse : decide (0 % 2 = 1) = false := by decide
  rw [hfalse] at hspec
  have hlen : (parseCSVLine line).length = commasOutsideQuotes 0 line + 1 := by
    unfold parseCSVLine
    rw [hspec.1]
    simp only [List.length_nil]
    omega
  refine ⟨?_, ?_, hlen, ?_⟩
  · intro h
    rw [h] at hlen
    simp at hlen
  · exact hspec.2 (fun f hf => absurd hf (List.not_mem_nil _)) (List.not_mem_nil _)
  · intro hno
    unfold parseCSVLine
    rw [parseCSVLoop_join line [] [] hno]
    simp [List.intercalate]

/-- C30 at a concrete input: the line `a,b` splits into the fields `a` and `b`, and the
line `"x,y",z` with a quoted comma splits into `x,y` and `z`. -/
theorem C30_parseCSVLine_splits_on_unquoted_commas_witness :
    quoteChar ∉ ['a', commaChar, 'b']
      ∧ parseCSVLine ['a', commaChar, 'b'] = [['a'], ['b']]
      ∧ List.intercalate [commaChar] (parseCSVLine ['a', commaChar, 'b'])
        = ['a', commaChar, 'b']
      ∧ parseCSVLine [quoteChar, 'x', commaChar, 'y', quoteChar, commaChar, 'z']
        = [['x', commaChar, 'y'], ['z']] := by
  have hno : quoteChar ∉ ['a', commaChar, 'b'] := by decide
  exact ⟨hno, by decide,
    (C30_parseCSVLine_splits_on_unquoted_commas ['a', commaChar, 'b']).2.2.2 hno, by decide⟩

/-- Claim C27: in every state of the DHL routing service reached from the constructor by
calls of `initialize`, `findRoute`, `addBlockedNode`, `removeBlockedNode` and
`clearBlockedNodes`, `disrupted_edges` is empty; every `findRoute` on such a state returns
an empty `blocked_edges`, and when it succeeds its distance and hoplinks are the ones the
contraction index gives for the two snapped nodes and its path is the one of
`reconstruct_path`, whatever `use_disruptions` is: the Dijkstra branch is not taken. -/
theorem C27_disrupted_edges_always_empty {I : Type} (index : ContractionIndexOps I)
    (text : TextOps) (calls : List (ServiceCall I))
    (start_lat start_lng dest_lat dest_lng : ℚ) (use_disruptions : Bool)
    (threshold_meters : ℚ) :
    (runServiceCalls DHLRoutingService.new calls).disrupted_edges = []
      ∧ ((runServiceCalls DHLRoutingService.new calls).findRoute index text start_lat
          start_lng dest_lat dest_lng use_disruptions threshold_meters).blocked_edges = []
      ∧ (((runServiceCalls DHLRoutingService.new calls).findRoute index text start_lat
            start_lng dest_lat dest_lng use_disruptions threshold_meters).success = true →
          ∃ con_index, (runServiceCalls DHLRoutingService.new calls).con_index = some con_index
            ∧ ((runServiceCalls DHLRoutingService.new calls).findRoute index text start_lat
                start_lng dest_lat dest_lng use_disruptions threshold_meters).total_distance
              = index.get_distance con_index
                  ((runServiceCalls DHLRoutingService.new calls).findRoute index text
                    start_lat start_lng dest_lat dest_lng use_disruptions
                    threshold_meters).start_node
                  ((runServiceCalls DHLRoutingService.new calls).findRoute index text
                    start_lat start_lng dest_lat dest_lng use_disruptions
                    threshold_meters).dest_node
            ∧ ((runServiceCalls DHLRoutingService.new calls).findRoute index text start_lat
                start_lng dest_lat dest_lng use_disruptions
                threshold_meters).hoplinks_examined
              = index.get_hoplinks con_index
                  ((runServiceCalls DHLRoutingService.new calls).findRoute index text
                    start_lat start_lng dest_lat dest_lng use_disruptions
                    threshold_meters).start_node
                  ((runServiceCalls DHLRoutingService.new calls).findRoute index text
                    start_lat start_lng dest_lat dest_lng use_disruptions
                    threshold_meters).dest_node
            ∧ ((runServiceCalls DHLRoutingService.new calls).findRoute index text start_lat
                start_lng dest_lat dest_lng use_disruptions threshold_meters).path
              = (runServiceCalls DHLRoutingService.new calls).reconstruct_path
                  ((runServiceCalls DHLRoutingService.new calls).findRoute index text
                    start_lat start_lng dest_lat dest_lng use_disruptions
                    threshold_meters).start_node
                  ((runServiceCalls DHLRoutingService.new calls).findRoute index text
                    start_lat start_lng dest_lat dest_lng use_disruptions
                    threshold_meters).dest_node) := by
  have hempty : (runServiceCalls (DHLRoutingService.new : DHLRoutingService I)
      calls).disrupted_edges = [] := by
    rw [runServiceCalls_disrupted_edges]
    rfl
  exact ⟨hempty, findRoute_no_disrupted_edges index text _ start_lat start_lng dest_lat
    dest_lng use_disruptions threshold_meters hempty⟩

/-- C27 on a concrete run: after `initialize`, three changes of the blocked nodes and a
query on the line graph, `findRoute` from node 1 to node 2 with `use_disruptions` set
succeeds with the distance 5 of the index and reports the blocked node 3 and no blocked
edge. -/
theorem C27_disrupted_edges_always_empty_witness :
    ((runServiceCalls DHLRoutingService.new lineServiceCalls).findRoute lineIndex lineText
        0 0 0 1 true (1 / 2)).success = true
      ∧ ((runServiceCalls DHLRoutingService.new lineServiceCalls).findRoute lineIndex lineText
        0 0 0 1 true (1 / 2)).total_distance = 5
      ∧ ((runServiceCalls DHLRoutingService.new lineServiceCalls).findRoute lineIndex lineText
        0 0 0 1 true (1 / 2)).blocked_nodes = [3]
      ∧ (runServiceCalls DHLRoutingService.new lineServiceCalls).disrupted_edges = []
      ∧ ((runServiceCalls DHLRoutingService.new lineServiceCalls).findRoute lineIndex lineText
        0 0 0 1 true (1 / 2)).blocked_edges = [] :=
  ⟨lineServiceCalls_findRoute.1, lineServiceCalls_findRoute.2.1,
    lineServiceCalls_findRoute.2.2,
    (C27_disrupted_edges_always_empty lineIndex lineText lineServiceCalls 0 0 0 1 true
      (1 / 2)).1,
    (C27_disrupted_edges_always_empty lineIndex lineText lineServiceCalls 0 0 0 1 true
      (1 / 2)).2.1⟩

/-- Claim C26: on a graph given by adjacency lists in which every neighbour id has an
adjacency list, with no disrupted edge, when the weight of every route from `start` that
repeats no node is below 2^32 and `start` is not `dest`, the loop of
`dijkstra_with_path_reconstruction` ends within its fuel with the value the function
returns; that value is empty exactly when no route over arcs with unblocked far endpoints
leads from `start` to `dest`, and otherwise it is the node sequence of such a route whose
weight is at most the weight of every such route. -/
theorem C26_dijkstra_correct {I : Type} (svc : DHLRoutingService I) (g : RoadGraph)
    (start dest : NodeID) (hgraph : svc.graph = some g) (hempty : svc.disrupted_edges = [])
    (hwf : ∀ row ∈ g.adjacency, ∀ nb ∈ row, nb.node < g.adjacency.length)
    (hsum : ∀ steps, isRoute g svc.blocked_nodes start steps →
      (routeNodes start steps).Nodup → routeWeight steps < distance_modulus)
    (hne : start ≠ dest) :
    dijkstraLoop g svc.disrupted_edges svc.blocked_nodes start dest (dijkstraFuel g)
        { distances := [(start, 0)], parents := [], visited := [], pq := [(0, start)] }
        = some (svc.dijkstra_with_path_reconstruction start dest)
      ∧ (svc.dijkstra_with_path_reconstruction start dest = []
        ↔ ¬ ∃ steps, isRoute g svc.blocked_nodes start steps ∧ routeEnd start steps = dest)
      ∧ (svc.dijkstra_with_path_reconstruction start dest ≠ [] →
        ∃ steps, isRoute g svc.blocked_nodes start steps ∧ routeEnd start steps = dest
          ∧ svc.dijkstra_with_path_reconstruction start dest = routeNodes start steps
          ∧ ∀ steps2, isRoute g svc.blocked_nodes start steps2 →
            routeEnd start steps2 = dest → routeWeight steps ≤ routeWeight steps2) := by
  have hinit : DijkstraInv g svc.blocked_nodes start
      { distances := [(start, 0)], parents := [], visited := [], pq := [(0, start)] } := by
    refine ⟨?_, trivial, ?_⟩
    · intro n p hnp
      simp [mapFind] at hnp
    · intro e he
      simp only [List.mem_singleton] at he
      subst he
      exact Or.inl rfl
  have hopt : DijkstraOpt g svc.blocked_nodes start dest []
      { distances := [(start, 0)], parents := [], visited := [], pq := [(0, start)] } := by
    refine ⟨?_, rfl, Or.inr rfl, ?_, ?_, ?_, ?_, ?_, ?_, List.not_mem_nil _, List.nodup_nil⟩
    · simp [mapFind]
    · intro n p hnp
      simp [mapFind] at hnp
    · intro e he
      simp only [List.mem_singleton] at he
      subst he
      exact ⟨0, by simp [mapFind], Nat.le_refl _⟩
    · intro n d hn _
      simp only [mapFind] at hn
      split_ifs at hn with h
      simp only [Option.some.injEq] at hn
      rw [← hn, ← h]
      exact List.mem_singleton_self _
    · intro x hx
      simp at hx
    · intro x hx
      simp at hx
    · intro x hx
      simp at hx
  have hm : dijkstraMeasure g
      { distances := [(start, 0)], parents := [], visited := [], pq := [(0, start)] }
      < dijkstraFuel g := by
    unfold dijkstraMeasure dijkstraFuel
    simp only [List.length_singleton]
    rw [unsettledDegree_nil]
    omega
  obtain ⟨path, hpath, hresult⟩ := dijkstraLoop_correct g svc.blocked_nodes start dest hwf
    hsum hne (dijkstraFuel g) _ hinit hopt hm
  have heq : svc.dijkstra_with_path_reconstruction start dest = path := by
    unfold DHLRoutingService.dijkstra_with_path_reconstruction
    rw [hgraph]
    simp only []
    rw [if_neg hne, hempty, hpath]
    rfl
  rw [heq, hempty]
  refine ⟨hpath, ?_, ?_⟩
  · constructor
    · intro hnil
      rcases hresult with ⟨_, hno⟩ | ⟨steps, _, _, hnodes, _⟩
      · exact hno
      · rw [hnil] at hnodes
        simp [routeNodes] at hnodes
    · intro hno
      rcases hresult with ⟨hnil, _⟩ | ⟨steps, h1, h2, _, _⟩
      · exact hnil
      · exact absurd ⟨steps, h1, h2⟩ hno
  · intro hnonempty
    rcases hresult with ⟨hnil, _⟩ | hfound
    · exact absurd hnil hnonempty
    · exact hfound

/-- C26 on the line 1 - 2 - 3 with weights 5 and 7: with no blocked node the search from 1
to 3 returns 1, 2, 3, the nodes of a lightest route; with node 2 blocked it returns the
empty path, and no route leads from 1 to 3. -/
theorem C26_dijkstra_correct_witness :
    (lineService []).dijkstra_with_path_reconstruction 1 3 = [1, 2, 3]
      ∧ (∃ steps, isRoute lineRoadGraph [] 1 steps ∧ routeEnd 1 steps = 3
        ∧ [1, 2, 3] = routeNodes 1 steps
        ∧ ∀ steps2, isRoute lineRoadGraph [] 1 steps2 → routeEnd 1 steps2 = 3 →
          routeWeight steps ≤ routeWeight steps2)
      ∧ (lineService [2]).dijkstra_with_path_reconstruction 1 3 = []
      ∧ ¬ ∃ steps, isRoute lineRoadGraph [2] 1 steps ∧ routeEnd 1 steps = 3 := by
  have h1 := C26_dijkstra_correct (lineService []) lineRoadGraph 1 3 rfl rfl
    lineRoadGraph_wellFormed (lineRoadGraph_no_overflow [] 1) (by decide)
  have h2 := C26_dijkstra_correct (lineService [2]) lineRoadGraph 1 3 rfl rfl
    lineRoadGraph_wellFormed (lineRoadGraph_no_overflow [2] 1) (by decide)
  rw [lineService_dijkstra_1_3] at h1
  rw [lineService_blocked_dijkstra_1_3] at h2
  exact ⟨lineService_dijkstra_1_3, h1.2.2 (by decide), lineService_blocked_dijkstra_1_3,
    h2.2.1.mp rfl⟩

end hc2l_dynamic
